import Mathlib

/-!
goring: the ring-buffer variants of `ring.go`

A shallow embedding of the ten ring buffers of `ring.go` and a verification of
their behaviour when the calls run one at a time.

* Go `uint64` values are natural numbers below `2^64`; `+` and `-` on them are
  `add64` and `sub64`.
* A value of Go type `any` is an `Option α`; `none` is Go's `nil`.
* A Go `error` is an `Option Err`; `none` is the `nil` error.
* A slice is a list; `make([]any, size)` is taken to succeed.
* Every call yields an `Outcome`: it returns, it panics (slice index out of
  range, integer division by zero), or its wait loop is still spinning when
  the fuel given to it has run out.
* `runtime.Gosched()` and the cache-line padding fields have no effect on the
  values computed and are left out; `atomic.LoadUint64` and
  `atomic.StoreUint64` are a read and a write, `atomic.CompareAndSwapUint64`
  is `CompareAndSwapUint64`.
-/

namespace Goring

/-! ## Machine integers, errors, outcomes -/

/-- Number of values of a Go `uint64`. -/
def U64 : Nat := 18446744073709551616

/-- Go `a + b` on `uint64`. -/
def add64 (a b : Nat) : Nat := (a + b) % U64

/-- Go `a - b` on `uint64`. -/
def sub64 (a b : Nat) : Nat := (a + (U64 - b % U64)) % U64

/-- The two error values of `ring.go`. -/
inductive Err where
  | ErrBufferFull
  | ErrBufferEmpty
  deriving DecidableEq, Repr

/-- What a call does. -/
inductive Outcome (β : Type) where
  /-- the call returned `v` -/
  | ret (v : β)
  /-- the call panicked (index out of range, integer divide by zero) -/
  | panic
  /-- the wait loop of the call had not ended when the fuel ran out -/
  | spinning
  deriving DecidableEq, Repr

/-- Go `atomic.CompareAndSwapUint64(&cell, old, new)`: the new content of the
cell and whether the swap happened. -/
def CompareAndSwapUint64 (cell old new : Nat) : Nat × Bool :=
  if cell = old then (new, true) else (cell, false)

/-! ## RingBuffer0: baseline (single-thread) -/

/-- Go `type RingBuffer0 struct`. -/
structure RingBuffer0 (α : Type) where
  writeIdx : Nat
  readIdx : Nat
  size : Nat
  buffers : List (Option α)
  deriving DecidableEq, Repr

/-- Go `NewRingBuffer0` with `init`: `make([]any, size)`, indices zero. -/
def NewRingBuffer0 {α : Type} (size : Nat) : RingBuffer0 α :=
  { writeIdx := 0, readIdx := 0, size := size, buffers := List.replicate size none }

/-- Go `(*RingBuffer0).Enqueue`. -/
def RingBuffer0.Enqueue {α : Type} (rb : RingBuffer0 α) (item : Option α) :
    Outcome (RingBuffer0 α × Option Err) :=
  if sub64 rb.writeIdx rb.readIdx = rb.size then
    .ret (rb, some Err.ErrBufferFull)
  else if rb.size = 0 then
    .panic
  else if rb.writeIdx % rb.size < rb.buffers.length then
    .ret ({ rb with
            buffers := rb.buffers.set (rb.writeIdx % rb.size) item
            writeIdx := add64 rb.writeIdx 1 }, none)
  else
    .panic

/-- Go `(*RingBuffer0).Dequeue`. -/
def RingBuffer0.Dequeue {α : Type} (rb : RingBuffer0 α) :
    Outcome (RingBuffer0 α × Option α × Option Err) :=
  if rb.writeIdx = rb.readIdx then
    .ret (rb, none, some Err.ErrBufferEmpty)
  else if rb.size = 0 then
    .panic
  else
    match rb.buffers[rb.readIdx % rb.size]? with
    | some item => .ret ({ rb with readIdx := add64 rb.readIdx 1 }, item, none)
    | none => .panic

/-! ## RingBuffer1: bitmask -/

/-- Go `type RingBuffer1 struct`. -/
structure RingBuffer1 (α : Type) where
  writeIdx : Nat
  readIdx : Nat
  size : Nat
  mask : Nat
  buffers : List (Option α)
  deriving DecidableEq, Repr

/-- Go `NewRingBuffer1` with `init`: `mask = size - 1` in `uint64`. -/
def NewRingBuffer1 {α : Type} (size : Nat) : RingBuffer1 α :=
  { writeIdx := 0, readIdx := 0, size := size, mask := sub64 size 1,
    buffers := List.replicate size none }

/-- Go `(*RingBuffer1).Enqueue`. -/
def RingBuffer1.Enqueue {α : Type} (rb : RingBuffer1 α) (item : Option α) :
    Outcome (RingBuffer1 α × Option Err) :=
  if sub64 rb.writeIdx rb.readIdx = rb.size then
    .ret (rb, some Err.ErrBufferFull)
  else if rb.writeIdx &&& rb.mask < rb.buffers.length then
    .ret ({ rb with
            buffers := rb.buffers.set (rb.writeIdx &&& rb.mask) item
            writeIdx := add64 rb.writeIdx 1 }, none)
  else
    .panic

/-- Go `(*RingBuffer1).Dequeue`. -/
def RingBuffer1.Dequeue {α : Type} (rb : RingBuffer1 α) :
    Outcome (RingBuffer1 α × Option α × Option Err) :=
  if rb.writeIdx = rb.readIdx then
    .ret (rb, none, some Err.ErrBufferEmpty)
  else
    match rb.buffers[rb.readIdx &&& rb.mask]? with
    | some item => .ret ({ rb with readIdx := add64 rb.readIdx 1 }, item, none)
    | none => .panic

/-! ## RingBuffer2: mpmc, mutex

The calls run one at a time, so `rb.mu.Lock()` and the deferred `Unlock()`
change nothing that is computed. -/

/-- Go `type RingBuffer2 struct` (the mutex has no content). -/
structure RingBuffer2 (α : Type) where
  writeIdx : Nat
  readIdx : Nat
  size : Nat
  buffers : List (Option α)
  deriving DecidableEq, Repr

/-- Go `NewRingBuffer2` with `init`. -/
def NewRingBuffer2 {α : Type} (size : Nat) : RingBuffer2 α :=
  { writeIdx := 0, readIdx := 0, size := size, buffers := List.replicate size none }

/-- Go `(*RingBuffer2).Enqueue`. -/
def RingBuffer2.Enqueue {α : Type} (rb : RingBuffer2 α) (item : Option α) :
    Outcome (RingBuffer2 α × Option Err) :=
  if sub64 rb.writeIdx rb.readIdx = rb.size then
    .ret (rb, some Err.ErrBufferFull)
  else if rb.writeIdx &&& sub64 rb.size 1 < rb.buffers.length then
    .ret ({ rb with
            buffers := rb.buffers.set (rb.writeIdx &&& sub64 rb.size 1) item
            writeIdx := add64 rb.writeIdx 1 }, none)
  else
    .panic

/-- Go `(*RingBuffer2).Dequeue`. -/
def RingBuffer2.Dequeue {α : Type} (rb : RingBuffer2 α) :
    Outcome (RingBuffer2 α × Option α × Option Err) :=
  if rb.writeIdx = rb.readIdx then
    .ret (rb, none, some Err.ErrBufferEmpty)
  else
    match rb.buffers[rb.readIdx &&& sub64 rb.size 1]? with
    | some item => .ret ({ rb with readIdx := add64 rb.readIdx 1 }, item, none)
    | none => .panic

/-! ## RingBuffer3: spsc, atomic -/

/-- Go `type RingBuffer3 struct`. -/
structure RingBuffer3 (α : Type) where
  writeIdx : Nat
  readIdx : Nat
  size : Nat
  buffers : List (Option α)
  deriving DecidableEq, Repr

/-- Go `NewRingBuffer3` with `init`. -/
def NewRingBuffer3 {α : Type} (size : Nat) : RingBuffer3 α :=
  { writeIdx := 0, readIdx := 0, size := size, buffers := List.replicate size none }

/-- Go `(*RingBuffer3).Enqueue`. -/
def RingBuffer3.Enqueue {α : Type} (rb : RingBuffer3 α) (item : Option α) :
    Outcome (RingBuffer3 α × Option Err) :=
  let read := rb.readIdx
  let write := rb.writeIdx
  if write = add64 read rb.size then
    .ret (rb, some Err.ErrBufferFull)
  else if write &&& sub64 rb.size 1 < rb.buffers.length then
    .ret ({ rb with
            buffers := rb.buffers.set (write &&& sub64 rb.size 1) item
            writeIdx := add64 write 1 }, none)
  else
    .panic

/-- Go `(*RingBuffer3).Dequeue`. -/
def RingBuffer3.Dequeue {α : Type} (rb : RingBuffer3 α) :
    Outcome (RingBuffer3 α × Option α × Option Err) :=
  let write := rb.writeIdx
  let read := rb.readIdx
  if write = read then
    .ret (rb, none, some Err.ErrBufferEmpty)
  else
    match rb.buffers[read &&& sub64 rb.size 1]? with
    | some item => .ret ({ rb with readIdx := add64 read 1 }, item, none)
    | none => .panic

/-! ## RingBuffer4: padding -/

/-- Go `type RingBuffer4 struct` (padding left out). -/
structure RingBuffer4 (α : Type) where
  writeIdx : Nat
  readIdx : Nat
  size : Nat
  buffers : List (Option α)
  deriving DecidableEq, Repr

/-- Go `NewRingBuffer4` with `init`. -/
def NewRingBuffer4 {α : Type} (size : Nat) : RingBuffer4 α :=
  { writeIdx := 0, readIdx := 0, size := size, buffers := List.replicate size none }

/-- Go `(*RingBuffer4).Enqueue`. -/
def RingBuffer4.Enqueue {α : Type} (rb : RingBuffer4 α) (item : Option α) :
    Outcome (RingBuffer4 α × Option Err) :=
  let read := rb.readIdx
  let write := rb.writeIdx
  if write = add64 read rb.size then
    .ret (rb, some Err.ErrBufferFull)
  else if write &&& sub64 rb.size 1 < rb.buffers.length then
    .ret ({ rb with
            buffers := rb.buffers.set (write &&& sub64 rb.size 1) item
            writeIdx := add64 write 1 }, none)
  else
    .panic

/-- Go `(*RingBuffer4).Dequeue`. -/
def RingBuffer4.Dequeue {α : Type} (rb : RingBuffer4 α) :
    Outcome (RingBuffer4 α × Option α × Option Err) :=
  let write := rb.writeIdx
  let read := rb.readIdx
  if write = read then
    .ret (rb, none, some Err.ErrBufferEmpty)
  else
    match rb.buffers[read &&& sub64 rb.size 1]? with
    | some item => .ret ({ rb with readIdx := add64 read 1 }, item, none)
    | none => .panic

/-! ## RingBuffer5: index cache -/

/-- Go `type RingBuffer5 struct` (padding left out). -/
structure RingBuffer5 (α : Type) where
  writeIdx : Nat
  readIdx : Nat
  writeCache : Nat
  readCache : Nat
  size : Nat
  buffers : List (Option α)
  deriving DecidableEq, Repr

/-- Go `NewRingBuffer5` with `init`. -/
def NewRingBuffer5 {α : Type} (size : Nat) : RingBuffer5 α :=
  { writeIdx := 0, readIdx := 0, writeCache := 0, readCache := 0, size := size,
    buffers := List.replicate size none }

/-- Go `(*RingBuffer5).Enqueue`, from `rb.buffers[write&(rb.size-1)] = item` on. -/
def RingBuffer5.enqueueStore {α : Type} (rb : RingBuffer5 α) (write : Nat) (item : Option α) :
    Outcome (RingBuffer5 α × Option Err) :=
  if write &&& sub64 rb.size 1 < rb.buffers.length then
    .ret ({ rb with
            buffers := rb.buffers.set (write &&& sub64 rb.size 1) item
            writeIdx := add64 write 1 }, none)
  else
    .panic

/-- Go `(*RingBuffer5).Enqueue`. -/
def RingBuffer5.Enqueue {α : Type} (rb : RingBuffer5 α) (item : Option α) :
    Outcome (RingBuffer5 α × Option Err) :=
  let write := rb.writeIdx
  if write = add64 rb.readCache rb.size then
    let rb1 := { rb with readCache := rb.readIdx }
    if write = add64 rb1.readCache rb1.size then
      .ret (rb1, some Err.ErrBufferFull)
    else
      rb1.enqueueStore write item
  else
    rb.enqueueStore write item

/-- Go `(*RingBuffer5).Dequeue`, from `item := rb.buffers[read&(rb.size-1)]` on. -/
def RingBuffer5.dequeueLoad {α : Type} (rb : RingBuffer5 α) (read : Nat) :
    Outcome (RingBuffer5 α × Option α × Option Err) :=
  match rb.buffers[read &&& sub64 rb.size 1]? with
  | some item => .ret ({ rb with readIdx := add64 read 1 }, item, none)
  | none => .panic

/-- Go `(*RingBuffer5).Dequeue`. -/
def RingBuffer5.Dequeue {α : Type} (rb : RingBuffer5 α) :
    Outcome (RingBuffer5 α × Option α × Option Err) :=
  let read := rb.readIdx
  if rb.writeCache = read then
    let rb1 := { rb with writeCache := rb.writeIdx }
    if rb1.writeCache = read then
      .ret (rb1, none, some Err.ErrBufferEmpty)
    else
      rb1.dequeueLoad read
  else
    rb.dequeueLoad read

/-! ## RingBuffer6: index cache with spin (block on full/empty) -/

/-- Go `type RingBuffer6 struct` (padding left out). -/
structure RingBuffer6 (α : Type) where
  writeIdx : Nat
  readIdx : Nat
  writeCache : Nat
  readCache : Nat
  size : Nat
  buffers : List (Option α)
  deriving DecidableEq, Repr

/-- Go `NewRingBuffer6` with `init`. -/
def NewRingBuffer6 {α : Type} (size : Nat) : RingBuffer6 α :=
  { writeIdx := 0, readIdx := 0, writeCache := 0, readCache := 0, size := size,
    buffers := List.replicate size none }

/-- The loop `for write == read+rb.size` of `(*RingBuffer6).Enqueue`, the fuel
bounding the number of times its condition is evaluated: the buffer and the
local `read` when the loop ends, `none` when it has not ended. -/
def RingBuffer6.enqueueWait {α : Type} :
    Nat → RingBuffer6 α → Nat → Nat → Option (RingBuffer6 α × Nat)
  | 0, _, _, _ => none
  | fuel + 1, rb, read, write =>
    if write = add64 read rb.size then
      RingBuffer6.enqueueWait fuel { rb with readCache := rb.readIdx } rb.readIdx write
    else
      some (rb, read)

/-- Go `(*RingBuffer6).Enqueue`. -/
def RingBuffer6.Enqueue {α : Type} (fuel : Nat) (rb : RingBuffer6 α) (item : Option α) :
    Outcome (RingBuffer6 α × Option Err) :=
  let read := rb.readCache
  let write := rb.writeIdx
  match RingBuffer6.enqueueWait fuel rb read write with
  | none => .spinning
  | some (rb1, _) =>
    if write &&& sub64 rb1.size 1 < rb1.buffers.length then
      .ret ({ rb1 with
              buffers := rb1.buffers.set (write &&& sub64 rb1.size 1) item
              writeIdx := add64 write 1 }, none)
    else
      .panic

/-- The loop `for write == read` of `(*RingBuffer6).Dequeue`, with fuel as in
`enqueueWait`: the buffer and the local `write` when the loop ends. -/
def RingBuffer6.dequeueWait {α : Type} :
    Nat → RingBuffer6 α → Nat → Nat → Option (RingBuffer6 α × Nat)
  | 0, _, _, _ => none
  | fuel + 1, rb, write, read =>
    if write = read then
      RingBuffer6.dequeueWait fuel { rb with writeCache := rb.writeIdx } rb.writeIdx read
    else
      some (rb, write)

/-- Go `(*RingBuffer6).Dequeue`. -/
def RingBuffer6.Dequeue {α : Type} (fuel : Nat) (rb : RingBuffer6 α) :
    Outcome (RingBuffer6 α × Option α × Option Err) :=
  let write := rb.writeCache
  let read := rb.readIdx
  match RingBuffer6.dequeueWait fuel rb write read with
  | none => .spinning
  | some (rb1, _) =>
    match rb1.buffers[read &&& sub64 rb1.size 1]? with
    | some item => .ret ({ rb1 with readIdx := add64 read 1 }, item, none)
    | none => .panic

/-! ## RingBuffer7_wo_pad, RingBuffer7: mpmc, atomic -/

/-- Go `type node struct` (padding left out). -/
structure node (α : Type) where
  position : Nat
  data : Option α
  deriving DecidableEq, Repr

/-- The nodes made by the `init` of the node-sequence variants:
`rb.nodes[i] = node{position: i}` for `i < size`. -/
def initNodes {α : Type} (size : Nat) : List (node α) :=
  (List.range size).map fun i => { position := i, data := none }

/-- Go `type RingBuffer7_wo_pad struct`; `nodes_wo_pad` is `[]node`. -/
structure RingBuffer7_wo_pad (α : Type) where
  writeIdx : Nat
  readIdx : Nat
  mask : Nat
  nodes : List (node α)
  deriving DecidableEq, Repr

/-- Go `NewRingBuffer7_wo_pad` with `init`. -/
def NewRingBuffer7_wo_pad {α : Type} (size : Nat) : RingBuffer7_wo_pad α :=
  { writeIdx := 0, readIdx := 0, mask := sub64 size 1, nodes := initNodes size }

/-- Go `(*RingBuffer7_wo_pad).Enqueue`. -/
def RingBuffer7_wo_pad.Enqueue {α : Type} (rb : RingBuffer7_wo_pad α) (item : Option α) :
    Outcome (RingBuffer7_wo_pad α × Option Err) :=
  let write := rb.writeIdx
  match rb.nodes[write &&& rb.mask]? with
  | none => .panic
  | some n =>
    let seq := n.position
    if seq ≠ write then
      .ret (rb, some Err.ErrBufferFull)
    else
      let cas := CompareAndSwapUint64 rb.writeIdx write (add64 write 1)
      if cas.2 = false then
        .ret ({ rb with writeIdx := cas.1 }, some Err.ErrBufferFull)
      else
        .ret ({ rb with
                writeIdx := cas.1
                nodes := rb.nodes.set (write &&& rb.mask)
                  { position := add64 write 1, data := item } }, none)

/-- Go `(*RingBuffer7_wo_pad).Dequeue`. -/
def RingBuffer7_wo_pad.Dequeue {α : Type} (rb : RingBuffer7_wo_pad α) :
    Outcome (RingBuffer7_wo_pad α × Option α × Option Err) :=
  let read := rb.readIdx
  match rb.nodes[read &&& rb.mask]? with
  | none => .panic
  | some n =>
    let seq := n.position
    if seq ≠ add64 read 1 then
      .ret (rb, none, some Err.ErrBufferEmpty)
    else
      let cas := CompareAndSwapUint64 rb.readIdx read (add64 read 1)
      if cas.2 = false then
        .ret ({ rb with readIdx := cas.1 }, none, some Err.ErrBufferEmpty)
      else
        .ret ({ rb with
                readIdx := cas.1
                nodes := rb.nodes.set (read &&& rb.mask)
                  { position := add64 (add64 read rb.mask) 1, data := none } }, n.data, none)

/-- Go `type RingBuffer7 struct` (padding left out). -/
structure RingBuffer7 (α : Type) where
  writeIdx : Nat
  readIdx : Nat
  mask : Nat
  nodes : List (node α)
  deriving DecidableEq, Repr

/-- Go `NewRingBuffer7` with `init`. -/
def NewRingBuffer7 {α : Type} (size : Nat) : RingBuffer7 α :=
  { writeIdx := 0, readIdx := 0, mask := sub64 size 1, nodes := initNodes size }

/-- Go `(*RingBuffer7).Enqueue`. -/
def RingBuffer7.Enqueue {α : Type} (rb : RingBuffer7 α) (item : Option α) :
    Outcome (RingBuffer7 α × Option Err) :=
  let write := rb.writeIdx
  match rb.nodes[write &&& rb.mask]? with
  | none => .panic
  | some n =>
    let seq := n.position
    if seq ≠ write then
      .ret (rb, some Err.ErrBufferFull)
    else
      let cas := CompareAndSwapUint64 rb.writeIdx write (add64 write 1)
      if cas.2 = false then
        .ret ({ rb with writeIdx := cas.1 }, some Err.ErrBufferFull)
      else
        .ret ({ rb with
                writeIdx := cas.1
                nodes := rb.nodes.set (write &&& rb.mask)
                  { position := add64 write 1, data := item } }, none)

/-- Go `(*RingBuffer7).Dequeue`. -/
def RingBuffer7.Dequeue {α : Type} (rb : RingBuffer7 α) :
    Outcome (RingBuffer7 α × Option α × Option Err) :=
  let read := rb.readIdx
  match rb.nodes[read &&& rb.mask]? with
  | none => .panic
  | some n =>
    let seq := n.position
    if seq ≠ add64 read 1 then
      .ret (rb, none, some Err.ErrBufferEmpty)
    else
      let cas := CompareAndSwapUint64 rb.readIdx read (add64 read 1)
      if cas.2 = false then
        .ret ({ rb with readIdx := cas.1 }, none, some Err.ErrBufferEmpty)
      else
        .ret ({ rb with
                readIdx := cas.1
                nodes := rb.nodes.set (read &&& rb.mask)
                  { position := add64 (add64 read rb.mask) 1, data := none } }, n.data, none)

/-! ## RingBuffer8: mpmc, atomic, CAS spin (block on full/empty) -/

/-- Go `type RingBuffer8 struct` (padding left out). -/
structure RingBuffer8 (α : Type) where
  writeIdx : Nat
  readIdx : Nat
  mask : Nat
  nodes : List (node α)
  deriving DecidableEq, Repr

/-- Go `NewRingBuffer8` with `init`. -/
def NewRingBuffer8 {α : Type} (size : Nat) : RingBuffer8 α :=
  { writeIdx := 0, readIdx := 0, mask := sub64 size 1, nodes := initNodes size }

/-- The loop `L` of `(*RingBuffer8).Enqueue`, the fuel bounding the number of
iterations: the buffer after the successful compare-and-swap and the local
`write` at `break L`. -/
def RingBuffer8.enqueueSpin {α : Type} :
    Nat → RingBuffer8 α → Nat → Outcome (RingBuffer8 α × Nat)
  | 0, _, _ => .spinning
  | fuel + 1, rb, write =>
    match rb.nodes[write &&& rb.mask]? with
    | none => .panic
    | some n =>
      let seq := n.position
      let dif := sub64 seq write
      if dif = 0 then
        let cas := CompareAndSwapUint64 rb.writeIdx write (add64 write 1)
        if cas.2 = true then
          .ret ({ rb with writeIdx := cas.1 }, write)
        else
          RingBuffer8.enqueueSpin fuel { rb with writeIdx := cas.1 } write
      else
        RingBuffer8.enqueueSpin fuel rb rb.writeIdx

/-- Go `(*RingBuffer8).Enqueue`. -/
def RingBuffer8.Enqueue {α : Type} (fuel : Nat) (rb : RingBuffer8 α) (item : Option α) :
    Outcome (RingBuffer8 α × Option Err) :=
  match RingBuffer8.enqueueSpin fuel rb rb.writeIdx with
  | .panic => .panic
  | .spinning => .spinning
  | .ret (rb1, write) =>
    .ret ({ rb1 with
            nodes := rb1.nodes.set (write &&& rb1.mask)
              { position := add64 write 1, data := item } }, none)

/-- The loop `L` of `(*RingBuffer8).Dequeue`, with fuel as in `enqueueSpin`:
the buffer after the successful compare-and-swap, the local `read` and the
node `n` at `break L`. -/
def RingBuffer8.dequeueSpin {α : Type} :
    Nat → RingBuffer8 α → Nat → Outcome (RingBuffer8 α × Nat × node α)
  | 0, _, _ => .spinning
  | fuel + 1, rb, read =>
    match rb.nodes[read &&& rb.mask]? with
    | none => .panic
    | some n =>
      let seq := n.position
      let dif := sub64 seq (add64 read 1)
      if dif = 0 then
        let cas := CompareAndSwapUint64 rb.readIdx read (add64 read 1)
        if cas.2 = true then
          .ret ({ rb with readIdx := cas.1 }, read, n)
        else
          RingBuffer8.dequeueSpin fuel { rb with readIdx := cas.1 } read
      else
        RingBuffer8.dequeueSpin fuel rb rb.readIdx

/-- Go `(*RingBuffer8).Dequeue`. -/
def RingBuffer8.Dequeue {α : Type} (fuel : Nat) (rb : RingBuffer8 α) :
    Outcome (RingBuffer8 α × Option α × Option Err) :=
  match RingBuffer8.dequeueSpin fuel rb rb.readIdx with
  | .panic => .panic
  | .spinning => .spinning
  | .ret (rb1, read, n) =>
    .ret ({ rb1 with
            nodes := rb1.nodes.set (read &&& rb1.mask)
              { position := add64 (add64 read rb1.mask) 1, data := none } }, n.data, none)

/-- Go `(*RingBuffer8).Cap`. -/
def RingBuffer8.Cap {α : Type} (rb : RingBuffer8 α) : Nat :=
  rb.nodes.length % U64

/-- Go `(*RingBuffer8).Len`. -/
def RingBuffer8.Len {α : Type} (rb : RingBuffer8 α) : Nat :=
  sub64 rb.writeIdx rb.readIdx

/-! ## Sequences of calls -/

/-- One call on a ring buffer: `Enqueue(item)` or `Dequeue()`. -/
inductive Op (α : Type) where
  | enq (item : Option α)
  | deq
  deriving DecidableEq, Repr

/-- What a call returned: the error, and for `Dequeue` the item (`Enqueue`
returns no item, written `none`). -/
structure Ret (α : Type) where
  item : Option α
  err : Option Err
  deriving DecidableEq, Repr

/-- The outcome of an `Enqueue` as the outcome of a call. -/
def enqRet {σ α : Type} : Outcome (σ × Option Err) → Outcome (σ × Ret α)
  | .ret (s, e) => .ret (s, { item := none, err := e })
  | .panic => .panic
  | .spinning => .spinning

/-- The outcome of a `Dequeue` as the outcome of a call. -/
def deqRet {σ α : Type} : Outcome (σ × Option α × Option Err) → Outcome (σ × Ret α)
  | .ret (s, x, e) => .ret (s, { item := x, err := e })
  | .panic => .panic
  | .spinning => .spinning

/-- Run the calls `ops` one after the other from state `s`: the final state
and what each call returned. The run stops at the first call that does not
return. -/
def runOps {σ α : Type} (step : σ → Op α → Outcome (σ × Ret α)) :
    σ → List (Op α) → Outcome (σ × List (Ret α))
  | s, [] => .ret (s, [])
  | s, op :: ops =>
    match step s op with
    | .panic => .panic
    | .spinning => .spinning
    | .ret (s1, r) =>
      match runOps step s1 ops with
      | .panic => .panic
      | .spinning => .spinning
      | .ret (s2, rs) => .ret (s2, r :: rs)

/-- One call on a `RingBuffer0`. -/
def RingBuffer0.step {α : Type} (rb : RingBuffer0 α) : Op α → Outcome (RingBuffer0 α × Ret α)
  | .enq item => enqRet (rb.Enqueue item)
  | .deq => deqRet rb.Dequeue

/-- One call on a `RingBuffer1`. -/
def RingBuffer1.step {α : Type} (rb : RingBuffer1 α) : Op α → Outcome (RingBuffer1 α × Ret α)
  | .enq item => enqRet (rb.Enqueue item)
  | .deq => deqRet rb.Dequeue

/-- One call on a `RingBuffer2`. -/
def RingBuffer2.step {α : Type} (rb : RingBuffer2 α) : Op α → Outcome (RingBuffer2 α × Ret α)
  | .enq item => enqRet (rb.Enqueue item)
  | .deq => deqRet rb.Dequeue

/-- One call on a `RingBuffer3`. -/
def RingBuffer3.step {α : Type} (rb : RingBuffer3 α) : Op α → Outcome (RingBuffer3 α × Ret α)
  | .enq item => enqRet (rb.Enqueue item)
  | .deq => deqRet rb.Dequeue

/-- One call on a `RingBuffer4`. -/
def RingBuffer4.step {α : Type} (rb : RingBuffer4 α) : Op α → Outcome (RingBuffer4 α × Ret α)
  | .enq item => enqRet (rb.Enqueue item)
  | .deq => deqRet rb.Dequeue

/-- One call on a `RingBuffer5`. -/
def RingBuffer5.step {α : Type} (rb : RingBuffer5 α) : Op α → Outcome (RingBuffer5 α × Ret α)
  | .enq item => enqRet (rb.Enqueue item)
  | .deq => deqRet rb.Dequeue

/-- One call on a `RingBuffer6`, each wait loop given `fuel`. -/
def RingBuffer6.step {α : Type} (fuel : Nat) (rb : RingBuffer6 α) :
    Op α → Outcome (RingBuffer6 α × Ret α)
  | .enq item => enqRet (rb.Enqueue fuel item)
  | .deq => deqRet (rb.Dequeue fuel)

/-- One call on a `RingBuffer7_wo_pad`. -/
def RingBuffer7_wo_pad.step {α : Type} (rb : RingBuffer7_wo_pad α) :
    Op α → Outcome (RingBuffer7_wo_pad α × Ret α)
  | .enq item => enqRet (rb.Enqueue item)
  | .deq => deqRet rb.Dequeue

/-- One call on a `RingBuffer7`. -/
def RingBuffer7.step {α : Type} (rb : RingBuffer7 α) : Op α → Outcome (RingBuffer7 α × Ret α)
  | .enq item => enqRet (rb.Enqueue item)
  | .deq => deqRet rb.Dequeue

/-- One call on a `RingBuffer8`, each loop given `fuel`. -/
def RingBuffer8.step {α : Type} (fuel : Nat) (rb : RingBuffer8 α) :
    Op α → Outcome (RingBuffer8 α × Ret α)
  | .enq item => enqRet (rb.Enqueue fuel item)
  | .deq => deqRet (rb.Dequeue fuel)

/-- Number of `Enqueue` calls in a sequence of calls. -/
def countEnq {α : Type} : List (Op α) → Nat
  | [] => 0
  | .enq _ :: ops => countEnq ops + 1
  | .deq :: ops => countEnq ops

/-- The items passed to the `Enqueue` calls that returned a `nil` error, in
the order of the calls. -/
def enqueuedValues {α : Type} : List (Op α) → List (Ret α) → List (Option α)
  | .enq x :: ops, r :: rs =>
    if r.err = none then x :: enqueuedValues ops rs else enqueuedValues ops rs
  | .deq :: ops, _ :: rs => enqueuedValues ops rs
  | _, _ => []

/-- The items returned by the `Dequeue` calls that returned a `nil` error, in
the order of the calls. -/
def dequeuedValues {α : Type} : List (Op α) → List (Ret α) → List (Option α)
  | .deq :: ops, r :: rs =>
    if r.err = none then r.item :: dequeuedValues ops rs else dequeuedValues ops rs
  | .enq _ :: ops, _ :: rs => dequeuedValues ops rs
  | _, _ => []

/-! ## The queue of the specification

A FIFO queue bounded at `C`, kept as the list of the stored items, oldest
first. It follows the words of the specification, not the code: `Enqueue`
fails with `ErrBufferFull` iff `C` items are stored, `Dequeue` fails with
`ErrBufferEmpty` iff none is stored, and a successful `Dequeue` returns the
oldest stored item. -/

/-- One call on the bounded list queue of the specification. -/
def SpecQueue.step {α : Type} (C : Nat) (q : List (Option α)) : Op α → List (Option α) × Ret α
  | .enq item =>
    if q.length = C then (q, { item := none, err := some Err.ErrBufferFull })
    else (q ++ [item], { item := none, err := none })
  | .deq =>
    match q with
    | [] => ([], { item := none, err := some Err.ErrBufferEmpty })
    | x :: rest => (rest, { item := x, err := none })

/-- Run calls on the bounded list queue: the final queue and what each call
returned. -/
def SpecQueue.run {α : Type} (C : Nat) : List (Option α) → List (Op α) →
    List (Option α) × List (Ret α)
  | q, [] => (q, [])
  | q, op :: ops =>
    ((SpecQueue.run C (SpecQueue.step C q op).1 ops).1,
     (SpecQueue.step C q op).2 :: (SpecQueue.run C (SpecQueue.step C q op).1 ops).2)

/-! ## Well-formed states

The facts about a buffer of capacity `C` that every call keeps: the fields
are `uint64` values and the slice has the length it was made with. -/

/-- Well-formed `RingBuffer0` of capacity `C`. -/
def RingBuffer0.WF {α : Type} (C : Nat) (rb : RingBuffer0 α) : Prop :=
  rb.size = C ∧ rb.buffers.length = C ∧ rb.writeIdx < U64 ∧ rb.readIdx < U64

/-- Well-formed `RingBuffer1` of capacity `C`. -/
def RingBuffer1.WF {α : Type} (C : Nat) (rb : RingBuffer1 α) : Prop :=
  rb.size = C ∧ rb.buffers.length = C ∧ rb.writeIdx < U64 ∧ rb.readIdx < U64 ∧
    rb.mask = sub64 C 1

/-- Well-formed `RingBuffer2` of capacity `C`. -/
def RingBuffer2.WF {α : Type} (C : Nat) (rb : RingBuffer2 α) : Prop :=
  rb.size = C ∧ rb.buffers.length = C ∧ rb.writeIdx < U64 ∧ rb.readIdx < U64

/-- Well-formed `RingBuffer3` of capacity `C`. -/
def RingBuffer3.WF {α : Type} (C : Nat) (rb : RingBuffer3 α) : Prop :=
  rb.size = C ∧ rb.buffers.length = C ∧ rb.writeIdx < U64 ∧ rb.readIdx < U64

/-- Well-formed `RingBuffer4` of capacity `C`. -/
def RingBuffer4.WF {α : Type} (C : Nat) (rb : RingBuffer4 α) : Prop :=
  rb.size = C ∧ rb.buffers.length = C ∧ rb.writeIdx < U64 ∧ rb.readIdx < U64

/-- Well-formed `RingBuffer5` of capacity `C`. -/
def RingBuffer5.WF {α : Type} (C : Nat) (rb : RingBuffer5 α) : Prop :=
  rb.size = C ∧ rb.buffers.length = C ∧ rb.writeIdx < U64 ∧ rb.readIdx < U64 ∧
    rb.writeCache < U64 ∧ rb.readCache < U64

/-- Well-formed `RingBuffer6` of capacity `C`. -/
def RingBuffer6.WF {α : Type} (C : Nat) (rb : RingBuffer6 α) : Prop :=
  rb.size = C ∧ rb.buffers.length = C ∧ rb.writeIdx < U64 ∧ rb.readIdx < U64 ∧
    rb.writeCache < U64 ∧ rb.readCache < U64

/-! ## Representation invariants

`R` is the number of items dequeued so far, not reduced modulo `2^64`; the
stored `readIdx` is `R % 2^64`. -/

/-- The slice `buf` of a ring of capacity `C` holds the queue `q`: item `i` of
the queue sits in slot `(R + i) % C`. -/
def ArrInv {α : Type} (C R w r : Nat) (buf : List (Option α)) (q : List (Option α)) : Prop :=
  buf.length = C ∧ r = R % U64 ∧ w = (R + q.length) % U64 ∧ q.length ≤ C ∧
    ∀ i x, q[i]? = some x → buf[(R + i) % C]? = some x

/-- The nodes of a node-sequence ring of capacity `2^k` hold the queue `q`:
the node of a stored item at position `p` carries the tag `p + 1` and the
item, the node of a free position `p` carries the tag `p` and no item. -/
def NodeInv {α : Type} (k R w r m : Nat) (nodes : List (node α)) (q : List (Option α)) :
    Prop :=
  m = sub64 (2 ^ k) 1 ∧ nodes.length = 2 ^ k ∧ r = R % U64 ∧ w = (R + q.length) % U64 ∧
    q.length ≤ 2 ^ k ∧
    (∀ i x, q[i]? = some x →
      nodes[(R + i) % 2 ^ k]? = some { position := (R + i + 1) % U64, data := x }) ∧
    (∀ i, q.length ≤ i → i < 2 ^ k →
      nodes[(R + i) % 2 ^ k]? = some { position := (R + i) % U64, data := none })

/-- A node-sequence ring made with capacity 1: the tag of its only node is
the write index. -/
def OneInv {α : Type} (w r m : Nat) (nodes : List (node α)) : Prop :=
  m = 0 ∧ w < U64 ∧ r < U64 ∧ ∃ d, nodes = [{ position := w, data := d }]

/-- The bounded list queue as a step function with outcomes: it always
returns. -/
def SpecQueue.stepO {α : Type} (C : Nat) (q : List (Option α)) (op : Op α) :
    Outcome (List (Option α) × Ret α) :=
  .ret (SpecQueue.step C q op)

/-- A `RingBuffer7` of capacity `2^k` holds the queue `q`. -/
def RingBuffer7.Holds {α : Type} (k : Nat) (rb : RingBuffer7 α) (q : List (Option α)) : Prop :=
  ∃ R, NodeInv k R rb.writeIdx rb.readIdx rb.mask rb.nodes q

/-- A `RingBuffer7_wo_pad` of capacity `2^k` holds the queue `q`. -/
def RingBuffer7_wo_pad.Holds {α : Type} (k : Nat) (rb : RingBuffer7_wo_pad α)
    (q : List (Option α)) : Prop :=
  ∃ R, NodeInv k R rb.writeIdx rb.readIdx rb.mask rb.nodes q

/-- A `RingBuffer8` of capacity `2^k` holds the queue `q`. -/
def RingBuffer8.Holds {α : Type} (k : Nat) (rb : RingBuffer8 α) (q : List (Option α)) : Prop :=
  ∃ R, NodeInv k R rb.writeIdx rb.readIdx rb.mask rb.nodes q

/-- A `RingBuffer3` of capacity `2^k` holds the queue `q`. -/
def RingBuffer3.Holds {α : Type} (k : Nat) (rb : RingBuffer3 α) (q : List (Option α)) : Prop :=
  rb.size = 2 ^ k ∧ ∃ R, ArrInv (2 ^ k) R rb.writeIdx rb.readIdx rb.buffers q

/-- A `RingBuffer4` of capacity `2^k` holds the queue `q`. -/
def RingBuffer4.Holds {α : Type} (k : Nat) (rb : RingBuffer4 α) (q : List (Option α)) : Prop :=
  rb.size = 2 ^ k ∧ ∃ R, ArrInv (2 ^ k) R rb.writeIdx rb.readIdx rb.buffers q

/-- The call sequence `Enqueue(nil); Dequeue()` repeated `n` times. -/
def enqDeqTimes {α : Type} : Nat → List (Op α)
  | 0 => []
  | n + 1 => .enq none :: .deq :: enqDeqTimes n

/-- The index caches of a `RingBuffer5` of capacity `C`: with `R`, `W` the
numbers of items dequeued and enqueued so far and `rc`, `wc` the values of
these counts when the caches were last refreshed,
`rc ≤ R ≤ wc ≤ W ≤ rc + C`; the stored fields are these counts modulo `2^64`. -/
def RingBuffer5.Cached {α : Type} (C : Nat) (rb : RingBuffer5 α) : Prop :=
  rb.size = C ∧ rb.buffers.length = C ∧
    ∃ R W rc wc, rc ≤ R ∧ R ≤ wc ∧ wc ≤ W ∧ W ≤ rc + C ∧
      rb.readIdx = R % U64 ∧ rb.writeIdx = W % U64 ∧
      rb.readCache = rc % U64 ∧ rb.writeCache = wc % U64

/-- The index caches of a `RingBuffer6` of capacity `C`, as for `RingBuffer5`. -/
def RingBuffer6.Cached {α : Type} (C : Nat) (rb : RingBuffer6 α) : Prop :=
  rb.size = C ∧ rb.buffers.length = C ∧
    ∃ R W rc wc, rc ≤ R ∧ R ≤ wc ∧ wc ≤ W ∧ W ≤ rc + C ∧
      rb.readIdx = R % U64 ∧ rb.writeIdx = W % U64 ∧
      rb.readCache = rc % U64 ∧ rb.writeCache = wc % U64

/-! ## The scenario of `TestRingBuffer` (ring_test.go) -/

/-- The calls `TestRingBuffer` makes on each buffer of capacity 2. -/
def testCalls : List (Op Nat) :=
  [.deq, .enq (some 1), .enq (some 2), .enq (some 3), .deq, .enq (some 4), .deq, .deq, .deq]

/-- What `TestRingBuffer` asserts these calls return. -/
def testReturns : List (Ret Nat) :=
  [⟨none, some .ErrBufferEmpty⟩, ⟨none, none⟩, ⟨none, none⟩, ⟨none, some .ErrBufferFull⟩,
   ⟨some 1, none⟩, ⟨none, none⟩, ⟨some 2, none⟩, ⟨some 4, none⟩, ⟨none, some .ErrBufferEmpty⟩]

/-! ## Well-formed states of the node-sequence variants

The facts about a node-sequence buffer of capacity `C` that every call keeps:
the mask is `C - 1`, the slice has the length it was made with, and the
indices and tags are `uint64` values. -/

/-- Well-formed `RingBuffer7_wo_pad` of capacity `C`. -/
def RingBuffer7_wo_pad.WF {α : Type} (C : Nat) (rb : RingBuffer7_wo_pad α) : Prop :=
  rb.mask = sub64 C 1 ∧ rb.nodes.length = C ∧ rb.writeIdx < U64 ∧ rb.readIdx < U64 ∧
    ∀ n ∈ rb.nodes, n.position < U64

/-- Well-formed `RingBuffer7` of capacity `C`. -/
def RingBuffer7.WF {α : Type} (C : Nat) (rb : RingBuffer7 α) : Prop :=
  rb.mask = sub64 C 1 ∧ rb.nodes.length = C ∧ rb.writeIdx < U64 ∧ rb.readIdx < U64 ∧
    ∀ n ∈ rb.nodes, n.position < U64

/-- Well-formed `RingBuffer8` of capacity `C`. -/
def RingBuffer8.WF {α : Type} (C : Nat) (rb : RingBuffer8 α) : Prop :=
  rb.mask = sub64 C 1 ∧ rb.nodes.length = C ∧ rb.writeIdx < U64 ∧ rb.readIdx < U64 ∧
    ∀ n ∈ rb.nodes, n.position < U64

/-! ## Arithmetic of `uint64` -/

theorem add64_of_lt {a b : Nat} (h : a + b < U64) : add64 a b = a + b := by
  unfold add64
  exact Nat.mod_eq_of_lt h

theorem add64_lt (a b : Nat) : add64 a b < U64 := by
  unfold add64
  exact Nat.mod_lt _ (by unfold U64; omega)

theorem sub64_lt (a b : Nat) : sub64 a b < U64 := by
  unfold sub64
  exact Nat.mod_lt _ (by unfold U64; omega)

theorem sub64_of_le {a b : Nat} (hab : b ≤ a) (ha : a < U64) : sub64 a b = a - b := by
  unfold sub64 U64 at *
  omega

theorem sub64_self (a : Nat) : sub64 a a = 0 := by
  unfold sub64 U64 at *
  omega

theorem sub64_eq_zero {a b : Nat} (ha : a < U64) (hb : b < U64) :
    sub64 a b = 0 ↔ a = b := by
  unfold sub64 U64 at *
  omega

theorem land_pred_lt (x : Nat) {C : Nat} (hC : 0 < C) : x &&& (C - 1) < C :=
  Nat.lt_of_le_of_lt Nat.and_le_right (by omega)

theorem land_mask_lt (x : Nat) {C : Nat} (hC : 0 < C) (hlt : C < U64) :
    x &&& sub64 C 1 < C := by
  rw [sub64_of_le hC hlt]
  exact land_pred_lt x hC

/-! ## Runs -/

theorem runOps_cons_ret {σ α : Type} (step : σ → Op α → Outcome (σ × Ret α))
    {s s1 s2 : σ} {op : Op α} {ops : List (Op α)} {r : Ret α} {rs : List (Ret α)}
    (h1 : step s op = .ret (s1, r)) (h2 : runOps step s1 ops = .ret (s2, rs)) :
    runOps step s (op :: ops) = .ret (s2, r :: rs) := by
  simp [runOps, h1, h2]

/-! ## Runs: inversion, invariants, simulation -/

theorem runOps_nil_inv {σ α : Type} (step : σ → Op α → Outcome (σ × Ret α))
    {s s2 : σ} {rs : List (Ret α)} (h : runOps step s [] = .ret (s2, rs)) :
    s2 = s ∧ rs = [] := by
  simp only [runOps, Outcome.ret.injEq, Prod.mk.injEq] at h
  exact ⟨h.1.symm, h.2.symm⟩

theorem runOps_cons_inv {σ α : Type} (step : σ → Op α → Outcome (σ × Ret α))
    {s s2 : σ} {op : Op α} {ops : List (Op α)} {rs : List (Ret α)}
    (h : runOps step s (op :: ops) = .ret (s2, rs)) :
    ∃ s1 r rs1, step s op = .ret (s1, r) ∧ runOps step s1 ops = .ret (s2, rs1) ∧
      rs = r :: rs1 := by
  unfold runOps at h
  split at h
  · exact absurd h (by simp)
  · exact absurd h (by simp)
  · rename_i s1 r h1
    split at h
    · exact absurd h (by simp)
    · exact absurd h (by simp)
    · rename_i s3 rs1 h2
      simp only [Outcome.ret.injEq, Prod.mk.injEq] at h
      refine ⟨s1, r, rs1, h1, ?_, h.2.symm⟩
      rw [h2, h.1]

theorem runOps_invariant {σ α : Type} (step : σ → Op α → Outcome (σ × Ret α))
    (Inv : σ → Prop)
    (hstep : ∀ s op s1 r, Inv s → step s op = .ret (s1, r) → Inv s1) :
    ∀ (ops : List (Op α)) (s s2 : σ) (rs : List (Ret α)),
      Inv s → runOps step s ops = .ret (s2, rs) → Inv s2 := by
  intro ops
  induction ops with
  | nil =>
    intro s s2 rs hs h
    rw [(runOps_nil_inv step h).1]
    exact hs
  | cons op ops ih =>
    intro s s2 rs hs h
    obtain ⟨s1, r, rs1, h1, h2, _⟩ := runOps_cons_inv step h
    exact ih s1 s2 rs1 (hstep s op s1 r hs h1) h2

theorem runOps_length {σ α : Type} (step : σ → Op α → Outcome (σ × Ret α)) :
    ∀ (ops : List (Op α)) (s s2 : σ) (rs : List (Ret α)),
      runOps step s ops = .ret (s2, rs) → rs.length = ops.length := by
  intro ops
  induction ops with
  | nil =>
    intro s s2 rs h
    rw [(runOps_nil_inv step h).2]
    rfl
  | cons op ops ih =>
    intro s s2 rs h
    obtain ⟨s1, r, rs1, _, h2, h3⟩ := runOps_cons_inv step h
    rw [h3, List.length_cons, List.length_cons, ih s1 s2 rs1 h2]

/-- Two step functions that stay related call after call return the same
values along every run, and neither run panics or spins. -/
theorem runOps_sim {σ τ α : Type} (step1 : σ → Op α → Outcome (σ × Ret α))
    (step2 : τ → Op α → Outcome (τ × Ret α)) (R : σ → τ → Prop)
    (hstep : ∀ s t op, R s t →
      ∃ s1 t1 r, step1 s op = .ret (s1, r) ∧ step2 t op = .ret (t1, r) ∧ R s1 t1) :
    ∀ (ops : List (Op α)) (s : σ) (t : τ), R s t →
      ∃ s2 t2 rs, runOps step1 s ops = .ret (s2, rs) ∧ runOps step2 t ops = .ret (t2, rs) ∧
        R s2 t2 := by
  intro ops
  induction ops with
  | nil =>
    intro s t h
    exact ⟨s, t, [], rfl, rfl, h⟩
  | cons op ops ih =>
    intro s t h
    obtain ⟨s1, t1, r, h1, h2, h3⟩ := hstep s t op h
    obtain ⟨s2, t2, rs, h4, h5, h6⟩ := ih s1 t1 h3
    exact ⟨s2, t2, r :: rs, runOps_cons_ret step1 h1 h4, runOps_cons_ret step2 h2 h5, h6⟩

/-! ## Outcomes of single calls -/

theorem enqRet_ret {σ α : Type} (s : σ) (e : Option Err) :
    (enqRet (.ret (s, e)) : Outcome (σ × Ret α)) = .ret (s, { item := none, err := e }) := rfl

theorem deqRet_ret {σ α : Type} (s : σ) (x : Option α) (e : Option Err) :
    (deqRet (.ret (s, x, e)) : Outcome (σ × Ret α)) = .ret (s, { item := x, err := e }) := rfl

theorem RingBuffer0_step_enq {α : Type} (rb : RingBuffer0 α) (x : Option α) :
    rb.step (.enq x) = enqRet (rb.Enqueue x) := rfl

theorem RingBuffer0_step_deq {α : Type} (rb : RingBuffer0 α) :
    rb.step .deq = deqRet rb.Dequeue := rfl

theorem RingBuffer1_step_enq {α : Type} (rb : RingBuffer1 α) (x : Option α) :
    rb.step (.enq x) = enqRet (rb.Enqueue x) := rfl

theorem RingBuffer1_step_deq {α : Type} (rb : RingBuffer1 α) :
    rb.step .deq = deqRet rb.Dequeue := rfl

theorem RingBuffer2_step_enq {α : Type} (rb : RingBuffer2 α) (x : Option α) :
    rb.step (.enq x) = enqRet (rb.Enqueue x) := rfl

theorem RingBuffer2_step_deq {α : Type} (rb : RingBuffer2 α) :
    rb.step .deq = deqRet rb.Dequeue := rfl

theorem RingBuffer3_step_enq {α : Type} (rb : RingBuffer3 α) (x : Option α) :
    rb.step (.enq x) = enqRet (rb.Enqueue x) := rfl

theorem RingBuffer3_step_deq {α : Type} (rb : RingBuffer3 α) :
    rb.step .deq = deqRet rb.Dequeue := rfl

theorem RingBuffer4_step_enq {α : Type} (rb : RingBuffer4 α) (x : Option α) :
    rb.step (.enq x) = enqRet (rb.Enqueue x) := rfl

theorem RingBuffer4_step_deq {α : Type} (rb : RingBuffer4 α) :
    rb.step .deq = deqRet rb.Dequeue := rfl

theorem RingBuffer5_step_enq {α : Type} (rb : RingBuffer5 α) (x : Option α) :
    rb.step (.enq x) = enqRet (rb.Enqueue x) := rfl

theorem RingBuffer5_step_deq {α : Type} (rb : RingBuffer5 α) :
    rb.step .deq = deqRet rb.Dequeue := rfl

theorem RingBuffer6_step_enq {α : Type} (fuel : Nat) (rb : RingBuffer6 α) (x : Option α) :
    rb.step fuel (.enq x) = enqRet (rb.Enqueue fuel x) := rfl

theorem RingBuffer6_step_deq {α : Type} (fuel : Nat) (rb : RingBuffer6 α) :
    rb.step fuel .deq = deqRet (rb.Dequeue fuel) := rfl

theorem RingBuffer7_wo_pad_step_enq {α : Type} (rb : RingBuffer7_wo_pad α) (x : Option α) :
    rb.step (.enq x) = enqRet (rb.Enqueue x) := rfl

theorem RingBuffer7_wo_pad_step_deq {α : Type} (rb : RingBuffer7_wo_pad α) :
    rb.step .deq = deqRet rb.Dequeue := rfl

theorem RingBuffer7_step_enq {α : Type} (rb : RingBuffer7 α) (x : Option α) :
    rb.step (.enq x) = enqRet (rb.Enqueue x) := rfl

theorem RingBuffer7_step_deq {α : Type} (rb : RingBuffer7 α) :
    rb.step .deq = deqRet rb.Dequeue := rfl

theorem RingBuffer8_step_enq {α : Type} (fuel : Nat) (rb : RingBuffer8 α) (x : Option α) :
    rb.step fuel (.enq x) = enqRet (rb.Enqueue fuel x) := rfl

theorem RingBuffer8_step_deq {α : Type} (fuel : Nat) (rb : RingBuffer8 α) :
    rb.step fuel .deq = deqRet (rb.Dequeue fuel) := rfl

/-! ## What each call computes, case by case -/

theorem RingBuffer0_Enqueue_full {α : Type} (w r C : Nat) (buf : List (Option α))
    (x : Option α) (h : sub64 w r = C) :
    RingBuffer0.Enqueue ⟨w, r, C, buf⟩ x = .ret (⟨w, r, C, buf⟩, some Err.ErrBufferFull) := by
  simp [RingBuffer0.Enqueue, h]

theorem RingBuffer0_Enqueue_ok {α : Type} (w r C : Nat) (buf : List (Option α))
    (x : Option α) (h : sub64 w r ≠ C) (h0 : 0 < C) (hb : buf.length = C) :
    RingBuffer0.Enqueue ⟨w, r, C, buf⟩ x
      = .ret (⟨add64 w 1, r, C, buf.set (w % C) x⟩, none) := by
  have h1 : w % C < buf.length := by rw [hb]; exact Nat.mod_lt _ h0
  have h2 : C ≠ 0 := Nat.pos_iff_ne_zero.mp h0
  simp [RingBuffer0.Enqueue, h, h1, h2]

theorem RingBuffer0_Dequeue_empty {α : Type} (w r C : Nat) (buf : List (Option α))
    (h : w = r) :
    RingBuffer0.Dequeue ⟨w, r, C, buf⟩ = .ret (⟨w, r, C, buf⟩, none, some Err.ErrBufferEmpty) := by
  simp [RingBuffer0.Dequeue, h]

theorem RingBuffer0_Dequeue_ok {α : Type} (w r C : Nat) (buf : List (Option α))
    (item : Option α) (h : w ≠ r) (h0 : 0 < C) (hi : buf[r % C]? = some item) :
    RingBuffer0.Dequeue ⟨w, r, C, buf⟩ = .ret (⟨w, add64 r 1, C, buf⟩, item, none) := by
  have h2 : C ≠ 0 := Nat.pos_iff_ne_zero.mp h0
  simp [RingBuffer0.Dequeue, h, h2, hi]

theorem RingBuffer1_Enqueue_full {α : Type} (w r C m : Nat) (buf : List (Option α))
    (x : Option α) (h : sub64 w r = C) :
    RingBuffer1.Enqueue ⟨w, r, C, m, buf⟩ x
      = .ret (⟨w, r, C, m, buf⟩, some Err.ErrBufferFull) := by
  simp [RingBuffer1.Enqueue, h]

theorem RingBuffer1_Enqueue_ok {α : Type} (w r C m : Nat) (buf : List (Option α))
    (x : Option α) (h : sub64 w r ≠ C) (h1 : w &&& m < buf.length) :
    RingBuffer1.Enqueue ⟨w, r, C, m, buf⟩ x
      = .ret (⟨add64 w 1, r, C, m, buf.set (w &&& m) x⟩, none) := by
  simp [RingBuffer1.Enqueue, h, h1]

theorem RingBuffer1_Dequeue_empty {α : Type} (w r C m : Nat) (buf : List (Option α))
    (h : w = r) :
    RingBuffer1.Dequeue ⟨w, r, C, m, buf⟩
      = .ret (⟨w, r, C, m, buf⟩, none, some Err.ErrBufferEmpty) := by
  simp [RingBuffer1.Dequeue, h]

theorem RingBuffer1_Dequeue_ok {α : Type} (w r C m : Nat) (buf : List (Option α))
    (item : Option α) (h : w ≠ r) (hi : buf[r &&& m]? = some item) :
    RingBuffer1.Dequeue ⟨w, r, C, m, buf⟩ = .ret (⟨w, add64 r 1, C, m, buf⟩, item, none) := by
  simp [RingBuffer1.Dequeue, h, hi]

theorem RingBuffer2_Enqueue_full {α : Type} (w r C : Nat) (buf : List (Option α))
    (x : Option α) (h : sub64 w r = C) :
    RingBuffer2.Enqueue ⟨w, r, C, buf⟩ x = .ret (⟨w, r, C, buf⟩, some Err.ErrBufferFull) := by
  simp [RingBuffer2.Enqueue, h]

theorem RingBuffer2_Enqueue_ok {α : Type} (w r C : Nat) (buf : List (Option α))
    (x : Option α) (h : sub64 w r ≠ C) (h1 : w &&& sub64 C 1 < buf.length) :
    RingBuffer2.Enqueue ⟨w, r, C, buf⟩ x
      = .ret (⟨add64 w 1, r, C, buf.set (w &&& sub64 C 1) x⟩, none) := by
  simp [RingBuffer2.Enqueue, h, h1]

theorem RingBuffer2_Dequeue_empty {α : Type} (w r C : Nat) (buf : List (Option α))
    (h : w = r) :
    RingBuffer2.Dequeue ⟨w, r, C, buf⟩ = .ret (⟨w, r, C, buf⟩, none, some Err.ErrBufferEmpty) := by
  simp [RingBuffer2.Dequeue, h]

theorem RingBuffer2_Dequeue_ok {α : Type} (w r C : Nat) (buf : List (Option α))
    (item : Option α) (h : w ≠ r) (hi : buf[r &&& sub64 C 1]? = some item) :
    RingBuffer2.Dequeue ⟨w, r, C, buf⟩ = .ret (⟨w, add64 r 1, C, buf⟩, item, none) := by
  simp [RingBuffer2.Dequeue, h, hi]

theorem RingBuffer3_Enqueue_full {α : Type} (w r C : Nat) (buf : List (Option α))
    (x : Option α) (h : w = add64 r C) :
    RingBuffer3.Enqueue ⟨w, r, C, buf⟩ x = .ret (⟨w, r, C, buf⟩, some Err.ErrBufferFull) := by
  simp [RingBuffer3.Enqueue, ← h]

theorem RingBuffer3_Enqueue_ok {α : Type} (w r C : Nat) (buf : List (Option α))
    (x : Option α) (h : w ≠ add64 r C) (h1 : w &&& sub64 C 1 < buf.length) :
    RingBuffer3.Enqueue ⟨w, r, C, buf⟩ x
      = .ret (⟨add64 w 1, r, C, buf.set (w &&& sub64 C 1) x⟩, none) := by
  simp [RingBuffer3.Enqueue, h, h1]

theorem RingBuffer3_Dequeue_empty {α : Type} (w r C : Nat) (buf : List (Option α))
    (h : w = r) :
    RingBuffer3.Dequeue ⟨w, r, C, buf⟩ = .ret (⟨w, r, C, buf⟩, none, some Err.ErrBufferEmpty) := by
  simp [RingBuffer3.Dequeue, h]

theorem RingBuffer3_Dequeue_ok {α : Type} (w r C : Nat) (buf : List (Option α))
    (item : Option α) (h : w ≠ r) (hi : buf[r &&& sub64 C 1]? = some item) :
    RingBuffer3.Dequeue ⟨w, r, C, buf⟩ = .ret (⟨w, add64 r 1, C, buf⟩, item, none) := by
  simp [RingBuffer3.Dequeue, h, hi]

theorem RingBuffer4_Enqueue_full {α : Type} (w r C : Nat) (buf : List (Option α))
    (x : Option α) (h : w = add64 r C) :
    RingBuffer4.Enqueue ⟨w, r, C, buf⟩ x = .ret (⟨w, r, C, buf⟩, some Err.ErrBufferFull) := by
  simp [RingBuffer4.Enqueue, ← h]

theorem RingBuffer4_Enqueue_ok {α : Type} (w r C : Nat) (buf : List (Option α))
    (x : Option α) (h : w ≠ add64 r C) (h1 : w &&& sub64 C 1 < buf.length) :
    RingBuffer4.Enqueue ⟨w, r, C, buf⟩ x
      = .ret (⟨add64 w 1, r, C, buf.set (w &&& sub64 C 1) x⟩, none) := by
  simp [RingBuffer4.Enqueue, h, h1]

theorem RingBuffer4_Dequeue_empty {α : Type} (w r C : Nat) (buf : List (Option α))
    (h : w = r) :
    RingBuffer4.Dequeue ⟨w, r, C, buf⟩ = .ret (⟨w, r, C, buf⟩, none, some Err.ErrBufferEmpty) := by
  simp [RingBuffer4.Dequeue, h]

theorem RingBuffer4_Dequeue_ok {α : Type} (w r C : Nat) (buf : List (Option α))
    (item : Option α) (h : w ≠ r) (hi : buf[r &&& sub64 C 1]? = some item) :
    RingBuffer4.Dequeue ⟨w, r, C, buf⟩ = .ret (⟨w, add64 r 1, C, buf⟩, item, none) := by
  simp [RingBuffer4.Dequeue, h, hi]

theorem RingBuffer5_Enqueue_full {α : Type} (w r wc rc C : Nat) (buf : List (Option α))
    (x : Option α) (h1 : w = add64 rc C) (h2 : w = add64 r C) :
    RingBuffer5.Enqueue ⟨w, r, wc, rc, C, buf⟩ x
      = .ret (⟨w, r, wc, r, C, buf⟩, some Err.ErrBufferFull) := by
  simp [RingBuffer5.Enqueue, ← h1, ← h2]

theorem RingBuffer5_Enqueue_refresh {α : Type} (w r wc rc C : Nat) (buf : List (Option α))
    (x : Option α) (h1 : w = add64 rc C) (h2 : w ≠ add64 r C)
    (hb : w &&& sub64 C 1 < buf.length) :
    RingBuffer5.Enqueue ⟨w, r, wc, rc, C, buf⟩ x
      = .ret (⟨add64 w 1, r, wc, r, C, buf.set (w &&& sub64 C 1) x⟩, none) := by
  simp [RingBuffer5.Enqueue, RingBuffer5.enqueueStore, ← h1, h2, hb]

theorem RingBuffer5_Enqueue_ok {α : Type} (w r wc rc C : Nat) (buf : List (Option α))
    (x : Option α) (h1 : w ≠ add64 rc C) (hb : w &&& sub64 C 1 < buf.length) :
    RingBuffer5.Enqueue ⟨w, r, wc, rc, C, buf⟩ x
      = .ret (⟨add64 w 1, r, wc, rc, C, buf.set (w &&& sub64 C 1) x⟩, none) := by
  simp [RingBuffer5.Enqueue, RingBuffer5.enqueueStore, h1, hb]

theorem RingBuffer5_Dequeue_empty {α : Type} (w r wc rc C : Nat) (buf : List (Option α))
    (h1 : wc = r) (h2 : w = r) :
    RingBuffer5.Dequeue ⟨w, r, wc, rc, C, buf⟩
      = .ret (⟨w, r, w, rc, C, buf⟩, none, some Err.ErrBufferEmpty) := by
  simp [RingBuffer5.Dequeue, h1, h2]

theorem RingBuffer5_Dequeue_refresh {α : Type} (w r wc rc C : Nat) (buf : List (Option α))
    (item : Option α) (h1 : wc = r) (h2 : w ≠ r) (hi : buf[r &&& sub64 C 1]? = some item) :
    RingBuffer5.Dequeue ⟨w, r, wc, rc, C, buf⟩
      = .ret (⟨w, add64 r 1, w, rc, C, buf⟩, item, none) := by
  simp [RingBuffer5.Dequeue, RingBuffer5.dequeueLoad, h1, h2, hi]

theorem RingBuffer5_Dequeue_ok {α : Type} (w r wc rc C : Nat) (buf : List (Option α))
    (item : Option α) (h1 : wc ≠ r) (hi : buf[r &&& sub64 C 1]? = some item) :
    RingBuffer5.Dequeue ⟨w, r, wc, rc, C, buf⟩
      = .ret (⟨w, add64 r 1, wc, rc, C, buf⟩, item, none) := by
  simp [RingBuffer5.Dequeue, RingBuffer5.dequeueLoad, h1, hi]

theorem RingBuffer6_enqueueWait_ok {α : Type} (fuel : Nat) (rb : RingBuffer6 α)
    (read write : Nat) (h : write ≠ add64 read rb.size) :
    RingBuffer6.enqueueWait (fuel + 1) rb read write = some (rb, read) := by
  simp [RingBuffer6.enqueueWait, h]

theorem RingBuffer6_enqueueWait_refresh {α : Type} (fuel : Nat) (rb : RingBuffer6 α)
    (read write : Nat) (h1 : write = add64 read rb.size) (h2 : write ≠ add64 rb.readIdx rb.size) :
    RingBuffer6.enqueueWait (fuel + 2) rb read write
      = some ({ rb with readCache := rb.readIdx }, rb.readIdx) := by
  simp [RingBuffer6.enqueueWait, ← h1, h2]

theorem RingBuffer6_Enqueue_ok {α : Type} (fuel w r wc rc C : Nat) (buf : List (Option α))
    (x : Option α) (h1 : w ≠ add64 rc C) (hb : w &&& sub64 C 1 < buf.length) :
    RingBuffer6.Enqueue (fuel + 1) ⟨w, r, wc, rc, C, buf⟩ x
      = .ret (⟨add64 w 1, r, wc, rc, C, buf.set (w &&& sub64 C 1) x⟩, none) := by
  simp [RingBuffer6.Enqueue, RingBuffer6_enqueueWait_ok fuel ⟨w, r, wc, rc, C, buf⟩ rc w h1, hb]

theorem RingBuffer6_Enqueue_refresh {α : Type} (fuel w r wc rc C : Nat)
    (buf : List (Option α)) (x : Option α) (h1 : w = add64 rc C) (h2 : w ≠ add64 r C)
    (hb : w &&& sub64 C 1 < buf.length) :
    RingBuffer6.Enqueue (fuel + 2) ⟨w, r, wc, rc, C, buf⟩ x
      = .ret (⟨add64 w 1, r, wc, r, C, buf.set (w &&& sub64 C 1) x⟩, none) := by
  simp [RingBuffer6.Enqueue,
    RingBuffer6_enqueueWait_refresh fuel ⟨w, r, wc, rc, C, buf⟩ rc w h1 h2, hb]

theorem RingBuffer6_dequeueWait_ok {α : Type} (fuel : Nat) (rb : RingBuffer6 α)
    (write read : Nat) (h : write ≠ read) :
    RingBuffer6.dequeueWait (fuel + 1) rb write read = some (rb, write) := by
  simp [RingBuffer6.dequeueWait, h]

theorem RingBuffer6_dequeueWait_refresh {α : Type} (fuel : Nat) (rb : RingBuffer6 α)
    (write read : Nat) (h1 : write = read) (h2 : rb.writeIdx ≠ read) :
    RingBuffer6.dequeueWait (fuel + 2) rb write read
      = some ({ rb with writeCache := rb.writeIdx }, rb.writeIdx) := by
  simp [RingBuffer6.dequeueWait, h1, h2]

theorem RingBuffer6_Dequeue_ok {α : Type} (fuel w r wc rc C : Nat) (buf : List (Option α))
    (item : Option α) (h1 : wc ≠ r) (hi : buf[r &&& sub64 C 1]? = some item) :
    RingBuffer6.Dequeue (fuel + 1) ⟨w, r, wc, rc, C, buf⟩
      = .ret (⟨w, add64 r 1, wc, rc, C, buf⟩, item, none) := by
  simp [RingBuffer6.Dequeue, RingBuffer6_dequeueWait_ok fuel ⟨w, r, wc, rc, C, buf⟩ wc r h1, hi]

theorem RingBuffer6_Dequeue_refresh {α : Type} (fuel w r wc rc C : Nat)
    (buf : List (Option α)) (item : Option α) (h1 : wc = r) (h2 : w ≠ r)
    (hi : buf[r &&& sub64 C 1]? = some item) :
    RingBuffer6.Dequeue (fuel + 2) ⟨w, r, wc, rc, C, buf⟩
      = .ret (⟨w, add64 r 1, w, rc, C, buf⟩, item, none) := by
  simp [RingBuffer6.Dequeue,
    RingBuffer6_dequeueWait_refresh fuel ⟨w, r, wc, rc, C, buf⟩ wc r h1 h2, hi]

theorem CompareAndSwapUint64_same (c new : Nat) :
    CompareAndSwapUint64 c c new = (new, true) := by
  simp [CompareAndSwapUint64]

theorem RingBuffer7_wo_pad_Enqueue_full {α : Type} (w r m : Nat) (nodes : List (node α))
    (x : Option α) (n : node α) (hn : nodes[w &&& m]? = some n) (h : n.position ≠ w) :
    RingBuffer7_wo_pad.Enqueue ⟨w, r, m, nodes⟩ x
      = .ret (⟨w, r, m, nodes⟩, some Err.ErrBufferFull) := by
  simp [RingBuffer7_wo_pad.Enqueue, hn, h]

theorem RingBuffer7_wo_pad_Enqueue_ok {α : Type} (w r m : Nat) (nodes : List (node α))
    (x : Option α) (n : node α) (hn : nodes[w &&& m]? = some n) (h : n.position = w) :
    RingBuffer7_wo_pad.Enqueue ⟨w, r, m, nodes⟩ x
      = .ret (⟨add64 w 1, r, m, nodes.set (w &&& m) ⟨add64 w 1, x⟩⟩, none) := by
  simp [RingBuffer7_wo_pad.Enqueue, hn, h, CompareAndSwapUint64_same]

theorem RingBuffer7_wo_pad_Dequeue_empty {α : Type} (w r m : Nat) (nodes : List (node α))
    (n : node α) (hn : nodes[r &&& m]? = some n) (h : n.position ≠ add64 r 1) :
    RingBuffer7_wo_pad.Dequeue ⟨w, r, m, nodes⟩
      = .ret (⟨w, r, m, nodes⟩, none, some Err.ErrBufferEmpty) := by
  simp [RingBuffer7_wo_pad.Dequeue, hn, h]

theorem RingBuffer7_wo_pad_Dequeue_ok {α : Type} (w r m : Nat) (nodes : List (node α))
    (n : node α) (hn : nodes[r &&& m]? = some n) (h : n.position = add64 r 1) :
    RingBuffer7_wo_pad.Dequeue ⟨w, r, m, nodes⟩
      = .ret (⟨w, add64 r 1, m, nodes.set (r &&& m) ⟨add64 (add64 r m) 1, none⟩⟩,
          n.data, none) := by
  simp [RingBuffer7_wo_pad.Dequeue, hn, h, CompareAndSwapUint64_same]

theorem RingBuffer7_Enqueue_full {α : Type} (w r m : Nat) (nodes : List (node α))
    (x : Option α) (n : node α) (hn : nodes[w &&& m]? = some n) (h : n.position ≠ w) :
    RingBuffer7.Enqueue ⟨w, r, m, nodes⟩ x
      = .ret (⟨w, r, m, nodes⟩, some Err.ErrBufferFull) := by
  simp [RingBuffer7.Enqueue, hn, h]

theorem RingBuffer7_Enqueue_ok {α : Type} (w r m : Nat) (nodes : List (node α))
    (x : Option α) (n : node α) (hn : nodes[w &&& m]? = some n) (h : n.position = w) :
    RingBuffer7.Enqueue ⟨w, r, m, nodes⟩ x
      = .ret (⟨add64 w 1, r, m, nodes.set (w &&& m) ⟨add64 w 1, x⟩⟩, none) := by
  simp [RingBuffer7.Enqueue, hn, h, CompareAndSwapUint64_same]

theorem RingBuffer7_Dequeue_empty {α : Type} (w r m : Nat) (nodes : List (node α))
    (n : node α) (hn : nodes[r &&& m]? = some n) (h : n.position ≠ add64 r 1) :
    RingBuffer7.Dequeue ⟨w, r, m, nodes⟩
      = .ret (⟨w, r, m, nodes⟩, none, some Err.ErrBufferEmpty) := by
  simp [RingBuffer7.Dequeue, hn, h]

theorem RingBuffer7_Dequeue_ok {α : Type} (w r m : Nat) (nodes : List (node α))
    (n : node α) (hn : nodes[r &&& m]? = some n) (h : n.position = add64 r 1) :
    RingBuffer7.Dequeue ⟨w, r, m, nodes⟩
      = .ret (⟨w, add64 r 1, m, nodes.set (r &&& m) ⟨add64 (add64 r m) 1, none⟩⟩,
          n.data, none) := by
  simp [RingBuffer7.Dequeue, hn, h, CompareAndSwapUint64_same]

theorem RingBuffer8_enqueueSpin_ok {α : Type} (fuel w r m : Nat) (nodes : List (node α))
    (n : node α) (hn : nodes[w &&& m]? = some n) (h : n.position = w) :
    RingBuffer8.enqueueSpin (fuel + 1) ⟨w, r, m, nodes⟩ w
      = .ret (⟨add64 w 1, r, m, nodes⟩, w) := by
  simp [RingBuffer8.enqueueSpin, hn, h, sub64_self, CompareAndSwapUint64_same]

theorem RingBuffer8_Enqueue_ok {α : Type} (fuel w r m : Nat) (nodes : List (node α))
    (x : Option α) (n : node α) (hn : nodes[w &&& m]? = some n) (h : n.position = w) :
    RingBuffer8.Enqueue (fuel + 1) ⟨w, r, m, nodes⟩ x
      = .ret (⟨add64 w 1, r, m, nodes.set (w &&& m) ⟨add64 w 1, x⟩⟩, none) := by
  simp [RingBuffer8.Enqueue, RingBuffer8_enqueueSpin_ok fuel w r m nodes n hn h]

theorem RingBuffer8_dequeueSpin_ok {α : Type} (fuel w r m : Nat) (nodes : List (node α))
    (n : node α) (hn : nodes[r &&& m]? = some n) (h : n.position = add64 r 1) :
    RingBuffer8.dequeueSpin (fuel + 1) ⟨w, r, m, nodes⟩ r
      = .ret (⟨w, add64 r 1, m, nodes⟩, r, n) := by
  simp [RingBuffer8.dequeueSpin, hn, h, sub64_self, CompareAndSwapUint64_same]

theorem RingBuffer8_Dequeue_ok {α : Type} (fuel w r m : Nat) (nodes : List (node α))
    (n : node α) (hn : nodes[r &&& m]? = some n) (h : n.position = add64 r 1) :
    RingBuffer8.Dequeue (fuel + 1) ⟨w, r, m, nodes⟩
      = .ret (⟨w, add64 r 1, m, nodes.set (r &&& m) ⟨add64 (add64 r m) 1, none⟩⟩,
          n.data, none) := by
  simp [RingBuffer8.Dequeue, RingBuffer8_dequeueSpin_ok fuel w r m nodes n hn h]

/-! ## C1: a fresh buffer takes exactly `C` items -/

theorem add64_zero_left {C : Nat} (hC : C < U64) : add64 0 C = C := by
  rw [add64_of_lt (by omega)]; omega

theorem sub64_zero_right {n : Nat} (hn : n < U64) : sub64 n 0 = n := by
  rw [sub64_of_le (Nat.zero_le _) hn]; omega

theorem RingBuffer0_enqueues_then_full {α : Type} (C : Nat) (hC : C < U64) (y : Option α)
    (xs : List (Option α)) : ∀ (n : Nat) (buf : List (Option α)),
    n + xs.length = C → buf.length = C →
    ∃ rb, runOps RingBuffer0.step (⟨n, 0, C, buf⟩ : RingBuffer0 α)
        (xs.map Op.enq ++ [Op.enq y])
      = .ret (rb, List.replicate xs.length { item := none, err := none }
          ++ [{ item := none, err := some Err.ErrBufferFull }]) := by
  induction xs with
  | nil =>
    intro n buf hn hb
    have hn : n = C := by simpa using hn
    have h1 : sub64 n 0 = C := by rw [sub64_zero_right (by omega)]; omega
    refine ⟨⟨n, 0, C, buf⟩, runOps_cons_ret RingBuffer0.step ?_ rfl⟩
    rw [RingBuffer0_step_enq, RingBuffer0_Enqueue_full _ _ _ _ _ h1, enqRet_ret]
  | cons x xs ih =>
    intro n buf hn hb
    have hn : n + xs.length + 1 = C := by simpa [Nat.add_assoc] using hn
    have h1 : sub64 n 0 ≠ C := by rw [sub64_zero_right (by omega)]; omega
    obtain ⟨rb, hrb⟩ := ih (n + 1) (buf.set (n % C) x) (by omega) (by simpa using hb)
    refine ⟨rb, runOps_cons_ret RingBuffer0.step ?_ hrb⟩
    rw [RingBuffer0_step_enq, RingBuffer0_Enqueue_ok _ _ _ _ _ h1 (by omega) hb, enqRet_ret, add64_of_lt (by omega)]

theorem RingBuffer0_fresh_capacity {α : Type} (C : Nat) (hC : C < U64)
    (xs : List (Option α)) (hxs : xs.length = C) (y : Option α) :
    (NewRingBuffer0 C : RingBuffer0 α).Dequeue
        = .ret (NewRingBuffer0 C, none, some Err.ErrBufferEmpty) ∧
    ∃ rb, runOps RingBuffer0.step (NewRingBuffer0 C : RingBuffer0 α)
        (xs.map Op.enq ++ [Op.enq y])
      = .ret (rb, List.replicate C { item := none, err := none }
          ++ [{ item := none, err := some Err.ErrBufferFull }]) := by
  refine ⟨RingBuffer0_Dequeue_empty 0 0 C _ rfl, ?_⟩
  have h := RingBuffer0_enqueues_then_full C hC y xs 0 (List.replicate C none)
    (by omega) (by simp)
  rw [hxs] at h
  exact h

theorem RingBuffer1_enqueues_then_full {α : Type} (C : Nat) (hC : C < U64) (y : Option α)
    (xs : List (Option α)) : ∀ (n : Nat) (buf : List (Option α)),
    n + xs.length = C → buf.length = C →
    ∃ rb, runOps RingBuffer1.step (⟨n, 0, C, sub64 C 1, buf⟩ : RingBuffer1 α)
        (xs.map Op.enq ++ [Op.enq y])
      = .ret (rb, List.replicate xs.length { item := none, err := none }
          ++ [{ item := none, err := some Err.ErrBufferFull }]) := by
  induction xs with
  | nil =>
    intro n buf hn hb
    have hn : n = C := by simpa using hn
    have h1 : sub64 n 0 = C := by rw [sub64_zero_right (by omega)]; omega
    refine ⟨⟨n, 0, C, sub64 C 1, buf⟩, runOps_cons_ret RingBuffer1.step ?_ rfl⟩
    rw [RingBuffer1_step_enq, RingBuffer1_Enqueue_full _ _ _ _ _ _ h1, enqRet_ret]
  | cons x xs ih =>
    intro n buf hn hb
    have hn : n + xs.length + 1 = C := by simpa [Nat.add_assoc] using hn
    have h1 : sub64 n 0 ≠ C := by rw [sub64_zero_right (by omega)]; omega
    have h2 : n &&& sub64 C 1 < buf.length := by rw [hb]; exact land_mask_lt n (by omega) hC
    obtain ⟨rb, hrb⟩ := ih (n + 1) (buf.set (n &&& sub64 C 1) x) (by omega) (by simpa using hb)
    refine ⟨rb, runOps_cons_ret RingBuffer1.step ?_ hrb⟩
    rw [RingBuffer1_step_enq, RingBuffer1_Enqueue_ok _ _ _ _ _ _ h1 h2, enqRet_ret, add64_of_lt (by omega)]

theorem RingBuffer1_fresh_capacity {α : Type} (C : Nat) (hC : C < U64)
    (xs : List (Option α)) (hxs : xs.length = C) (y : Option α) :
    (NewRingBuffer1 C : RingBuffer1 α).Dequeue
        = .ret (NewRingBuffer1 C, none, some Err.ErrBufferEmpty) ∧
    ∃ rb, runOps RingBuffer1.step (NewRingBuffer1 C : RingBuffer1 α)
        (xs.map Op.enq ++ [Op.enq y])
      = .ret (rb, List.replicate C { item := none, err := none }
          ++ [{ item := none, err := some Err.ErrBufferFull }]) := by
  refine ⟨RingBuffer1_Dequeue_empty 0 0 C _ _ rfl, ?_⟩
  have h := RingBuffer1_enqueues_then_full C hC y xs 0 (List.replicate C none)
    (by omega) (by simp)
  rw [hxs] at h
  exact h

theorem RingBuffer2_enqueues_then_full {α : Type} (C : Nat) (hC : C < U64) (y : Option α)
    (xs : List (Option α)) : ∀ (n : Nat) (buf : List (Option α)),
    n + xs.length = C → buf.length = C →
    ∃ rb, runOps RingBuffer2.step (⟨n, 0, C, buf⟩ : RingBuffer2 α)
        (xs.map Op.enq ++ [Op.enq y])
      = .ret (rb, List.replicate xs.length { item := none, err := none }
          ++ [{ item := none, err := some Err.ErrBufferFull }]) := by
  induction xs with
  | nil =>
    intro n buf hn hb
    have hn : n = C := by simpa using hn
    have h1 : sub64 n 0 = C := by rw [sub64_zero_right (by omega)]; omega
    refine ⟨⟨n, 0, C, buf⟩, runOps_cons_ret RingBuffer2.step ?_ rfl⟩
    rw [RingBuffer2_step_enq, RingBuffer2_Enqueue_full _ _ _ _ _ h1, enqRet_ret]
  | cons x xs ih =>
    intro n buf hn hb
    have hn : n + xs.length + 1 = C := by simpa [Nat.add_assoc] using hn
    have h1 : sub64 n 0 ≠ C := by rw [sub64_zero_right (by omega)]; omega
    have h2 : n &&& sub64 C 1 < buf.length := by rw [hb]; exact land_mask_lt n (by omega) hC
    obtain ⟨rb, hrb⟩ := ih (n + 1) (buf.set (n &&& sub64 C 1) x) (by omega) (by simpa using hb)
    refine ⟨rb, runOps_cons_ret RingBuffer2.step ?_ hrb⟩
    rw [RingBuffer2_step_enq, RingBuffer2_Enqueue_ok _ _ _ _ _ h1 h2, enqRet_ret, add64_of_lt (by omega)]

theorem RingBuffer2_fresh_capacity {α : Type} (C : Nat) (hC : C < U64)
    (xs : List (Option α)) (hxs : xs.length = C) (y : Option α) :
    (NewRingBuffer2 C : RingBuffer2 α).Dequeue
        = .ret (NewRingBuffer2 C, none, some Err.ErrBufferEmpty) ∧
    ∃ rb, runOps RingBuffer2.step (NewRingBuffer2 C : RingBuffer2 α)
        (xs.map Op.enq ++ [Op.enq y])
      = .ret (rb, List.replicate C { item := none, err := none }
          ++ [{ item := none, err := some Err.ErrBufferFull }]) := by
  refine ⟨RingBuffer2_Dequeue_empty 0 0 C _ rfl, ?_⟩
  have h := RingBuffer2_enqueues_then_full C hC y xs 0 (List.replicate C none)
    (by omega) (by simp)
  rw [hxs] at h
  exact h

theorem RingBuffer3_enqueues_then_full {α : Type} (C : Nat) (hC : C < U64) (y : Option α)
    (xs : List (Option α)) : ∀ (n : Nat) (buf : List (Option α)),
    n + xs.length = C → buf.length = C →
    ∃ rb, runOps RingBuffer3.step (⟨n, 0, C, buf⟩ : RingBuffer3 α)
        (xs.map Op.enq ++ [Op.enq y])
      = .ret (rb, List.replicate xs.length { item := none, err := none }
          ++ [{ item := none, err := some Err.ErrBufferFull }]) := by
  induction xs with
  | nil =>
    intro n buf hn hb
    have hn : n = C := by simpa using hn
    have h1 : n = add64 0 C := by rw [add64_zero_left hC]; omega
    refine ⟨⟨n, 0, C, buf⟩, runOps_cons_ret RingBuffer3.step ?_ rfl⟩
    rw [RingBuffer3_step_enq, RingBuffer3_Enqueue_full _ _ _ _ _ h1, enqRet_ret]
  | cons x xs ih =>
    intro n buf hn hb
    have hn : n + xs.length + 1 = C := by simpa [Nat.add_assoc] using hn
    have h1 : n ≠ add64 0 C := by rw [add64_zero_left hC]; omega
    have h2 : n &&& sub64 C 1 < buf.length := by rw [hb]; exact land_mask_lt n (by omega) hC
    obtain ⟨rb, hrb⟩ := ih (n + 1) (buf.set (n &&& sub64 C 1) x) (by omega) (by simpa using hb)
    refine ⟨rb, runOps_cons_ret RingBuffer3.step ?_ hrb⟩
    rw [RingBuffer3_step_enq, RingBuffer3_Enqueue_ok _ _ _ _ _ h1 h2, enqRet_ret, add64_of_lt (by omega)]

theorem RingBuffer3_fresh_capacity {α : Type} (C : Nat) (hC : C < U64)
    (xs : List (Option α)) (hxs : xs.length = C) (y : Option α) :
    (NewRingBuffer3 C : RingBuffer3 α).Dequeue
        = .ret (NewRingBuffer3 C, none, some Err.ErrBufferEmpty) ∧
    ∃ rb, runOps RingBuffer3.step (NewRingBuffer3 C : RingBuffer3 α)
        (xs.map Op.enq ++ [Op.enq y])
      = .ret (rb, List.replicate C { item := none, err := none }
          ++ [{ item := none, err := some Err.ErrBufferFull }]) := by
  refine ⟨RingBuffer3_Dequeue_empty 0 0 C _ rfl, ?_⟩
  have h := RingBuffer3_enqueues_then_full C hC y xs 0 (List.replicate C none)
    (by omega) (by simp)
  rw [hxs] at h
  exact h

theorem RingBuffer4_enqueues_then_full {α : Type} (C : Nat) (hC : C < U64) (y : Option α)
    (xs : List (Option α)) : ∀ (n : Nat) (buf : List (Option α)),
    n + xs.length = C → buf.length = C →
    ∃ rb, runOps RingBuffer4.step (⟨n, 0, C, buf⟩ : RingBuffer4 α)
        (xs.map Op.enq ++ [Op.enq y])
      = .ret (rb, List.replicate xs.length { item := none, err := none }
          ++ [{ item := none, err := some Err.ErrBufferFull }]) := by
  induction xs with
  | nil =>
    intro n buf hn hb
    have hn : n = C := by simpa using hn
    have h1 : n = add64 0 C := by rw [add64_zero_left hC]; omega
    refine ⟨⟨n, 0, C, buf⟩, runOps_cons_ret RingBuffer4.step ?_ rfl⟩
    rw [RingBuffer4_step_enq, RingBuffer4_Enqueue_full _ _ _ _ _ h1, enqRet_ret]
  | cons x xs ih =>
    intro n buf hn hb
    have hn : n + xs.length + 1 = C := by simpa [Nat.add_assoc] using hn
    have h1 : n ≠ add64 0 C := by rw [add64_zero_left hC]; omega
    have h2 : n &&& sub64 C 1 < buf.length := by rw [hb]; exact land_mask_lt n (by omega) hC
    obtain ⟨rb, hrb⟩ := ih (n + 1) (buf.set (n &&& sub64 C 1) x) (by omega) (by simpa using hb)
    refine ⟨rb, runOps_cons_ret RingBuffer4.step ?_ hrb⟩
    rw [RingBuffer4_step_enq, RingBuffer4_Enqueue_ok _ _ _ _ _ h1 h2, enqRet_ret, add64_of_lt (by omega)]

theorem RingBuffer4_fresh_capacity {α : Type} (C : Nat) (hC : C < U64)
    (xs : List (Option α)) (hxs : xs.length = C) (y : Option α) :
    (NewRingBuffer4 C : RingBuffer4 α).Dequeue
        = .ret (NewRingBuffer4 C, none, some Err.ErrBufferEmpty) ∧
    ∃ rb, runOps RingBuffer4.step (NewRingBuffer4 C : RingBuffer4 α)
        (xs.map Op.enq ++ [Op.enq y])
      = .ret (rb, List.replicate C { item := none, err := none }
          ++ [{ item := none, err := some Err.ErrBufferFull }]) := by
  refine ⟨RingBuffer4_Dequeue_empty 0 0 C _ rfl, ?_⟩
  have h := RingBuffer4_enqueues_then_full C hC y xs 0 (List.replicate C none)
    (by omega) (by simp)
  rw [hxs] at h
  exact h

theorem RingBuffer5_enqueues_then_full {α : Type} (C : Nat) (hC : C < U64) (y : Option α)
    (xs : List (Option α)) : ∀ (n : Nat) (buf : List (Option α)),
    n + xs.length = C → buf.length = C →
    ∃ rb, runOps RingBuffer5.step (⟨n, 0, 0, 0, C, buf⟩ : RingBuffer5 α)
        (xs.map Op.enq ++ [Op.enq y])
      = .ret (rb, List.replicate xs.length { item := none, err := none }
          ++ [{ item := none, err := some Err.ErrBufferFull }]) := by
  induction xs with
  | nil =>
    intro n buf hn hb
    have hn : n = C := by simpa using hn
    have h1 : n = add64 0 C := by rw [add64_zero_left hC]; omega
    refine ⟨⟨n, 0, 0, 0, C, buf⟩, runOps_cons_ret RingBuffer5.step ?_ rfl⟩
    rw [RingBuffer5_step_enq, RingBuffer5_Enqueue_full _ _ _ _ _ _ _ h1 h1, enqRet_ret]
  | cons x xs ih =>
    intro n buf hn hb
    have hn : n + xs.length + 1 = C := by simpa [Nat.add_assoc] using hn
    have h1 : n ≠ add64 0 C := by rw [add64_zero_left hC]; omega
    have h2 : n &&& sub64 C 1 < buf.length := by rw [hb]; exact land_mask_lt n (by omega) hC
    obtain ⟨rb, hrb⟩ := ih (n + 1) (buf.set (n &&& sub64 C 1) x) (by omega) (by simpa using hb)
    refine ⟨rb, runOps_cons_ret RingBuffer5.step ?_ hrb⟩
    rw [RingBuffer5_step_enq, RingBuffer5_Enqueue_ok _ _ _ _ _ _ _ h1 h2, enqRet_ret, add64_of_lt (by omega)]

theorem RingBuffer5_fresh_capacity {α : Type} (C : Nat) (hC : C < U64)
    (xs : List (Option α)) (hxs : xs.length = C) (y : Option α) :
    (NewRingBuffer5 C : RingBuffer5 α).Dequeue
        = .ret (NewRingBuffer5 C, none, some Err.ErrBufferEmpty) ∧
    ∃ rb, runOps RingBuffer5.step (NewRingBuffer5 C : RingBuffer5 α)
        (xs.map Op.enq ++ [Op.enq y])
      = .ret (rb, List.replicate C { item := none, err := none }
          ++ [{ item := none, err := some Err.ErrBufferFull }]) := by
  refine ⟨RingBuffer5_Dequeue_empty 0 0 0 0 C _ rfl rfl, ?_⟩
  have h := RingBuffer5_enqueues_then_full C hC y xs 0 (List.replicate C none)
    (by omega) (by simp)
  rw [hxs] at h
  exact h


theorem enqRet_inv {σ α : Type} {o : Outcome (σ × Option Err)} {s : σ} {r : Ret α}
    (h : enqRet o = .ret (s, r)) : o = .ret (s, r.err) ∧ r.item = none := by
  cases o with
  | ret v =>
    obtain ⟨s1, e⟩ := v
    simp only [enqRet, Outcome.ret.injEq, Prod.mk.injEq] at h
    obtain ⟨h1, h2⟩ := h
    subst h1 h2
    exact ⟨rfl, rfl⟩
  | panic => simp [enqRet] at h
  | spinning => simp [enqRet] at h

theorem deqRet_inv {σ α : Type} {o : Outcome (σ × Option α × Option Err)} {s : σ} {r : Ret α}
    (h : deqRet o = .ret (s, r)) : o = .ret (s, r.item, r.err) := by
  cases o with
  | ret v =>
    obtain ⟨s1, x, e⟩ := v
    simp only [deqRet, Outcome.ret.injEq, Prod.mk.injEq] at h
    obtain ⟨h1, h2⟩ := h
    subst h1 h2
    rfl
  | panic => simp [deqRet] at h
  | spinning => simp [deqRet] at h

/-! ## Well-formedness is kept by every call -/

theorem RingBuffer0_WF_new {α : Type} (C : Nat) :
    (NewRingBuffer0 C : RingBuffer0 α).WF C := by
  have h0 : (0 : Nat) < U64 := by unfold U64; omega
  simp [NewRingBuffer0, RingBuffer0.WF, h0]

theorem RingBuffer0_Enqueue_WF {α : Type} (C : Nat) (rb rb1 : RingBuffer0 α) (x : Option α)
    (e : Option Err) (hwf : rb.WF C) (h : rb.Enqueue x = .ret (rb1, e)) : rb1.WF C := by
  unfold RingBuffer0.WF at hwf ⊢
  unfold RingBuffer0.Enqueue at h
  try dsimp only at h
  repeat' split at h
  all_goals first
    | (simp only [reduceCtorEq] at h)
    | (simp only [Outcome.ret.injEq, Prod.mk.injEq] at h
       obtain ⟨rfl, _⟩ := h
       try simp only [List.length_set]
       refine ⟨hwf.1, hwf.2.1, ?_⟩
       simp only [add64_lt, true_and, hwf.2.2, and_true, and_self])

theorem RingBuffer0_Dequeue_WF {α : Type} (C : Nat) (rb rb1 : RingBuffer0 α) (x : Option α)
    (e : Option Err) (hwf : rb.WF C) (h : rb.Dequeue = .ret (rb1, x, e)) : rb1.WF C := by
  unfold RingBuffer0.WF at hwf ⊢
  unfold RingBuffer0.Dequeue at h
  try dsimp only at h
  repeat' split at h
  all_goals first
    | (simp only [reduceCtorEq] at h)
    | (simp only [Outcome.ret.injEq, Prod.mk.injEq] at h
       obtain ⟨rfl, _⟩ := h
       refine ⟨hwf.1, hwf.2.1, ?_⟩
       simp only [add64_lt, true_and, hwf.2.2, and_true, and_self])

theorem RingBuffer0_WF_step {α : Type} (C : Nat) (rb rb1 : RingBuffer0 α) (op : Op α)
    (r : Ret α) (hwf : rb.WF C) (h : rb.step op = .ret (rb1, r)) : rb1.WF C := by
  cases op with
  | enq x => exact RingBuffer0_Enqueue_WF C rb rb1 x r.err hwf (enqRet_inv h).1
  | deq => exact RingBuffer0_Dequeue_WF C rb rb1 r.item r.err hwf (deqRet_inv h)

theorem RingBuffer0_WF_run {α : Type} (C : Nat) (ops : List (Op α))
    (rb : RingBuffer0 α) (rs : List (Ret α))
    (h : runOps RingBuffer0.step (NewRingBuffer0 C) ops = .ret (rb, rs)) : rb.WF C :=
  runOps_invariant RingBuffer0.step (RingBuffer0.WF C)
    (fun s op s1 r hs h1 => RingBuffer0_WF_step C s s1 op r hs h1)
    ops _ rb rs (RingBuffer0_WF_new C) h

theorem RingBuffer1_WF_new {α : Type} (C : Nat) :
    (NewRingBuffer1 C : RingBuffer1 α).WF C := by
  have h0 : (0 : Nat) < U64 := by unfold U64; omega
  simp [NewRingBuffer1, RingBuffer1.WF, h0]

theorem RingBuffer1_Enqueue_WF {α : Type} (C : Nat) (rb rb1 : RingBuffer1 α) (x : Option α)
    (e : Option Err) (hwf : rb.WF C) (h : rb.Enqueue x = .ret (rb1, e)) : rb1.WF C := by
  unfold RingBuffer1.WF at hwf ⊢
  unfold RingBuffer1.Enqueue at h
  try dsimp only at h
  repeat' split at h
  all_goals first
    | (simp only [reduceCtorEq] at h)
    | (simp only [Outcome.ret.injEq, Prod.mk.injEq] at h
       obtain ⟨rfl, _⟩ := h
       try simp only [List.length_set]
       refine ⟨hwf.1, hwf.2.1, ?_⟩
       simp only [add64_lt, true_and, hwf.2.2, and_true, and_self])

theorem RingBuffer1_Dequeue_WF {α : Type} (C : Nat) (rb rb1 : RingBuffer1 α) (x : Option α)
    (e : Option Err) (hwf : rb.WF C) (h : rb.Dequeue = .ret (rb1, x, e)) : rb1.WF C := by
  unfold RingBuffer1.WF at hwf ⊢
  unfold RingBuffer1.Dequeue at h
  try dsimp only at h
  repeat' split at h
  all_goals first
    | (simp only [reduceCtorEq] at h)
    | (simp only [Outcome.ret.injEq, Prod.mk.injEq] at h
       obtain ⟨rfl, _⟩ := h
       refine ⟨hwf.1, hwf.2.1, ?_⟩
       simp only [add64_lt, true_and, hwf.2.2, and_true, and_self])

theorem RingBuffer1_WF_step {α : Type} (C : Nat) (rb rb1 : RingBuffer1 α) (op : Op α)
    (r : Ret α) (hwf : rb.WF C) (h : rb.step op = .ret (rb1, r)) : rb1.WF C := by
  cases op with
  | enq x => exact RingBuffer1_Enqueue_WF C rb rb1 x r.err hwf (enqRet_inv h).1
  | deq => exact RingBuffer1_Dequeue_WF C rb rb1 r.item r.err hwf (deqRet_inv h)

theorem RingBuffer1_WF_run {α : Type} (C : Nat) (ops : List (Op α))
    (rb : RingBuffer1 α) (rs : List (Ret α))
    (h : runOps RingBuffer1.step (NewRingBuffer1 C) ops = .ret (rb, rs)) : rb.WF C :=
  runOps_invariant RingBuffer1.step (RingBuffer1.WF C)
    (fun s op s1 r hs h1 => RingBuffer1_WF_step C s s1 op r hs h1)
    ops _ rb rs (RingBuffer1_WF_new C) h

theorem RingBuffer2_WF_new {α : Type} (C : Nat) :
    (NewRingBuffer2 C : RingBuffer2 α).WF C := by
  have h0 : (0 : Nat) < U64 := by unfold U64; omega
  simp [NewRingBuffer2, RingBuffer2.WF, h0]

theorem RingBuffer2_Enqueue_WF {α : Type} (C : Nat) (rb rb1 : RingBuffer2 α) (x : Option α)
    (e : Option Err) (hwf : rb.WF C) (h : rb.Enqueue x = .ret (rb1, e)) : rb1.WF C := by
  unfold RingBuffer2.WF at hwf ⊢
  unfold RingBuffer2.Enqueue at h
  try dsimp only at h
  repeat' split at h
  all_goals first
    | (simp only [reduceCtorEq] at h)
    | (simp only [Outcome.ret.injEq, Prod.mk.injEq] at h
       obtain ⟨rfl, _⟩ := h
       try simp only [List.length_set]
       refine ⟨hwf.1, hwf.2.1, ?_⟩
       simp only [add64_lt, true_and, hwf.2.2, and_true, and_self])

theorem RingBuffer2_Dequeue_WF {α : Type} (C : Nat) (rb rb1 : RingBuffer2 α) (x : Option α)
    (e : Option Err) (hwf : rb.WF C) (h : rb.Dequeue = .ret (rb1, x, e)) : rb1.WF C := by
  unfold RingBuffer2.WF at hwf ⊢
  unfold RingBuffer2.Dequeue at h
  try dsimp only at h
  repeat' split at h
  all_goals first
    | (simp only [reduceCtorEq] at h)
    | (simp only [Outcome.ret.injEq, Prod.mk.injEq] at h
       obtain ⟨rfl, _⟩ := h
       refine ⟨hwf.1, hwf.2.1, ?_⟩
       simp only [add64_lt, true_and, hwf.2.2, and_true, and_self])

theorem RingBuffer2_WF_step {α : Type} (C : Nat) (rb rb1 : RingBuffer2 α) (op : Op α)
    (r : Ret α) (hwf : rb.WF C) (h : rb.step op = .ret (rb1, r)) : rb1.WF C := by
  cases op with
  | enq x => exact RingBuffer2_Enqueue_WF C rb rb1 x r.err hwf (enqRet_inv h).1
  | deq => exact RingBuffer2_Dequeue_WF C rb rb1 r.item r.err hwf (deqRet_inv h)

theorem RingBuffer2_WF_run {α : Type} (C : Nat) (ops : List (Op α))
    (rb : RingBuffer2 α) (rs : List (Ret α))
    (h : runOps RingBuffer2.step (NewRingBuffer2 C) ops = .ret (rb, rs)) : rb.WF C :=
  runOps_invariant RingBuffer2.step (RingBuffer2.WF C)
    (fun s op s1 r hs h1 => RingBuffer2_WF_step C s s1 op r hs h1)
    ops _ rb rs (RingBuffer2_WF_new C) h

theorem RingBuffer3_WF_new {α : Type} (C : Nat) :
    (NewRingBuffer3 C : RingBuffer3 α).WF C := by
  have h0 : (0 : Nat) < U64 := by unfold U64; omega
  simp [NewRingBuffer3, RingBuffer3.WF, h0]

theorem RingBuffer3_Enqueue_WF {α : Type} (C : Nat) (rb rb1 : RingBuffer3 α) (x : Option α)
    (e : Option Err) (hwf : rb.WF C) (h : rb.Enqueue x = .ret (rb1, e)) : rb1.WF C := by
  unfold RingBuffer3.WF at hwf ⊢
  unfold RingBuffer3.Enqueue at h
  try dsimp only at h
  repeat' split at h
  all_goals first
    | (simp only [reduceCtorEq] at h)
    | (simp only [Outcome.ret.injEq, Prod.mk.injEq] at h
       obtain ⟨rfl, _⟩ := h
       try simp only [List.length_set]
       refine ⟨hwf.1, hwf.2.1, ?_⟩
       simp only [add64_lt, true_and, hwf.2.2, and_true, and_self])

theorem RingBuffer3_Dequeue_WF {α : Type} (C : Nat) (rb rb1 : RingBuffer3 α) (x : Option α)
    (e : Option Err) (hwf : rb.WF C) (h : rb.Dequeue = .ret (rb1, x, e)) : rb1.WF C := by
  unfold RingBuffer3.WF at hwf ⊢
  unfold RingBuffer3.Dequeue at h
  try dsimp only at h
  repeat' split at h
  all_goals first
    | (simp only [reduceCtorEq] at h)
    | (simp only [Outcome.ret.injEq, Prod.mk.injEq] at h
       obtain ⟨rfl, _⟩ := h
       refine ⟨hwf.1, hwf.2.1, ?_⟩
       simp only [add64_lt, true_and, hwf.2.2, and_true, and_self])

theorem RingBuffer3_WF_step {α : Type} (C : Nat) (rb rb1 : RingBuffer3 α) (op : Op α)
    (r : Ret α) (hwf : rb.WF C) (h : rb.step op = .ret (rb1, r)) : rb1.WF C := by
  cases op with
  | enq x => exact RingBuffer3_Enqueue_WF C rb rb1 x r.err hwf (enqRet_inv h).1
  | deq => exact RingBuffer3_Dequeue_WF C rb rb1 r.item r.err hwf (deqRet_inv h)

theorem RingBuffer3_WF_run {α : Type} (C : Nat) (ops : List (Op α))
    (rb : RingBuffer3 α) (rs : List (Ret α))
    (h : runOps RingBuffer3.step (NewRingBuffer3 C) ops = .ret (rb, rs)) : rb.WF C :=
  runOps_invariant RingBuffer3.step (RingBuffer3.WF C)
    (fun s op s1 r hs h1 => RingBuffer3_WF_step C s s1 op r hs h1)
    ops _ rb rs (RingBuffer3_WF_new C) h

theorem RingBuffer4_WF_new {α : Type} (C : Nat) :
    (NewRingBuffer4 C : RingBuffer4 α).WF C := by
  have h0 : (0 : Nat) < U64 := by unfold U64; omega
  simp [NewRingBuffer4, RingBuffer4.WF, h0]

theorem RingBuffer4_Enqueue_WF {α : Type} (C : Nat) (rb rb1 : RingBuffer4 α) (x : Option α)
    (e : Option Err) (hwf : rb.WF C) (h : rb.Enqueue x = .ret (rb1, e)) : rb1.WF C := by
  unfold RingBuffer4.WF at hwf ⊢
  unfold RingBuffer4.Enqueue at h
  try dsimp only at h
  repeat' split at h
  all_goals first
    | (simp only [reduceCtorEq] at h)
    | (simp only [Outcome.ret.injEq, Prod.mk.injEq] at h
       obtain ⟨rfl, _⟩ := h
       try simp only [List.length_set]
       refine ⟨hwf.1, hwf.2.1, ?_⟩
       simp only [add64_lt, true_and, hwf.2.2, and_true, and_self])

theorem RingBuffer4_Dequeue_WF {α : Type} (C : Nat) (rb rb1 : RingBuffer4 α) (x : Option α)
    (e : Option Err) (hwf : rb.WF C) (h : rb.Dequeue = .ret (rb1, x, e)) : rb1.WF C := by
  unfold RingBuffer4.WF at hwf ⊢
  unfold RingBuffer4.Dequeue at h
  try dsimp only at h
  repeat' split at h
  all_goals first
    | (simp only [reduceCtorEq] at h)
    | (simp only [Outcome.ret.injEq, Prod.mk.injEq] at h
       obtain ⟨rfl, _⟩ := h
       refine ⟨hwf.1, hwf.2.1, ?_⟩
       simp only [add64_lt, true_and, hwf.2.2, and_true, and_self])

theorem RingBuffer4_WF_step {α : Type} (C : Nat) (rb rb1 : RingBuffer4 α) (op : Op α)
    (r : Ret α) (hwf : rb.WF C) (h : rb.step op = .ret (rb1, r)) : rb1.WF C := by
  cases op with
  | enq x => exact RingBuffer4_Enqueue_WF C rb rb1 x r.err hwf (enqRet_inv h).1
  | deq => exact RingBuffer4_Dequeue_WF C rb rb1 r.item r.err hwf (deqRet_inv h)

theorem RingBuffer4_WF_run {α : Type} (C : Nat) (ops : List (Op α))
    (rb : RingBuffer4 α) (rs : List (Ret α))
    (h : runOps RingBuffer4.step (NewRingBuffer4 C) ops = .ret (rb, rs)) : rb.WF C :=
  runOps_invariant RingBuffer4.step (RingBuffer4.WF C)
    (fun s op s1 r hs h1 => RingBuffer4_WF_step C s s1 op r hs h1)
    ops _ rb rs (RingBuffer4_WF_new C) h

theorem RingBuffer5_WF_new {α : Type} (C : Nat) :
    (NewRingBuffer5 C : RingBuffer5 α).WF C := by
  have h0 : (0 : Nat) < U64 := by unfold U64; omega
  simp [NewRingBuffer5, RingBuffer5.WF, h0]

theorem RingBuffer5_Enqueue_WF {α : Type} (C : Nat) (rb rb1 : RingBuffer5 α) (x : Option α)
    (e : Option Err) (hwf : rb.WF C) (h : rb.Enqueue x = .ret (rb1, e)) : rb1.WF C := by
  unfold RingBuffer5.WF at hwf ⊢
  unfold RingBuffer5.Enqueue RingBuffer5.enqueueStore at h
  try dsimp only at h
  repeat' split at h
  all_goals first
    | (simp only [reduceCtorEq] at h)
    | (simp only [Outcome.ret.injEq, Prod.mk.injEq] at h
       obtain ⟨rfl, _⟩ := h
       try simp only [List.length_set]
       refine ⟨hwf.1, hwf.2.1, ?_⟩
       simp only [add64_lt, true_and, hwf.2.2, and_true, and_self])

theorem RingBuffer5_Dequeue_WF {α : Type} (C : Nat) (rb rb1 : RingBuffer5 α) (x : Option α)
    (e : Option Err) (hwf : rb.WF C) (h : rb.Dequeue = .ret (rb1, x, e)) : rb1.WF C := by
  unfold RingBuffer5.WF at hwf ⊢
  unfold RingBuffer5.Dequeue RingBuffer5.dequeueLoad at h
  try dsimp only at h
  repeat' split at h
  all_goals first
    | (simp only [reduceCtorEq] at h)
    | (simp only [Outcome.ret.injEq, Prod.mk.injEq] at h
       obtain ⟨rfl, _⟩ := h
       refine ⟨hwf.1, hwf.2.1, ?_⟩
       simp only [add64_lt, true_and, hwf.2.2, and_true, and_self])

theorem RingBuffer5_WF_step {α : Type} (C : Nat) (rb rb1 : RingBuffer5 α) (op : Op α)
    (r : Ret α) (hwf : rb.WF C) (h : rb.step op = .ret (rb1, r)) : rb1.WF C := by
  cases op with
  | enq x => exact RingBuffer5_Enqueue_WF C rb rb1 x r.err hwf (enqRet_inv h).1
  | deq => exact RingBuffer5_Dequeue_WF C rb rb1 r.item r.err hwf (deqRet_inv h)

theorem RingBuffer5_WF_run {α : Type} (C : Nat) (ops : List (Op α))
    (rb : RingBuffer5 α) (rs : List (Ret α))
    (h : runOps RingBuffer5.step (NewRingBuffer5 C) ops = .ret (rb, rs)) : rb.WF C :=
  runOps_invariant RingBuffer5.step (RingBuffer5.WF C)
    (fun s op s1 r hs h1 => RingBuffer5_WF_step C s s1 op r hs h1)
    ops _ rb rs (RingBuffer5_WF_new C) h

theorem RingBuffer6_enqueueWait_inv {α : Type} : ∀ (fuel : Nat) (rb : RingBuffer6 α)
    (read write : Nat) (rb1 : RingBuffer6 α) (read1 : Nat),
    RingBuffer6.enqueueWait fuel rb read write = some (rb1, read1) →
    rb1.writeIdx = rb.writeIdx ∧ rb1.readIdx = rb.readIdx ∧ rb1.size = rb.size ∧
      rb1.buffers = rb.buffers ∧ rb1.writeCache = rb.writeCache ∧
      (rb1.readCache = rb.readCache ∨ rb1.readCache = rb.readIdx) := by
  intro fuel
  induction fuel with
  | zero =>
    intro rb read write rb1 read1 h
    simp [RingBuffer6.enqueueWait] at h
  | succ fuel ih =>
    intro rb read write rb1 read1 h
    unfold RingBuffer6.enqueueWait at h
    split at h
    · obtain ⟨h1, h2, h3, h4, h5, h6⟩ := ih _ _ _ _ _ h
      refine ⟨h1, h2, h3, h4, h5, Or.inr ?_⟩
      rcases h6 with h6 | h6 <;> exact h6
    · simp only [Option.some.injEq, Prod.mk.injEq] at h
      obtain ⟨rfl, _⟩ := h
      exact ⟨rfl, rfl, rfl, rfl, rfl, Or.inl rfl⟩

theorem RingBuffer6_dequeueWait_inv {α : Type} : ∀ (fuel : Nat) (rb : RingBuffer6 α)
    (write read : Nat) (rb1 : RingBuffer6 α) (write1 : Nat),
    RingBuffer6.dequeueWait fuel rb write read = some (rb1, write1) →
    rb1.writeIdx = rb.writeIdx ∧ rb1.readIdx = rb.readIdx ∧ rb1.size = rb.size ∧
      rb1.buffers = rb.buffers ∧ rb1.readCache = rb.readCache ∧
      (rb1.writeCache = rb.writeCache ∨ rb1.writeCache = rb.writeIdx) := by
  intro fuel
  induction fuel with
  | zero =>
    intro rb write read rb1 write1 h
    simp [RingBuffer6.dequeueWait] at h
  | succ fuel ih =>
    intro rb write read rb1 write1 h
    unfold RingBuffer6.dequeueWait at h
    split at h
    · obtain ⟨h1, h2, h3, h4, h5, h6⟩ := ih _ _ _ _ _ h
      refine ⟨h1, h2, h3, h4, h5, Or.inr ?_⟩
      rcases h6 with h6 | h6 <;> exact h6
    · simp only [Option.some.injEq, Prod.mk.injEq] at h
      obtain ⟨rfl, _⟩ := h
      exact ⟨rfl, rfl, rfl, rfl, rfl, Or.inl rfl⟩

theorem RingBuffer6_WF_new {α : Type} (C : Nat) :
    (NewRingBuffer6 C : RingBuffer6 α).WF C := by
  have h0 : (0 : Nat) < U64 := by unfold U64; omega
  simp [NewRingBuffer6, RingBuffer6.WF, h0]

theorem RingBuffer6_Enqueue_WF {α : Type} (C fuel : Nat) (rb rb1 : RingBuffer6 α)
    (x : Option α) (e : Option Err) (hwf : rb.WF C) (h : rb.Enqueue fuel x = .ret (rb1, e)) :
    rb1.WF C := by
  unfold RingBuffer6.WF at hwf ⊢
  obtain ⟨g1, g2, g3, g4, g5, g6⟩ := hwf
  unfold RingBuffer6.Enqueue at h
  dsimp only at h
  split at h
  · simp only [reduceCtorEq] at h
  · rename_i rb2 read2 heq
    obtain ⟨h1, h2, h3, h4, h5, h6⟩ := RingBuffer6_enqueueWait_inv _ _ _ _ _ _ heq
    split at h
    · simp only [Outcome.ret.injEq, Prod.mk.injEq] at h
      obtain ⟨rfl, _⟩ := h
      simp only [List.length_set]
      refine ⟨h3.trans g1, by rw [h4]; exact g2, add64_lt _ _, by rw [h2]; exact g4,
        by rw [h5]; exact g5, ?_⟩
      rcases h6 with h6 | h6
      · rw [h6]; exact g6
      · rw [h6]; exact g4
    · simp only [reduceCtorEq] at h

theorem RingBuffer6_Dequeue_WF {α : Type} (C fuel : Nat) (rb rb1 : RingBuffer6 α)
    (x : Option α) (e : Option Err) (hwf : rb.WF C) (h : rb.Dequeue fuel = .ret (rb1, x, e)) :
    rb1.WF C := by
  unfold RingBuffer6.WF at hwf ⊢
  obtain ⟨g1, g2, g3, g4, g5, g6⟩ := hwf
  unfold RingBuffer6.Dequeue at h
  dsimp only at h
  split at h
  · simp only [reduceCtorEq] at h
  · rename_i rb2 write2 heq
    obtain ⟨h1, h2, h3, h4, h5, h6⟩ := RingBuffer6_dequeueWait_inv _ _ _ _ _ _ heq
    split at h
    · simp only [Outcome.ret.injEq, Prod.mk.injEq] at h
      obtain ⟨rfl, _⟩ := h
      refine ⟨h3.trans g1, by rw [h4]; exact g2, by rw [h1]; exact g3, add64_lt _ _, ?_,
        by rw [h5]; exact g6⟩
      rcases h6 with h6 | h6
      · rw [h6]; exact g5
      · rw [h6]; exact g3
    · simp only [reduceCtorEq] at h

theorem RingBuffer6_WF_step {α : Type} (C fuel : Nat) (rb rb1 : RingBuffer6 α) (op : Op α)
    (r : Ret α) (hwf : rb.WF C) (h : rb.step fuel op = .ret (rb1, r)) : rb1.WF C := by
  cases op with
  | enq x => exact RingBuffer6_Enqueue_WF C fuel rb rb1 x r.err hwf (enqRet_inv h).1
  | deq => exact RingBuffer6_Dequeue_WF C fuel rb rb1 r.item r.err hwf (deqRet_inv h)

theorem RingBuffer6_WF_run {α : Type} (C fuel : Nat) (ops : List (Op α))
    (rb : RingBuffer6 α) (rs : List (Ret α))
    (h : runOps (RingBuffer6.step fuel) (NewRingBuffer6 C) ops = .ret (rb, rs)) : rb.WF C :=
  runOps_invariant (RingBuffer6.step fuel) (RingBuffer6.WF C)
    (fun s op s1 r hs h1 => RingBuffer6_WF_step C fuel s s1 op r hs h1)
    ops _ rb rs (RingBuffer6_WF_new C) h

/-! ## C4: round trip on an empty buffer, array variants -/

theorem add64_one_ne (w : Nat) : add64 w 1 ≠ w := by
  unfold add64 U64 at *
  omega

theorem add64_ne_self (w : Nat) {C : Nat} (h0 : 0 < C) (hC : C < U64) :
    w ≠ add64 w C := by
  unfold add64 U64 at *
  omega

theorem RingBuffer0_round_trip {α : Type} (C : Nat) (h0 : 0 < C) (rb : RingBuffer0 α)
    (hwf : rb.WF C) (he : rb.writeIdx = rb.readIdx) (x : Option α) :
    ∃ rb1 rb2, rb.Enqueue x = .ret (rb1, none) ∧ rb1.Dequeue = .ret (rb2, x, none) ∧
      rb2.writeIdx = rb2.readIdx := by
  obtain ⟨w, r, sz, buf⟩ := rb
  obtain ⟨h1, h2, h3, h4⟩ := hwf
  simp only at h1 h2 h3 h4 he
  subst h1 he
  have hf : sub64 w w ≠ sz := by rw [sub64_self]; omega
  have hslot : w % sz < buf.length := by rw [h2]; exact Nat.mod_lt _ h0
  exact ⟨_, _, RingBuffer0_Enqueue_ok _ _ _ _ _ hf h0 h2,
    RingBuffer0_Dequeue_ok _ _ _ _ x (add64_one_ne w) h0 (List.getElem?_set_self hslot), rfl⟩

theorem RingBuffer1_round_trip {α : Type} (C : Nat) (h0 : 0 < C) (hC : C < U64)
    (rb : RingBuffer1 α) (hwf : rb.WF C) (he : rb.writeIdx = rb.readIdx) (x : Option α) :
    ∃ rb1 rb2, rb.Enqueue x = .ret (rb1, none) ∧ rb1.Dequeue = .ret (rb2, x, none) ∧
      rb2.writeIdx = rb2.readIdx := by
  obtain ⟨w, r, sz, m, buf⟩ := rb
  obtain ⟨h1, h2, h3, h4, h5⟩ := hwf
  simp only at h1 h2 h3 h4 h5 he
  subst h1 he
  rw [h5]
  have hf : sub64 w w ≠ sz := by rw [sub64_self]; omega
  have hslot : w &&& sub64 sz 1 < buf.length := by rw [h2]; exact land_mask_lt w h0 hC
  exact ⟨_, _, RingBuffer1_Enqueue_ok _ _ _ _ _ _ hf hslot,
    RingBuffer1_Dequeue_ok _ _ _ _ _ x (add64_one_ne w) (List.getElem?_set_self hslot), rfl⟩

theorem RingBuffer2_round_trip {α : Type} (C : Nat) (h0 : 0 < C) (hC : C < U64)
    (rb : RingBuffer2 α) (hwf : rb.WF C) (he : rb.writeIdx = rb.readIdx) (x : Option α) :
    ∃ rb1 rb2, rb.Enqueue x = .ret (rb1, none) ∧ rb1.Dequeue = .ret (rb2, x, none) ∧
      rb2.writeIdx = rb2.readIdx := by
  obtain ⟨w, r, sz, buf⟩ := rb
  obtain ⟨h1, h2, h3, h4⟩ := hwf
  simp only at h1 h2 h3 h4 he
  subst h1 he
  have hf : sub64 w w ≠ sz := by rw [sub64_self]; omega
  have hslot : w &&& sub64 sz 1 < buf.length := by rw [h2]; exact land_mask_lt w h0 hC
  exact ⟨_, _, RingBuffer2_Enqueue_ok _ _ _ _ _ hf hslot,
    RingBuffer2_Dequeue_ok _ _ _ _ x (add64_one_ne w) (List.getElem?_set_self hslot), rfl⟩

theorem RingBuffer3_round_trip {α : Type} (C : Nat) (h0 : 0 < C) (hC : C < U64)
    (rb : RingBuffer3 α) (hwf : rb.WF C) (he : rb.writeIdx = rb.readIdx) (x : Option α) :
    ∃ rb1 rb2, rb.Enqueue x = .ret (rb1, none) ∧ rb1.Dequeue = .ret (rb2, x, none) ∧
      rb2.writeIdx = rb2.readIdx := by
  obtain ⟨w, r, sz, buf⟩ := rb
  obtain ⟨h1, h2, h3, h4⟩ := hwf
  simp only at h1 h2 h3 h4 he
  subst h1 he
  have hslot : w &&& sub64 sz 1 < buf.length := by rw [h2]; exact land_mask_lt w h0 hC
  exact ⟨_, _, RingBuffer3_Enqueue_ok _ _ _ _ _ (add64_ne_self w h0 hC) hslot,
    RingBuffer3_Dequeue_ok _ _ _ _ x (add64_one_ne w) (List.getElem?_set_self hslot), rfl⟩

theorem RingBuffer4_round_trip {α : Type} (C : Nat) (h0 : 0 < C) (hC : C < U64)
    (rb : RingBuffer4 α) (hwf : rb.WF C) (he : rb.writeIdx = rb.readIdx) (x : Option α) :
    ∃ rb1 rb2, rb.Enqueue x = .ret (rb1, none) ∧ rb1.Dequeue = .ret (rb2, x, none) ∧
      rb2.writeIdx = rb2.readIdx := by
  obtain ⟨w, r, sz, buf⟩ := rb
  obtain ⟨h1, h2, h3, h4⟩ := hwf
  simp only at h1 h2 h3 h4 he
  subst h1 he
  have hslot : w &&& sub64 sz 1 < buf.length := by rw [h2]; exact land_mask_lt w h0 hC
  exact ⟨_, _, RingBuffer4_Enqueue_ok _ _ _ _ _ (add64_ne_self w h0 hC) hslot,
    RingBuffer4_Dequeue_ok _ _ _ _ x (add64_one_ne w) (List.getElem?_set_self hslot), rfl⟩

theorem RingBuffer5_Enqueue_some {α : Type} (w r wc rc C : Nat) (buf : List (Option α))
    (x : Option α) (h : w ≠ add64 r C) (hb : w &&& sub64 C 1 < buf.length) :
    ∃ rc1, RingBuffer5.Enqueue ⟨w, r, wc, rc, C, buf⟩ x
      = .ret (⟨add64 w 1, r, wc, rc1, C, buf.set (w &&& sub64 C 1) x⟩, none) := by
  by_cases hc : w = add64 rc C
  · exact ⟨r, RingBuffer5_Enqueue_refresh _ _ _ _ _ _ _ hc h hb⟩
  · exact ⟨rc, RingBuffer5_Enqueue_ok _ _ _ _ _ _ _ hc hb⟩

theorem RingBuffer5_Dequeue_some {α : Type} (w r wc rc C : Nat) (buf : List (Option α))
    (item : Option α) (h : w ≠ r) (hi : buf[r &&& sub64 C 1]? = some item) :
    ∃ wc1, RingBuffer5.Dequeue ⟨w, r, wc, rc, C, buf⟩
      = .ret (⟨w, add64 r 1, wc1, rc, C, buf⟩, item, none) := by
  by_cases hc : wc = r
  · exact ⟨w, RingBuffer5_Dequeue_refresh _ _ _ _ _ _ _ hc h hi⟩
  · exact ⟨wc, RingBuffer5_Dequeue_ok _ _ _ _ _ _ _ hc hi⟩

theorem RingBuffer5_round_trip {α : Type} (C : Nat) (h0 : 0 < C) (hC : C < U64)
    (rb : RingBuffer5 α) (hwf : rb.WF C) (he : rb.writeIdx = rb.readIdx) (x : Option α) :
    ∃ rb1 rb2, rb.Enqueue x = .ret (rb1, none) ∧ rb1.Dequeue = .ret (rb2, x, none) ∧
      rb2.writeIdx = rb2.readIdx := by
  obtain ⟨w, r, wc, rc, sz, buf⟩ := rb
  obtain ⟨h1, h2, h3, h4, _, _⟩ := hwf
  simp only at h1 h2 h3 h4 he
  subst h1 he
  have hslot : w &&& sub64 sz 1 < buf.length := by rw [h2]; exact land_mask_lt w h0 hC
  obtain ⟨rc1, e1⟩ := RingBuffer5_Enqueue_some w w wc rc sz buf x (add64_ne_self w h0 hC) hslot
  obtain ⟨wc1, e2⟩ := RingBuffer5_Dequeue_some (add64 w 1) w wc rc1 sz
    (buf.set (w &&& sub64 sz 1) x) x (add64_one_ne w) (List.getElem?_set_self hslot)
  exact ⟨_, _, e1, e2, rfl⟩

theorem RingBuffer6_Enqueue_some {α : Type} (fuel w r wc rc C : Nat) (buf : List (Option α))
    (x : Option α) (h : w ≠ add64 r C) (hb : w &&& sub64 C 1 < buf.length) :
    ∃ rc1, RingBuffer6.Enqueue (fuel + 2) ⟨w, r, wc, rc, C, buf⟩ x
      = .ret (⟨add64 w 1, r, wc, rc1, C, buf.set (w &&& sub64 C 1) x⟩, none) := by
  by_cases hc : w = add64 rc C
  · exact ⟨r, RingBuffer6_Enqueue_refresh _ _ _ _ _ _ _ _ hc h hb⟩
  · exact ⟨rc, RingBuffer6_Enqueue_ok (fuel + 1) _ _ _ _ _ _ _ hc hb⟩

theorem RingBuffer6_Dequeue_some {α : Type} (fuel w r wc rc C : Nat) (buf : List (Option α))
    (item : Option α) (h : w ≠ r) (hi : buf[r &&& sub64 C 1]? = some item) :
    ∃ wc1, RingBuffer6.Dequeue (fuel + 2) ⟨w, r, wc, rc, C, buf⟩
      = .ret (⟨w, add64 r 1, wc1, rc, C, buf⟩, item, none) := by
  by_cases hc : wc = r
  · exact ⟨w, RingBuffer6_Dequeue_refresh _ _ _ _ _ _ _ _ hc h hi⟩
  · exact ⟨wc, RingBuffer6_Dequeue_ok (fuel + 1) _ _ _ _ _ _ _ hc hi⟩

theorem RingBuffer6_round_trip {α : Type} (C fuel : Nat) (h0 : 0 < C) (hC : C < U64)
    (rb : RingBuffer6 α) (hwf : rb.WF C) (he : rb.writeIdx = rb.readIdx) (x : Option α) :
    ∃ rb1 rb2, rb.Enqueue (fuel + 2) x = .ret (rb1, none) ∧
      rb1.Dequeue (fuel + 2) = .ret (rb2, x, none) ∧ rb2.writeIdx = rb2.readIdx := by
  obtain ⟨w, r, wc, rc, sz, buf⟩ := rb
  obtain ⟨h1, h2, h3, h4, _, _⟩ := hwf
  simp only at h1 h2 h3 h4 he
  subst h1 he
  have hslot : w &&& sub64 sz 1 < buf.length := by rw [h2]; exact land_mask_lt w h0 hC
  obtain ⟨rc1, e1⟩ := RingBuffer6_Enqueue_some fuel w w wc rc sz buf x
    (add64_ne_self w h0 hC) hslot
  obtain ⟨wc1, e2⟩ := RingBuffer6_Dequeue_some fuel (add64 w 1) w wc rc1 sz
    (buf.set (w &&& sub64 sz 1) x) x (add64_one_ne w) (List.getElem?_set_self hslot)
  exact ⟨_, _, e1, e2, rfl⟩

/-! ## Powers of two and slots -/

theorem U64_eq : U64 = 2 ^ 64 := by
  unfold U64; norm_num

theorem pow2_dvd_U64 {k : Nat} (hk : k ≤ 64) : 2 ^ k ∣ U64 := by
  rw [U64_eq]
  exact pow_dvd_pow 2 hk

theorem pow2_lt_U64 {k : Nat} (hk : k < 64) : 2 ^ k < U64 := by
  rw [U64_eq]
  exact Nat.pow_lt_pow_right (by omega) hk

theorem pow2_pos (k : Nat) : 0 < 2 ^ k := Nat.two_pow_pos k

theorem two_le_pow2 {k : Nat} (hk : 1 ≤ k) : 2 ≤ 2 ^ k := by
  calc 2 = 2 ^ 1 := by norm_num
    _ ≤ 2 ^ k := Nat.pow_le_pow_right (by omega) hk

theorem mod_U64_mod (a : Nat) {C : Nat} (h : C ∣ U64) : a % U64 % C = a % C :=
  Nat.mod_mod_of_dvd a h

theorem land_mask_eq_mod (x : Nat) {k : Nat} (hk : k < 64) :
    x &&& sub64 (2 ^ k) 1 = x % 2 ^ k := by
  rw [sub64_of_le (pow2_pos k) (pow2_lt_U64 hk)]
  exact Nat.and_pow_two_sub_one_eq_mod x k

theorem slot_inj {P R i j : Nat} (hi : i < P) (hj : j < P)
    (h : (R + i) % P = (R + j) % P) : i = j := by
  have h1 : i % P = j % P := Nat.ModEq.add_left_cancel' R h
  rwa [Nat.mod_eq_of_lt hi, Nat.mod_eq_of_lt hj] at h1

/-! ## The array representation under `Enqueue` and `Dequeue` -/

theorem ArrInv.new {α : Type} (C : Nat) :
    ArrInv C 0 0 0 (List.replicate C (none : Option α)) [] := by
  refine ⟨by simp, by simp, by simp, by simp, ?_⟩
  intro i x h
  simp at h

theorem ArrInv.diff {α : Type} {C R w r : Nat} {buf q : List (Option α)}
    (h : ArrInv C R w r buf q) (hC : C < U64) : sub64 w r = q.length := by
  obtain ⟨_, h2, h3, h4, _⟩ := h
  unfold sub64
  rw [h2, h3]
  unfold U64 at *
  omega

theorem ArrInv.full_iff {α : Type} {C R w r : Nat} {buf q : List (Option α)}
    (h : ArrInv C R w r buf q) (hC : C < U64) : w = add64 r C ↔ q.length = C := by
  obtain ⟨_, h2, h3, h4, _⟩ := h
  unfold add64
  rw [h2, h3]
  unfold U64 at *
  omega

theorem ArrInv.empty_iff {α : Type} {C R w r : Nat} {buf q : List (Option α)}
    (h : ArrInv C R w r buf q) (hC : C < U64) : w = r ↔ q = [] := by
  obtain ⟨_, h2, h3, h4, _⟩ := h
  rw [← List.length_eq_zero, h2, h3]
  unfold U64 at *
  omega

theorem ArrInv.enq {α : Type} {C R w r : Nat} {buf q : List (Option α)}
    (h : ArrInv C R w r buf q) (hlt : q.length < C) (x : Option α) :
    ArrInv C R (add64 w 1) r (buf.set ((R + q.length) % C) x) (q ++ [x]) := by
  obtain ⟨h1, h2, h3, h4, h5⟩ := h
  have hpos : 0 < C := by omega
  refine ⟨by simpa using h1, h2, ?_, by simpa using hlt, ?_⟩
  · rw [h3, List.length_append, List.length_singleton]
    unfold add64 U64
    omega
  · intro i y hy
    rcases Nat.lt_trichotomy i q.length with hi | hi | hi
    · rw [List.getElem?_append_left hi] at hy
      have hne : (R + q.length) % C ≠ (R + i) % C := fun e =>
        absurd (slot_inj hlt (by omega) e) (by omega)
      rw [List.getElem?_set_ne hne]
      exact h5 i y hy
    · subst hi
      rw [List.getElem?_append_right (Nat.le_refl _)] at hy
      simp only [Nat.sub_self, List.getElem?_cons_zero, Option.some.injEq] at hy
      subst hy
      exact List.getElem?_set_self (by rw [h1]; exact Nat.mod_lt _ hpos)
    · rw [List.getElem?_eq_none (by simp; omega)] at hy
      exact absurd hy (by simp)

theorem ArrInv.deq {α : Type} {C R w r : Nat} {buf q : List (Option α)} {x : Option α}
    (h : ArrInv C R w r buf (x :: q)) :
    buf[R % C]? = some x ∧ ArrInv C (R + 1) w (add64 r 1) buf q := by
  obtain ⟨h1, h2, h3, h4, h5⟩ := h
  refine ⟨by simpa using h5 0 x List.getElem?_cons_zero, h1, ?_, ?_, ?_, ?_⟩
  · rw [h2]
    unfold add64 U64
    omega
  · rw [h3, List.length_cons]
    congr 1
    omega
  · rw [List.length_cons] at h4
    omega
  · intro i y hy
    have := h5 (i + 1) y (by simpa using hy)
    rwa [show R + (i + 1) = R + 1 + i by omega] at this

/-! ## The node representation under `Enqueue` and `Dequeue` -/

theorem initNodes_getElem? {α : Type} {size j : Nat} (h : j < size) :
    (initNodes size : List (node α))[j]? = some { position := j, data := none } := by
  simp [initNodes, List.getElem?_range h]

theorem NodeInv.init {α : Type} {k : Nat} (hk : k < 64) :
    NodeInv k 0 0 0 (sub64 (2 ^ k) 1) (initNodes (2 ^ k) : List (node α)) [] := by
  refine ⟨rfl, by simp [initNodes], by simp, by simp, by simp, ?_, ?_⟩
  · intro i x h
    simp at h
  · intro i _ hi
    have h1 : i < U64 := Nat.lt_trans hi (pow2_lt_U64 hk)
    rw [Nat.zero_add, Nat.mod_eq_of_lt hi, Nat.mod_eq_of_lt h1]
    exact initNodes_getElem? hi

theorem NodeInv.write_node {α : Type} {k R w r m : Nat} {nodes : List (node α)}
    {q : List (Option α)} (h : NodeInv k R w r m nodes q) (hk : k < 64) :
    w &&& m = (R + q.length) % 2 ^ k := by
  obtain ⟨h1, _, _, h4, _⟩ := h
  rw [h1, land_mask_eq_mod w hk, h4]
  exact mod_U64_mod _ (pow2_dvd_U64 (by omega))

theorem NodeInv.read_node {α : Type} {k R w r m : Nat} {nodes : List (node α)}
    {q : List (Option α)} (h : NodeInv k R w r m nodes q) (hk : k < 64) :
    r &&& m = (R + 0) % 2 ^ k := by
  obtain ⟨h1, _, h3, _⟩ := h
  rw [h1, land_mask_eq_mod r hk, h3, Nat.add_zero]
  exact mod_U64_mod _ (pow2_dvd_U64 (by omega))

theorem NodeInv.enq_node {α : Type} {k R w r m : Nat} {nodes : List (node α)}
    {q : List (Option α)} (h : NodeInv k R w r m nodes q) (hk : k < 64)
    (hlt : q.length < 2 ^ k) :
    nodes[w &&& m]? = some { position := w, data := none } := by
  rw [h.write_node hk]
  obtain ⟨_, _, _, h4, _, _, h7⟩ := h
  rw [h4]
  exact h7 q.length (Nat.le_refl _) hlt

theorem NodeInv.push {α : Type} {k R w r m : Nat} {nodes : List (node α)}
    {q : List (Option α)} (h : NodeInv k R w r m nodes q) (hk : k < 64)
    (hlt : q.length < 2 ^ k) (x : Option α) :
    NodeInv k R (add64 w 1) r m
      (nodes.set (w &&& m) { position := add64 w 1, data := x }) (q ++ [x]) := by
  rw [h.write_node hk]
  obtain ⟨h1, h2, h3, h4, h5, h6, h7⟩ := h
  have hw : add64 w 1 = (R + q.length + 1) % U64 := by
    rw [h4]; unfold add64 U64; omega
  refine ⟨h1, by simpa using h2, h3, ?_, by simpa using hlt, ?_, ?_⟩
  · rw [hw, List.length_append, List.length_singleton, Nat.add_assoc]
  · intro i y hy
    rcases Nat.lt_trichotomy i q.length with hi | hi | hi
    · rw [List.getElem?_append_left hi] at hy
      have hne : (R + q.length) % 2 ^ k ≠ (R + i) % 2 ^ k := fun e =>
        absurd (slot_inj hlt (by omega) e) (by omega)
      rw [List.getElem?_set_ne hne]
      exact h6 i y hy
    · subst hi
      rw [List.getElem?_append_right (Nat.le_refl _)] at hy
      simp only [Nat.sub_self, List.getElem?_cons_zero, Option.some.injEq] at hy
      subst hy
      rw [List.getElem?_set_self (by rw [h2]; exact Nat.mod_lt _ (pow2_pos k)), hw]
    · rw [List.getElem?_eq_none (by simp; omega)] at hy
      exact absurd hy (by simp)
  · intro i hi1 hi2
    rw [List.length_append, List.length_singleton] at hi1
    have hne : (R + q.length) % 2 ^ k ≠ (R + i) % 2 ^ k := fun e =>
      absurd (slot_inj hlt hi2 e) (by omega)
    rw [List.getElem?_set_ne hne]
    exact h7 i (by omega) hi2

theorem NodeInv.full_node {α : Type} {k R w r m : Nat} {nodes : List (node α)}
    {q : List (Option α)} (h : NodeInv k R w r m nodes q) (hk1 : 1 ≤ k) (hk : k < 64)
    (hfull : q.length = 2 ^ k) :
    ∃ n, nodes[w &&& m]? = some n ∧ n.position ≠ w ∧ n.position < U64 := by
  rw [h.write_node hk]
  obtain ⟨h1, h2, h3, h4, h5, h6, h7⟩ := h
  have hP := two_le_pow2 hk1
  have hU := pow2_lt_U64 hk
  cases q with
  | nil =>
    rw [List.length_nil] at hfull
    omega
  | cons x0 q =>
    have h0 := h6 0 x0 List.getElem?_cons_zero
    refine ⟨{ position := (R + 0 + 1) % U64, data := x0 }, ?_, ?_,
      Nat.mod_lt _ (by unfold U64; omega)⟩
    · rw [hfull, Nat.add_mod_right]
      rw [Nat.add_zero] at h0
      exact h0
    · show (R + 0 + 1) % U64 ≠ w
      rw [h4, hfull]
      generalize 2 ^ k = P at hP hU
      unfold U64 at *
      omega

theorem NodeInv.deq_node {α : Type} {k R w r m : Nat} {nodes : List (node α)}
    {q : List (Option α)} {x : Option α} (h : NodeInv k R w r m nodes (x :: q))
    (hk : k < 64) :
    nodes[r &&& m]? = some { position := add64 r 1, data := x } := by
  rw [h.read_node hk]
  obtain ⟨_, _, h3, _, _, h6, _⟩ := h
  have hr : add64 r 1 = (R + 0 + 1) % U64 := by
    rw [h3]; unfold add64 U64; omega
  rw [hr]
  exact h6 0 x List.getElem?_cons_zero

theorem NodeInv.pop {α : Type} {k R w r m : Nat} {nodes : List (node α)}
    {q : List (Option α)} {x : Option α} (h : NodeInv k R w r m nodes (x :: q))
    (hk : k < 64) :
    NodeInv k (R + 1) w (add64 r 1) m
      (nodes.set (r &&& m) { position := add64 (add64 r m) 1, data := none }) q := by
  rw [h.read_node hk]
  obtain ⟨h1, h2, h3, h4, h5, h6, h7⟩ := h
  have hU := pow2_lt_U64 hk
  have hP := pow2_pos k
  rw [List.length_cons] at h4 h5 h7
  refine ⟨h1, by simpa using h2, ?_, ?_, by omega, ?_, ?_⟩
  · rw [h3]; unfold add64 U64; omega
  · rw [h4]
    congr 1
    omega
  · intro i y hy
    have hi : i < q.length := by
      rcases Nat.lt_or_ge i q.length with hi | hi
      · exact hi
      · rw [List.getElem?_eq_none hi] at hy
        exact absurd hy (by simp)
    have hne : (R + 0) % 2 ^ k ≠ (R + (i + 1)) % 2 ^ k := fun e =>
      absurd (slot_inj hP (by omega) e) (by omega)
    rw [show R + 1 + i = R + (i + 1) by omega, List.getElem?_set_ne hne]
    exact h6 (i + 1) y (by simpa using hy)
  · intro i hi1 hi2
    rcases Nat.lt_or_ge (i + 1) (2 ^ k) with hi3 | hi3
    · have hne : (R + 0) % 2 ^ k ≠ (R + (i + 1)) % 2 ^ k := fun e =>
        absurd (slot_inj hP hi3 e) (by omega)
      rw [show R + 1 + i = R + (i + 1) by omega, List.getElem?_set_ne hne]
      exact h7 (i + 1) (by omega) hi3
    · have hi4 : i + 1 = 2 ^ k := by omega
      have hs : (R + 1 + i) % 2 ^ k = (R + 0) % 2 ^ k := by
        rw [show R + 1 + i = R + 0 + (i + 1) by omega, hi4, Nat.add_mod_right]
      rw [hs, List.getElem?_set_self (by rw [h2]; exact Nat.mod_lt _ hP)]
      have hpos : add64 (add64 r m) 1 = (R + 1 + i) % U64 := by
        rw [h3, h1, sub64_of_le hP hU, ← hi4]
        unfold add64 U64
        unfold U64 at hU
        omega
      rw [hpos]

theorem NodeInv.empty_node {α : Type} {k R w r m : Nat} {nodes : List (node α)}
    (h : NodeInv k R w r m nodes ([] : List (Option α))) (hk : k < 64) :
    ∃ n, nodes[r &&& m]? = some n ∧ n.position ≠ add64 r 1 ∧ n.position < U64 := by
  rw [h.read_node hk]
  obtain ⟨_, _, h3, _, _, _, h7⟩ := h
  refine ⟨{ position := (R + 0) % U64, data := none }, h7 0 (Nat.le_refl _) (pow2_pos k), ?_,
    Nat.mod_lt _ (by unfold U64; omega)⟩
  show (R + 0) % U64 ≠ add64 r 1
  rw [h3]
  unfold add64 U64
  omega

/-! ## The bounded list queue as a step function -/

theorem SpecQueue.runOps_eq {α : Type} (C : Nat) (ops : List (Op α)) :
    ∀ q : List (Option α), runOps (SpecQueue.stepO C) q ops = .ret (SpecQueue.run C q ops) := by
  induction ops with
  | nil => intro q; rfl
  | cons op ops ih =>
    intro q
    exact runOps_cons_ret (SpecQueue.stepO C) rfl (ih _)

theorem SpecQueue.step_enq_full {α : Type} {C : Nat} {q : List (Option α)} (x : Option α)
    (h : q.length = C) :
    SpecQueue.stepO C q (.enq x) = .ret (q, { item := none, err := some Err.ErrBufferFull }) := by
  simp [SpecQueue.stepO, SpecQueue.step, h]

theorem SpecQueue.step_enq_ok {α : Type} {C : Nat} {q : List (Option α)} (x : Option α)
    (h : q.length ≠ C) :
    SpecQueue.stepO C q (.enq x) = .ret (q ++ [x], { item := none, err := none }) := by
  simp [SpecQueue.stepO, SpecQueue.step, h]

theorem SpecQueue.step_deq_empty {α : Type} (C : Nat) :
    SpecQueue.stepO C ([] : List (Option α)) .deq
      = .ret ([], { item := none, err := some Err.ErrBufferEmpty }) := rfl

theorem SpecQueue.step_deq_ok {α : Type} (C : Nat) (x : Option α) (q : List (Option α)) :
    SpecQueue.stepO C (x :: q) .deq = .ret (q, { item := x, err := none }) := rfl

/-! ## The node-sequence variants refine the bounded queue (capacity `2^k`, `k ≥ 1`) -/

theorem RingBuffer7_Holds_new {α : Type} {k : Nat} (hk : k < 64) :
    (NewRingBuffer7 (2 ^ k) : RingBuffer7 α).Holds k [] :=
  ⟨0, NodeInv.init hk⟩

theorem RingBuffer7_refines_step {α : Type} {k : Nat} (hk1 : 1 ≤ k) (hk : k < 64)
    (rb : RingBuffer7 α) (q : List (Option α)) (op : Op α) (h : rb.Holds k q) :
    ∃ rb1 q1 r, rb.step op = .ret (rb1, r) ∧ SpecQueue.stepO (2 ^ k) q op = .ret (q1, r) ∧
      rb1.Holds k q1 := by
  obtain ⟨w, r, m, nodes⟩ := rb
  obtain ⟨R, h⟩ := h
  simp only at h
  cases op with
  | enq x =>
    by_cases hfull : q.length = 2 ^ k
    · obtain ⟨n, hn, hne, _⟩ := h.full_node hk1 hk hfull
      refine ⟨⟨w, r, m, nodes⟩, _, _, ?_, SpecQueue.step_enq_full x hfull, ⟨R, h⟩⟩
      rw [RingBuffer7_step_enq, RingBuffer7_Enqueue_full _ _ _ _ _ n hn hne, enqRet_ret]
    · have hlt : q.length < 2 ^ k := Nat.lt_of_le_of_ne h.2.2.2.2.1 hfull
      refine ⟨⟨add64 w 1, r, m, nodes.set (w &&& m) ⟨add64 w 1, x⟩⟩, _, _, ?_,
        SpecQueue.step_enq_ok x hfull, ⟨R, h.push hk hlt x⟩⟩
      rw [RingBuffer7_step_enq, RingBuffer7_Enqueue_ok _ _ _ _ _ _ (h.enq_node hk hlt) rfl,
        enqRet_ret]
  | deq =>
    cases q with
    | nil =>
      obtain ⟨n, hn, hne, _⟩ := h.empty_node hk
      refine ⟨⟨w, r, m, nodes⟩, _, _, ?_, SpecQueue.step_deq_empty _, ⟨R, h⟩⟩
      rw [RingBuffer7_step_deq, RingBuffer7_Dequeue_empty _ _ _ _ n hn hne, deqRet_ret]
    | cons x q =>
      refine ⟨⟨w, add64 r 1, m, nodes.set (r &&& m) ⟨add64 (add64 r m) 1, none⟩⟩, _, _, ?_,
        SpecQueue.step_deq_ok _ x q, ⟨R + 1, h.pop hk⟩⟩
      rw [RingBuffer7_step_deq, RingBuffer7_Dequeue_ok _ _ _ _ _ (h.deq_node hk) rfl,
        deqRet_ret]

theorem RingBuffer7_refines {α : Type} {k : Nat} (hk1 : 1 ≤ k) (hk : k < 64)
    (ops : List (Op α)) :
    ∃ rb, runOps RingBuffer7.step (NewRingBuffer7 (2 ^ k) : RingBuffer7 α) ops
        = .ret (rb, (SpecQueue.run (2 ^ k) [] ops).2) ∧
      rb.Holds k (SpecQueue.run (2 ^ k) [] ops).1 := by
  obtain ⟨rb, q, rs, h1, h2, h3⟩ := runOps_sim RingBuffer7.step (SpecQueue.stepO (2 ^ k))
    (RingBuffer7.Holds k) (RingBuffer7_refines_step hk1 hk) ops _ _ (RingBuffer7_Holds_new hk)
  rw [SpecQueue.runOps_eq] at h2
  simp only [Outcome.ret.injEq] at h2
  rw [h2]
  exact ⟨rb, h1, h3⟩

theorem RingBuffer7_wo_pad_Holds_new {α : Type} {k : Nat} (hk : k < 64) :
    (NewRingBuffer7_wo_pad (2 ^ k) : RingBuffer7_wo_pad α).Holds k [] :=
  ⟨0, NodeInv.init hk⟩

theorem RingBuffer7_wo_pad_refines_step {α : Type} {k : Nat} (hk1 : 1 ≤ k) (hk : k < 64)
    (rb : RingBuffer7_wo_pad α) (q : List (Option α)) (op : Op α) (h : rb.Holds k q) :
    ∃ rb1 q1 r, rb.step op = .ret (rb1, r) ∧ SpecQueue.stepO (2 ^ k) q op = .ret (q1, r) ∧
      rb1.Holds k q1 := by
  obtain ⟨w, r, m, nodes⟩ := rb
  obtain ⟨R, h⟩ := h
  simp only at h
  cases op with
  | enq x =>
    by_cases hfull : q.length = 2 ^ k
    · obtain ⟨n, hn, hne, _⟩ := h.full_node hk1 hk hfull
      refine ⟨⟨w, r, m, nodes⟩, _, _, ?_, SpecQueue.step_enq_full x hfull, ⟨R, h⟩⟩
      rw [RingBuffer7_wo_pad_step_enq, RingBuffer7_wo_pad_Enqueue_full _ _ _ _ _ n hn hne, enqRet_ret]
    · have hlt : q.length < 2 ^ k := Nat.lt_of_le_of_ne h.2.2.2.2.1 hfull
      refine ⟨⟨add64 w 1, r, m, nodes.set (w &&& m) ⟨add64 w 1, x⟩⟩, _, _, ?_,
        SpecQueue.step_enq_ok x hfull, ⟨R, h.push hk hlt x⟩⟩
      rw [RingBuffer7_wo_pad_step_enq, RingBuffer7_wo_pad_Enqueue_ok _ _ _ _ _ _ (h.enq_node hk hlt) rfl,
        enqRet_ret]
  | deq =>
    cases q with
    | nil =>
      obtain ⟨n, hn, hne, _⟩ := h.empty_node hk
      refine ⟨⟨w, r, m, nodes⟩, _, _, ?_, SpecQueue.step_deq_empty _, ⟨R, h⟩⟩
      rw [RingBuffer7_wo_pad_step_deq, RingBuffer7_wo_pad_Dequeue_empty _ _ _ _ n hn hne, deqRet_ret]
    | cons x q =>
      refine ⟨⟨w, add64 r 1, m, nodes.set (r &&& m) ⟨add64 (add64 r m) 1, none⟩⟩, _, _, ?_,
        SpecQueue.step_deq_ok _ x q, ⟨R + 1, h.pop hk⟩⟩
      rw [RingBuffer7_wo_pad_step_deq, RingBuffer7_wo_pad_Dequeue_ok _ _ _ _ _ (h.deq_node hk) rfl,
        deqRet_ret]

theorem RingBuffer7_wo_pad_refines {α : Type} {k : Nat} (hk1 : 1 ≤ k) (hk : k < 64)
    (ops : List (Op α)) :
    ∃ rb, runOps RingBuffer7_wo_pad.step (NewRingBuffer7_wo_pad (2 ^ k) : RingBuffer7_wo_pad α) ops
        = .ret (rb, (SpecQueue.run (2 ^ k) [] ops).2) ∧
      rb.Holds k (SpecQueue.run (2 ^ k) [] ops).1 := by
  obtain ⟨rb, q, rs, h1, h2, h3⟩ := runOps_sim RingBuffer7_wo_pad.step (SpecQueue.stepO (2 ^ k))
    (RingBuffer7_wo_pad.Holds k) (RingBuffer7_wo_pad_refines_step hk1 hk) ops _ _ (RingBuffer7_wo_pad_Holds_new hk)
  rw [SpecQueue.runOps_eq] at h2
  simp only [Outcome.ret.injEq] at h2
  rw [h2]
  exact ⟨rb, h1, h3⟩

theorem NodeInv.lt {α : Type} {k R w r m : Nat} {nodes : List (node α)}
    {q : List (Option α)} (h : NodeInv k R w r m nodes q) : w < U64 ∧ r < U64 := by
  obtain ⟨_, _, h3, h4, _⟩ := h
  have h0 : 0 < U64 := by unfold U64; omega
  rw [h3, h4]
  exact ⟨Nat.mod_lt _ h0, Nat.mod_lt _ h0⟩

theorem NodeInv.empty_of_eq {α : Type} {k R w r m : Nat} {nodes : List (node α)}
    {q : List (Option α)} (h : NodeInv k R w r m nodes q) (hk : k < 64) (he : w = r) :
    q = [] := by
  obtain ⟨_, _, h3, h4, h5, _⟩ := h
  have hU := pow2_lt_U64 hk
  rw [← List.length_eq_zero]
  rw [h3, h4] at he
  generalize 2 ^ k = P at h5 hU
  unfold U64 at *
  omega

/-! ## RingBuffer8: a call that cannot proceed spins -/

theorem RingBuffer8_enqueueSpin_stuck {α : Type} (w r m : Nat) (nodes : List (node α))
    (n : node α) (hn : nodes[w &&& m]? = some n) (h : sub64 n.position w ≠ 0) :
    ∀ fuel, RingBuffer8.enqueueSpin fuel ⟨w, r, m, nodes⟩ w = .spinning := by
  intro fuel
  induction fuel with
  | zero => rfl
  | succ fuel ih =>
    unfold RingBuffer8.enqueueSpin
    simp only [hn, h, if_false]
    exact ih

theorem RingBuffer8_dequeueSpin_stuck {α : Type} (w r m : Nat) (nodes : List (node α))
    (n : node α) (hn : nodes[r &&& m]? = some n) (h : sub64 n.position (add64 r 1) ≠ 0) :
    ∀ fuel, RingBuffer8.dequeueSpin fuel ⟨w, r, m, nodes⟩ r = .spinning := by
  intro fuel
  induction fuel with
  | zero => rfl
  | succ fuel ih =>
    unfold RingBuffer8.dequeueSpin
    simp only [hn, h, if_false]
    exact ih

theorem RingBuffer8_Enqueue_stuck {α : Type} (w r m : Nat) (nodes : List (node α))
    (n : node α) (hn : nodes[w &&& m]? = some n) (h : sub64 n.position w ≠ 0)
    (fuel : Nat) (x : Option α) :
    RingBuffer8.Enqueue fuel ⟨w, r, m, nodes⟩ x = .spinning := by
  unfold RingBuffer8.Enqueue
  simp only [RingBuffer8_enqueueSpin_stuck w r m nodes n hn h fuel]

theorem RingBuffer8_Dequeue_stuck {α : Type} (w r m : Nat) (nodes : List (node α))
    (n : node α) (hn : nodes[r &&& m]? = some n) (h : sub64 n.position (add64 r 1) ≠ 0)
    (fuel : Nat) :
    RingBuffer8.Dequeue fuel ⟨w, r, m, nodes⟩ = .spinning := by
  unfold RingBuffer8.Dequeue
  simp only [RingBuffer8_dequeueSpin_stuck w r m nodes n hn h fuel]

theorem RingBuffer8_Holds_new {α : Type} {k : Nat} (hk : k < 64) :
    (NewRingBuffer8 (2 ^ k) : RingBuffer8 α).Holds k [] :=
  ⟨0, NodeInv.init hk⟩

/-- A call on a `RingBuffer8` that returns does what the bounded queue does. -/
theorem RingBuffer8_refines_step {α : Type} {k : Nat} (hk1 : 1 ≤ k) (hk : k < 64)
    (fuel : Nat) (rb rb1 : RingBuffer8 α) (q : List (Option α)) (op : Op α) (r : Ret α)
    (h : rb.Holds k q) (hs : rb.step fuel op = .ret (rb1, r)) :
    SpecQueue.step (2 ^ k) q op = ((SpecQueue.step (2 ^ k) q op).1, r) ∧ r.err = none ∧
      rb1.Holds k (SpecQueue.step (2 ^ k) q op).1 := by
  obtain ⟨w, rd, m, nodes⟩ := rb
  obtain ⟨R, h⟩ := h
  simp only at h
  cases fuel with
  | zero =>
    cases op with
    | enq x => exact absurd hs (by simp [RingBuffer8.step, RingBuffer8.Enqueue,
        RingBuffer8.enqueueSpin, enqRet])
    | deq => exact absurd hs (by simp [RingBuffer8.step, RingBuffer8.Dequeue,
        RingBuffer8.dequeueSpin, deqRet])
  | succ fuel =>
    cases op with
    | enq x =>
      rw [RingBuffer8_step_enq] at hs
      by_cases hfull : q.length = 2 ^ k
      · obtain ⟨n, hn, hne, hlt⟩ := h.full_node hk1 hk hfull
        have hd : sub64 n.position w ≠ 0 := fun e =>
          hne ((sub64_eq_zero hlt h.lt.1).mp e)
        rw [RingBuffer8_Enqueue_stuck w rd m nodes n hn hd] at hs
        exact absurd hs (by simp [enqRet])
      · have hlt : q.length < 2 ^ k := Nat.lt_of_le_of_ne h.2.2.2.2.1 hfull
        rw [RingBuffer8_Enqueue_ok _ _ _ _ _ _ _ (h.enq_node hk hlt) rfl, enqRet_ret] at hs
        simp only [Outcome.ret.injEq, Prod.mk.injEq] at hs
        obtain ⟨rfl, rfl⟩ := hs
        simp only [SpecQueue.step, hfull, if_false, true_and]
        exact ⟨R, h.push hk hlt x⟩
    | deq =>
      rw [RingBuffer8_step_deq] at hs
      cases q with
      | nil =>
        obtain ⟨n, hn, hne, hlt⟩ := h.empty_node hk
        have hd : sub64 n.position (add64 rd 1) ≠ 0 := fun e =>
          hne ((sub64_eq_zero hlt (add64_lt _ _)).mp e)
        rw [RingBuffer8_Dequeue_stuck w rd m nodes n hn hd] at hs
        exact absurd hs (by simp [deqRet])
      | cons x q =>
        rw [RingBuffer8_Dequeue_ok _ _ _ _ _ _ (h.deq_node hk) rfl, deqRet_ret] at hs
        simp only [Outcome.ret.injEq, Prod.mk.injEq] at hs
        obtain ⟨rfl, rfl⟩ := hs
        simp only [SpecQueue.step, true_and]
        exact ⟨R + 1, h.pop hk⟩

/-! ## The node-sequence variants made with capacity 1 -/

theorem OneInv.one_init {α : Type} : OneInv 0 0 (sub64 1 1) (initNodes 1 : List (node α)) := by
  have h0 : (0 : Nat) < U64 := by unfold U64; omega
  exact ⟨sub64_self 1, h0, h0, none, rfl⟩

theorem OneInv.lookup {α : Type} (w i : Nat) (d : Option α) :
    ([{ position := w, data := d }] : List (node α))[i &&& 0]?
      = some { position := w, data := d } := by
  simp

theorem OneInv.one_enq {α : Type} {w r : Nat} (hr : r < U64) (d x : Option α) :
    OneInv (add64 w 1) r 0
      (([{ position := w, data := d }] : List (node α)).set (w &&& 0)
        { position := add64 w 1, data := x }) := by
  refine ⟨rfl, add64_lt _ _, hr, x, ?_⟩
  simp

theorem OneInv.one_deq {α : Type} {w r : Nat} (hw : w < U64) (hr : r < U64) (d : Option α)
    (hp : w = add64 r 1) :
    OneInv w (add64 r 1) 0
      (([{ position := w, data := d }] : List (node α)).set (r &&& 0)
        { position := add64 (add64 r 0) 1, data := none }) := by
  refine ⟨rfl, hw, add64_lt _ _, none, ?_⟩
  have h1 : add64 r 0 = r := add64_of_lt (by omega)
  rw [h1, ← hp]
  simp

theorem RingBuffer7_OneInv_step {α : Type} (rb rb1 : RingBuffer7 α) (op : Op α) (r : Ret α)
    (h : OneInv rb.writeIdx rb.readIdx rb.mask rb.nodes) (hs : rb.step op = .ret (rb1, r)) :
    OneInv rb1.writeIdx rb1.readIdx rb1.mask rb1.nodes := by
  obtain ⟨w, rd, m, nodes⟩ := rb
  obtain ⟨hm, hw, hr, d, hnodes⟩ := h
  simp only at hm hw hr hnodes
  subst hm hnodes
  cases op with
  | enq x =>
    rw [RingBuffer7_step_enq, RingBuffer7_Enqueue_ok _ _ _ _ _ _ (OneInv.lookup w w d) rfl,
      enqRet_ret] at hs
    simp only [Outcome.ret.injEq, Prod.mk.injEq] at hs
    obtain ⟨rfl, _⟩ := hs
    exact OneInv.one_enq hr d x
  | deq =>
    by_cases hp : w = add64 rd 1
    · rw [RingBuffer7_step_deq, RingBuffer7_Dequeue_ok _ _ _ _ _ (OneInv.lookup w rd d) hp,
        deqRet_ret] at hs
      simp only [Outcome.ret.injEq, Prod.mk.injEq] at hs
      obtain ⟨rfl, _⟩ := hs
      exact OneInv.one_deq hw hr d hp
    · rw [RingBuffer7_step_deq, RingBuffer7_Dequeue_empty _ _ _ _ _ (OneInv.lookup w rd d) hp,
        deqRet_ret] at hs
      simp only [Outcome.ret.injEq, Prod.mk.injEq] at hs
      obtain ⟨rfl, _⟩ := hs
      exact ⟨rfl, hw, hr, d, rfl⟩

theorem RingBuffer7_One_round_trip {α : Type} (rb : RingBuffer7 α)
    (h : OneInv rb.writeIdx rb.readIdx rb.mask rb.nodes) (he : rb.writeIdx = rb.readIdx)
    (x : Option α) :
    ∃ rb1 rb2, rb.Enqueue x = .ret (rb1, none) ∧ rb1.Dequeue = .ret (rb2, x, none) ∧
      rb2.writeIdx = rb2.readIdx := by
  obtain ⟨w, rd, m, nodes⟩ := rb
  obtain ⟨hm, hw, hr, d, hnodes⟩ := h
  simp only at hm hw hr hnodes he
  subst hm hnodes he
  have hn : (([{ position := w, data := d }] : List (node α)).set (w &&& 0)
      { position := add64 w 1, data := x })[w &&& 0]?
      = some { position := add64 w 1, data := x } := by simp
  exact ⟨_, _, RingBuffer7_Enqueue_ok _ _ _ _ _ _ (OneInv.lookup w w d) rfl,
    RingBuffer7_Dequeue_ok _ _ _ _ _ hn rfl, rfl⟩

theorem RingBuffer7_Holds_round_trip {α : Type} {k : Nat} (hk : k < 64) (rb : RingBuffer7 α)
    (q : List (Option α)) (h : rb.Holds k q) (he : rb.writeIdx = rb.readIdx) (x : Option α) :
    ∃ rb1 rb2, rb.Enqueue x = .ret (rb1, none) ∧ rb1.Dequeue = .ret (rb2, x, none) ∧
      rb2.writeIdx = rb2.readIdx := by
  obtain ⟨w, rd, m, nodes⟩ := rb
  obtain ⟨R, h⟩ := h
  simp only at h he
  have hq := h.empty_of_eq hk he
  subst hq he
  have h1 := h.push hk (pow2_pos k) x
  exact ⟨_, _, RingBuffer7_Enqueue_ok _ _ _ _ _ _ (h.enq_node hk (pow2_pos k)) rfl,
    RingBuffer7_Dequeue_ok _ _ _ _ _ (h1.deq_node hk) rfl, rfl⟩

/-- Round trip on every empty state reached from a fresh buffer of capacity
`2^k`. -/
theorem RingBuffer7_round_trip {α : Type} {k : Nat} (hk : k < 64) (ops : List (Op α))
    (rb : RingBuffer7 α) (rs : List (Ret α))
    (hrun : runOps RingBuffer7.step (NewRingBuffer7 (2 ^ k)) ops = .ret (rb, rs))
    (he : rb.writeIdx = rb.readIdx) (x : Option α) :
    ∃ rb1 rb2, rb.Enqueue x = .ret (rb1, none) ∧ rb1.Dequeue = .ret (rb2, x, none) ∧
      rb2.writeIdx = rb2.readIdx := by
  rcases Nat.eq_zero_or_pos k with h0 | h1
  · subst h0
    have hinv := runOps_invariant RingBuffer7.step
      (fun rb => OneInv rb.writeIdx rb.readIdx rb.mask rb.nodes)
      (fun s op s1 r hs h1 => RingBuffer7_OneInv_step s s1 op r hs h1)
      ops _ rb rs OneInv.one_init hrun
    exact RingBuffer7_One_round_trip rb hinv he x
  · obtain ⟨rb', hrun', hh⟩ := RingBuffer7_refines (α := α) h1 hk ops
    rw [hrun] at hrun'
    simp only [Outcome.ret.injEq, Prod.mk.injEq] at hrun'
    rw [← hrun'.1] at hh
    exact RingBuffer7_Holds_round_trip hk rb _ hh he x

theorem RingBuffer7_wo_pad_OneInv_step {α : Type} (rb rb1 : RingBuffer7_wo_pad α) (op : Op α) (r : Ret α)
    (h : OneInv rb.writeIdx rb.readIdx rb.mask rb.nodes) (hs : rb.step op = .ret (rb1, r)) :
    OneInv rb1.writeIdx rb1.readIdx rb1.mask rb1.nodes := by
  obtain ⟨w, rd, m, nodes⟩ := rb
  obtain ⟨hm, hw, hr, d, hnodes⟩ := h
  simp only at hm hw hr hnodes
  subst hm hnodes
  cases op with
  | enq x =>
    rw [RingBuffer7_wo_pad_step_enq, RingBuffer7_wo_pad_Enqueue_ok _ _ _ _ _ _ (OneInv.lookup w w d) rfl,
      enqRet_ret] at hs
    simp only [Outcome.ret.injEq, Prod.mk.injEq] at hs
    obtain ⟨rfl, _⟩ := hs
    exact OneInv.one_enq hr d x
  | deq =>
    by_cases hp : w = add64 rd 1
    · rw [RingBuffer7_wo_pad_step_deq, RingBuffer7_wo_pad_Dequeue_ok _ _ _ _ _ (OneInv.lookup w rd d) hp,
        deqRet_ret] at hs
      simp only [Outcome.ret.injEq, Prod.mk.injEq] at hs
      obtain ⟨rfl, _⟩ := hs
      exact OneInv.one_deq hw hr d hp
    · rw [RingBuffer7_wo_pad_step_deq, RingBuffer7_wo_pad_Dequeue_empty _ _ _ _ _ (OneInv.lookup w rd d) hp,
        deqRet_ret] at hs
      simp only [Outcome.ret.injEq, Prod.mk.injEq] at hs
      obtain ⟨rfl, _⟩ := hs
      exact ⟨rfl, hw, hr, d, rfl⟩

theorem RingBuffer7_wo_pad_One_round_trip {α : Type} (rb : RingBuffer7_wo_pad α)
    (h : OneInv rb.writeIdx rb.readIdx rb.mask rb.nodes) (he : rb.writeIdx = rb.readIdx)
    (x : Option α) :
    ∃ rb1 rb2, rb.Enqueue x = .ret (rb1, none) ∧ rb1.Dequeue = .ret (rb2, x, none) ∧
      rb2.writeIdx = rb2.readIdx := by
  obtain ⟨w, rd, m, nodes⟩ := rb
  obtain ⟨hm, hw, hr, d, hnodes⟩ := h
  simp only at hm hw hr hnodes he
  subst hm hnodes he
  have hn : (([{ position := w, data := d }] : List (node α)).set (w &&& 0)
      { position := add64 w 1, data := x })[w &&& 0]?
      = some { position := add64 w 1, data := x } := by simp
  exact ⟨_, _, RingBuffer7_wo_pad_Enqueue_ok _ _ _ _ _ _ (OneInv.lookup w w d) rfl,
    RingBuffer7_wo_pad_Dequeue_ok _ _ _ _ _ hn rfl, rfl⟩

theorem RingBuffer7_wo_pad_Holds_round_trip {α : Type} {k : Nat} (hk : k < 64) (rb : RingBuffer7_wo_pad α)
    (q : List (Option α)) (h : rb.Holds k q) (he : rb.writeIdx = rb.readIdx) (x : Option α) :
    ∃ rb1 rb2, rb.Enqueue x = .ret (rb1, none) ∧ rb1.Dequeue = .ret (rb2, x, none) ∧
      rb2.writeIdx = rb2.readIdx := by
  obtain ⟨w, rd, m, nodes⟩ := rb
  obtain ⟨R, h⟩ := h
  simp only at h he
  have hq := h.empty_of_eq hk he
  subst hq he
  have h1 := h.push hk (pow2_pos k) x
  exact ⟨_, _, RingBuffer7_wo_pad_Enqueue_ok _ _ _ _ _ _ (h.enq_node hk (pow2_pos k)) rfl,
    RingBuffer7_wo_pad_Dequeue_ok _ _ _ _ _ (h1.deq_node hk) rfl, rfl⟩

/-- Round trip on every empty state reached from a fresh buffer of capacity
`2^k`. -/
theorem RingBuffer7_wo_pad_round_trip {α : Type} {k : Nat} (hk : k < 64) (ops : List (Op α))
    (rb : RingBuffer7_wo_pad α) (rs : List (Ret α))
    (hrun : runOps RingBuffer7_wo_pad.step (NewRingBuffer7_wo_pad (2 ^ k)) ops = .ret (rb, rs))
    (he : rb.writeIdx = rb.readIdx) (x : Option α) :
    ∃ rb1 rb2, rb.Enqueue x = .ret (rb1, none) ∧ rb1.Dequeue = .ret (rb2, x, none) ∧
      rb2.writeIdx = rb2.readIdx := by
  rcases Nat.eq_zero_or_pos k with h0 | h1
  · subst h0
    have hinv := runOps_invariant RingBuffer7_wo_pad.step
      (fun rb => OneInv rb.writeIdx rb.readIdx rb.mask rb.nodes)
      (fun s op s1 r hs h1 => RingBuffer7_wo_pad_OneInv_step s s1 op r hs h1)
      ops _ rb rs OneInv.one_init hrun
    exact RingBuffer7_wo_pad_One_round_trip rb hinv he x
  · obtain ⟨rb', hrun', hh⟩ := RingBuffer7_wo_pad_refines (α := α) h1 hk ops
    rw [hrun] at hrun'
    simp only [Outcome.ret.injEq, Prod.mk.injEq] at hrun'
    rw [← hrun'.1] at hh
    exact RingBuffer7_wo_pad_Holds_round_trip hk rb _ hh he x

theorem RingBuffer8_OneInv_step {α : Type} (fuel : Nat) (rb rb1 : RingBuffer8 α) (op : Op α)
    (r : Ret α) (h : OneInv rb.writeIdx rb.readIdx rb.mask rb.nodes)
    (hs : rb.step fuel op = .ret (rb1, r)) :
    OneInv rb1.writeIdx rb1.readIdx rb1.mask rb1.nodes := by
  obtain ⟨w, rd, m, nodes⟩ := rb
  obtain ⟨hm, hw, hr, d, hnodes⟩ := h
  simp only at hm hw hr hnodes
  subst hm hnodes
  cases fuel with
  | zero =>
    cases op with
    | enq x => exact absurd hs (by simp [RingBuffer8.step, RingBuffer8.Enqueue,
        RingBuffer8.enqueueSpin, enqRet])
    | deq => exact absurd hs (by simp [RingBuffer8.step, RingBuffer8.Dequeue,
        RingBuffer8.dequeueSpin, deqRet])
  | succ fuel =>
    cases op with
    | enq x =>
      rw [RingBuffer8_step_enq, RingBuffer8_Enqueue_ok _ _ _ _ _ _ _ (OneInv.lookup w w d) rfl,
        enqRet_ret] at hs
      simp only [Outcome.ret.injEq, Prod.mk.injEq] at hs
      obtain ⟨rfl, _⟩ := hs
      exact OneInv.one_enq hr d x
    | deq =>
      by_cases hp : w = add64 rd 1
      · rw [RingBuffer8_step_deq, RingBuffer8_Dequeue_ok _ _ _ _ _ _ (OneInv.lookup w rd d) hp,
          deqRet_ret] at hs
        simp only [Outcome.ret.injEq, Prod.mk.injEq] at hs
        obtain ⟨rfl, _⟩ := hs
        exact OneInv.one_deq hw hr d hp
      · have hd : sub64 w (add64 rd 1) ≠ 0 := fun e =>
          hp ((sub64_eq_zero hw (add64_lt _ _)).mp e)
        rw [RingBuffer8_step_deq,
          RingBuffer8_Dequeue_stuck w rd 0 _ _ (OneInv.lookup w rd d) hd] at hs
        exact absurd hs (by simp [deqRet])

theorem RingBuffer8_One_round_trip {α : Type} (fuel : Nat) (rb : RingBuffer8 α)
    (h : OneInv rb.writeIdx rb.readIdx rb.mask rb.nodes) (he : rb.writeIdx = rb.readIdx)
    (x : Option α) :
    ∃ rb1 rb2, rb.Enqueue (fuel + 1) x = .ret (rb1, none) ∧
      rb1.Dequeue (fuel + 1) = .ret (rb2, x, none) ∧ rb2.writeIdx = rb2.readIdx := by
  obtain ⟨w, rd, m, nodes⟩ := rb
  obtain ⟨hm, hw, hr, d, hnodes⟩ := h
  simp only at hm hw hr hnodes he
  subst hm hnodes he
  have hn : (([{ position := w, data := d }] : List (node α)).set (w &&& 0)
      { position := add64 w 1, data := x })[w &&& 0]?
      = some { position := add64 w 1, data := x } := by simp
  exact ⟨_, _, RingBuffer8_Enqueue_ok _ _ _ _ _ _ _ (OneInv.lookup w w d) rfl,
    RingBuffer8_Dequeue_ok _ _ _ _ _ _ hn rfl, rfl⟩

theorem RingBuffer8_Holds_round_trip {α : Type} {k : Nat} (hk : k < 64) (fuel : Nat)
    (rb : RingBuffer8 α) (q : List (Option α)) (h : rb.Holds k q)
    (he : rb.writeIdx = rb.readIdx) (x : Option α) :
    ∃ rb1 rb2, rb.Enqueue (fuel + 1) x = .ret (rb1, none) ∧
      rb1.Dequeue (fuel + 1) = .ret (rb2, x, none) ∧ rb2.writeIdx = rb2.readIdx := by
  obtain ⟨w, rd, m, nodes⟩ := rb
  obtain ⟨R, h⟩ := h
  simp only at h he
  have hq := h.empty_of_eq hk he
  subst hq he
  have h1 := h.push hk (pow2_pos k) x
  exact ⟨_, _, RingBuffer8_Enqueue_ok _ _ _ _ _ _ _ (h.enq_node hk (pow2_pos k)) rfl,
    RingBuffer8_Dequeue_ok _ _ _ _ _ _ (h1.deq_node hk) rfl, rfl⟩

/-- Reachable states of a `RingBuffer8` of capacity `2^k`, `k ≥ 1`, hold a
queue. -/
theorem RingBuffer8_Holds_run {α : Type} {k : Nat} (hk1 : 1 ≤ k) (hk : k < 64) (fuel : Nat)
    (ops : List (Op α)) (rb : RingBuffer8 α) (rs : List (Ret α))
    (hrun : runOps (RingBuffer8.step fuel) (NewRingBuffer8 (2 ^ k)) ops = .ret (rb, rs)) :
    ∃ q, rb.Holds k q :=
  runOps_invariant (RingBuffer8.step fuel) (fun rb => ∃ q, rb.Holds k q)
    (fun s op s1 r hs h1 => by
      obtain ⟨q, hq⟩ := hs
      exact ⟨_, (RingBuffer8_refines_step hk1 hk fuel s s1 q op r hq h1).2.2⟩)
    ops _ rb rs ⟨[], RingBuffer8_Holds_new hk⟩ hrun

/-- Round trip on every empty state reached from a fresh `RingBuffer8` of
capacity `2^k`: with fuel for one iteration each call returns. -/
theorem RingBuffer8_round_trip {α : Type} {k : Nat} (hk : k < 64) (fuel fuel1 : Nat)
    (ops : List (Op α)) (rb : RingBuffer8 α) (rs : List (Ret α))
    (hrun : runOps (RingBuffer8.step fuel) (NewRingBuffer8 (2 ^ k)) ops = .ret (rb, rs))
    (he : rb.writeIdx = rb.readIdx) (x : Option α) :
    ∃ rb1 rb2, rb.Enqueue (fuel1 + 1) x = .ret (rb1, none) ∧
      rb1.Dequeue (fuel1 + 1) = .ret (rb2, x, none) ∧ rb2.writeIdx = rb2.readIdx := by
  rcases Nat.eq_zero_or_pos k with h0 | h1
  · subst h0
    have hinv := runOps_invariant (RingBuffer8.step fuel)
      (fun rb => OneInv rb.writeIdx rb.readIdx rb.mask rb.nodes)
      (fun s op s1 r hs h1 => RingBuffer8_OneInv_step fuel s s1 op r hs h1)
      ops _ rb rs OneInv.one_init hrun
    exact RingBuffer8_One_round_trip fuel1 rb hinv he x
  · obtain ⟨q, hh⟩ := RingBuffer8_Holds_run h1 hk fuel ops rb rs hrun
    exact RingBuffer8_Holds_round_trip hk fuel1 rb q hh he x

/-! ## C2: RingBuffer0 is the bounded FIFO queue -/

theorem SpecQueue.run_cons {α : Type} (C : Nat) (q : List (Option α)) (op : Op α)
    (ops : List (Op α)) :
    SpecQueue.run C q (op :: ops)
      = ((SpecQueue.run C (SpecQueue.step C q op).1 ops).1,
         (SpecQueue.step C q op).2 :: (SpecQueue.run C (SpecQueue.step C q op).1 ops).2) := rfl

theorem SpecQueue.enq_full {α : Type} {C : Nat} {q : List (Option α)} (x : Option α)
    (h : q.length = C) :
    SpecQueue.step C q (.enq x) = (q, { item := none, err := some Err.ErrBufferFull }) := by
  simp [SpecQueue.step, h]

theorem SpecQueue.enq_ok {α : Type} {C : Nat} {q : List (Option α)} (x : Option α)
    (h : q.length ≠ C) :
    SpecQueue.step C q (.enq x) = (q ++ [x], { item := none, err := none }) := by
  simp [SpecQueue.step, h]

theorem RingBuffer0_refines_from {α : Type} (C : Nat) (h0 : 0 < C) (hC : C < U64)
    (ops : List (Op α)) : ∀ (w r : Nat) (buf q : List (Option α)),
    ArrInv C r w r buf q → r + q.length + countEnq ops < U64 →
    ∃ rb, runOps RingBuffer0.step (⟨w, r, C, buf⟩ : RingBuffer0 α) ops
      = .ret (rb, (SpecQueue.run C q ops).2) := by
  induction ops with
  | nil =>
    intro w r buf q _ _
    exact ⟨_, rfl⟩
  | cons op ops ih =>
    intro w r buf q h hb
    have hw : w = r + q.length := by
      rw [h.2.2.1]
      exact Nat.mod_eq_of_lt (by unfold countEnq at hb; split at hb <;> omega)
    rw [SpecQueue.run_cons]
    cases op with
    | enq x =>
      simp only [countEnq] at hb
      by_cases hfull : q.length = C
      · obtain ⟨rb, hrb⟩ := ih w r buf q h (by omega)
        rw [SpecQueue.enq_full x hfull]
        refine ⟨rb, runOps_cons_ret RingBuffer0.step ?_ hrb⟩
        rw [RingBuffer0_step_enq,
          RingBuffer0_Enqueue_full _ _ _ _ _ ((h.diff hC).trans hfull), enqRet_ret]
      · have hlt : q.length < C := Nat.lt_of_le_of_ne h.2.2.2.1 hfull
        have h1 := h.enq hlt x
        rw [← hw, add64_of_lt (show w + 1 < U64 by omega)] at h1
        obtain ⟨rb, hrb⟩ := ih (w + 1) r _ _ h1
          (by rw [List.length_append, List.length_singleton]; omega)
        rw [SpecQueue.enq_ok x hfull]
        refine ⟨rb, runOps_cons_ret RingBuffer0.step ?_ hrb⟩
        rw [RingBuffer0_step_enq, RingBuffer0_Enqueue_ok _ _ _ _ _
          (fun e => hfull ((h.diff hC).symm.trans e)) h0 h.1, enqRet_ret,
          add64_of_lt (show w + 1 < U64 by omega)]
    | deq =>
      simp only [countEnq] at hb
      cases q with
      | nil =>
        obtain ⟨rb, hrb⟩ := ih w r buf [] h hb
        refine ⟨rb, runOps_cons_ret RingBuffer0.step ?_ hrb⟩
        rw [RingBuffer0_step_deq,
          RingBuffer0_Dequeue_empty _ _ _ _ ((h.empty_iff hC).mpr rfl), deqRet_ret]
        rfl
      | cons y q =>
        obtain ⟨hy, h1⟩ := h.deq
        rw [List.length_cons] at hb hw
        rw [add64_of_lt (show r + 1 < U64 by omega)] at h1
        obtain ⟨rb, hrb⟩ := ih w (r + 1) buf q h1 (by omega)
        refine ⟨rb, runOps_cons_ret RingBuffer0.step ?_ hrb⟩
        rw [RingBuffer0_step_deq,
          RingBuffer0_Dequeue_ok _ _ _ _ y (by omega) h0 hy, deqRet_ret,
          add64_of_lt (show r + 1 < U64 by omega)]
        rfl

/-! ## C3: the FIFO law -/

theorem SpecQueue.fifo {α : Type} (C : Nat) (ops : List (Op α)) : ∀ q : List (Option α),
    q ++ enqueuedValues ops (SpecQueue.run C q ops).2
      = dequeuedValues ops (SpecQueue.run C q ops).2 ++ (SpecQueue.run C q ops).1 := by
  induction ops with
  | nil =>
    intro q
    simp [SpecQueue.run, enqueuedValues, dequeuedValues]
  | cons op ops ih =>
    intro q
    rw [SpecQueue.run_cons]
    cases op with
    | enq x =>
      by_cases hfull : q.length = C
      · rw [SpecQueue.enq_full x hfull]
        simpa [enqueuedValues, dequeuedValues] using ih q
      · rw [SpecQueue.enq_ok x hfull]
        simpa [enqueuedValues, dequeuedValues] using ih (q ++ [x])
    | deq =>
      cases q with
      | nil => simpa [SpecQueue.step, enqueuedValues, dequeuedValues] using ih []
      | cons y q => simpa [SpecQueue.step, enqueuedValues, dequeuedValues] using ih q

theorem SpecQueue.fifo_take {α : Type} (C : Nat) (ops : List (Op α)) :
    dequeuedValues ops (SpecQueue.run C ([] : List (Option α)) ops).2
      = (enqueuedValues ops (SpecQueue.run C [] ops).2).take
          (dequeuedValues ops (SpecQueue.run C [] ops).2).length := by
  have h := SpecQueue.fifo C ops ([] : List (Option α))
  rw [List.nil_append] at h
  rw [h, List.take_left']
  rfl

theorem ArrInv.write_slot {α : Type} {k R w r : Nat} {buf q : List (Option α)}
    (h : ArrInv (2 ^ k) R w r buf q) (hk : k < 64) :
    w &&& sub64 (2 ^ k) 1 = (R + q.length) % 2 ^ k := by
  rw [land_mask_eq_mod w hk, h.2.2.1]
  exact mod_U64_mod _ (pow2_dvd_U64 (by omega))

theorem ArrInv.read_slot {α : Type} {k R w r : Nat} {buf q : List (Option α)}
    (h : ArrInv (2 ^ k) R w r buf q) (hk : k < 64) :
    r &&& sub64 (2 ^ k) 1 = R % 2 ^ k := by
  rw [land_mask_eq_mod r hk, h.2.1]
  exact mod_U64_mod _ (pow2_dvd_U64 (by omega))

theorem RingBuffer3_Holds_new {α : Type} (k : Nat) :
    (NewRingBuffer3 (2 ^ k) : RingBuffer3 α).Holds k [] :=
  ⟨rfl, 0, ArrInv.new _⟩

theorem RingBuffer3_refines_step {α : Type} {k : Nat} (hk : k < 64)
    (rb : RingBuffer3 α) (q : List (Option α)) (op : Op α) (h : rb.Holds k q) :
    ∃ rb1 q1 r, rb.step op = .ret (rb1, r) ∧ SpecQueue.stepO (2 ^ k) q op = .ret (q1, r) ∧
      rb1.Holds k q1 := by
  obtain ⟨w, r, sz, buf⟩ := rb
  obtain ⟨hsz, R, h⟩ := h
  simp only at hsz h
  subst hsz
  have hC := pow2_lt_U64 hk
  cases op with
  | enq x =>
    by_cases hfull : q.length = 2 ^ k
    · refine ⟨⟨w, r, 2 ^ k, buf⟩, _, _, ?_, SpecQueue.step_enq_full x hfull, ⟨rfl, R, h⟩⟩
      rw [RingBuffer3_step_enq, RingBuffer3_Enqueue_full _ _ _ _ _ ((h.full_iff hC).mpr hfull),
        enqRet_ret]
    · have hlt : q.length < 2 ^ k := Nat.lt_of_le_of_ne h.2.2.2.1 hfull
      have h1 := h.enq hlt x
      rw [← h.write_slot hk] at h1
      refine ⟨⟨add64 w 1, r, 2 ^ k, buf.set (w &&& sub64 (2 ^ k) 1) x⟩, _, _, ?_,
        SpecQueue.step_enq_ok x hfull, ⟨rfl, R, h1⟩⟩
      rw [RingBuffer3_step_enq, RingBuffer3_Enqueue_ok _ _ _ _ _
        (fun e => hfull ((h.full_iff hC).mp e))
        (by rw [h.1]; exact land_mask_lt w (pow2_pos k) hC), enqRet_ret]
  | deq =>
    cases q with
    | nil =>
      refine ⟨⟨w, r, 2 ^ k, buf⟩, _, _, ?_, SpecQueue.step_deq_empty _, ⟨rfl, R, h⟩⟩
      rw [RingBuffer3_step_deq, RingBuffer3_Dequeue_empty _ _ _ _ ((h.empty_iff hC).mpr rfl),
        deqRet_ret]
    | cons x q =>
      obtain ⟨hx, h1⟩ := h.deq
      rw [← h.read_slot hk] at hx
      refine ⟨⟨w, add64 r 1, 2 ^ k, buf⟩, _, _, ?_, SpecQueue.step_deq_ok _ x q, ⟨rfl, _, h1⟩⟩
      rw [RingBuffer3_step_deq, RingBuffer3_Dequeue_ok _ _ _ _ x
        (fun e => absurd ((h.empty_iff hC).mp e) (by simp)) hx, deqRet_ret]

theorem RingBuffer3_refines {α : Type} {k : Nat} (hk : k < 64) (ops : List (Op α)) :
    ∃ rb, runOps RingBuffer3.step (NewRingBuffer3 (2 ^ k) : RingBuffer3 α) ops
        = .ret (rb, (SpecQueue.run (2 ^ k) [] ops).2) ∧
      rb.Holds k (SpecQueue.run (2 ^ k) [] ops).1 := by
  obtain ⟨rb, q, rs, h1, h2, h3⟩ := runOps_sim RingBuffer3.step (SpecQueue.stepO (2 ^ k))
    (RingBuffer3.Holds k) (RingBuffer3_refines_step hk) ops _ _ (RingBuffer3_Holds_new k)
  rw [SpecQueue.runOps_eq] at h2
  simp only [Outcome.ret.injEq] at h2
  rw [h2]
  exact ⟨rb, h1, h3⟩

theorem RingBuffer4_Holds_new {α : Type} (k : Nat) :
    (NewRingBuffer4 (2 ^ k) : RingBuffer4 α).Holds k [] :=
  ⟨rfl, 0, ArrInv.new _⟩

theorem RingBuffer4_refines_step {α : Type} {k : Nat} (hk : k < 64)
    (rb : RingBuffer4 α) (q : List (Option α)) (op : Op α) (h : rb.Holds k q) :
    ∃ rb1 q1 r, rb.step op = .ret (rb1, r) ∧ SpecQueue.stepO (2 ^ k) q op = .ret (q1, r) ∧
      rb1.Holds k q1 := by
  obtain ⟨w, r, sz, buf⟩ := rb
  obtain ⟨hsz, R, h⟩ := h
  simp only at hsz h
  subst hsz
  have hC := pow2_lt_U64 hk
  cases op with
  | enq x =>
    by_cases hfull : q.length = 2 ^ k
    · refine ⟨⟨w, r, 2 ^ k, buf⟩, _, _, ?_, SpecQueue.step_enq_full x hfull, ⟨rfl, R, h⟩⟩
      rw [RingBuffer4_step_enq, RingBuffer4_Enqueue_full _ _ _ _ _ ((h.full_iff hC).mpr hfull),
        enqRet_ret]
    · have hlt : q.length < 2 ^ k := Nat.lt_of_le_of_ne h.2.2.2.1 hfull
      have h1 := h.enq hlt x
      rw [← h.write_slot hk] at h1
      refine ⟨⟨add64 w 1, r, 2 ^ k, buf.set (w &&& sub64 (2 ^ k) 1) x⟩, _, _, ?_,
        SpecQueue.step_enq_ok x hfull, ⟨rfl, R, h1⟩⟩
      rw [RingBuffer4_step_enq, RingBuffer4_Enqueue_ok _ _ _ _ _
        (fun e => hfull ((h.full_iff hC).mp e))
        (by rw [h.1]; exact land_mask_lt w (pow2_pos k) hC), enqRet_ret]
  | deq =>
    cases q with
    | nil =>
      refine ⟨⟨w, r, 2 ^ k, buf⟩, _, _, ?_, SpecQueue.step_deq_empty _, ⟨rfl, R, h⟩⟩
      rw [RingBuffer4_step_deq, RingBuffer4_Dequeue_empty _ _ _ _ ((h.empty_iff hC).mpr rfl),
        deqRet_ret]
    | cons x q =>
      obtain ⟨hx, h1⟩ := h.deq
      rw [← h.read_slot hk] at hx
      refine ⟨⟨w, add64 r 1, 2 ^ k, buf⟩, _, _, ?_, SpecQueue.step_deq_ok _ x q, ⟨rfl, _, h1⟩⟩
      rw [RingBuffer4_step_deq, RingBuffer4_Dequeue_ok _ _ _ _ x
        (fun e => absurd ((h.empty_iff hC).mp e) (by simp)) hx, deqRet_ret]

theorem RingBuffer4_refines {α : Type} {k : Nat} (hk : k < 64) (ops : List (Op α)) :
    ∃ rb, runOps RingBuffer4.step (NewRingBuffer4 (2 ^ k) : RingBuffer4 α) ops
        = .ret (rb, (SpecQueue.run (2 ^ k) [] ops).2) ∧
      rb.Holds k (SpecQueue.run (2 ^ k) [] ops).1 := by
  obtain ⟨rb, q, rs, h1, h2, h3⟩ := runOps_sim RingBuffer4.step (SpecQueue.stepO (2 ^ k))
    (RingBuffer4.Holds k) (RingBuffer4_refines_step hk) ops _ _ (RingBuffer4_Holds_new k)
  rw [SpecQueue.runOps_eq] at h2
  simp only [Outcome.ret.injEq] at h2
  rw [h2]
  exact ⟨rb, h1, h3⟩

/-! ## C10: mask addressing and modulo addressing agree on powers of two -/

theorem RingBuffer1_sim_step {α : Type} {k : Nat} (hk : k < 64) (w r : Nat)
    (buf : List (Option α)) (hb : buf.length = 2 ^ k) (op : Op α) :
    ∃ w1 r1 buf1 ret, buf1.length = 2 ^ k ∧
      RingBuffer1.step ⟨w, r, 2 ^ k, sub64 (2 ^ k) 1, buf⟩ op
        = .ret (⟨w1, r1, 2 ^ k, sub64 (2 ^ k) 1, buf1⟩, ret) ∧
      RingBuffer0.step ⟨w, r, 2 ^ k, buf⟩ op = .ret (⟨w1, r1, 2 ^ k, buf1⟩, ret) := by
  have hP := pow2_pos k
  cases op with
  | enq x =>
    by_cases hfull : sub64 w r = 2 ^ k
    · refine ⟨w, r, buf, ⟨none, some Err.ErrBufferFull⟩, hb, ?_, ?_⟩
      · rw [RingBuffer1_step_enq, RingBuffer1_Enqueue_full _ _ _ _ _ _ hfull, enqRet_ret]
      · rw [RingBuffer0_step_enq, RingBuffer0_Enqueue_full _ _ _ _ _ hfull, enqRet_ret]
    · refine ⟨add64 w 1, r, buf.set (w % 2 ^ k) x, ⟨none, none⟩, by simpa using hb, ?_, ?_⟩
      · rw [RingBuffer1_step_enq, RingBuffer1_Enqueue_ok _ _ _ _ _ _ hfull
          (by rw [hb]; exact land_mask_lt w hP (pow2_lt_U64 hk)), enqRet_ret,
          land_mask_eq_mod w hk]
      · rw [RingBuffer0_step_enq, RingBuffer0_Enqueue_ok _ _ _ _ _ hfull hP hb, enqRet_ret]
  | deq =>
    by_cases he : w = r
    · refine ⟨w, r, buf, ⟨none, some Err.ErrBufferEmpty⟩, hb, ?_, ?_⟩
      · rw [RingBuffer1_step_deq, RingBuffer1_Dequeue_empty _ _ _ _ _ he, deqRet_ret]
      · rw [RingBuffer0_step_deq, RingBuffer0_Dequeue_empty _ _ _ _ he, deqRet_ret]
    · have hlt : r % 2 ^ k < buf.length := by rw [hb]; exact Nat.mod_lt _ hP
      have hi : buf[r % 2 ^ k]? = some (buf.get ⟨r % 2 ^ k, hlt⟩) :=
        List.getElem?_eq_getElem hlt
      refine ⟨w, add64 r 1, buf, ⟨buf.get ⟨r % 2 ^ k, hlt⟩, none⟩, hb, ?_, ?_⟩
      · rw [RingBuffer1_step_deq, RingBuffer1_Dequeue_ok _ _ _ _ _ _ he
          (by rw [land_mask_eq_mod r hk]; exact hi), deqRet_ret]
      · rw [RingBuffer0_step_deq, RingBuffer0_Dequeue_ok _ _ _ _ _ he hP hi, deqRet_ret]

theorem RingBuffer1_sim_RingBuffer0 {α : Type} {k : Nat} (hk : k < 64) (ops : List (Op α)) :
    ∃ (rb1 : RingBuffer1 α) (rb0 : RingBuffer0 α) (rs : List (Ret α)),
      runOps RingBuffer1.step (NewRingBuffer1 (2 ^ k)) ops = .ret (rb1, rs) ∧
      runOps RingBuffer0.step (NewRingBuffer0 (2 ^ k)) ops = .ret (rb0, rs) ∧
      rb1.buffers = rb0.buffers ∧ rb1.writeIdx = rb0.writeIdx ∧
      rb1.readIdx = rb0.readIdx ∧ rb1.size = rb0.size ∧
      ∀ idx, idx &&& rb1.mask = idx % rb0.size := by
  obtain ⟨rb1, rb0, rs, h1, h2, h3⟩ := runOps_sim RingBuffer1.step RingBuffer0.step
    (fun (a : RingBuffer1 α) (b : RingBuffer0 α) =>
      a.writeIdx = b.writeIdx ∧ a.readIdx = b.readIdx ∧ a.size = 2 ^ k ∧ b.size = 2 ^ k ∧
        a.mask = sub64 (2 ^ k) 1 ∧ a.buffers = b.buffers ∧ b.buffers.length = 2 ^ k)
    (fun a b op hab => by
      obtain ⟨w, r, sz, m, buf⟩ := a
      obtain ⟨w', r', sz', buf'⟩ := b
      obtain ⟨e1, e2, e3, e4, e5, e6, e7⟩ := hab
      simp only at e1 e2 e3 e4 e5 e6 e7
      subst e1 e2 e3 e4 e6
      rw [e5]
      obtain ⟨w1, r1, buf1, ret, g1, g2, g3⟩ := RingBuffer1_sim_step hk w r buf e7 op
      exact ⟨_, _, ret, g2, g3, rfl, rfl, rfl, rfl, rfl, rfl, g1⟩)
    ops (NewRingBuffer1 (2 ^ k)) (NewRingBuffer0 (2 ^ k))
    ⟨rfl, rfl, rfl, rfl, rfl, rfl, by simp [NewRingBuffer0]⟩
  obtain ⟨e1, e2, e3, e4, e5, e6, _⟩ := h3
  refine ⟨rb1, rb0, rs, h1, h2, e6, e1, e2, e3.trans e4.symm, ?_⟩
  intro idx
  rw [e5, e4]
  exact land_mask_eq_mod idx hk

/-! ## C7: a failing call changes nothing -/

theorem RingBuffer0_Enqueue_err_unchanged {α : Type} (rb rb1 : RingBuffer0 α) (x : Option α)
    (e : Err) (h : rb.Enqueue x = .ret (rb1, some e)) : rb1 = rb := by
  unfold RingBuffer0.Enqueue at h
  try simp only [CompareAndSwapUint64_same] at h
  repeat' split at h
  all_goals simp only [Outcome.ret.injEq, Prod.mk.injEq, reduceCtorEq, and_false] at h
  all_goals exact h.1.symm

theorem RingBuffer0_Dequeue_err_unchanged {α : Type} (rb rb1 : RingBuffer0 α) (x : Option α)
    (e : Err) (h : rb.Dequeue = .ret (rb1, x, some e)) : rb1 = rb := by
  unfold RingBuffer0.Dequeue at h
  try simp only [CompareAndSwapUint64_same] at h
  repeat' split at h
  all_goals simp only [Outcome.ret.injEq, Prod.mk.injEq, reduceCtorEq, and_false] at h
  all_goals exact h.1.symm

theorem RingBuffer1_Enqueue_err_unchanged {α : Type} (rb rb1 : RingBuffer1 α) (x : Option α)
    (e : Err) (h : rb.Enqueue x = .ret (rb1, some e)) : rb1 = rb := by
  unfold RingBuffer1.Enqueue at h
  try simp only [CompareAndSwapUint64_same] at h
  repeat' split at h
  all_goals simp only [Outcome.ret.injEq, Prod.mk.injEq, reduceCtorEq, and_false] at h
  all_goals exact h.1.symm

theorem RingBuffer1_Dequeue_err_unchanged {α : Type} (rb rb1 : RingBuffer1 α) (x : Option α)
    (e : Err) (h : rb.Dequeue = .ret (rb1, x, some e)) : rb1 = rb := by
  unfold RingBuffer1.Dequeue at h
  try simp only [CompareAndSwapUint64_same] at h
  repeat' split at h
  all_goals simp only [Outcome.ret.injEq, Prod.mk.injEq, reduceCtorEq, and_false] at h
  all_goals exact h.1.symm

theorem RingBuffer2_Enqueue_err_unchanged {α : Type} (rb rb1 : RingBuffer2 α) (x : Option α)
    (e : Err) (h : rb.Enqueue x = .ret (rb1, some e)) : rb1 = rb := by
  unfold RingBuffer2.Enqueue at h
  try simp only [CompareAndSwapUint64_same] at h
  repeat' split at h
  all_goals simp only [Outcome.ret.injEq, Prod.mk.injEq, reduceCtorEq, and_false] at h
  all_goals exact h.1.symm

theorem RingBuffer2_Dequeue_err_unchanged {α : Type} (rb rb1 : RingBuffer2 α) (x : Option α)
    (e : Err) (h : rb.Dequeue = .ret (rb1, x, some e)) : rb1 = rb := by
  unfold RingBuffer2.Dequeue at h
  try simp only [CompareAndSwapUint64_same] at h
  repeat' split at h
  all_goals simp only [Outcome.ret.injEq, Prod.mk.injEq, reduceCtorEq, and_false] at h
  all_goals exact h.1.symm

theorem RingBuffer3_Enqueue_err_unchanged {α : Type} (rb rb1 : RingBuffer3 α) (x : Option α)
    (e : Err) (h : rb.Enqueue x = .ret (rb1, some e)) : rb1 = rb := by
  unfold RingBuffer3.Enqueue at h
  try simp only [CompareAndSwapUint64_same] at h
  repeat' split at h
  all_goals simp only [Outcome.ret.injEq, Prod.mk.injEq, reduceCtorEq, and_false] at h
  all_goals exact h.1.symm

theorem RingBuffer3_Dequeue_err_unchanged {α : Type} (rb rb1 : RingBuffer3 α) (x : Option α)
    (e : Err) (h : rb.Dequeue = .ret (rb1, x, some e)) : rb1 = rb := by
  unfold RingBuffer3.Dequeue at h
  try simp only [CompareAndSwapUint64_same] at h
  repeat' split at h
  all_goals simp only [Outcome.ret.injEq, Prod.mk.injEq, reduceCtorEq, and_false] at h
  all_goals exact h.1.symm

theorem RingBuffer4_Enqueue_err_unchanged {α : Type} (rb rb1 : RingBuffer4 α) (x : Option α)
    (e : Err) (h : rb.Enqueue x = .ret (rb1, some e)) : rb1 = rb := by
  unfold RingBuffer4.Enqueue at h
  try simp only [CompareAndSwapUint64_same] at h
  repeat' split at h
  all_goals simp only [Outcome.ret.injEq, Prod.mk.injEq, reduceCtorEq, and_false] at h
  all_goals exact h.1.symm

theorem RingBuffer4_Dequeue_err_unchanged {α : Type} (rb rb1 : RingBuffer4 α) (x : Option α)
    (e : Err) (h : rb.Dequeue = .ret (rb1, x, some e)) : rb1 = rb := by
  unfold RingBuffer4.Dequeue at h
  try simp only [CompareAndSwapUint64_same] at h
  repeat' split at h
  all_goals simp only [Outcome.ret.injEq, Prod.mk.injEq, reduceCtorEq, and_false] at h
  all_goals exact h.1.symm

theorem RingBuffer7_wo_pad_Enqueue_err_unchanged {α : Type} (rb rb1 : RingBuffer7_wo_pad α) (x : Option α)
    (e : Err) (h : rb.Enqueue x = .ret (rb1, some e)) : rb1 = rb := by
  unfold RingBuffer7_wo_pad.Enqueue at h
  try simp only [CompareAndSwapUint64_same] at h
  repeat' split at h
  all_goals simp only [Outcome.ret.injEq, Prod.mk.injEq, reduceCtorEq, and_false] at h
  all_goals first | exact h.1.symm | contradiction

theorem RingBuffer7_wo_pad_Dequeue_err_unchanged {α : Type} (rb rb1 : RingBuffer7_wo_pad α) (x : Option α)
    (e : Err) (h : rb.Dequeue = .ret (rb1, x, some e)) : rb1 = rb := by
  unfold RingBuffer7_wo_pad.Dequeue at h
  try simp only [CompareAndSwapUint64_same] at h
  repeat' split at h
  all_goals simp only [Outcome.ret.injEq, Prod.mk.injEq, reduceCtorEq, and_false] at h
  all_goals first | exact h.1.symm | contradiction

theorem RingBuffer7_Enqueue_err_unchanged {α : Type} (rb rb1 : RingBuffer7 α) (x : Option α)
    (e : Err) (h : rb.Enqueue x = .ret (rb1, some e)) : rb1 = rb := by
  unfold RingBuffer7.Enqueue at h
  try simp only [CompareAndSwapUint64_same] at h
  repeat' split at h
  all_goals simp only [Outcome.ret.injEq, Prod.mk.injEq, reduceCtorEq, and_false] at h
  all_goals first | exact h.1.symm | contradiction

theorem RingBuffer7_Dequeue_err_unchanged {α : Type} (rb rb1 : RingBuffer7 α) (x : Option α)
    (e : Err) (h : rb.Dequeue = .ret (rb1, x, some e)) : rb1 = rb := by
  unfold RingBuffer7.Dequeue at h
  try simp only [CompareAndSwapUint64_same] at h
  repeat' split at h
  all_goals simp only [Outcome.ret.injEq, Prod.mk.injEq, reduceCtorEq, and_false] at h
  all_goals first | exact h.1.symm | contradiction

theorem add64_cancel {a b C : Nat} (ha : a < U64) (hb : b < U64)
    (h : add64 a C = add64 b C) : a = b := by
  unfold add64 U64 at *
  omega

theorem RingBuffer5_Enqueue_err_unchanged {α : Type} (C : Nat) (rb rb1 : RingBuffer5 α)
    (x : Option α) (e : Err) (hwf : rb.WF C) (h : rb.Enqueue x = .ret (rb1, some e)) :
    rb1 = rb := by
  obtain ⟨w, r, wc, rc, sz, buf⟩ := rb
  obtain ⟨_, _, _, hr, _, hrc⟩ := hwf
  simp only at hr hrc
  unfold RingBuffer5.Enqueue RingBuffer5.enqueueStore at h
  dsimp only at h
  repeat' split at h
  all_goals simp only [Outcome.ret.injEq, Prod.mk.injEq, reduceCtorEq, and_false] at h
  rename_i h1 h2
  have hc : rc = r := add64_cancel hrc hr (h1.symm.trans h2)
  subst hc
  exact h.1.symm

theorem RingBuffer5_Dequeue_err_unchanged {α : Type} (rb rb1 : RingBuffer5 α)
    (x : Option α) (e : Err) (h : rb.Dequeue = .ret (rb1, x, some e)) :
    rb1 = rb := by
  obtain ⟨w, r, wc, rc, sz, buf⟩ := rb
  unfold RingBuffer5.Dequeue RingBuffer5.dequeueLoad at h
  dsimp only at h
  repeat' split at h
  all_goals simp only [Outcome.ret.injEq, Prod.mk.injEq, reduceCtorEq, and_false] at h
  rename_i h1 h2
  have hc : wc = w := h1.trans h2.symm
  subst hc
  exact h.1.symm

/-! ## C6: what `Dequeue` does to the slot it reads -/

theorem RingBuffer0_Dequeue_keeps_slot {α : Type} (rb rb1 : RingBuffer0 α) (x : Option α)
    (h : rb.Dequeue = .ret (rb1, x, none)) :
    rb1.buffers = rb.buffers ∧ rb1.buffers[rb.readIdx % rb.size]? = some x := by
  unfold RingBuffer0.Dequeue at h
  try dsimp only at h
  repeat' split at h
  all_goals simp only [Outcome.ret.injEq, Prod.mk.injEq, reduceCtorEq, and_false, and_true,
    false_and] at h
  all_goals
    obtain ⟨rfl, rfl⟩ := h
    exact ⟨rfl, by assumption⟩

theorem RingBuffer1_Dequeue_keeps_slot {α : Type} (rb rb1 : RingBuffer1 α) (x : Option α)
    (h : rb.Dequeue = .ret (rb1, x, none)) :
    rb1.buffers = rb.buffers ∧ rb1.buffers[rb.readIdx &&& rb.mask]? = some x := by
  unfold RingBuffer1.Dequeue at h
  try dsimp only at h
  repeat' split at h
  all_goals simp only [Outcome.ret.injEq, Prod.mk.injEq, reduceCtorEq, and_false, and_true,
    false_and] at h
  all_goals
    obtain ⟨rfl, rfl⟩ := h
    exact ⟨rfl, by assumption⟩

theorem RingBuffer2_Dequeue_keeps_slot {α : Type} (rb rb1 : RingBuffer2 α) (x : Option α)
    (h : rb.Dequeue = .ret (rb1, x, none)) :
    rb1.buffers = rb.buffers ∧ rb1.buffers[rb.readIdx &&& sub64 rb.size 1]? = some x := by
  unfold RingBuffer2.Dequeue at h
  try dsimp only at h
  repeat' split at h
  all_goals simp only [Outcome.ret.injEq, Prod.mk.injEq, reduceCtorEq, and_false, and_true,
    false_and] at h
  all_goals
    obtain ⟨rfl, rfl⟩ := h
    exact ⟨rfl, by assumption⟩

theorem RingBuffer3_Dequeue_keeps_slot {α : Type} (rb rb1 : RingBuffer3 α) (x : Option α)
    (h : rb.Dequeue = .ret (rb1, x, none)) :
    rb1.buffers = rb.buffers ∧ rb1.buffers[rb.readIdx &&& sub64 rb.size 1]? = some x := by
  unfold RingBuffer3.Dequeue at h
  try dsimp only at h
  repeat' split at h
  all_goals simp only [Outcome.ret.injEq, Prod.mk.injEq, reduceCtorEq, and_false, and_true,
    false_and] at h
  all_goals
    obtain ⟨rfl, rfl⟩ := h
    exact ⟨rfl, by assumption⟩

theorem RingBuffer4_Dequeue_keeps_slot {α : Type} (rb rb1 : RingBuffer4 α) (x : Option α)
    (h : rb.Dequeue = .ret (rb1, x, none)) :
    rb1.buffers = rb.buffers ∧ rb1.buffers[rb.readIdx &&& sub64 rb.size 1]? = some x := by
  unfold RingBuffer4.Dequeue at h
  try dsimp only at h
  repeat' split at h
  all_goals simp only [Outcome.ret.injEq, Prod.mk.injEq, reduceCtorEq, and_false, and_true,
    false_and] at h
  all_goals
    obtain ⟨rfl, rfl⟩ := h
    exact ⟨rfl, by assumption⟩

theorem RingBuffer5_Dequeue_keeps_slot {α : Type} (rb rb1 : RingBuffer5 α) (x : Option α)
    (h : rb.Dequeue = .ret (rb1, x, none)) :
    rb1.buffers = rb.buffers ∧ rb1.buffers[rb.readIdx &&& sub64 rb.size 1]? = some x := by
  unfold RingBuffer5.Dequeue RingBuffer5.dequeueLoad at h
  try dsimp only at h
  repeat' split at h
  all_goals simp only [Outcome.ret.injEq, Prod.mk.injEq, reduceCtorEq, and_false, and_true,
    false_and] at h
  all_goals
    obtain ⟨rfl, rfl⟩ := h
    exact ⟨rfl, by assumption⟩

theorem RingBuffer6_Dequeue_keeps_slot {α : Type} (fuel : Nat) (rb rb1 : RingBuffer6 α)
    (x : Option α) (h : rb.Dequeue fuel = .ret (rb1, x, none)) :
    rb1.buffers = rb.buffers ∧ rb1.buffers[rb.readIdx &&& sub64 rb.size 1]? = some x := by
  unfold RingBuffer6.Dequeue at h
  dsimp only at h
  split at h
  · simp only [reduceCtorEq] at h
  · rename_i rb2 write2 heq
    obtain ⟨_, _, h3, h4, _, _⟩ := RingBuffer6_dequeueWait_inv _ _ _ _ _ _ heq
    split at h
    · rename_i item hitem
      simp only [Outcome.ret.injEq, Prod.mk.injEq, and_true] at h
      obtain ⟨rfl, rfl⟩ := h
      rw [h3, h4] at hitem
      exact ⟨h4, by rw [h4]; exact hitem⟩
    · simp only [reduceCtorEq] at h

theorem RingBuffer7_wo_pad_Dequeue_clears_slot {α : Type} (rb rb1 : RingBuffer7_wo_pad α) (x : Option α)
    (h : rb.Dequeue = .ret (rb1, x, none)) :
    ∃ n, rb.nodes[rb.readIdx &&& rb.mask]? = some n ∧ n.data = x ∧
      rb1.nodes[rb.readIdx &&& rb.mask]?
        = some { position := add64 (add64 rb.readIdx rb.mask) 1, data := none } := by
  unfold RingBuffer7_wo_pad.Dequeue at h
  simp only [CompareAndSwapUint64_same] at h
  repeat' split at h
  all_goals simp only [Outcome.ret.injEq, Prod.mk.injEq, reduceCtorEq, and_false, and_true,
    false_and] at h
  rename_i n hn _ _
  obtain ⟨rfl, rfl⟩ := h
  obtain ⟨hlt, _⟩ := List.getElem?_eq_some.mp hn
  exact ⟨n, hn, rfl, List.getElem?_set_self hlt⟩

theorem RingBuffer7_Dequeue_clears_slot {α : Type} (rb rb1 : RingBuffer7 α) (x : Option α)
    (h : rb.Dequeue = .ret (rb1, x, none)) :
    ∃ n, rb.nodes[rb.readIdx &&& rb.mask]? = some n ∧ n.data = x ∧
      rb1.nodes[rb.readIdx &&& rb.mask]?
        = some { position := add64 (add64 rb.readIdx rb.mask) 1, data := none } := by
  unfold RingBuffer7.Dequeue at h
  simp only [CompareAndSwapUint64_same] at h
  repeat' split at h
  all_goals simp only [Outcome.ret.injEq, Prod.mk.injEq, reduceCtorEq, and_false, and_true,
    false_and] at h
  rename_i n hn _ _
  obtain ⟨rfl, rfl⟩ := h
  obtain ⟨hlt, _⟩ := List.getElem?_eq_some.mp hn
  exact ⟨n, hn, rfl, List.getElem?_set_self hlt⟩

theorem RingBuffer8_dequeueSpin_inv {α : Type} : ∀ (fuel : Nat) (rb : RingBuffer8 α)
    (read : Nat) (rb1 : RingBuffer8 α) (read1 : Nat) (n : node α),
    RingBuffer8.dequeueSpin fuel rb read = .ret (rb1, read1, n) →
    rb1.nodes = rb.nodes ∧ rb1.mask = rb.mask ∧ rb.nodes[read1 &&& rb.mask]? = some n := by
  intro fuel
  induction fuel with
  | zero =>
    intro rb read rb1 read1 n h
    simp [RingBuffer8.dequeueSpin] at h
  | succ fuel ih =>
    intro rb read rb1 read1 n h
    unfold RingBuffer8.dequeueSpin at h
    split at h
    · simp only [reduceCtorEq] at h
    · rename_i n0 hn0
      dsimp only at h
      split at h
      · split at h
        · simp only [Outcome.ret.injEq, Prod.mk.injEq] at h
          obtain ⟨rfl, rfl, rfl⟩ := h
          exact ⟨rfl, rfl, hn0⟩
        · have h1 := ih _ _ _ _ _ h
          exact h1
      · exact ih _ _ _ _ _ h

theorem RingBuffer8_Dequeue_clears_slot {α : Type} (fuel : Nat) (rb rb1 : RingBuffer8 α)
    (x : Option α) (h : rb.Dequeue fuel = .ret (rb1, x, none)) :
    ∃ (i : Nat) (n : node α) (p : Nat), rb.nodes[i]? = some n ∧ n.data = x ∧
      rb1.nodes[i]? = some { position := p, data := none } := by
  unfold RingBuffer8.Dequeue at h
  split at h
  · simp only [reduceCtorEq] at h
  · simp only [reduceCtorEq] at h
  · rename_i rb2 read n heq
    obtain ⟨h1, h2, h3⟩ := RingBuffer8_dequeueSpin_inv _ _ _ _ _ _ heq
    simp only [Outcome.ret.injEq, Prod.mk.injEq, and_true] at h
    obtain ⟨rfl, rfl⟩ := h
    obtain ⟨hlt, _⟩ := List.getElem?_eq_some.mp h3
    refine ⟨read &&& rb.mask, n, add64 (add64 read rb2.mask) 1, h3, rfl, ?_⟩
    rw [h2]
    exact List.getElem?_set_self (by rw [h1]; exact hlt)

/-! ## C9: the counters of RingBuffer0 -/

theorem countEnq_append {α : Type} (a b : List (Op α)) :
    countEnq (a ++ b) = countEnq a + countEnq b := by
  induction a with
  | nil => simp [countEnq]
  | cons op a ih =>
    cases op with
    | enq x =>
      show countEnq (a ++ b) + 1 = countEnq a + 1 + countEnq b
      rw [ih]; omega
    | deq =>
      show countEnq (a ++ b) = countEnq a + countEnq b
      exact ih

theorem enqueuedValues_cons {α : Type} (op : Op α) (ops : List (Op α)) (r : Ret α)
    (rs : List (Ret α)) :
    enqueuedValues (op :: ops) (r :: rs) = enqueuedValues [op] [r] ++ enqueuedValues ops rs := by
  cases op with
  | enq x =>
    by_cases h : r.err = none
    · simp [enqueuedValues, h]
    · simp [enqueuedValues, h]
  | deq => simp [enqueuedValues]

theorem enqueuedValues_append {α : Type} (ops1 : List (Op α)) :
    ∀ (rs1 : List (Ret α)) (ops2 : List (Op α)) (rs2 : List (Ret α)),
    rs1.length = ops1.length →
    enqueuedValues (ops1 ++ ops2) (rs1 ++ rs2)
      = enqueuedValues ops1 rs1 ++ enqueuedValues ops2 rs2 := by
  induction ops1 with
  | nil =>
    intro rs1 ops2 rs2 h
    have h1 : rs1 = [] := List.length_eq_zero.mp h
    subst h1
    cases ops2 with
    | nil => simp [enqueuedValues]
    | cons op ops2 => cases op <;> simp [enqueuedValues]
  | cons op ops1 ih =>
    intro rs1 ops2 rs2 h
    cases rs1 with
    | nil => simp at h
    | cons r rs1 =>
      have h1 : rs1.length = ops1.length := by simpa using h
      rw [List.cons_append, List.cons_append,
        enqueuedValues_cons op (ops1 ++ ops2) r (rs1 ++ rs2), ih rs1 ops2 rs2 h1,
        enqueuedValues_cons op ops1 r rs1, List.append_assoc]

theorem RingBuffer0_step_counters {α : Type} (rb rb1 : RingBuffer0 α) (op : Op α) (r : Ret α)
    (hle : rb.readIdx ≤ rb.writeIdx)
    (hb : rb.writeIdx + (enqueuedValues [op] [r]).length < U64)
    (h : rb.step op = .ret (rb1, r)) :
    rb.writeIdx ≤ rb1.writeIdx ∧ rb.readIdx ≤ rb1.readIdx ∧ rb1.readIdx ≤ rb1.writeIdx ∧
      rb1.writeIdx = rb.writeIdx + (enqueuedValues [op] [r]).length := by
  obtain ⟨w, rd, sz, buf⟩ := rb
  simp only at hle hb
  cases op with
  | enq x =>
    have h := (enqRet_inv h).1
    unfold RingBuffer0.Enqueue at h
    repeat' split at h
    all_goals simp only [Outcome.ret.injEq, Prod.mk.injEq, reduceCtorEq] at h
    · obtain ⟨rfl, he⟩ := h
      have hl : (enqueuedValues [Op.enq x] [r]).length = 0 := by
        simp [enqueuedValues, ← he]
      rw [hl]
      exact ⟨Nat.le_refl _, Nat.le_refl _, hle, rfl⟩
    · obtain ⟨rfl, he⟩ := h
      have hl : (enqueuedValues [Op.enq x] [r]).length = 1 := by
        simp [enqueuedValues, ← he]
      rw [hl] at hb ⊢
      show w ≤ add64 w 1 ∧ rd ≤ rd ∧ rd ≤ add64 w 1 ∧ add64 w 1 = w + 1
      rw [add64_of_lt hb]
      omega
  | deq =>
    have hl : (enqueuedValues [Op.deq] [r]).length = 0 := by simp [enqueuedValues]
    rw [hl] at hb ⊢
    have h := deqRet_inv h
    unfold RingBuffer0.Dequeue at h
    split at h
    · simp only [Outcome.ret.injEq, Prod.mk.injEq] at h
      obtain ⟨rfl, _⟩ := h
      exact ⟨Nat.le_refl _, Nat.le_refl _, hle, rfl⟩
    · rename_i hne
      have hne : w ≠ rd := hne
      repeat' split at h
      all_goals simp only [Outcome.ret.injEq, Prod.mk.injEq, reduceCtorEq] at h
      obtain ⟨rfl, _⟩ := h
      show w ≤ w ∧ rd ≤ add64 rd 1 ∧ add64 rd 1 ≤ w ∧ w = w + 0
      rw [add64_of_lt (by omega)]
      omega

theorem RingBuffer0_run_counters {α : Type} (ops : List (Op α)) :
    ∀ (rb rb1 : RingBuffer0 α) (rs : List (Ret α)),
    rb.readIdx ≤ rb.writeIdx → rb.writeIdx + (enqueuedValues ops rs).length < U64 →
    runOps RingBuffer0.step rb ops = .ret (rb1, rs) →
    rb1.readIdx ≤ rb1.writeIdx ∧
      rb1.writeIdx = rb.writeIdx + (enqueuedValues ops rs).length := by
  induction ops with
  | nil =>
    intro rb rb1 rs hle _ h
    obtain ⟨h1, h2⟩ := runOps_nil_inv _ h
    rw [h1, h2]
    exact ⟨hle, by simp [enqueuedValues]⟩
  | cons op ops ih =>
    intro rb rb1 rs hle hb h
    obtain ⟨rb2, r, rs1, h1, h2, h3⟩ := runOps_cons_inv _ h
    subst h3
    rw [enqueuedValues_cons op ops r rs1, List.length_append] at hb ⊢
    obtain ⟨_, _, g3, g4⟩ := RingBuffer0_step_counters rb rb2 op r hle (by omega) h1
    obtain ⟨g5, g6⟩ := ih rb2 rb1 rs1 g3 (by omega) h2
    exact ⟨g5, by omega⟩

theorem RingBuffer0_enqDeqTimes_run {α : Type} (n : Nat) : ∀ m : Nat, m + n < U64 →
    ∃ rs, runOps RingBuffer0.step (⟨m, m, 1, [none]⟩ : RingBuffer0 α) (enqDeqTimes n)
      = .ret (⟨m + n, m + n, 1, [none]⟩, rs) := by
  induction n with
  | zero =>
    intro m _
    exact ⟨[], rfl⟩
  | succ n ih =>
    intro m hm
    obtain ⟨rs, hrs⟩ := ih (m + 1) (by omega)
    have e1 : RingBuffer0.step (⟨m, m, 1, [none]⟩ : RingBuffer0 α) (.enq none)
        = .ret (⟨m + 1, m, 1, [none]⟩, { item := none, err := none }) := by
      rw [RingBuffer0_step_enq, RingBuffer0_Enqueue_ok m m 1 [none] none
        (by rw [sub64_self]; omega) (by omega) rfl, enqRet_ret, add64_of_lt (by omega),
        Nat.mod_one]
      rfl
    have e2 : RingBuffer0.step (⟨m + 1, m, 1, [none]⟩ : RingBuffer0 α) .deq
        = .ret (⟨m + 1, m + 1, 1, [none]⟩, { item := none, err := none }) := by
      rw [RingBuffer0_step_deq, RingBuffer0_Dequeue_ok (m + 1) m 1 [none] none (by omega)
        (by omega) (by rw [Nat.mod_one]; rfl), deqRet_ret, add64_of_lt (by omega)]
    rw [show m + (n + 1) = m + 1 + n by omega]
    exact ⟨_, runOps_cons_ret _ e1 (runOps_cons_ret _ e2 hrs)⟩

/-! ## The capacity bound `writeIdx - readIdx ≤ C` -/

theorem sub64_succ_le {w r C : Nat} (hC : C < U64)
    (h : sub64 w r ≤ C) (hne : sub64 w r ≠ C) : sub64 (add64 w 1) r ≤ C := by
  unfold sub64 add64 U64 at *
  omega

theorem sub64_pred_le {w r C : Nat} (hw : w < U64) (hr : r < U64)
    (h : sub64 w r ≤ C) (hne : w ≠ r) : sub64 w (add64 r 1) ≤ C := by
  unfold sub64 add64 U64 at *
  omega

theorem full_iff_sub64 {w r C : Nat} (hw : w < U64) (hC : C < U64) :
    w = add64 r C ↔ sub64 w r = C := by
  unfold sub64 add64 U64 at *
  omega

theorem RingBuffer0_step_bounded {α : Type} (C : Nat) (hC : C < U64) (rb rb1 : RingBuffer0 α)
    (op : Op α) (r : Ret α)
    (hinv : rb.WF C ∧ sub64 rb.writeIdx rb.readIdx ≤ C) (h : rb.step op = .ret (rb1, r)) :
    rb1.WF C ∧ sub64 rb1.writeIdx rb1.readIdx ≤ C := by
  refine ⟨RingBuffer0_WF_step C rb rb1 op r hinv.1 h, ?_⟩
  obtain ⟨⟨h1, h2, h3, h4⟩, hb⟩ := hinv
  cases op with
  | enq x =>
    have h := (enqRet_inv h).1
    unfold RingBuffer0.Enqueue at h
    try dsimp only at h
    split at h
    · simp only [Outcome.ret.injEq, Prod.mk.injEq] at h
      obtain ⟨rfl, _⟩ := h
      exact hb
    · rename_i hne
      repeat' split at h
      all_goals simp only [Outcome.ret.injEq, Prod.mk.injEq, reduceCtorEq] at h
      obtain ⟨rfl, _⟩ := h
      exact sub64_succ_le hC hb (fun e => hne (e.trans h1.symm))
  | deq =>
    have h := deqRet_inv h
    unfold RingBuffer0.Dequeue at h
    try dsimp only at h
    split at h
    · simp only [Outcome.ret.injEq, Prod.mk.injEq] at h
      obtain ⟨rfl, _⟩ := h
      exact hb
    · rename_i hne
      repeat' split at h
      all_goals simp only [Outcome.ret.injEq, Prod.mk.injEq, reduceCtorEq] at h
      obtain ⟨rfl, _⟩ := h
      exact sub64_pred_le h3 h4 hb hne

theorem RingBuffer0_run_bounded {α : Type} (C : Nat) (hC : C < U64) (ops : List (Op α))
    (rb : RingBuffer0 α) (rs : List (Ret α))
    (h : runOps RingBuffer0.step (NewRingBuffer0 C) ops = .ret (rb, rs)) :
    sub64 rb.writeIdx rb.readIdx ≤ C :=
  (runOps_invariant RingBuffer0.step
    (fun rb => rb.WF C ∧ sub64 rb.writeIdx rb.readIdx ≤ C)
    (fun s op s1 r hs h1 => RingBuffer0_step_bounded C hC s s1 op r hs h1)
    ops _ rb rs ⟨RingBuffer0_WF_new C, by rw [show (NewRingBuffer0 C : RingBuffer0 α).writeIdx
      = (NewRingBuffer0 C : RingBuffer0 α).readIdx from rfl, sub64_self]; omega⟩ h).2

theorem RingBuffer1_step_bounded {α : Type} (C : Nat) (hC : C < U64) (rb rb1 : RingBuffer1 α)
    (op : Op α) (r : Ret α)
    (hinv : rb.WF C ∧ sub64 rb.writeIdx rb.readIdx ≤ C) (h : rb.step op = .ret (rb1, r)) :
    rb1.WF C ∧ sub64 rb1.writeIdx rb1.readIdx ≤ C := by
  refine ⟨RingBuffer1_WF_step C rb rb1 op r hinv.1 h, ?_⟩
  obtain ⟨⟨h1, h2, h3, h4, _⟩, hb⟩ := hinv
  cases op with
  | enq x =>
    have h := (enqRet_inv h).1
    unfold RingBuffer1.Enqueue at h
    try dsimp only at h
    split at h
    · simp only [Outcome.ret.injEq, Prod.mk.injEq] at h
      obtain ⟨rfl, _⟩ := h
      exact hb
    · rename_i hne
      repeat' split at h
      all_goals simp only [Outcome.ret.injEq, Prod.mk.injEq, reduceCtorEq] at h
      obtain ⟨rfl, _⟩ := h
      exact sub64_succ_le hC hb (fun e => hne (e.trans h1.symm))
  | deq =>
    have h := deqRet_inv h
    unfold RingBuffer1.Dequeue at h
    try dsimp only at h
    split at h
    · simp only [Outcome.ret.injEq, Prod.mk.injEq] at h
      obtain ⟨rfl, _⟩ := h
      exact hb
    · rename_i hne
      repeat' split at h
      all_goals simp only [Outcome.ret.injEq, Prod.mk.injEq, reduceCtorEq] at h
      obtain ⟨rfl, _⟩ := h
      exact sub64_pred_le h3 h4 hb hne

theorem RingBuffer1_run_bounded {α : Type} (C : Nat) (hC : C < U64) (ops : List (Op α))
    (rb : RingBuffer1 α) (rs : List (Ret α))
    (h : runOps RingBuffer1.step (NewRingBuffer1 C) ops = .ret (rb, rs)) :
    sub64 rb.writeIdx rb.readIdx ≤ C :=
  (runOps_invariant RingBuffer1.step
    (fun rb => rb.WF C ∧ sub64 rb.writeIdx rb.readIdx ≤ C)
    (fun s op s1 r hs h1 => RingBuffer1_step_bounded C hC s s1 op r hs h1)
    ops _ rb rs ⟨RingBuffer1_WF_new C, by rw [show (NewRingBuffer1 C : RingBuffer1 α).writeIdx
      = (NewRingBuffer1 C : RingBuffer1 α).readIdx from rfl, sub64_self]; omega⟩ h).2

theorem RingBuffer2_step_bounded {α : Type} (C : Nat) (hC : C < U64) (rb rb1 : RingBuffer2 α)
    (op : Op α) (r : Ret α)
    (hinv : rb.WF C ∧ sub64 rb.writeIdx rb.readIdx ≤ C) (h : rb.step op = .ret (rb1, r)) :
    rb1.WF C ∧ sub64 rb1.writeIdx rb1.readIdx ≤ C := by
  refine ⟨RingBuffer2_WF_step C rb rb1 op r hinv.1 h, ?_⟩
  obtain ⟨⟨h1, h2, h3, h4⟩, hb⟩ := hinv
  cases op with
  | enq x =>
    have h := (enqRet_inv h).1
    unfold RingBuffer2.Enqueue at h
    try dsimp only at h
    split at h
    · simp only [Outcome.ret.injEq, Prod.mk.injEq] at h
      obtain ⟨rfl, _⟩ := h
      exact hb
    · rename_i hne
      repeat' split at h
      all_goals simp only [Outcome.ret.injEq, Prod.mk.injEq, reduceCtorEq] at h
      obtain ⟨rfl, _⟩ := h
      exact sub64_succ_le hC hb (fun e => hne (e.trans h1.symm))
  | deq =>
    have h := deqRet_inv h
    unfold RingBuffer2.Dequeue at h
    try dsimp only at h
    split at h
    · simp only [Outcome.ret.injEq, Prod.mk.injEq] at h
      obtain ⟨rfl, _⟩ := h
      exact hb
    · rename_i hne
      repeat' split at h
      all_goals simp only [Outcome.ret.injEq, Prod.mk.injEq, reduceCtorEq] at h
      obtain ⟨rfl, _⟩ := h
      exact sub64_pred_le h3 h4 hb hne

theorem RingBuffer2_run_bounded {α : Type} (C : Nat) (hC : C < U64) (ops : List (Op α))
    (rb : RingBuffer2 α) (rs : List (Ret α))
    (h : runOps RingBuffer2.step (NewRingBuffer2 C) ops = .ret (rb, rs)) :
    sub64 rb.writeIdx rb.readIdx ≤ C :=
  (runOps_invariant RingBuffer2.step
    (fun rb => rb.WF C ∧ sub64 rb.writeIdx rb.readIdx ≤ C)
    (fun s op s1 r hs h1 => RingBuffer2_step_bounded C hC s s1 op r hs h1)
    ops _ rb rs ⟨RingBuffer2_WF_new C, by rw [show (NewRingBuffer2 C : RingBuffer2 α).writeIdx
      = (NewRingBuffer2 C : RingBuffer2 α).readIdx from rfl, sub64_self]; omega⟩ h).2

theorem RingBuffer3_step_bounded {α : Type} (C : Nat) (hC : C < U64) (rb rb1 : RingBuffer3 α)
    (op : Op α) (r : Ret α)
    (hinv : rb.WF C ∧ sub64 rb.writeIdx rb.readIdx ≤ C) (h : rb.step op = .ret (rb1, r)) :
    rb1.WF C ∧ sub64 rb1.writeIdx rb1.readIdx ≤ C := by
  refine ⟨RingBuffer3_WF_step C rb rb1 op r hinv.1 h, ?_⟩
  obtain ⟨⟨h1, h2, h3, h4⟩, hb⟩ := hinv
  cases op with
  | enq x =>
    have h := (enqRet_inv h).1
    unfold RingBuffer3.Enqueue at h
    try dsimp only at h
    split at h
    · simp only [Outcome.ret.injEq, Prod.mk.injEq] at h
      obtain ⟨rfl, _⟩ := h
      exact hb
    · rename_i hne
      repeat' split at h
      all_goals simp only [Outcome.ret.injEq, Prod.mk.injEq, reduceCtorEq] at h
      obtain ⟨rfl, _⟩ := h
      exact sub64_succ_le hC hb
        (fun e => hne (by rw [h1]; exact (full_iff_sub64 h3 hC).mpr e))
  | deq =>
    have h := deqRet_inv h
    unfold RingBuffer3.Dequeue at h
    try dsimp only at h
    split at h
    · simp only [Outcome.ret.injEq, Prod.mk.injEq] at h
      obtain ⟨rfl, _⟩ := h
      exact hb
    · rename_i hne
      repeat' split at h
      all_goals simp only [Outcome.ret.injEq, Prod.mk.injEq, reduceCtorEq] at h
      obtain ⟨rfl, _⟩ := h
      exact sub64_pred_le h3 h4 hb hne

theorem RingBuffer3_run_bounded {α : Type} (C : Nat) (hC : C < U64) (ops : List (Op α))
    (rb : RingBuffer3 α) (rs : List (Ret α))
    (h : runOps RingBuffer3.step (NewRingBuffer3 C) ops = .ret (rb, rs)) :
    sub64 rb.writeIdx rb.readIdx ≤ C :=
  (runOps_invariant RingBuffer3.step
    (fun rb => rb.WF C ∧ sub64 rb.writeIdx rb.readIdx ≤ C)
    (fun s op s1 r hs h1 => RingBuffer3_step_bounded C hC s s1 op r hs h1)
    ops _ rb rs ⟨RingBuffer3_WF_new C, by rw [show (NewRingBuffer3 C : RingBuffer3 α).writeIdx
      = (NewRingBuffer3 C : RingBuffer3 α).readIdx from rfl, sub64_self]; omega⟩ h).2

theorem RingBuffer4_step_bounded {α : Type} (C : Nat) (hC : C < U64) (rb rb1 : RingBuffer4 α)
    (op : Op α) (r : Ret α)
    (hinv : rb.WF C ∧ sub64 rb.writeIdx rb.readIdx ≤ C) (h : rb.step op = .ret (rb1, r)) :
    rb1.WF C ∧ sub64 rb1.writeIdx rb1.readIdx ≤ C := by
  refine ⟨RingBuffer4_WF_step C rb rb1 op r hinv.1 h, ?_⟩
  obtain ⟨⟨h1, h2, h3, h4⟩, hb⟩ := hinv
  cases op with
  | enq x =>
    have h := (enqRet_inv h).1
    unfold RingBuffer4.Enqueue at h
    try dsimp only at h
    split at h
    · simp only [Outcome.ret.injEq, Prod.mk.injEq] at h
      obtain ⟨rfl, _⟩ := h
      exact hb
    · rename_i hne
      repeat' split at h
      all_goals simp only [Outcome.ret.injEq, Prod.mk.injEq, reduceCtorEq] at h
      obtain ⟨rfl, _⟩ := h
      exact sub64_succ_le hC hb
        (fun e => hne (by rw [h1]; exact (full_iff_sub64 h3 hC).mpr e))
  | deq =>
    have h := deqRet_inv h
    unfold RingBuffer4.Dequeue at h
    try dsimp only at h
    split at h
    · simp only [Outcome.ret.injEq, Prod.mk.injEq] at h
      obtain ⟨rfl, _⟩ := h
      exact hb
    · rename_i hne
      repeat' split at h
      all_goals simp only [Outcome.ret.injEq, Prod.mk.injEq, reduceCtorEq] at h
      obtain ⟨rfl, _⟩ := h
      exact sub64_pred_le h3 h4 hb hne

theorem RingBuffer4_run_bounded {α : Type} (C : Nat) (hC : C < U64) (ops : List (Op α))
    (rb : RingBuffer4 α) (rs : List (Ret α))
    (h : runOps RingBuffer4.step (NewRingBuffer4 C) ops = .ret (rb, rs)) :
    sub64 rb.writeIdx rb.readIdx ≤ C :=
  (runOps_invariant RingBuffer4.step
    (fun rb => rb.WF C ∧ sub64 rb.writeIdx rb.readIdx ≤ C)
    (fun s op s1 r hs h1 => RingBuffer4_step_bounded C hC s s1 op r hs h1)
    ops _ rb rs ⟨RingBuffer4_WF_new C, by rw [show (NewRingBuffer4 C : RingBuffer4 α).writeIdx
      = (NewRingBuffer4 C : RingBuffer4 α).readIdx from rfl, sub64_self]; omega⟩ h).2

theorem RingBuffer5_Cached_new {α : Type} (C : Nat) :
    (NewRingBuffer5 C : RingBuffer5 α).Cached C :=
  ⟨rfl, by simp [NewRingBuffer5], 0, 0, 0, 0, Nat.le_refl _, Nat.le_refl _, Nat.le_refl _,
    by omega, rfl, rfl, rfl, rfl⟩

theorem RingBuffer5_Cached_diff {α : Type} (C : Nat) (hC : C < U64) (rb : RingBuffer5 α)
    (h : rb.Cached C) : sub64 rb.writeIdx rb.readIdx ≤ C := by
  obtain ⟨_, _, R, W, rc, wc, g1, g2, g3, g4, g5, g6, _, _⟩ := h
  rw [g5, g6]
  unfold sub64 U64 at *
  omega

theorem RingBuffer5_Enqueue_cached {α : Type} (C : Nat) (hC : C < U64)
    (rb rb1 : RingBuffer5 α) (x : Option α) (e : Option Err) (h : rb.Cached C)
    (hs : rb.Enqueue x = .ret (rb1, e)) : rb1.Cached C := by
  obtain ⟨w, r, wcf, rcf, sz, buf⟩ := rb
  obtain ⟨hsz, hlen, R, W, rc, wc, g1, g2, g3, g4, g5, g6, g7, g8⟩ := h
  simp only at hsz hlen g5 g6 g7 g8
  subst hsz
  unfold RingBuffer5.Enqueue RingBuffer5.enqueueStore at hs
  dsimp only at hs
  split at hs
  · rename_i c1
    split at hs
    · rename_i c2
      simp only [Outcome.ret.injEq, Prod.mk.injEq] at hs
      obtain ⟨rfl, _⟩ := hs
      exact ⟨rfl, hlen, R, W, R, wc, Nat.le_refl _, g2, g3, by omega, g5, g6, g5, g8⟩
    · rename_i c2
      split at hs
      · simp only [Outcome.ret.injEq, Prod.mk.injEq] at hs
        obtain ⟨rfl, _⟩ := hs
        refine ⟨rfl, by simpa using hlen, R, W + 1, R, wc, Nat.le_refl _, g2, by omega, ?_,
          g5, ?_, g5, g8⟩
        · rw [g5, g6] at c2
          unfold add64 U64 at c2
          omega
        · show add64 w 1 = (W + 1) % U64
          rw [g6]
          unfold add64 U64
          omega
      · simp only [reduceCtorEq] at hs
  · rename_i c1
    split at hs
    · simp only [Outcome.ret.injEq, Prod.mk.injEq] at hs
      obtain ⟨rfl, _⟩ := hs
      refine ⟨rfl, by simpa using hlen, R, W + 1, rc, wc, g1, g2, by omega, ?_,
        g5, ?_, g7, g8⟩
      · rw [g7, g6] at c1
        unfold add64 U64 at c1
        unfold U64 at hC
        omega
      · show add64 w 1 = (W + 1) % U64
        rw [g6]
        unfold add64 U64
        omega
    · simp only [reduceCtorEq] at hs

theorem RingBuffer5_Dequeue_cached {α : Type} (C : Nat) (hC : C < U64)
    (rb rb1 : RingBuffer5 α) (x : Option α) (e : Option Err) (h : rb.Cached C)
    (hs : rb.Dequeue = .ret (rb1, x, e)) : rb1.Cached C := by
  obtain ⟨w, r, wcf, rcf, sz, buf⟩ := rb
  obtain ⟨hsz, hlen, R, W, rc, wc, g1, g2, g3, g4, g5, g6, g7, g8⟩ := h
  simp only at hsz hlen g5 g6 g7 g8
  subst hsz
  unfold RingBuffer5.Dequeue RingBuffer5.dequeueLoad at hs
  dsimp only at hs
  split at hs
  · rename_i c1
    split at hs
    · rename_i c2
      simp only [Outcome.ret.injEq, Prod.mk.injEq] at hs
      obtain ⟨rfl, _⟩ := hs
      exact ⟨rfl, hlen, R, W, rc, W, g1, by omega, Nat.le_refl _, g4, g5, g6, g7, g6⟩
    · rename_i c2
      split at hs
      · simp only [Outcome.ret.injEq, Prod.mk.injEq] at hs
        obtain ⟨rfl, _⟩ := hs
        refine ⟨rfl, hlen, R + 1, W, rc, W, by omega, ?_, Nat.le_refl _, g4, ?_, g6, g7, g6⟩
        · rw [g5, g6] at c2
          have : W ≠ R := fun e => c2 (by rw [e])
          omega
        · show add64 r 1 = (R + 1) % U64
          rw [g5]
          unfold add64 U64
          omega
      · simp only [reduceCtorEq] at hs
  · rename_i c1
    split at hs
    · simp only [Outcome.ret.injEq, Prod.mk.injEq] at hs
      obtain ⟨rfl, _⟩ := hs
      refine ⟨rfl, hlen, R + 1, W, rc, wc, by omega, ?_, g3, g4, ?_, g6, g7, g8⟩
      · rw [g5, g8] at c1
        have : wc ≠ R := fun e => c1 (by rw [e])
        omega
      · show add64 r 1 = (R + 1) % U64
        rw [g5]
        unfold add64 U64
        omega
    · simp only [reduceCtorEq] at hs

theorem RingBuffer5_run_cached {α : Type} (C : Nat) (hC : C < U64) (ops : List (Op α))
    (rb : RingBuffer5 α) (rs : List (Ret α))
    (h : runOps RingBuffer5.step (NewRingBuffer5 C) ops = .ret (rb, rs)) : rb.Cached C :=
  runOps_invariant RingBuffer5.step (RingBuffer5.Cached C)
    (fun s op s1 r hs h1 => by
      cases op with
      | enq x => exact RingBuffer5_Enqueue_cached C hC s s1 x r.err hs (enqRet_inv h1).1
      | deq => exact RingBuffer5_Dequeue_cached C hC s s1 r.item r.err hs (deqRet_inv h1))
    ops _ rb rs (RingBuffer5_Cached_new C) h

theorem RingBuffer5_run_bounded {α : Type} (C : Nat) (hC : C < U64) (ops : List (Op α))
    (rb : RingBuffer5 α) (rs : List (Ret α))
    (h : runOps RingBuffer5.step (NewRingBuffer5 C) ops = .ret (rb, rs)) :
    sub64 rb.writeIdx rb.readIdx ≤ C :=
  RingBuffer5_Cached_diff C hC rb (RingBuffer5_run_cached C hC ops rb rs h)

theorem RingBuffer6_enqueueWait_exit {α : Type} : ∀ (fuel : Nat) (rb : RingBuffer6 α)
    (read write : Nat) (rb1 : RingBuffer6 α) (read1 : Nat),
    RingBuffer6.enqueueWait fuel rb read write = some (rb1, read1) →
    write ≠ add64 read1 rb.size ∧
      ((rb1 = rb ∧ read1 = read) ∨
        (rb1 = { rb with readCache := rb.readIdx } ∧ read1 = rb.readIdx)) := by
  intro fuel
  induction fuel with
  | zero =>
    intro rb read write rb1 read1 h
    simp [RingBuffer6.enqueueWait] at h
  | succ fuel ih =>
    intro rb read write rb1 read1 h
    unfold RingBuffer6.enqueueWait at h
    split at h
    · obtain ⟨h1, h2⟩ := ih _ _ _ _ _ h
      refine ⟨h1, Or.inr ?_⟩
      rcases h2 with ⟨e1, e2⟩ | ⟨e1, e2⟩
      · exact ⟨e1, e2⟩
      · exact ⟨e1, e2⟩
    · rename_i hne
      simp only [Option.some.injEq, Prod.mk.injEq] at h
      obtain ⟨rfl, rfl⟩ := h
      exact ⟨hne, Or.inl ⟨rfl, rfl⟩⟩

theorem RingBuffer6_dequeueWait_exit {α : Type} : ∀ (fuel : Nat) (rb : RingBuffer6 α)
    (write read : Nat) (rb1 : RingBuffer6 α) (write1 : Nat),
    RingBuffer6.dequeueWait fuel rb write read = some (rb1, write1) →
    write1 ≠ read ∧
      ((rb1 = rb ∧ write1 = write) ∨
        (rb1 = { rb with writeCache := rb.writeIdx } ∧ write1 = rb.writeIdx)) := by
  intro fuel
  induction fuel with
  | zero =>
    intro rb write read rb1 write1 h
    simp [RingBuffer6.dequeueWait] at h
  | succ fuel ih =>
    intro rb write read rb1 write1 h
    unfold RingBuffer6.dequeueWait at h
    split at h
    · obtain ⟨h1, h2⟩ := ih _ _ _ _ _ h
      refine ⟨h1, Or.inr ?_⟩
      rcases h2 with ⟨e1, e2⟩ | ⟨e1, e2⟩
      · exact ⟨e1, e2⟩
      · exact ⟨e1, e2⟩
    · rename_i hne
      simp only [Option.some.injEq, Prod.mk.injEq] at h
      obtain ⟨rfl, rfl⟩ := h
      exact ⟨hne, Or.inl ⟨rfl, rfl⟩⟩

theorem RingBuffer6_Cached_new {α : Type} (C : Nat) :
    (NewRingBuffer6 C : RingBuffer6 α).Cached C :=
  ⟨rfl, by simp [NewRingBuffer6], 0, 0, 0, 0, Nat.le_refl _, Nat.le_refl _, Nat.le_refl _,
    by omega, rfl, rfl, rfl, rfl⟩

theorem RingBuffer6_Cached_diff {α : Type} (C : Nat) (hC : C < U64) (rb : RingBuffer6 α)
    (h : rb.Cached C) : sub64 rb.writeIdx rb.readIdx ≤ C := by
  obtain ⟨_, _, R, W, rc, wc, g1, g2, g3, g4, g5, g6, _, _⟩ := h
  rw [g5, g6]
  unfold sub64 U64 at *
  omega

theorem RingBuffer6_Enqueue_cached {α : Type} (C : Nat) (hC : C < U64) (fuel : Nat)
    (rb rb1 : RingBuffer6 α) (x : Option α) (e : Option Err) (h : rb.Cached C)
    (hs : rb.Enqueue fuel x = .ret (rb1, e)) : rb1.Cached C := by
  obtain ⟨w, r, wcf, rcf, sz, buf⟩ := rb
  obtain ⟨hsz, hlen, R, W, rc, wc, g1, g2, g3, g4, g5, g6, g7, g8⟩ := h
  simp only at hsz hlen g5 g6 g7 g8
  subst hsz
  unfold RingBuffer6.Enqueue at hs
  dsimp only at hs
  split at hs
  · simp only [reduceCtorEq] at hs
  · rename_i rb2 read2 heq
    obtain ⟨c, hcase⟩ := RingBuffer6_enqueueWait_exit _ _ _ _ _ _ heq
    have hw1 : add64 w 1 = (W + 1) % U64 := by
      rw [g6]
      unfold add64 U64
      omega
    rcases hcase with ⟨rfl, rfl⟩ | ⟨rfl, rfl⟩
    · split at hs
      · simp only [Outcome.ret.injEq, Prod.mk.injEq] at hs
        obtain ⟨rfl, _⟩ := hs
        refine ⟨rfl, by simpa using hlen, R, W + 1, rc, wc, g1, g2, by omega, ?_,
          g5, hw1, g7, g8⟩
        simp only at c
        rw [g7, g6] at c
        unfold add64 U64 at c
        unfold U64 at hC
        omega
      · simp only [reduceCtorEq] at hs
    · split at hs
      · simp only [Outcome.ret.injEq, Prod.mk.injEq] at hs
        obtain ⟨rfl, _⟩ := hs
        refine ⟨rfl, by simpa using hlen, R, W + 1, R, wc, Nat.le_refl _, g2, by omega, ?_,
          g5, hw1, g5, g8⟩
        simp only at c
        rw [g5, g6] at c
        unfold add64 U64 at c
        omega
      · simp only [reduceCtorEq] at hs

theorem RingBuffer6_Dequeue_cached {α : Type} (C : Nat) (fuel : Nat)
    (rb rb1 : RingBuffer6 α) (x : Option α) (e : Option Err) (h : rb.Cached C)
    (hs : rb.Dequeue fuel = .ret (rb1, x, e)) : rb1.Cached C := by
  obtain ⟨w, r, wcf, rcf, sz, buf⟩ := rb
  obtain ⟨hsz, hlen, R, W, rc, wc, g1, g2, g3, g4, g5, g6, g7, g8⟩ := h
  simp only at hsz hlen g5 g6 g7 g8
  subst hsz
  unfold RingBuffer6.Dequeue at hs
  dsimp only at hs
  split at hs
  · simp only [reduceCtorEq] at hs
  · rename_i rb2 write2 heq
    obtain ⟨c, hcase⟩ := RingBuffer6_dequeueWait_exit _ _ _ _ _ _ heq
    have hr1 : add64 r 1 = (R + 1) % U64 := by
      rw [g5]
      unfold add64 U64
      omega
    rcases hcase with ⟨rfl, rfl⟩ | ⟨rfl, rfl⟩
    · split at hs
      · simp only [Outcome.ret.injEq, Prod.mk.injEq] at hs
        obtain ⟨rfl, _⟩ := hs
        refine ⟨rfl, hlen, R + 1, W, rc, wc, by omega, ?_, g3, g4, hr1, g6, g7, g8⟩
        rw [g5, g8] at c
        have : wc ≠ R := fun e => c (by rw [e])
        omega
      · simp only [reduceCtorEq] at hs
    · split at hs
      · simp only [Outcome.ret.injEq, Prod.mk.injEq] at hs
        obtain ⟨rfl, _⟩ := hs
        refine ⟨rfl, hlen, R + 1, W, rc, W, by omega, ?_, Nat.le_refl _, g4, hr1, g6, g7, g6⟩
        rw [g5, g6] at c
        have : W ≠ R := fun e => c (by rw [e])
        omega
      · simp only [reduceCtorEq] at hs

theorem RingBuffer6_run_cached {α : Type} (C : Nat) (hC : C < U64) (fuel : Nat)
    (ops : List (Op α)) (rb : RingBuffer6 α) (rs : List (Ret α))
    (h : runOps (RingBuffer6.step fuel) (NewRingBuffer6 C) ops = .ret (rb, rs)) :
    rb.Cached C :=
  runOps_invariant (RingBuffer6.step fuel) (RingBuffer6.Cached C)
    (fun s op s1 r hs h1 => by
      cases op with
      | enq x => exact RingBuffer6_Enqueue_cached C hC fuel s s1 x r.err hs (enqRet_inv h1).1
      | deq => exact RingBuffer6_Dequeue_cached C fuel s s1 r.item r.err hs (deqRet_inv h1))
    ops _ rb rs (RingBuffer6_Cached_new C) h

theorem RingBuffer6_run_bounded {α : Type} (C : Nat) (hC : C < U64) (fuel : Nat)
    (ops : List (Op α)) (rb : RingBuffer6 α) (rs : List (Ret α))
    (h : runOps (RingBuffer6.step fuel) (NewRingBuffer6 C) ops = .ret (rb, rs)) :
    sub64 rb.writeIdx rb.readIdx ≤ C :=
  RingBuffer6_Cached_diff C hC rb (RingBuffer6_run_cached C hC fuel ops rb rs h)

theorem NodeInv.diff_le {α : Type} {k R w r m : Nat} {nodes : List (node α)}
    {q : List (Option α)} (h : NodeInv k R w r m nodes q) (hk : k < 64) :
    sub64 w r = q.length ∧ q.length ≤ 2 ^ k := by
  obtain ⟨_, _, h3, h4, h5, _⟩ := h
  have hU := pow2_lt_U64 hk
  refine ⟨?_, h5⟩
  rw [h3, h4]
  generalize 2 ^ k = P at h5 hU
  unfold sub64 U64 at *
  omega

theorem RingBuffer7_run_bounded {α : Type} {k : Nat} (hk1 : 1 ≤ k) (hk : k < 64)
    (ops : List (Op α)) (rb : RingBuffer7 α) (rs : List (Ret α))
    (h : runOps RingBuffer7.step (NewRingBuffer7 (2 ^ k)) ops = .ret (rb, rs)) :
    sub64 rb.writeIdx rb.readIdx ≤ 2 ^ k := by
  obtain ⟨rb', hrun, R, hh⟩ := RingBuffer7_refines (α := α) hk1 hk ops
  rw [h] at hrun
  simp only [Outcome.ret.injEq, Prod.mk.injEq] at hrun
  rw [← hrun.1] at hh
  rw [(hh.diff_le hk).1]
  exact (hh.diff_le hk).2

theorem RingBuffer7_wo_pad_run_bounded {α : Type} {k : Nat} (hk1 : 1 ≤ k) (hk : k < 64)
    (ops : List (Op α)) (rb : RingBuffer7_wo_pad α) (rs : List (Ret α))
    (h : runOps RingBuffer7_wo_pad.step (NewRingBuffer7_wo_pad (2 ^ k)) ops = .ret (rb, rs)) :
    sub64 rb.writeIdx rb.readIdx ≤ 2 ^ k := by
  obtain ⟨rb', hrun, R, hh⟩ := RingBuffer7_wo_pad_refines (α := α) hk1 hk ops
  rw [h] at hrun
  simp only [Outcome.ret.injEq, Prod.mk.injEq] at hrun
  rw [← hrun.1] at hh
  rw [(hh.diff_le hk).1]
  exact (hh.diff_le hk).2

theorem RingBuffer8_run_bounded {α : Type} {k : Nat} (hk1 : 1 ≤ k) (hk : k < 64) (fuel : Nat)
    (ops : List (Op α)) (rb : RingBuffer8 α) (rs : List (Ret α))
    (h : runOps (RingBuffer8.step fuel) (NewRingBuffer8 (2 ^ k)) ops = .ret (rb, rs)) :
    sub64 rb.writeIdx rb.readIdx ≤ 2 ^ k := by
  obtain ⟨q, R, hh⟩ := RingBuffer8_Holds_run hk1 hk fuel ops rb rs h
  rw [(hh.diff_le hk).1]
  exact (hh.diff_le hk).2

/-- The capacity bound `(writeIdx - readIdx) mod 2^64 ≤ C` in every reachable
state: for the array variants RingBuffer0 to RingBuffer6 at every capacity, for
the node-sequence variants at every capacity `2^k` with `1 ≤ k`. -/
theorem capacity_bound_except_node_capacity_one {α : Type} (C : Nat) (hC : C < U64) (k : Nat)
    (hk1 : 1 ≤ k) (hk : k < 64) (fuel : Nat) (ops : List (Op α)) :
    (∀ rb rs, runOps RingBuffer0.step (NewRingBuffer0 C) ops = .ret (rb, rs) →
      sub64 rb.writeIdx rb.readIdx ≤ C) ∧
    (∀ rb rs, runOps RingBuffer1.step (NewRingBuffer1 C) ops = .ret (rb, rs) →
      sub64 rb.writeIdx rb.readIdx ≤ C) ∧
    (∀ rb rs, runOps RingBuffer2.step (NewRingBuffer2 C) ops = .ret (rb, rs) →
      sub64 rb.writeIdx rb.readIdx ≤ C) ∧
    (∀ rb rs, runOps RingBuffer3.step (NewRingBuffer3 C) ops = .ret (rb, rs) →
      sub64 rb.writeIdx rb.readIdx ≤ C) ∧
    (∀ rb rs, runOps RingBuffer4.step (NewRingBuffer4 C) ops = .ret (rb, rs) →
      sub64 rb.writeIdx rb.readIdx ≤ C) ∧
    (∀ rb rs, runOps RingBuffer5.step (NewRingBuffer5 C) ops = .ret (rb, rs) →
      sub64 rb.writeIdx rb.readIdx ≤ C) ∧
    (∀ rb rs, runOps (RingBuffer6.step fuel) (NewRingBuffer6 C) ops = .ret (rb, rs) →
      sub64 rb.writeIdx rb.readIdx ≤ C) ∧
    (∀ rb rs,
      runOps RingBuffer7_wo_pad.step (NewRingBuffer7_wo_pad (2 ^ k)) ops = .ret (rb, rs) →
      sub64 rb.writeIdx rb.readIdx ≤ 2 ^ k) ∧
    (∀ rb rs, runOps RingBuffer7.step (NewRingBuffer7 (2 ^ k)) ops = .ret (rb, rs) →
      sub64 rb.writeIdx rb.readIdx ≤ 2 ^ k) ∧
    (∀ rb rs, runOps (RingBuffer8.step fuel) (NewRingBuffer8 (2 ^ k)) ops = .ret (rb, rs) →
      sub64 rb.writeIdx rb.readIdx ≤ 2 ^ k) :=
  ⟨RingBuffer0_run_bounded C hC ops, RingBuffer1_run_bounded C hC ops,
    RingBuffer2_run_bounded C hC ops, RingBuffer3_run_bounded C hC ops,
    RingBuffer4_run_bounded C hC ops, RingBuffer5_run_bounded C hC ops,
    RingBuffer6_run_bounded C hC fuel ops, RingBuffer7_wo_pad_run_bounded hk1 hk ops,
    RingBuffer7_run_bounded hk1 hk ops, RingBuffer8_run_bounded hk1 hk fuel ops⟩

/-! ## The embedding passes `TestRingBuffer` -/

/-- Each variant that `TestRingBuffer` exercises returns, in the embedding,
what the test asserts. -/
theorem TestRingBuffer_passes :
    runOps RingBuffer0.step (NewRingBuffer0 2) testCalls
      = .ret (⟨3, 3, 2, [some 4, some 2]⟩, testReturns) ∧
    runOps RingBuffer1.step (NewRingBuffer1 2) testCalls
      = .ret (⟨3, 3, 2, 1, [some 4, some 2]⟩, testReturns) ∧
    runOps RingBuffer2.step (NewRingBuffer2 2) testCalls
      = .ret (⟨3, 3, 2, [some 4, some 2]⟩, testReturns) ∧
    runOps RingBuffer3.step (NewRingBuffer3 2) testCalls
      = .ret (⟨3, 3, 2, [some 4, some 2]⟩, testReturns) ∧
    runOps RingBuffer4.step (NewRingBuffer4 2) testCalls
      = .ret (⟨3, 3, 2, [some 4, some 2]⟩, testReturns) ∧
    runOps RingBuffer5.step (NewRingBuffer5 2) testCalls
      = .ret (⟨3, 3, 3, 1, 2, [some 4, some 2]⟩, testReturns) ∧
    runOps RingBuffer7.step (NewRingBuffer7 2) testCalls
      = .ret (⟨3, 3, 1, [⟨4, none⟩, ⟨3, none⟩]⟩, testReturns) := by
  decide

/-! ## C11: RingBuffer2 against RingBuffer0 -/

theorem RingBuffer2_sim_step {α : Type} {k : Nat} (hk : k < 64) (w r : Nat)
    (buf : List (Option α)) (hb : buf.length = 2 ^ k) (op : Op α) :
    ∃ w1 r1 buf1 ret, buf1.length = 2 ^ k ∧
      RingBuffer2.step ⟨w, r, 2 ^ k, buf⟩ op = .ret (⟨w1, r1, 2 ^ k, buf1⟩, ret) ∧
      RingBuffer0.step ⟨w, r, 2 ^ k, buf⟩ op = .ret (⟨w1, r1, 2 ^ k, buf1⟩, ret) := by
  have hP := pow2_pos k
  cases op with
  | enq x =>
    by_cases hfull : sub64 w r = 2 ^ k
    · refine ⟨w, r, buf, ⟨none, some Err.ErrBufferFull⟩, hb, ?_, ?_⟩
      · rw [RingBuffer2_step_enq, RingBuffer2_Enqueue_full _ _ _ _ _ hfull, enqRet_ret]
      · rw [RingBuffer0_step_enq, RingBuffer0_Enqueue_full _ _ _ _ _ hfull, enqRet_ret]
    · refine ⟨add64 w 1, r, buf.set (w % 2 ^ k) x, ⟨none, none⟩, by simpa using hb, ?_, ?_⟩
      · rw [RingBuffer2_step_enq, RingBuffer2_Enqueue_ok _ _ _ _ _ hfull
          (by rw [hb]; exact land_mask_lt w hP (pow2_lt_U64 hk)), enqRet_ret,
          land_mask_eq_mod w hk]
      · rw [RingBuffer0_step_enq, RingBuffer0_Enqueue_ok _ _ _ _ _ hfull hP hb, enqRet_ret]
  | deq =>
    by_cases he : w = r
    · refine ⟨w, r, buf, ⟨none, some Err.ErrBufferEmpty⟩, hb, ?_, ?_⟩
      · rw [RingBuffer2_step_deq, RingBuffer2_Dequeue_empty _ _ _ _ he, deqRet_ret]
      · rw [RingBuffer0_step_deq, RingBuffer0_Dequeue_empty _ _ _ _ he, deqRet_ret]
    · have hlt : r % 2 ^ k < buf.length := by rw [hb]; exact Nat.mod_lt _ hP
      have hi : buf[r % 2 ^ k]? = some (buf.get ⟨r % 2 ^ k, hlt⟩) :=
        List.getElem?_eq_getElem hlt
      refine ⟨w, add64 r 1, buf, ⟨buf.get ⟨r % 2 ^ k, hlt⟩, none⟩, hb, ?_, ?_⟩
      · rw [RingBuffer2_step_deq, RingBuffer2_Dequeue_ok _ _ _ _ _ he
          (by rw [land_mask_eq_mod r hk]; exact hi), deqRet_ret]
      · rw [RingBuffer0_step_deq, RingBuffer0_Dequeue_ok _ _ _ _ _ he hP hi, deqRet_ret]

theorem RingBuffer2_sim_RingBuffer0 {α : Type} {k : Nat} (hk : k < 64) (ops : List (Op α)) :
    ∃ (rb2 : RingBuffer2 α) (rb0 : RingBuffer0 α) (rs : List (Ret α)),
      runOps RingBuffer2.step (NewRingBuffer2 (2 ^ k)) ops = .ret (rb2, rs) ∧
      runOps RingBuffer0.step (NewRingBuffer0 (2 ^ k)) ops = .ret (rb0, rs) ∧
      rb2.buffers = rb0.buffers ∧ rb2.writeIdx = rb0.writeIdx ∧
      rb2.readIdx = rb0.readIdx ∧ rb2.size = rb0.size := by
  obtain ⟨rb2, rb0, rs, h1, h2, h3⟩ := runOps_sim RingBuffer2.step RingBuffer0.step
    (fun (a : RingBuffer2 α) (b : RingBuffer0 α) =>
      a.writeIdx = b.writeIdx ∧ a.readIdx = b.readIdx ∧ a.size = 2 ^ k ∧ b.size = 2 ^ k ∧
        a.buffers = b.buffers ∧ b.buffers.length = 2 ^ k)
    (fun a b op hab => by
      obtain ⟨w, r, sz, buf⟩ := a
      obtain ⟨w', r', sz', buf'⟩ := b
      obtain ⟨e1, e2, e3, e4, e6, e7⟩ := hab
      simp only at e1 e2 e3 e4 e6 e7
      subst e1 e2 e3 e4 e6
      obtain ⟨w1, r1, buf1, ret, g1, g2, g3⟩ := RingBuffer2_sim_step hk w r buf e7 op
      exact ⟨_, _, ret, g2, g3, rfl, rfl, rfl, rfl, rfl, g1⟩)
    ops (NewRingBuffer2 (2 ^ k)) (NewRingBuffer0 (2 ^ k))
    ⟨rfl, rfl, rfl, rfl, rfl, by simp [NewRingBuffer0]⟩
  obtain ⟨e1, e2, e3, e4, e6, _⟩ := h3
  exact ⟨rb2, rb0, rs, h1, h2, e6, e1, e2, e3.trans e4.symm⟩

/-- At every capacity, a call on a RingBuffer2 and the same call on a
RingBuffer0 with the same indices return the same error and leave the same
indices; the slot arrays may differ. -/
theorem RingBuffer2_err_sim_step {α : Type} {C : Nat} (h0 : 0 < C) (hC : C < U64) (w r : Nat)
    (buf2 buf0 : List (Option α)) (hb2 : buf2.length = C) (hb0 : buf0.length = C)
    (op : Op α) :
    ∃ w1 r1 b2 b0 ret2 ret0, b2.length = C ∧ b0.length = C ∧ ret2.err = ret0.err ∧
      RingBuffer2.step ⟨w, r, C, buf2⟩ op = .ret (⟨w1, r1, C, b2⟩, ret2) ∧
      RingBuffer0.step ⟨w, r, C, buf0⟩ op = .ret (⟨w1, r1, C, b0⟩, ret0) := by
  cases op with
  | enq x =>
    by_cases hfull : sub64 w r = C
    · refine ⟨w, r, buf2, buf0, ⟨none, some Err.ErrBufferFull⟩, ⟨none, some Err.ErrBufferFull⟩,
        hb2, hb0, rfl, ?_, ?_⟩
      · rw [RingBuffer2_step_enq, RingBuffer2_Enqueue_full _ _ _ _ _ hfull, enqRet_ret]
      · rw [RingBuffer0_step_enq, RingBuffer0_Enqueue_full _ _ _ _ _ hfull, enqRet_ret]
    · refine ⟨add64 w 1, r, buf2.set (w &&& sub64 C 1) x, buf0.set (w % C) x, ⟨none, none⟩,
        ⟨none, none⟩, by simpa using hb2, by simpa using hb0, rfl, ?_, ?_⟩
      · rw [RingBuffer2_step_enq, RingBuffer2_Enqueue_ok _ _ _ _ _ hfull
          (by rw [hb2]; exact land_mask_lt w h0 hC), enqRet_ret]
      · rw [RingBuffer0_step_enq, RingBuffer0_Enqueue_ok _ _ _ _ _ hfull h0 hb0, enqRet_ret]
  | deq =>
    by_cases he : w = r
    · refine ⟨w, r, buf2, buf0, ⟨none, some Err.ErrBufferEmpty⟩,
        ⟨none, some Err.ErrBufferEmpty⟩, hb2, hb0, rfl, ?_, ?_⟩
      · rw [RingBuffer2_step_deq, RingBuffer2_Dequeue_empty _ _ _ _ he, deqRet_ret]
      · rw [RingBuffer0_step_deq, RingBuffer0_Dequeue_empty _ _ _ _ he, deqRet_ret]
    · have hlt0 : r % C < buf0.length := by rw [hb0]; exact Nat.mod_lt _ h0
      have hlt2 : r &&& sub64 C 1 < buf2.length := by rw [hb2]; exact land_mask_lt r h0 hC
      have hi0 : buf0[r % C]? = some (buf0.get ⟨r % C, hlt0⟩) :=
        List.getElem?_eq_getElem hlt0
      have hi2 : buf2[r &&& sub64 C 1]? = some (buf2.get ⟨r &&& sub64 C 1, hlt2⟩) :=
        List.getElem?_eq_getElem hlt2
      refine ⟨w, add64 r 1, buf2, buf0, ⟨buf2.get ⟨_, hlt2⟩, none⟩, ⟨buf0.get ⟨_, hlt0⟩, none⟩,
        hb2, hb0, rfl, ?_, ?_⟩
      · rw [RingBuffer2_step_deq, RingBuffer2_Dequeue_ok _ _ _ _ _ he hi2, deqRet_ret]
      · rw [RingBuffer0_step_deq, RingBuffer0_Dequeue_ok _ _ _ _ _ he h0 hi0, deqRet_ret]

theorem RingBuffer2_err_sim_run {α : Type} {C : Nat} (h0 : 0 < C) (hC : C < U64)
    (ops : List (Op α)) : ∀ (w r : Nat) (buf2 buf0 : List (Option α)),
    buf2.length = C → buf0.length = C →
    ∃ (rb2 : RingBuffer2 α) (rb0 : RingBuffer0 α) (rs2 rs0 : List (Ret α)),
      runOps RingBuffer2.step ⟨w, r, C, buf2⟩ ops = .ret (rb2, rs2) ∧
      runOps RingBuffer0.step ⟨w, r, C, buf0⟩ ops = .ret (rb0, rs0) ∧
      rs2.map Ret.err = rs0.map Ret.err ∧
      rb2.writeIdx = rb0.writeIdx ∧ rb2.readIdx = rb0.readIdx := by
  induction ops with
  | nil =>
    intro w r buf2 buf0 _ _
    exact ⟨_, _, [], [], rfl, rfl, rfl, rfl, rfl⟩
  | cons op ops ih =>
    intro w r buf2 buf0 hb2 hb0
    obtain ⟨w1, r1, b2, b0, ret2, ret0, g1, g2, g3, g4, g5⟩ :=
      RingBuffer2_err_sim_step h0 hC w r buf2 buf0 hb2 hb0 op
    obtain ⟨rb2, rb0, rs2, rs0, k1, k2, k3, k4, k5⟩ := ih w1 r1 b2 b0 g1 g2
    refine ⟨rb2, rb0, ret2 :: rs2, ret0 :: rs0, runOps_cons_ret _ g4 k1,
      runOps_cons_ret _ g5 k2, ?_, k4, k5⟩
    simp only [List.map_cons, g3, k3]

/-! ## C18: what a successful call writes -/

theorem slot_set_frame {β : Type} (l : List β) (i : Nat) (x : β) (hi : i < l.length) :
    (l.set i x).length = l.length ∧ (l.set i x)[i]? = some x ∧
      ∀ j, j ≠ i → (l.set i x)[j]? = l[j]? := by
  refine ⟨List.length_set _ _ _, ?_, ?_⟩
  · simp [hi]
  · intro j hj
    simp [List.getElem?_set, Ne.symm hj]

theorem RingBuffer0_Enqueue_frame {α : Type} (rb rb1 : RingBuffer0 α) (x : Option α)
    (h : rb.Enqueue x = .ret (rb1, none)) :
    rb1.writeIdx = add64 rb.writeIdx 1 ∧ rb1.readIdx = rb.readIdx ∧ rb1.size = rb.size ∧
      rb.writeIdx % rb.size < rb.buffers.length ∧
      rb1.buffers = rb.buffers.set (rb.writeIdx % rb.size) x := by
  unfold RingBuffer0.Enqueue at h
  try dsimp only at h
  repeat' split at h
  all_goals simp only [Outcome.ret.injEq, Prod.mk.injEq, reduceCtorEq, and_false, and_true,
    false_and] at h
  all_goals
    subst h
    exact ⟨rfl, rfl, rfl, by assumption, rfl⟩

theorem RingBuffer0_Dequeue_frame {α : Type} (rb rb1 : RingBuffer0 α) (x : Option α)
    (h : rb.Dequeue = .ret (rb1, x, none)) :
    rb1.readIdx = add64 rb.readIdx 1 ∧ rb1.writeIdx = rb.writeIdx ∧ rb1.size = rb.size ∧
      rb1.buffers = rb.buffers := by
  unfold RingBuffer0.Dequeue at h
  try dsimp only at h
  repeat' split at h
  all_goals simp only [Outcome.ret.injEq, Prod.mk.injEq, reduceCtorEq, and_false, and_true,
    false_and] at h
  all_goals
    obtain ⟨rfl, _⟩ := h
    exact ⟨rfl, rfl, rfl, rfl⟩

theorem RingBuffer1_Enqueue_frame {α : Type} (rb rb1 : RingBuffer1 α) (x : Option α)
    (h : rb.Enqueue x = .ret (rb1, none)) :
    rb1.writeIdx = add64 rb.writeIdx 1 ∧ rb1.readIdx = rb.readIdx ∧ rb1.size = rb.size ∧ rb1.mask = rb.mask ∧
      rb.writeIdx &&& rb.mask < rb.buffers.length ∧
      rb1.buffers = rb.buffers.set (rb.writeIdx &&& rb.mask) x := by
  unfold RingBuffer1.Enqueue at h
  try dsimp only at h
  repeat' split at h
  all_goals simp only [Outcome.ret.injEq, Prod.mk.injEq, reduceCtorEq, and_false, and_true,
    false_and] at h
  all_goals
    subst h
    exact ⟨rfl, rfl, rfl, rfl, by assumption, rfl⟩

theorem RingBuffer1_Dequeue_frame {α : Type} (rb rb1 : RingBuffer1 α) (x : Option α)
    (h : rb.Dequeue = .ret (rb1, x, none)) :
    rb1.readIdx = add64 rb.readIdx 1 ∧ rb1.writeIdx = rb.writeIdx ∧ rb1.size = rb.size ∧ rb1.mask = rb.mask ∧
      rb1.buffers = rb.buffers := by
  unfold RingBuffer1.Dequeue at h
  try dsimp only at h
  repeat' split at h
  all_goals simp only [Outcome.ret.injEq, Prod.mk.injEq, reduceCtorEq, and_false, and_true,
    false_and] at h
  all_goals
    obtain ⟨rfl, _⟩ := h
    exact ⟨rfl, rfl, rfl, rfl, rfl⟩

theorem RingBuffer2_Enqueue_frame {α : Type} (rb rb1 : RingBuffer2 α) (x : Option α)
    (h : rb.Enqueue x = .ret (rb1, none)) :
    rb1.writeIdx = add64 rb.writeIdx 1 ∧ rb1.readIdx = rb.readIdx ∧ rb1.size = rb.size ∧
      rb.writeIdx &&& sub64 rb.size 1 < rb.buffers.length ∧
      rb1.buffers = rb.buffers.set (rb.writeIdx &&& sub64 rb.size 1) x := by
  unfold RingBuffer2.Enqueue at h
  try dsimp only at h
  repeat' split at h
  all_goals simp only [Outcome.ret.injEq, Prod.mk.injEq, reduceCtorEq, and_false, and_true,
    false_and] at h
  all_goals
    subst h
    exact ⟨rfl, rfl, rfl, by assumption, rfl⟩

theorem RingBuffer2_Dequeue_frame {α : Type} (rb rb1 : RingBuffer2 α) (x : Option α)
    (h : rb.Dequeue = .ret (rb1, x, none)) :
    rb1.readIdx = add64 rb.readIdx 1 ∧ rb1.writeIdx = rb.writeIdx ∧ rb1.size = rb.size ∧
      rb1.buffers = rb.buffers := by
  unfold RingBuffer2.Dequeue at h
  try dsimp only at h
  repeat' split at h
  all_goals simp only [Outcome.ret.injEq, Prod.mk.injEq, reduceCtorEq, and_false, and_true,
    false_and] at h
  all_goals
    obtain ⟨rfl, _⟩ := h
    exact ⟨rfl, rfl, rfl, rfl⟩

theorem RingBuffer3_Enqueue_frame {α : Type} (rb rb1 : RingBuffer3 α) (x : Option α)
    (h : rb.Enqueue x = .ret (rb1, none)) :
    rb1.writeIdx = add64 rb.writeIdx 1 ∧ rb1.readIdx = rb.readIdx ∧ rb1.size = rb.size ∧
      rb.writeIdx &&& sub64 rb.size 1 < rb.buffers.length ∧
      rb1.buffers = rb.buffers.set (rb.writeIdx &&& sub64 rb.size 1) x := by
  unfold RingBuffer3.Enqueue at h
  try dsimp only at h
  repeat' split at h
  all_goals simp only [Outcome.ret.injEq, Prod.mk.injEq, reduceCtorEq, and_false, and_true,
    false_and] at h
  all_goals
    subst h
    exact ⟨rfl, rfl, rfl, by assumption, rfl⟩

theorem RingBuffer3_Dequeue_frame {α : Type} (rb rb1 : RingBuffer3 α) (x : Option α)
    (h : rb.Dequeue = .ret (rb1, x, none)) :
    rb1.readIdx = add64 rb.readIdx 1 ∧ rb1.writeIdx = rb.writeIdx ∧ rb1.size = rb.size ∧
      rb1.buffers = rb.buffers := by
  unfold RingBuffer3.Dequeue at h
  try dsimp only at h
  repeat' split at h
  all_goals simp only [Outcome.ret.injEq, Prod.mk.injEq, reduceCtorEq, and_false, and_true,
    false_and] at h
  all_goals
    obtain ⟨rfl, _⟩ := h
    exact ⟨rfl, rfl, rfl, rfl⟩

theorem RingBuffer4_Enqueue_frame {α : Type} (rb rb1 : RingBuffer4 α) (x : Option α)
    (h : rb.Enqueue x = .ret (rb1, none)) :
    rb1.writeIdx = add64 rb.writeIdx 1 ∧ rb1.readIdx = rb.readIdx ∧ rb1.size = rb.size ∧
      rb.writeIdx &&& sub64 rb.size 1 < rb.buffers.length ∧
      rb1.buffers = rb.buffers.set (rb.writeIdx &&& sub64 rb.size 1) x := by
  unfold RingBuffer4.Enqueue at h
  try dsimp only at h
  repeat' split at h
  all_goals simp only [Outcome.ret.injEq, Prod.mk.injEq, reduceCtorEq, and_false, and_true,
    false_and] at h
  all_goals
    subst h
    exact ⟨rfl, rfl, rfl, by assumption, rfl⟩

theorem RingBuffer4_Dequeue_frame {α : Type} (rb rb1 : RingBuffer4 α) (x : Option α)
    (h : rb.Dequeue = .ret (rb1, x, none)) :
    rb1.readIdx = add64 rb.readIdx 1 ∧ rb1.writeIdx = rb.writeIdx ∧ rb1.size = rb.size ∧
      rb1.buffers = rb.buffers := by
  unfold RingBuffer4.Dequeue at h
  try dsimp only at h
  repeat' split at h
  all_goals simp only [Outcome.ret.injEq, Prod.mk.injEq, reduceCtorEq, and_false, and_true,
    false_and] at h
  all_goals
    obtain ⟨rfl, _⟩ := h
    exact ⟨rfl, rfl, rfl, rfl⟩

/-! ## C20: no call indexes a slice out of bounds -/

theorem ret_ne_panic {β : Type} (v : β) : (Outcome.ret v : Outcome β) ≠ .panic := by
  intro h
  cases h

theorem spinning_ne_panic {β : Type} : (Outcome.spinning : Outcome β) ≠ .panic := by
  intro h
  cases h

theorem enqRet_ne_panic {σ α : Type} {o : Outcome (σ × Option Err)} (h : o ≠ .panic) :
    (enqRet o : Outcome (σ × Ret α)) ≠ .panic := by
  cases o with
  | ret v => exact ret_ne_panic _
  | panic => exact absurd rfl h
  | spinning => exact spinning_ne_panic

theorem deqRet_ne_panic {σ α : Type} {o : Outcome (σ × Option α × Option Err)}
    (h : o ≠ .panic) : (deqRet o : Outcome (σ × Ret α)) ≠ .panic := by
  cases o with
  | ret v => exact ret_ne_panic _
  | panic => exact absurd rfl h
  | spinning => exact spinning_ne_panic

theorem runOps_no_panic {σ α : Type} (step : σ → Op α → Outcome (σ × Ret α))
    (Inv : σ → Prop)
    (hstep : ∀ s op s1 r, Inv s → step s op = .ret (s1, r) → Inv s1)
    (hsafe : ∀ s op, Inv s → step s op ≠ .panic) :
    ∀ (ops : List (Op α)) (s : σ), Inv s → runOps step s ops ≠ .panic := by
  intro ops
  induction ops with
  | nil =>
    intro s _
    exact ret_ne_panic _
  | cons op ops ih =>
    intro s hs
    unfold runOps
    cases h1 : step s op with
    | panic => exact absurd h1 (hsafe s op hs)
    | spinning => exact spinning_ne_panic
    | ret v =>
      obtain ⟨s1, r⟩ := v
      have h2 := ih s1 (hstep s op s1 r hs h1)
      simp only
      cases h3 : runOps step s1 ops with
      | panic => exact absurd h3 h2
      | spinning => exact spinning_ne_panic
      | ret v2 => exact ret_ne_panic _

theorem RingBuffer0_no_panic {α : Type} (C : Nat) (rb : RingBuffer0 α)
    (hinv : rb.WF C ∧ sub64 rb.writeIdx rb.readIdx ≤ C) (x : Option α) :
    rb.Enqueue x ≠ .panic ∧ rb.Dequeue ≠ .panic := by
  obtain ⟨w, r, sz, buf⟩ := rb
  obtain ⟨⟨e1, e2, e3, e4⟩, e5⟩ := hinv
  simp only at e1 e2 e3 e4 e5
  subst e1
  constructor
  · by_cases hfull : sub64 w r = sz
    · rw [RingBuffer0_Enqueue_full _ _ _ _ _ hfull]
      exact ret_ne_panic _
    · have h0 : 0 < sz := by omega
      rw [RingBuffer0_Enqueue_ok _ _ _ _ _ hfull h0 e2]
      exact ret_ne_panic _
  · by_cases he : w = r
    · rw [RingBuffer0_Dequeue_empty _ _ _ _ he]
      exact ret_ne_panic _
    · have h0 : 0 < sz := by
        rcases Nat.eq_zero_or_pos sz with hz | hz
        · rw [hz] at e5
          exact absurd ((sub64_eq_zero e3 e4).mp (Nat.le_zero.mp e5)) he
        · exact hz
      have hlt : r % sz < buf.length := by rw [e2]; exact Nat.mod_lt _ h0
      have hi : buf[r % sz]? = some (buf.get ⟨r % sz, hlt⟩) := List.getElem?_eq_getElem hlt
      rw [RingBuffer0_Dequeue_ok _ _ _ _ _ he h0 hi]
      exact ret_ne_panic _

theorem RingBuffer0_step_no_panic {α : Type} (C : Nat) (rb : RingBuffer0 α) (op : Op α)
    (hinv : rb.WF C ∧ sub64 rb.writeIdx rb.readIdx ≤ C) : rb.step op ≠ .panic := by
  cases op with
  | enq x => exact enqRet_ne_panic (RingBuffer0_no_panic C rb hinv x).1
  | deq => exact deqRet_ne_panic (RingBuffer0_no_panic C rb hinv none).2

theorem RingBuffer0_run_inv {α : Type} (C : Nat) (hC : C < U64) (ops : List (Op α))
    (rb : RingBuffer0 α) (rs : List (Ret α))
    (h : runOps RingBuffer0.step (NewRingBuffer0 C) ops = .ret (rb, rs)) :
    rb.WF C ∧ sub64 rb.writeIdx rb.readIdx ≤ C :=
  runOps_invariant RingBuffer0.step
    (fun rb => rb.WF C ∧ sub64 rb.writeIdx rb.readIdx ≤ C)
    (fun s op s1 r hs h1 => RingBuffer0_step_bounded C hC s s1 op r hs h1)
    ops _ rb rs ⟨RingBuffer0_WF_new C, RingBuffer0_run_bounded C hC [] _ [] rfl⟩ h

theorem RingBuffer0_run_no_panic {α : Type} (C : Nat) (hC : C < U64) (ops : List (Op α)) :
    runOps RingBuffer0.step (NewRingBuffer0 C : RingBuffer0 α) ops ≠ .panic :=
  runOps_no_panic RingBuffer0.step
    (fun rb => rb.WF C ∧ sub64 rb.writeIdx rb.readIdx ≤ C)
    (fun s op s1 r hs h1 => RingBuffer0_step_bounded C hC s s1 op r hs h1)
    (fun s op hs => RingBuffer0_step_no_panic C s op hs)
    ops _ ⟨RingBuffer0_WF_new C, RingBuffer0_run_bounded C hC [] _ [] rfl⟩

theorem RingBuffer1_no_panic {α : Type} (C : Nat) (h0 : 0 < C) (hC : C < U64)
    (rb : RingBuffer1 α) (hwf : rb.WF C) (x : Option α) :
    rb.Enqueue x ≠ .panic ∧ rb.Dequeue ≠ .panic := by
  obtain ⟨w, r, sz, m, buf⟩ := rb
  obtain ⟨e1, e2, _, _, e5⟩ := hwf
  simp only at e1 e2 e5
  rw [e1]
  rw [e5]
  have hw : w &&& sub64 C 1 < buf.length := by rw [e2]; exact land_mask_lt w h0 hC
  have hr : r &&& sub64 C 1 < buf.length := by rw [e2]; exact land_mask_lt r h0 hC
  have hi : buf[r &&& sub64 C 1]? = some (buf.get ⟨r &&& sub64 C 1, hr⟩) :=
    List.getElem?_eq_getElem hr
  constructor
  · by_cases hfull : sub64 w r = C
    · rw [RingBuffer1_Enqueue_full _ _ _ _ _ _ hfull]
      exact ret_ne_panic _
    · rw [RingBuffer1_Enqueue_ok _ _ _ _ _ _ hfull hw]
      exact ret_ne_panic _
  · by_cases he : w = r
    · rw [RingBuffer1_Dequeue_empty _ _ _ _ _ he]
      exact ret_ne_panic _
    · rw [RingBuffer1_Dequeue_ok _ _ _ _ _ _ he hi]
      exact ret_ne_panic _

theorem RingBuffer1_step_no_panic {α : Type} (C : Nat) (h0 : 0 < C) (hC : C < U64)
    (rb : RingBuffer1 α) (op : Op α) (hwf : rb.WF C) : rb.step op ≠ .panic := by
  cases op with
  | enq x => exact enqRet_ne_panic (RingBuffer1_no_panic C h0 hC rb hwf x).1
  | deq => exact deqRet_ne_panic (RingBuffer1_no_panic C h0 hC rb hwf none).2

theorem RingBuffer1_run_no_panic {α : Type} (C : Nat) (h0 : 0 < C) (hC : C < U64)
    (ops : List (Op α)) :
    runOps RingBuffer1.step (NewRingBuffer1 C : RingBuffer1 α) ops ≠ .panic :=
  runOps_no_panic RingBuffer1.step (fun rb => rb.WF C)
    (fun s op s1 r hs h1 => RingBuffer1_WF_step C s s1 op r hs h1)
    (fun s op hs => RingBuffer1_step_no_panic C h0 hC s op hs)
    ops _ (RingBuffer1_WF_new C)

theorem RingBuffer2_no_panic {α : Type} (C : Nat) (h0 : 0 < C) (hC : C < U64)
    (rb : RingBuffer2 α) (hwf : rb.WF C) (x : Option α) :
    rb.Enqueue x ≠ .panic ∧ rb.Dequeue ≠ .panic := by
  obtain ⟨w, r, sz, buf⟩ := rb
  obtain ⟨e1, e2, _, _⟩ := hwf
  simp only at e1 e2
  rw [e1]
  have hw : w &&& sub64 C 1 < buf.length := by rw [e2]; exact land_mask_lt w h0 hC
  have hr : r &&& sub64 C 1 < buf.length := by rw [e2]; exact land_mask_lt r h0 hC
  have hi : buf[r &&& sub64 C 1]? = some (buf.get ⟨r &&& sub64 C 1, hr⟩) :=
    List.getElem?_eq_getElem hr
  constructor
  · by_cases hfull : sub64 w r = C
    · rw [RingBuffer2_Enqueue_full _ _ _ _ _ hfull]
      exact ret_ne_panic _
    · rw [RingBuffer2_Enqueue_ok _ _ _ _ _ hfull hw]
      exact ret_ne_panic _
  · by_cases he : w = r
    · rw [RingBuffer2_Dequeue_empty _ _ _ _ he]
      exact ret_ne_panic _
    · rw [RingBuffer2_Dequeue_ok _ _ _ _ _ he hi]
      exact ret_ne_panic _

theorem RingBuffer2_step_no_panic {α : Type} (C : Nat) (h0 : 0 < C) (hC : C < U64)
    (rb : RingBuffer2 α) (op : Op α) (hwf : rb.WF C) : rb.step op ≠ .panic := by
  cases op with
  | enq x => exact enqRet_ne_panic (RingBuffer2_no_panic C h0 hC rb hwf x).1
  | deq => exact deqRet_ne_panic (RingBuffer2_no_panic C h0 hC rb hwf none).2

theorem RingBuffer2_run_no_panic {α : Type} (C : Nat) (h0 : 0 < C) (hC : C < U64)
    (ops : List (Op α)) :
    runOps RingBuffer2.step (NewRingBuffer2 C : RingBuffer2 α) ops ≠ .panic :=
  runOps_no_panic RingBuffer2.step (fun rb => rb.WF C)
    (fun s op s1 r hs h1 => RingBuffer2_WF_step C s s1 op r hs h1)
    (fun s op hs => RingBuffer2_step_no_panic C h0 hC s op hs)
    ops _ (RingBuffer2_WF_new C)

theorem RingBuffer3_no_panic {α : Type} (C : Nat) (h0 : 0 < C) (hC : C < U64)
    (rb : RingBuffer3 α) (hwf : rb.WF C) (x : Option α) :
    rb.Enqueue x ≠ .panic ∧ rb.Dequeue ≠ .panic := by
  obtain ⟨w, r, sz, buf⟩ := rb
  obtain ⟨e1, e2, _, _⟩ := hwf
  simp only at e1 e2
  rw [e1]
  have hw : w &&& sub64 C 1 < buf.length := by rw [e2]; exact land_mask_lt w h0 hC
  have hr : r &&& sub64 C 1 < buf.length := by rw [e2]; exact land_mask_lt r h0 hC
  have hi : buf[r &&& sub64 C 1]? = some (buf.get ⟨r &&& sub64 C 1, hr⟩) :=
    List.getElem?_eq_getElem hr
  constructor
  · by_cases hfull : w = add64 r C
    · rw [RingBuffer3_Enqueue_full _ _ _ _ _ hfull]
      exact ret_ne_panic _
    · rw [RingBuffer3_Enqueue_ok _ _ _ _ _ hfull hw]
      exact ret_ne_panic _
  · by_cases he : w = r
    · rw [RingBuffer3_Dequeue_empty _ _ _ _ he]
      exact ret_ne_panic _
    · rw [RingBuffer3_Dequeue_ok _ _ _ _ _ he hi]
      exact ret_ne_panic _

theorem RingBuffer3_step_no_panic {α : Type} (C : Nat) (h0 : 0 < C) (hC : C < U64)
    (rb : RingBuffer3 α) (op : Op α) (hwf : rb.WF C) : rb.step op ≠ .panic := by
  cases op with
  | enq x => exact enqRet_ne_panic (RingBuffer3_no_panic C h0 hC rb hwf x).1
  | deq => exact deqRet_ne_panic (RingBuffer3_no_panic C h0 hC rb hwf none).2

theorem RingBuffer3_run_no_panic {α : Type} (C : Nat) (h0 : 0 < C) (hC : C < U64)
    (ops : List (Op α)) :
    runOps RingBuffer3.step (NewRingBuffer3 C : RingBuffer3 α) ops ≠ .panic :=
  runOps_no_panic RingBuffer3.step (fun rb => rb.WF C)
    (fun s op s1 r hs h1 => RingBuffer3_WF_step C s s1 op r hs h1)
    (fun s op hs => RingBuffer3_step_no_panic C h0 hC s op hs)
    ops _ (RingBuffer3_WF_new C)

theorem RingBuffer4_no_panic {α : Type} (C : Nat) (h0 : 0 < C) (hC : C < U64)
    (rb : RingBuffer4 α) (hwf : rb.WF C) (x : Option α) :
    rb.Enqueue x ≠ .panic ∧ rb.Dequeue ≠ .panic := by
  obtain ⟨w, r, sz, buf⟩ := rb
  obtain ⟨e1, e2, _, _⟩ := hwf
  simp only at e1 e2
  rw [e1]
  have hw : w &&& sub64 C 1 < buf.length := by rw [e2]; exact land_mask_lt w h0 hC
  have hr : r &&& sub64 C 1 < buf.length := by rw [e2]; exact land_mask_lt r h0 hC
  have hi : buf[r &&& sub64 C 1]? = some (buf.get ⟨r &&& sub64 C 1, hr⟩) :=
    List.getElem?_eq_getElem hr
  constructor
  · by_cases hfull : w = add64 r C
    · rw [RingBuffer4_Enqueue_full _ _ _ _ _ hfull]
      exact ret_ne_panic _
    · rw [RingBuffer4_Enqueue_ok _ _ _ _ _ hfull hw]
      exact ret_ne_panic _
  · by_cases he : w = r
    · rw [RingBuffer4_Dequeue_empty _ _ _ _ he]
      exact ret_ne_panic _
    · rw [RingBuffer4_Dequeue_ok _ _ _ _ _ he hi]
      exact ret_ne_panic _

theorem RingBuffer4_step_no_panic {α : Type} (C : Nat) (h0 : 0 < C) (hC : C < U64)
    (rb : RingBuffer4 α) (op : Op α) (hwf : rb.WF C) : rb.step op ≠ .panic := by
  cases op with
  | enq x => exact enqRet_ne_panic (RingBuffer4_no_panic C h0 hC rb hwf x).1
  | deq => exact deqRet_ne_panic (RingBuffer4_no_panic C h0 hC rb hwf none).2

theorem RingBuffer4_run_no_panic {α : Type} (C : Nat) (h0 : 0 < C) (hC : C < U64)
    (ops : List (Op α)) :
    runOps RingBuffer4.step (NewRingBuffer4 C : RingBuffer4 α) ops ≠ .panic :=
  runOps_no_panic RingBuffer4.step (fun rb => rb.WF C)
    (fun s op s1 r hs h1 => RingBuffer4_WF_step C s s1 op r hs h1)
    (fun s op hs => RingBuffer4_step_no_panic C h0 hC s op hs)
    ops _ (RingBuffer4_WF_new C)

theorem RingBuffer5_no_panic {α : Type} (C : Nat) (h0 : 0 < C) (hC : C < U64)
    (rb : RingBuffer5 α) (hwf : rb.WF C) (x : Option α) :
    rb.Enqueue x ≠ .panic ∧ rb.Dequeue ≠ .panic := by
  obtain ⟨w, r, wc, rc, sz, buf⟩ := rb
  obtain ⟨e1, e2, _⟩ := hwf
  simp only at e1 e2
  rw [e1]
  have hw : w &&& sub64 C 1 < buf.length := by rw [e2]; exact land_mask_lt w h0 hC
  have hr : r &&& sub64 C 1 < buf.length := by rw [e2]; exact land_mask_lt r h0 hC
  have hi : buf[r &&& sub64 C 1]? = some (buf.get ⟨r &&& sub64 C 1, hr⟩) :=
    List.getElem?_eq_getElem hr
  constructor
  · by_cases h1 : w = add64 rc C
    · by_cases h2 : w = add64 r C
      · rw [RingBuffer5_Enqueue_full _ _ _ _ _ _ _ h1 h2]
        exact ret_ne_panic _
      · rw [RingBuffer5_Enqueue_refresh _ _ _ _ _ _ _ h1 h2 hw]
        exact ret_ne_panic _
    · rw [RingBuffer5_Enqueue_ok _ _ _ _ _ _ _ h1 hw]
      exact ret_ne_panic _
  · by_cases h1 : wc = r
    · by_cases h2 : w = r
      · rw [RingBuffer5_Dequeue_empty _ _ _ _ _ _ h1 h2]
        exact ret_ne_panic _
      · rw [RingBuffer5_Dequeue_refresh _ _ _ _ _ _ _ h1 h2 hi]
        exact ret_ne_panic _
    · rw [RingBuffer5_Dequeue_ok _ _ _ _ _ _ _ h1 hi]
      exact ret_ne_panic _

theorem RingBuffer5_step_no_panic {α : Type} (C : Nat) (h0 : 0 < C) (hC : C < U64)
    (rb : RingBuffer5 α) (op : Op α) (hwf : rb.WF C) : rb.step op ≠ .panic := by
  cases op with
  | enq x => exact enqRet_ne_panic (RingBuffer5_no_panic C h0 hC rb hwf x).1
  | deq => exact deqRet_ne_panic (RingBuffer5_no_panic C h0 hC rb hwf none).2

theorem RingBuffer5_run_no_panic {α : Type} (C : Nat) (h0 : 0 < C) (hC : C < U64)
    (ops : List (Op α)) :
    runOps RingBuffer5.step (NewRingBuffer5 C : RingBuffer5 α) ops ≠ .panic :=
  runOps_no_panic RingBuffer5.step (fun rb => rb.WF C)
    (fun s op s1 r hs h1 => RingBuffer5_WF_step C s s1 op r hs h1)
    (fun s op hs => RingBuffer5_step_no_panic C h0 hC s op hs)
    ops _ (RingBuffer5_WF_new C)

theorem RingBuffer6_no_panic {α : Type} (C : Nat) (h0 : 0 < C) (hC : C < U64)
    (rb : RingBuffer6 α) (hwf : rb.WF C) (fuel : Nat) (x : Option α) :
    rb.Enqueue fuel x ≠ .panic ∧ rb.Dequeue fuel ≠ .panic := by
  obtain ⟨g1, g2, _⟩ := hwf
  constructor
  · unfold RingBuffer6.Enqueue
    dsimp only
    split
    · exact spinning_ne_panic
    · rename_i rb2 read2 heq
      obtain ⟨_, _, h3, h4, _, _⟩ := RingBuffer6_enqueueWait_inv _ _ _ _ _ _ heq
      have hlt : rb.writeIdx &&& sub64 rb2.size 1 < rb2.buffers.length := by
        rw [h3, h4, g1, g2]
        exact land_mask_lt _ h0 hC
      rw [if_pos hlt]
      exact ret_ne_panic _
  · unfold RingBuffer6.Dequeue
    dsimp only
    split
    · exact spinning_ne_panic
    · rename_i rb2 write2 heq
      obtain ⟨_, _, h3, h4, _, _⟩ := RingBuffer6_dequeueWait_inv _ _ _ _ _ _ heq
      have hlt : rb.readIdx &&& sub64 rb2.size 1 < rb2.buffers.length := by
        rw [h3, h4, g1, g2]
        exact land_mask_lt _ h0 hC
      rw [List.getElem?_eq_getElem hlt]
      exact ret_ne_panic _

theorem RingBuffer6_step_no_panic {α : Type} (C : Nat) (h0 : 0 < C) (hC : C < U64)
    (fuel : Nat) (rb : RingBuffer6 α) (op : Op α) (hwf : rb.WF C) :
    rb.step fuel op ≠ .panic := by
  cases op with
  | enq x => exact enqRet_ne_panic (RingBuffer6_no_panic C h0 hC rb hwf fuel x).1
  | deq => exact deqRet_ne_panic (RingBuffer6_no_panic C h0 hC rb hwf fuel none).2

theorem RingBuffer6_run_no_panic {α : Type} (C : Nat) (h0 : 0 < C) (hC : C < U64)
    (fuel : Nat) (ops : List (Op α)) :
    runOps (RingBuffer6.step fuel) (NewRingBuffer6 C : RingBuffer6 α) ops ≠ .panic :=
  runOps_no_panic (RingBuffer6.step fuel) (fun rb => rb.WF C)
    (fun s op s1 r hs h1 => RingBuffer6_WF_step C fuel s s1 op r hs h1)
    (fun s op hs => RingBuffer6_step_no_panic C h0 hC fuel s op hs)
    ops _ (RingBuffer6_WF_new C)

/-! ## Well-formedness of the node-sequence variants -/

theorem node_set_bounded {α : Type} (nodes : List (node α)) (i : Nat) (n1 : node α)
    (h : ∀ n ∈ nodes, n.position < U64) (h1 : n1.position < U64) :
    ∀ n ∈ nodes.set i n1, n.position < U64 := by
  intro n hn
  rcases List.mem_or_eq_of_mem_set hn with h2 | h2
  · exact h n h2
  · rw [h2]
    exact h1

theorem initNodes_length {α : Type} (C : Nat) : (initNodes C : List (node α)).length = C := by
  simp [initNodes]

theorem initNodes_bounded {α : Type} {C : Nat} (hC : C < U64) :
    ∀ n ∈ (initNodes C : List (node α)), n.position < U64 := by
  intro n hn
  simp only [initNodes, List.mem_map, List.mem_range] at hn
  obtain ⟨i, hi, rfl⟩ := hn
  exact Nat.lt_trans hi hC

theorem nodes_lookup {α : Type} {C : Nat} (h0 : 0 < C) (hC : C < U64) (nodes : List (node α))
    (hlen : nodes.length = C) (hb : ∀ n ∈ nodes, n.position < U64) (i : Nat) :
    ∃ n, nodes[i &&& sub64 C 1]? = some n ∧ n.position < U64 := by
  have hlt : i &&& sub64 C 1 < nodes.length := by rw [hlen]; exact land_mask_lt i h0 hC
  exact ⟨nodes.get ⟨i &&& sub64 C 1, hlt⟩, List.getElem?_eq_getElem hlt,
    hb _ (List.get_mem _ _ _)⟩

theorem RingBuffer7_wo_pad_WF_new {α : Type} (C : Nat) (hC : C < U64) :
    (NewRingBuffer7_wo_pad C : RingBuffer7_wo_pad α).WF C :=
  ⟨rfl, initNodes_length C, (by decide : 0 < U64), (by decide : 0 < U64),
    initNodes_bounded hC⟩

theorem RingBuffer7_wo_pad_step_cases {α : Type} (C : Nat) (h0 : 0 < C) (hC : C < U64)
    (rb : RingBuffer7_wo_pad α) (op : Op α) (hwf : rb.WF C) :
    ∃ rb1 r, rb.step op = .ret (rb1, r) ∧ rb1.WF C := by
  obtain ⟨w, rd, m, nodes⟩ := rb
  obtain ⟨e1, e2, e3, e4, e5⟩ := hwf
  simp only at e1 e2 e3 e4 e5
  rw [e1]
  cases op with
  | enq x =>
    obtain ⟨n, hn, _⟩ := nodes_lookup h0 hC nodes e2 e5 w
    by_cases hp : n.position = w
    · refine ⟨_, _, by rw [RingBuffer7_wo_pad_step_enq, RingBuffer7_wo_pad_Enqueue_ok _ _ _ _ _ _ hn hp, enqRet_ret], ?_⟩
      exact ⟨rfl, by simpa using e2, add64_lt _ _, e4,
        node_set_bounded _ _ _ e5 (add64_lt _ _)⟩
    · refine ⟨_, _, by rw [RingBuffer7_wo_pad_step_enq, RingBuffer7_wo_pad_Enqueue_full _ _ _ _ _ _ hn hp, enqRet_ret], ?_⟩
      exact ⟨rfl, e2, e3, e4, e5⟩
  | deq =>
    obtain ⟨n, hn, _⟩ := nodes_lookup h0 hC nodes e2 e5 rd
    by_cases hp : n.position = add64 rd 1
    · refine ⟨_, _, by rw [RingBuffer7_wo_pad_step_deq, RingBuffer7_wo_pad_Dequeue_ok _ _ _ _ _ hn hp, deqRet_ret], ?_⟩
      exact ⟨rfl, by simpa using e2, e3, add64_lt _ _,
        node_set_bounded _ _ _ e5 (add64_lt _ _)⟩
    · refine ⟨_, _, by rw [RingBuffer7_wo_pad_step_deq, RingBuffer7_wo_pad_Dequeue_empty _ _ _ _ _ hn hp, deqRet_ret], ?_⟩
      exact ⟨rfl, e2, e3, e4, e5⟩

theorem RingBuffer7_wo_pad_WF_step {α : Type} (C : Nat) (h0 : 0 < C) (hC : C < U64)
    (rb rb1 : RingBuffer7_wo_pad α) (op : Op α) (r : Ret α) (hwf : rb.WF C)
    (h : rb.step op = .ret (rb1, r)) : rb1.WF C := by
  obtain ⟨rb2, r2, g1, g2⟩ := RingBuffer7_wo_pad_step_cases C h0 hC rb op hwf
  rw [g1] at h
  simp only [Outcome.ret.injEq, Prod.mk.injEq] at h
  rw [← h.1]
  exact g2

theorem RingBuffer7_wo_pad_step_no_panic {α : Type} (C : Nat) (h0 : 0 < C) (hC : C < U64)
    (rb : RingBuffer7_wo_pad α) (op : Op α) (hwf : rb.WF C) : rb.step op ≠ .panic := by
  obtain ⟨rb2, r2, g1, _⟩ := RingBuffer7_wo_pad_step_cases C h0 hC rb op hwf
  rw [g1]
  exact ret_ne_panic _

theorem RingBuffer7_wo_pad_no_panic {α : Type} (C : Nat) (h0 : 0 < C) (hC : C < U64)
    (rb : RingBuffer7_wo_pad α) (hwf : rb.WF C) (x : Option α) :
    rb.Enqueue x ≠ .panic ∧ rb.Dequeue ≠ .panic := by
  constructor
  · intro h
    have g := RingBuffer7_wo_pad_step_no_panic C h0 hC rb (.enq x) hwf
    rw [RingBuffer7_wo_pad_step_enq, h] at g
    exact g rfl
  · intro h
    have g := RingBuffer7_wo_pad_step_no_panic C h0 hC rb .deq hwf
    rw [RingBuffer7_wo_pad_step_deq, h] at g
    exact g rfl

theorem RingBuffer7_wo_pad_WF_run {α : Type} (C : Nat) (h0 : 0 < C) (hC : C < U64) (ops : List (Op α))
    (rb : RingBuffer7_wo_pad α) (rs : List (Ret α))
    (h : runOps RingBuffer7_wo_pad.step (NewRingBuffer7_wo_pad C) ops = .ret (rb, rs)) : rb.WF C :=
  runOps_invariant RingBuffer7_wo_pad.step (fun rb => rb.WF C)
    (fun s op s1 r hs h1 => RingBuffer7_wo_pad_WF_step C h0 hC s s1 op r hs h1)
    ops _ rb rs (RingBuffer7_wo_pad_WF_new C hC) h

theorem RingBuffer7_wo_pad_run_no_panic {α : Type} (C : Nat) (h0 : 0 < C) (hC : C < U64)
    (ops : List (Op α)) :
    runOps RingBuffer7_wo_pad.step (NewRingBuffer7_wo_pad C : RingBuffer7_wo_pad α) ops ≠ .panic :=
  runOps_no_panic RingBuffer7_wo_pad.step (fun rb => rb.WF C)
    (fun s op s1 r hs h1 => RingBuffer7_wo_pad_WF_step C h0 hC s s1 op r hs h1)
    (fun s op hs => RingBuffer7_wo_pad_step_no_panic C h0 hC s op hs)
    ops _ (RingBuffer7_wo_pad_WF_new C hC)

theorem RingBuffer7_WF_new {α : Type} (C : Nat) (hC : C < U64) :
    (NewRingBuffer7 C : RingBuffer7 α).WF C :=
  ⟨rfl, initNodes_length C, (by decide : 0 < U64), (by decide : 0 < U64),
    initNodes_bounded hC⟩

theorem RingBuffer7_step_cases {α : Type} (C : Nat) (h0 : 0 < C) (hC : C < U64)
    (rb : RingBuffer7 α) (op : Op α) (hwf : rb.WF C) :
    ∃ rb1 r, rb.step op = .ret (rb1, r) ∧ rb1.WF C := by
  obtain ⟨w, rd, m, nodes⟩ := rb
  obtain ⟨e1, e2, e3, e4, e5⟩ := hwf
  simp only at e1 e2 e3 e4 e5
  rw [e1]
  cases op with
  | enq x =>
    obtain ⟨n, hn, _⟩ := nodes_lookup h0 hC nodes e2 e5 w
    by_cases hp : n.position = w
    · refine ⟨_, _, by rw [RingBuffer7_step_enq, RingBuffer7_Enqueue_ok _ _ _ _ _ _ hn hp, enqRet_ret], ?_⟩
      exact ⟨rfl, by simpa using e2, add64_lt _ _, e4,
        node_set_bounded _ _ _ e5 (add64_lt _ _)⟩
    · refine ⟨_, _, by rw [RingBuffer7_step_enq, RingBuffer7_Enqueue_full _ _ _ _ _ _ hn hp, enqRet_ret], ?_⟩
      exact ⟨rfl, e2, e3, e4, e5⟩
  | deq =>
    obtain ⟨n, hn, _⟩ := nodes_lookup h0 hC nodes e2 e5 rd
    by_cases hp : n.position = add64 rd 1
    · refine ⟨_, _, by rw [RingBuffer7_step_deq, RingBuffer7_Dequeue_ok _ _ _ _ _ hn hp, deqRet_ret], ?_⟩
      exact ⟨rfl, by simpa using e2, e3, add64_lt _ _,
        node_set_bounded _ _ _ e5 (add64_lt _ _)⟩
    · refine ⟨_, _, by rw [RingBuffer7_step_deq, RingBuffer7_Dequeue_empty _ _ _ _ _ hn hp, deqRet_ret], ?_⟩
      exact ⟨rfl, e2, e3, e4, e5⟩

theorem RingBuffer7_WF_step {α : Type} (C : Nat) (h0 : 0 < C) (hC : C < U64)
    (rb rb1 : RingBuffer7 α) (op : Op α) (r : Ret α) (hwf : rb.WF C)
    (h : rb.step op = .ret (rb1, r)) : rb1.WF C := by
  obtain ⟨rb2, r2, g1, g2⟩ := RingBuffer7_step_cases C h0 hC rb op hwf
  rw [g1] at h
  simp only [Outcome.ret.injEq, Prod.mk.injEq] at h
  rw [← h.1]
  exact g2

theorem RingBuffer7_step_no_panic {α : Type} (C : Nat) (h0 : 0 < C) (hC : C < U64)
    (rb : RingBuffer7 α) (op : Op α) (hwf : rb.WF C) : rb.step op ≠ .panic := by
  obtain ⟨rb2, r2, g1, _⟩ := RingBuffer7_step_cases C h0 hC rb op hwf
  rw [g1]
  exact ret_ne_panic _

theorem RingBuffer7_no_panic {α : Type} (C : Nat) (h0 : 0 < C) (hC : C < U64)
    (rb : RingBuffer7 α) (hwf : rb.WF C) (x : Option α) :
    rb.Enqueue x ≠ .panic ∧ rb.Dequeue ≠ .panic := by
  constructor
  · intro h
    have g := RingBuffer7_step_no_panic C h0 hC rb (.enq x) hwf
    rw [RingBuffer7_step_enq, h] at g
    exact g rfl
  · intro h
    have g := RingBuffer7_step_no_panic C h0 hC rb .deq hwf
    rw [RingBuffer7_step_deq, h] at g
    exact g rfl

theorem RingBuffer7_WF_run {α : Type} (C : Nat) (h0 : 0 < C) (hC : C < U64) (ops : List (Op α))
    (rb : RingBuffer7 α) (rs : List (Ret α))
    (h : runOps RingBuffer7.step (NewRingBuffer7 C) ops = .ret (rb, rs)) : rb.WF C :=
  runOps_invariant RingBuffer7.step (fun rb => rb.WF C)
    (fun s op s1 r hs h1 => RingBuffer7_WF_step C h0 hC s s1 op r hs h1)
    ops _ rb rs (RingBuffer7_WF_new C hC) h

theorem RingBuffer7_run_no_panic {α : Type} (C : Nat) (h0 : 0 < C) (hC : C < U64)
    (ops : List (Op α)) :
    runOps RingBuffer7.step (NewRingBuffer7 C : RingBuffer7 α) ops ≠ .panic :=
  runOps_no_panic RingBuffer7.step (fun rb => rb.WF C)
    (fun s op s1 r hs h1 => RingBuffer7_WF_step C h0 hC s s1 op r hs h1)
    (fun s op hs => RingBuffer7_step_no_panic C h0 hC s op hs)
    ops _ (RingBuffer7_WF_new C hC)

/-! ## RingBuffer8 against RingBuffer7, call by call -/

theorem RingBuffer8_step_zero {α : Type} (rb : RingBuffer8 α) (op : Op α) :
    rb.step 0 op = .spinning := by
  cases op <;> rfl

theorem RingBuffer8_Enqueue_matches {α : Type} (w r m : Nat) (nodes : List (node α))
    (x : Option α) (n : node α) (hn : nodes[w &&& m]? = some n) (hw : w < U64)
    (hp : n.position < U64) :
    (RingBuffer7.Enqueue ⟨w, r, m, nodes⟩ x
        = .ret (⟨add64 w 1, r, m, nodes.set (w &&& m) ⟨add64 w 1, x⟩⟩, none) ∧
      ∀ f, RingBuffer8.Enqueue (f + 1) ⟨w, r, m, nodes⟩ x
        = .ret (⟨add64 w 1, r, m, nodes.set (w &&& m) ⟨add64 w 1, x⟩⟩, none)) ∨
    (RingBuffer7.Enqueue ⟨w, r, m, nodes⟩ x = .ret (⟨w, r, m, nodes⟩, some Err.ErrBufferFull) ∧
      ∀ f, RingBuffer8.Enqueue f ⟨w, r, m, nodes⟩ x = .spinning) := by
  by_cases h : n.position = w
  · exact Or.inl ⟨RingBuffer7_Enqueue_ok w r m nodes x n hn h,
      fun f => RingBuffer8_Enqueue_ok f w r m nodes x n hn h⟩
  · exact Or.inr ⟨RingBuffer7_Enqueue_full w r m nodes x n hn h,
      fun f => RingBuffer8_Enqueue_stuck w r m nodes n hn
        (fun e => h ((sub64_eq_zero hp hw).mp e)) f x⟩

theorem RingBuffer8_Dequeue_matches {α : Type} (w r m : Nat) (nodes : List (node α))
    (n : node α) (hn : nodes[r &&& m]? = some n) (hp : n.position < U64) :
    (RingBuffer7.Dequeue ⟨w, r, m, nodes⟩
        = .ret (⟨w, add64 r 1, m, nodes.set (r &&& m) ⟨add64 (add64 r m) 1, none⟩⟩,
            n.data, none) ∧
      ∀ f, RingBuffer8.Dequeue (f + 1) ⟨w, r, m, nodes⟩
        = .ret (⟨w, add64 r 1, m, nodes.set (r &&& m) ⟨add64 (add64 r m) 1, none⟩⟩,
            n.data, none)) ∨
    (RingBuffer7.Dequeue ⟨w, r, m, nodes⟩
        = .ret (⟨w, r, m, nodes⟩, none, some Err.ErrBufferEmpty) ∧
      ∀ f, RingBuffer8.Dequeue f ⟨w, r, m, nodes⟩ = .spinning) := by
  by_cases h : n.position = add64 r 1
  · exact Or.inl ⟨RingBuffer7_Dequeue_ok w r m nodes n hn h,
      fun f => RingBuffer8_Dequeue_ok f w r m nodes n hn h⟩
  · exact Or.inr ⟨RingBuffer7_Dequeue_empty w r m nodes n hn h,
      fun f => RingBuffer8_Dequeue_stuck w r m nodes n hn
        (fun e => h ((sub64_eq_zero hp (add64_lt _ _)).mp e)) f⟩

theorem RingBuffer8_step_matches {α : Type} (C : Nat) (h0 : 0 < C) (hC : C < U64)
    (w r m : Nat) (nodes : List (node α))
    (hwf : (⟨w, r, m, nodes⟩ : RingBuffer7 α).WF C) (op : Op α) :
    ∃ w1 r1 nodes1 ret,
      RingBuffer7.step ⟨w, r, m, nodes⟩ op = .ret (⟨w1, r1, m, nodes1⟩, ret) ∧
      ((ret.err = none ∧
          ∀ f, RingBuffer8.step (f + 1) ⟨w, r, m, nodes⟩ op = .ret (⟨w1, r1, m, nodes1⟩, ret)) ∨
        (ret.err ≠ none ∧ ∀ f, RingBuffer8.step f ⟨w, r, m, nodes⟩ op = .spinning)) := by
  obtain ⟨e1, e2, e3, e4, e5⟩ := hwf
  simp only at e1 e2 e3 e4 e5
  cases op with
  | enq x =>
    obtain ⟨n, hn, hp⟩ := nodes_lookup h0 hC nodes e2 e5 w
    rw [← e1] at hn
    rcases RingBuffer8_Enqueue_matches w r m nodes x n hn e3 hp with ⟨g1, g2⟩ | ⟨g1, g2⟩
    · refine ⟨_, _, _, _, by rw [RingBuffer7_step_enq, g1, enqRet_ret], Or.inl ⟨rfl, ?_⟩⟩
      intro f
      rw [RingBuffer8_step_enq, g2 f, enqRet_ret]
    · refine ⟨_, _, _, _, by rw [RingBuffer7_step_enq, g1, enqRet_ret],
        Or.inr ⟨by simp, ?_⟩⟩
      intro f
      rw [RingBuffer8_step_enq, g2 f]
      rfl
  | deq =>
    obtain ⟨n, hn, hp⟩ := nodes_lookup h0 hC nodes e2 e5 r
    rw [← e1] at hn
    rcases RingBuffer8_Dequeue_matches w r m nodes n hn hp with ⟨g1, g2⟩ | ⟨g1, g2⟩
    · refine ⟨_, _, _, _, by rw [RingBuffer7_step_deq, g1, deqRet_ret], Or.inl ⟨rfl, ?_⟩⟩
      intro f
      rw [RingBuffer8_step_deq, g2 f, deqRet_ret]
    · refine ⟨_, _, _, _, by rw [RingBuffer7_step_deq, g1, deqRet_ret],
        Or.inr ⟨by simp, ?_⟩⟩
      intro f
      rw [RingBuffer8_step_deq, g2 f]
      rfl

/-- A run of RingBuffer8 that returns is, call by call, a run of RingBuffer7
from the same state: same results, same final indices, mask and nodes. -/
theorem RingBuffer8_run_matches {α : Type} (C : Nat) (h0 : 0 < C) (hC : C < U64) (fuel : Nat)
    (ops : List (Op α)) : ∀ (w r m : Nat) (nodes : List (node α)),
    (⟨w, r, m, nodes⟩ : RingBuffer7 α).WF C →
    ∀ (rb8 : RingBuffer8 α) (rs : List (Ret α)),
    runOps (RingBuffer8.step fuel) ⟨w, r, m, nodes⟩ ops = .ret (rb8, rs) →
    runOps RingBuffer7.step ⟨w, r, m, nodes⟩ ops
      = .ret (⟨rb8.writeIdx, rb8.readIdx, rb8.mask, rb8.nodes⟩, rs) ∧
    (∀ r ∈ rs, r.err = none) ∧
    (⟨rb8.writeIdx, rb8.readIdx, rb8.mask, rb8.nodes⟩ : RingBuffer7 α).WF C := by
  induction ops with
  | nil =>
    intro w r m nodes hwf rb8 rs h
    obtain ⟨rfl, rfl⟩ := runOps_nil_inv _ h
    exact ⟨rfl, by simp, hwf⟩
  | cons op ops ih =>
    intro w r m nodes hwf rb8 rs h
    obtain ⟨s1, r1, rs1, g1, g2, rfl⟩ := runOps_cons_inv _ h
    obtain ⟨w1, rd1, nodes1, ret, k1, k2⟩ := RingBuffer8_step_matches C h0 hC w r m nodes hwf op
    have hwf1 := RingBuffer7_WF_step C h0 hC _ _ op ret hwf k1
    rcases k2 with ⟨k3, k4⟩ | ⟨_, k4⟩
    · cases fuel with
      | zero =>
        rw [RingBuffer8_step_zero] at g1
        cases g1
      | succ f =>
        rw [k4 f] at g1
        simp only [Outcome.ret.injEq, Prod.mk.injEq] at g1
        obtain ⟨rfl, rfl⟩ := g1
        obtain ⟨i1, i2, i3⟩ := ih w1 rd1 m nodes1 hwf1 rb8 rs1 g2
        refine ⟨runOps_cons_ret _ k1 i1, ?_, i3⟩
        intro r hr
        rcases List.mem_cons.mp hr with hr | hr
        · rw [hr]
          exact k3
        · exact i2 r hr
    · rw [k4 fuel] at g1
      cases g1

theorem RingBuffer8_WF_new {α : Type} (C : Nat) (hC : C < U64) :
    (NewRingBuffer8 C : RingBuffer8 α).WF C :=
  ⟨rfl, initNodes_length C, (by decide : 0 < U64), (by decide : 0 < U64),
    initNodes_bounded hC⟩

theorem RingBuffer8_WF_run {α : Type} (C : Nat) (h0 : 0 < C) (hC : C < U64) (fuel : Nat)
    (ops : List (Op α)) (rb : RingBuffer8 α) (rs : List (Ret α))
    (h : runOps (RingBuffer8.step fuel) (NewRingBuffer8 C) ops = .ret (rb, rs)) : rb.WF C :=
  (RingBuffer8_run_matches C h0 hC fuel ops 0 0 (sub64 C 1) (initNodes C)
    (RingBuffer7_WF_new C hC) rb rs h).2.2

theorem RingBuffer8_no_panic {α : Type} (C : Nat) (h0 : 0 < C) (hC : C < U64)
    (rb : RingBuffer8 α) (hwf : rb.WF C) (fuel : Nat) (x : Option α) :
    rb.Enqueue fuel x ≠ .panic ∧ rb.Dequeue fuel ≠ .panic := by
  obtain ⟨w, r, m, nodes⟩ := rb
  obtain ⟨e1, e2, e3, e4, e5⟩ := hwf
  simp only at e1 e2 e3 e4 e5
  constructor
  · obtain ⟨n, hn, hp⟩ := nodes_lookup h0 hC nodes e2 e5 w
    rw [← e1] at hn
    rcases RingBuffer8_Enqueue_matches w r m nodes x n hn e3 hp with ⟨_, g2⟩ | ⟨_, g2⟩
    · cases fuel with
      | zero => exact spinning_ne_panic
      | succ f =>
        rw [g2 f]
        exact ret_ne_panic _
    · rw [g2 fuel]
      exact spinning_ne_panic
  · obtain ⟨n, hn, hp⟩ := nodes_lookup h0 hC nodes e2 e5 r
    rw [← e1] at hn
    rcases RingBuffer8_Dequeue_matches w r m nodes n hn hp with ⟨_, g2⟩ | ⟨_, g2⟩
    · cases fuel with
      | zero => exact spinning_ne_panic
      | succ f =>
        rw [g2 f]
        exact ret_ne_panic _
    · rw [g2 fuel]
      exact spinning_ne_panic

theorem RingBuffer8_run_no_panic {α : Type} (C : Nat) (h0 : 0 < C) (hC : C < U64)
    (fuel : Nat) (ops : List (Op α)) :
    runOps (RingBuffer8.step fuel) (NewRingBuffer8 C : RingBuffer8 α) ops ≠ .panic := by
  refine runOps_no_panic (RingBuffer8.step fuel) (fun rb => rb.WF C) ?_ ?_ ops _
    (RingBuffer8_WF_new C hC)
  · intro s op s1 r hs h1
    obtain ⟨w, rd, m, nodes⟩ := s
    exact (RingBuffer8_run_matches C h0 hC fuel [op] w rd m nodes hs s1 [r]
      (runOps_cons_ret _ h1 rfl)).2.2
  · intro s op hs
    cases op with
    | enq x => exact enqRet_ne_panic (RingBuffer8_no_panic C h0 hC s hs fuel x).1
    | deq => exact deqRet_ne_panic (RingBuffer8_no_panic C h0 hC s hs fuel none).2

/-! ## C13: RingBuffer5 against RingBuffer3 -/

theorem RingBuffer5_Cached_lt {α : Type} {C : Nat} {rb : RingBuffer5 α} (h : rb.Cached C) :
    rb.writeIdx < U64 ∧ rb.readIdx < U64 ∧ rb.writeCache < U64 ∧ rb.readCache < U64 := by
  obtain ⟨_, _, R, W, rc, wc, _, _, _, _, g5, g6, g7, g8⟩ := h
  rw [g5, g6, g7, g8]
  have hU : 0 < U64 := by decide
  exact ⟨Nat.mod_lt _ hU, Nat.mod_lt _ hU, Nat.mod_lt _ hU, Nat.mod_lt _ hU⟩

/-- In a reachable state a full buffer has an up-to-date read cache. -/
theorem RingBuffer5_Cached_full {α : Type} {C : Nat} (hC : C < U64) {rb : RingBuffer5 α}
    (h : rb.Cached C) (hf : rb.writeIdx = add64 rb.readIdx C) :
    rb.readCache = rb.readIdx := by
  obtain ⟨_, _, R, W, rc, wc, g1, g2, g3, g4, g5, g6, g7, g8⟩ := h
  rw [g5, g6] at hf
  rw [g5, g7]
  unfold add64 U64 at hf
  unfold U64 at hC ⊢
  have : rc = R := by omega
  rw [this]

/-- In a reachable state an empty buffer has an up-to-date write cache. -/
theorem RingBuffer5_Cached_empty {α : Type} {C : Nat} (hC : C < U64) {rb : RingBuffer5 α}
    (h : rb.Cached C) (he : rb.writeIdx = rb.readIdx) :
    rb.writeCache = rb.readIdx := by
  obtain ⟨_, _, R, W, rc, wc, g1, g2, g3, g4, g5, g6, g7, g8⟩ := h
  rw [g5, g6] at he
  rw [g5, g8]
  unfold U64 at hC he ⊢
  have : wc = R := by omega
  rw [this]

/-- In a reachable state a buffer that is not full, or not empty, has a
positive capacity. -/
theorem RingBuffer5_Cached_pos {α : Type} {C : Nat} {rb : RingBuffer5 α}
    (h : rb.Cached C)
    (hne : rb.writeIdx ≠ add64 rb.readIdx C ∨ rb.writeIdx ≠ rb.readIdx) : 0 < C := by
  obtain ⟨_, _, R, W, rc, wc, g1, g2, g3, g4, g5, g6, g7, g8⟩ := h
  rw [g5, g6] at hne
  rcases Nat.eq_zero_or_pos C with hz | hz
  · exfalso
    have hWR : W = R := by omega
    rw [hWR, hz] at hne
    unfold add64 U64 at hne
    rcases hne with hne | hne
    · exact hne (by omega)
    · exact hne rfl
  · exact hz

/-- In a reachable state the four indices of a RingBuffer5 lie in this order
on the `uint64` circle, starting from the read cache, within one capacity. -/
theorem RingBuffer5_Cached_chain {α : Type} {C : Nat} (hC : C < U64) {rb : RingBuffer5 α}
    (h : rb.Cached C) :
    sub64 rb.readIdx rb.readCache ≤ sub64 rb.writeCache rb.readCache ∧
      sub64 rb.writeCache rb.readCache ≤ sub64 rb.writeIdx rb.readCache ∧
      sub64 rb.writeIdx rb.readCache ≤ rb.size := by
  obtain ⟨hs, _, R, W, rc, wc, g1, g2, g3, g4, g5, g6, g7, g8⟩ := h
  rw [g5, g6, g7, g8, hs]
  unfold sub64 U64
  unfold U64 at hC
  omega

theorem RingBuffer5_sim_step {α : Type} {C : Nat} (hC : C < U64) (w r wc rc : Nat)
    (buf : List (Option α)) (h : (⟨w, r, wc, rc, C, buf⟩ : RingBuffer5 α).Cached C)
    (op : Op α) :
    ∃ w1 r1 wc1 rc1 buf1 ret,
      RingBuffer5.step ⟨w, r, wc, rc, C, buf⟩ op = .ret (⟨w1, r1, wc1, rc1, C, buf1⟩, ret) ∧
      RingBuffer3.step ⟨w, r, C, buf⟩ op = .ret (⟨w1, r1, C, buf1⟩, ret) ∧
      (ret.err = some Err.ErrBufferFull ↔ op ≠ .deq ∧ sub64 w r = C) ∧
      (ret.err = some Err.ErrBufferEmpty ↔ op = .deq ∧ w = r) := by
  have hlen : buf.length = C := h.2.1
  obtain ⟨hw, hr, _, _⟩ := RingBuffer5_Cached_lt h
  simp only at hw hr
  cases op with
  | enq x =>
    by_cases hf : w = add64 r C
    · have hrc : rc = r := RingBuffer5_Cached_full hC h hf
      refine ⟨w, r, wc, r, buf, ⟨none, some Err.ErrBufferFull⟩, ?_, ?_, ?_, ?_⟩
      · rw [RingBuffer5_step_enq,
          RingBuffer5_Enqueue_full w r wc rc C buf x (by rw [hrc]; exact hf) hf, enqRet_ret]
      · rw [RingBuffer3_step_enq, RingBuffer3_Enqueue_full _ _ _ _ _ hf, enqRet_ret]
      · simp [(full_iff_sub64 hw hC).mp hf]
      · simp
    · have h0 : 0 < C := RingBuffer5_Cached_pos h (Or.inl hf)
      have hb : w &&& sub64 C 1 < buf.length := by rw [hlen]; exact land_mask_lt w h0 hC
      obtain ⟨rc1, g⟩ := RingBuffer5_Enqueue_some w r wc rc C buf x hf hb
      refine ⟨add64 w 1, r, wc, rc1, buf.set (w &&& sub64 C 1) x, ⟨none, none⟩, ?_, ?_, ?_, ?_⟩
      · rw [RingBuffer5_step_enq, g, enqRet_ret]
      · rw [RingBuffer3_step_enq, RingBuffer3_Enqueue_ok _ _ _ _ _ hf hb, enqRet_ret]
      · have hne : sub64 w r ≠ C := fun e => hf ((full_iff_sub64 hw hC).mpr e)
        simp [hne]
      · simp
  | deq =>
    by_cases he : w = r
    · have hwc : wc = r := RingBuffer5_Cached_empty hC h he
      refine ⟨w, r, w, rc, buf, ⟨none, some Err.ErrBufferEmpty⟩, ?_, ?_, ?_, ?_⟩
      · rw [RingBuffer5_step_deq, RingBuffer5_Dequeue_empty w r wc rc C buf hwc he, deqRet_ret]
      · rw [RingBuffer3_step_deq, RingBuffer3_Dequeue_empty _ _ _ _ he, deqRet_ret]
      · simp
      · simp [he]
    · have h0 : 0 < C := RingBuffer5_Cached_pos h (Or.inr he)
      have hlt : r &&& sub64 C 1 < buf.length := by rw [hlen]; exact land_mask_lt r h0 hC
      have hi : buf[r &&& sub64 C 1]? = some (buf.get ⟨r &&& sub64 C 1, hlt⟩) :=
        List.getElem?_eq_getElem hlt
      obtain ⟨wc1, g⟩ := RingBuffer5_Dequeue_some w r wc rc C buf _ he hi
      refine ⟨w, add64 r 1, wc1, rc, buf, ⟨buf.get ⟨r &&& sub64 C 1, hlt⟩, none⟩, ?_, ?_, ?_, ?_⟩
      · rw [RingBuffer5_step_deq, g, deqRet_ret]
      · rw [RingBuffer3_step_deq, RingBuffer3_Dequeue_ok _ _ _ _ _ he hi, deqRet_ret]
      · simp
      · simp [he]

theorem RingBuffer5_sim_RingBuffer3 {α : Type} {C : Nat} (hC : C < U64) (ops : List (Op α)) :
    ∃ (rb5 : RingBuffer5 α) (rb3 : RingBuffer3 α) (rs : List (Ret α)),
      runOps RingBuffer5.step (NewRingBuffer5 C) ops = .ret (rb5, rs) ∧
      runOps RingBuffer3.step (NewRingBuffer3 C) ops = .ret (rb3, rs) ∧
      rb5.writeIdx = rb3.writeIdx ∧ rb5.readIdx = rb3.readIdx ∧ rb5.size = rb3.size ∧
      rb5.buffers = rb3.buffers := by
  obtain ⟨rb5, rb3, rs, h1, h2, h3⟩ := runOps_sim RingBuffer5.step RingBuffer3.step
    (fun (a : RingBuffer5 α) (b : RingBuffer3 α) =>
      a.Cached C ∧ a.writeIdx = b.writeIdx ∧ a.readIdx = b.readIdx ∧ a.size = b.size ∧
        a.buffers = b.buffers)
    (fun a b op hab => by
      obtain ⟨w, r, wc, rc, sz, buf⟩ := a
      obtain ⟨w', r', sz', buf'⟩ := b
      obtain ⟨hc, e1, e2, e3, e4⟩ := hab
      simp only at e1 e2 e3 e4
      subst e1 e2 e3 e4
      have hsz : sz = C := hc.1
      subst hsz
      obtain ⟨w1, r1, wc1, rc1, buf1, ret, g1, g2, _, _⟩ :=
        RingBuffer5_sim_step hC w r wc rc buf hc op
      refine ⟨_, _, ret, g1, g2, ?_, rfl, rfl, rfl, rfl⟩
      cases op with
      | enq x =>
        exact RingBuffer5_Enqueue_cached sz hC _ _ x ret.err hc (enqRet_inv g1).1
      | deq =>
        exact RingBuffer5_Dequeue_cached sz hC _ _ ret.item ret.err hc (deqRet_inv g1))
    ops (NewRingBuffer5 C) (NewRingBuffer3 C)
    ⟨RingBuffer5_Cached_new C, rfl, rfl, rfl, rfl⟩
  exact ⟨rb5, rb3, rs, h1, h2, h3.2⟩

/-- In a reachable state `Enqueue` returns, with `ErrBufferFull` exactly when
`writeIdx - readIdx = size`, and `Dequeue` returns, with `ErrBufferEmpty`
exactly when `writeIdx = readIdx`. -/
theorem RingBuffer5_full_empty_iff {α : Type} {C : Nat} (hC : C < U64) (rb : RingBuffer5 α)
    (h : rb.Cached C) (x : Option α) :
    (∃ rb1 e, rb.Enqueue x = .ret (rb1, e) ∧
      (e = some Err.ErrBufferFull ↔ sub64 rb.writeIdx rb.readIdx = rb.size) ∧
      (e = none ↔ sub64 rb.writeIdx rb.readIdx ≠ rb.size)) ∧
    (∃ rb1 y e, rb.Dequeue = .ret (rb1, y, e) ∧
      (e = some Err.ErrBufferEmpty ↔ rb.writeIdx = rb.readIdx) ∧
      (e = none ↔ rb.writeIdx ≠ rb.readIdx)) := by
  obtain ⟨w, r, wc, rc, sz, buf⟩ := rb
  have hsz : sz = C := h.1
  subst hsz
  constructor
  · obtain ⟨w1, r1, wc1, rc1, buf1, ret, g1, _, g3, g4⟩ :=
      RingBuffer5_sim_step hC w r wc rc buf h (.enq x)
    refine ⟨_, ret.err, (enqRet_inv g1).1, ?_, ?_⟩
    · simpa using g3
    · show ret.err = none ↔ sub64 w r ≠ sz
      by_cases hf : sub64 w r = sz
      · have := g3.mpr ⟨by simp, hf⟩
        simp [this, hf]
      · have h1 : ret.err ≠ some Err.ErrBufferFull := fun e => hf (g3.mp e).2
        have h2 : ret.err ≠ some Err.ErrBufferEmpty := fun e => by simpa using (g4.mp e).1
        have h3 : ret.err = none := by
          cases he : ret.err with
          | none => rfl
          | some e => cases e <;> simp_all
        simp [h3, hf]
  · obtain ⟨w1, r1, wc1, rc1, buf1, ret, g1, _, g3, g4⟩ :=
      RingBuffer5_sim_step hC w r wc rc buf h .deq
    refine ⟨_, ret.item, ret.err, deqRet_inv g1, ?_, ?_⟩
    · simpa using g4
    · show ret.err = none ↔ w ≠ r
      by_cases he : w = r
      · have := g4.mpr ⟨rfl, he⟩
        simp [this, he]
      · have h1 : ret.err ≠ some Err.ErrBufferFull := fun e => by simpa using (g3.mp e).1
        have h2 : ret.err ≠ some Err.ErrBufferEmpty := fun e => he (g4.mp e).2
        have h3 : ret.err = none := by
          cases he : ret.err with
          | none => rfl
          | some e => cases e <;> simp_all
        simp [h3, he]

/-! ## C13: the caches before and after wraparound -/

theorem RingBuffer5_step_plain {α : Type} (C : Nat) (rb rb1 : RingBuffer5 α) (op : Op α)
    (r : Ret α) (hsz : rb.size = C)
    (hch : rb.readCache ≤ rb.readIdx ∧ rb.readIdx ≤ rb.writeCache ∧
      rb.writeCache ≤ rb.writeIdx ∧ rb.writeIdx ≤ rb.readCache + C)
    (hb : rb.writeIdx + (enqueuedValues [op] [r]).length < U64)
    (h : rb.step op = .ret (rb1, r)) :
    rb1.size = C ∧
      (rb1.readCache ≤ rb1.readIdx ∧ rb1.readIdx ≤ rb1.writeCache ∧
        rb1.writeCache ≤ rb1.writeIdx ∧ rb1.writeIdx ≤ rb1.readCache + C) ∧
      rb1.writeIdx = rb.writeIdx + (enqueuedValues [op] [r]).length := by
  obtain ⟨w, rd, wc, rc, sz, buf⟩ := rb
  simp only at hsz hch hb
  subst hsz
  obtain ⟨c1, c2, c3, c4⟩ := hch
  cases op with
  | enq x =>
    have h := (enqRet_inv h).1
    unfold RingBuffer5.Enqueue RingBuffer5.enqueueStore at h
    dsimp only at h
    split at h
    · rename_i d1
      split at h
      · simp only [Outcome.ret.injEq, Prod.mk.injEq] at h
        obtain ⟨rfl, he⟩ := h
        have hl : (enqueuedValues [Op.enq x] [r]).length = 0 := by
          simp [enqueuedValues, ← he]
        rw [hl]
        show sz = sz ∧ (rd ≤ rd ∧ rd ≤ wc ∧ wc ≤ w ∧ w ≤ rd + sz) ∧ w = w + 0
        exact ⟨rfl, ⟨Nat.le_refl _, c2, c3, by omega⟩, rfl⟩
      · rename_i d2
        split at h
        · simp only [Outcome.ret.injEq, Prod.mk.injEq] at h
          obtain ⟨rfl, he⟩ := h
          have hl : (enqueuedValues [Op.enq x] [r]).length = 1 := by
            simp [enqueuedValues, ← he]
          rw [hl] at hb ⊢
          show sz = sz ∧ (rd ≤ rd ∧ rd ≤ wc ∧ wc ≤ add64 w 1 ∧ add64 w 1 ≤ rd + sz) ∧
            add64 w 1 = w + 1
          rw [add64_of_lt hb]
          unfold add64 U64 at d2
          unfold U64 at hb
          refine ⟨rfl, ⟨Nat.le_refl _, c2, by omega, ?_⟩, rfl⟩
          omega
        · simp only [reduceCtorEq] at h
    · rename_i d1
      split at h
      · simp only [Outcome.ret.injEq, Prod.mk.injEq] at h
        obtain ⟨rfl, he⟩ := h
        have hl : (enqueuedValues [Op.enq x] [r]).length = 1 := by
          simp [enqueuedValues, ← he]
        rw [hl] at hb ⊢
        show sz = sz ∧ (rc ≤ rd ∧ rd ≤ wc ∧ wc ≤ add64 w 1 ∧ add64 w 1 ≤ rc + sz) ∧
          add64 w 1 = w + 1
        rw [add64_of_lt hb]
        unfold add64 U64 at d1
        unfold U64 at hb
        refine ⟨rfl, ⟨c1, c2, by omega, ?_⟩, rfl⟩
        omega
      · simp only [reduceCtorEq] at h
  | deq =>
    have hl : (enqueuedValues [Op.deq] [r]).length = 0 := by simp [enqueuedValues]
    rw [hl] at hb ⊢
    have h := deqRet_inv h
    unfold RingBuffer5.Dequeue RingBuffer5.dequeueLoad at h
    dsimp only at h
    split at h
    · rename_i d1
      split at h
      · simp only [Outcome.ret.injEq, Prod.mk.injEq] at h
        obtain ⟨rfl, _⟩ := h
        show sz = sz ∧ (rc ≤ rd ∧ rd ≤ w ∧ w ≤ w ∧ w ≤ rc + sz) ∧ w = w + 0
        exact ⟨rfl, ⟨c1, by omega, Nat.le_refl _, c4⟩, rfl⟩
      · rename_i d2
        split at h
        · simp only [Outcome.ret.injEq, Prod.mk.injEq] at h
          obtain ⟨rfl, _⟩ := h
          show sz = sz ∧ (rc ≤ add64 rd 1 ∧ add64 rd 1 ≤ w ∧ w ≤ w ∧ w ≤ rc + sz) ∧ w = w + 0
          have hne : w ≠ rd := d2
          rw [add64_of_lt (by omega)]
          exact ⟨rfl, ⟨by omega, by omega, Nat.le_refl _, c4⟩, rfl⟩
        · simp only [reduceCtorEq] at h
    · rename_i d1
      split at h
      · simp only [Outcome.ret.injEq, Prod.mk.injEq] at h
        obtain ⟨rfl, _⟩ := h
        show sz = sz ∧ (rc ≤ add64 rd 1 ∧ add64 rd 1 ≤ wc ∧ wc ≤ w ∧ w ≤ rc + sz) ∧ w = w + 0
        have hne : wc ≠ rd := d1
        rw [add64_of_lt (by omega)]
        exact ⟨rfl, ⟨by omega, by omega, c3, c4⟩, rfl⟩
      · simp only [reduceCtorEq] at h

theorem RingBuffer5_run_plain {α : Type} (C : Nat) (ops : List (Op α)) :
    ∀ (rb rb1 : RingBuffer5 α) (rs : List (Ret α)), rb.size = C →
    (rb.readCache ≤ rb.readIdx ∧ rb.readIdx ≤ rb.writeCache ∧
      rb.writeCache ≤ rb.writeIdx ∧ rb.writeIdx ≤ rb.readCache + C) →
    rb.writeIdx + (enqueuedValues ops rs).length < U64 →
    runOps RingBuffer5.step rb ops = .ret (rb1, rs) →
    rb1.size = C ∧
      (rb1.readCache ≤ rb1.readIdx ∧ rb1.readIdx ≤ rb1.writeCache ∧
        rb1.writeCache ≤ rb1.writeIdx ∧ rb1.writeIdx ≤ rb1.readCache + C) ∧
      rb1.writeIdx = rb.writeIdx + (enqueuedValues ops rs).length := by
  induction ops with
  | nil =>
    intro rb rb1 rs hsz hch _ h
    obtain ⟨h1, h2⟩ := runOps_nil_inv _ h
    rw [h1, h2]
    exact ⟨hsz, hch, by simp [enqueuedValues]⟩
  | cons op ops ih =>
    intro rb rb1 rs hsz hch hb h
    obtain ⟨rb2, r, rs1, h1, h2, h3⟩ := runOps_cons_inv _ h
    subst h3
    rw [enqueuedValues_cons op ops r rs1, List.length_append] at hb ⊢
    obtain ⟨g1, g2, g3⟩ := RingBuffer5_step_plain C rb rb2 op r hsz hch (by omega) h1
    obtain ⟨g4, g5, g6⟩ := ih rb2 rb1 rs1 g1 g2 (by omega) h2
    exact ⟨g4, g5, by omega⟩

theorem RingBuffer5_enqDeqTimes_run {α : Type} (n : Nat) : ∀ m : Nat, m + 1 + n < U64 →
    ∃ rs, runOps RingBuffer5.step (⟨m + 1, m + 1, m + 1, m, 1, [none]⟩ : RingBuffer5 α)
        (enqDeqTimes n)
      = .ret (⟨m + 1 + n, m + 1 + n, m + 1 + n, m + n, 1, [none]⟩, rs) := by
  induction n with
  | zero =>
    intro m _
    exact ⟨[], rfl⟩
  | succ n ih =>
    intro m hm
    obtain ⟨rs, hrs⟩ := ih (m + 1) (by omega)
    have hz : ∀ i : Nat, i &&& sub64 1 1 = 0 := by
      intro i
      rw [sub64_self]
      exact Nat.and_zero i
    have e1 : RingBuffer5.step (⟨m + 1, m + 1, m + 1, m, 1, [none]⟩ : RingBuffer5 α) (.enq none)
        = .ret (⟨m + 1 + 1, m + 1, m + 1, m + 1, 1, [none]⟩, { item := none, err := none }) := by
      rw [RingBuffer5_step_enq, RingBuffer5_Enqueue_refresh (m + 1) (m + 1) (m + 1) m 1 [none]
        none (by rw [add64_of_lt (by omega)])
        (by rw [add64_of_lt (by omega)]; omega) (by rw [hz]; exact Nat.zero_lt_one), enqRet_ret,
        add64_of_lt (by omega), hz]
      rfl
    have e2 : RingBuffer5.step (⟨m + 1 + 1, m + 1, m + 1, m + 1, 1, [none]⟩ : RingBuffer5 α)
        .deq
        = .ret (⟨m + 1 + 1, m + 1 + 1, m + 1 + 1, m + 1, 1, [none]⟩,
            { item := none, err := none }) := by
      rw [RingBuffer5_step_deq, RingBuffer5_Dequeue_refresh (m + 1 + 1) (m + 1) (m + 1) (m + 1)
        1 [none] none rfl (by omega) (by rw [hz]; rfl), deqRet_ret, add64_of_lt (by omega)]
    rw [show m + 1 + (n + 1) = m + 1 + 1 + n by omega, show m + (n + 1) = m + 1 + n by omega]
    exact ⟨_, runOps_cons_ret _ e1 (runOps_cons_ret _ e2 hrs)⟩

/-- After `2^64 - 1` rounds of `Enqueue(nil); Dequeue()` a fresh RingBuffer5 of
capacity 1 has `writeIdx = readIdx = writeCache = 2^64 - 1` and
`readCache = 2^64 - 2`. -/
theorem RingBuffer5_before_wraparound :
    ∃ rs, runOps RingBuffer5.step (NewRingBuffer5 1 : RingBuffer5 Nat) (enqDeqTimes (U64 - 1))
      = .ret (⟨U64 - 1, U64 - 1, U64 - 1, U64 - 2, 1, [none]⟩, rs) := by
  obtain ⟨rs, h⟩ := RingBuffer5_enqDeqTimes_run (α := Nat) (U64 - 2) 0 (by decide)
  have e : runOps RingBuffer5.step (NewRingBuffer5 1 : RingBuffer5 Nat) (enqDeqTimes 1)
      = .ret (⟨0 + 1, 0 + 1, 0 + 1, 0, 1, [none]⟩, [⟨none, none⟩, ⟨none, none⟩]) := by
    decide
  have hsplit : (enqDeqTimes (U64 - 1) : List (Op Nat))
      = .enq none :: .deq :: enqDeqTimes (U64 - 2) := by
    rw [show U64 - 1 = (U64 - 2) + 1 by decide]
    rfl
  rw [hsplit]
  obtain ⟨s1, r1, rs1, k1, k2, k3⟩ := runOps_cons_inv _ e
  obtain ⟨s2, r2, rs2, k4, k5, k6⟩ := runOps_cons_inv _ k2
  obtain ⟨k7, k8⟩ := runOps_nil_inv _ k5
  subst k7
  refine ⟨r1 :: r2 :: rs, runOps_cons_ret _ k1 (runOps_cons_ret _ k4 ?_)⟩
  rw [h]
  rfl

/-! ## C14: RingBuffer6 returns exactly when it can proceed -/

theorem RingBuffer6_Cached_lt {α : Type} {C : Nat} {rb : RingBuffer6 α} (h : rb.Cached C) :
    rb.writeIdx < U64 ∧ rb.readIdx < U64 ∧ rb.writeCache < U64 ∧ rb.readCache < U64 := by
  obtain ⟨_, _, R, W, rc, wc, _, _, _, _, g5, g6, g7, g8⟩ := h
  rw [g5, g6, g7, g8]
  have hU : 0 < U64 := by decide
  exact ⟨Nat.mod_lt _ hU, Nat.mod_lt _ hU, Nat.mod_lt _ hU, Nat.mod_lt _ hU⟩

/-- In a reachable state a full buffer has an up-to-date read cache. -/
theorem RingBuffer6_Cached_full {α : Type} {C : Nat} (hC : C < U64) {rb : RingBuffer6 α}
    (h : rb.Cached C) (hf : rb.writeIdx = add64 rb.readIdx C) :
    rb.readCache = rb.readIdx := by
  obtain ⟨_, _, R, W, rc, wc, g1, g2, g3, g4, g5, g6, g7, g8⟩ := h
  rw [g5, g6] at hf
  rw [g5, g7]
  unfold add64 U64 at hf
  unfold U64 at hC ⊢
  have : rc = R := by omega
  rw [this]

/-- In a reachable state an empty buffer has an up-to-date write cache. -/
theorem RingBuffer6_Cached_empty {α : Type} {C : Nat} (hC : C < U64) {rb : RingBuffer6 α}
    (h : rb.Cached C) (he : rb.writeIdx = rb.readIdx) :
    rb.writeCache = rb.readIdx := by
  obtain ⟨_, _, R, W, rc, wc, g1, g2, g3, g4, g5, g6, g7, g8⟩ := h
  rw [g5, g6] at he
  rw [g5, g8]
  unfold U64 at hC he ⊢
  have : wc = R := by omega
  rw [this]

/-- In a reachable state a buffer that is not full, or not empty, has a
positive capacity. -/
theorem RingBuffer6_Cached_pos {α : Type} {C : Nat} {rb : RingBuffer6 α}
    (h : rb.Cached C)
    (hne : rb.writeIdx ≠ add64 rb.readIdx C ∨ rb.writeIdx ≠ rb.readIdx) : 0 < C := by
  obtain ⟨_, _, R, W, rc, wc, g1, g2, g3, g4, g5, g6, g7, g8⟩ := h
  rw [g5, g6] at hne
  rcases Nat.eq_zero_or_pos C with hz | hz
  · exfalso
    have hWR : W = R := by omega
    rw [hWR, hz] at hne
    unfold add64 U64 at hne
    rcases hne with hne | hne
    · exact hne (by omega)
    · exact hne rfl
  · exact hz


theorem RingBuffer6_enqueueWait_stuck {α : Type} : ∀ (fuel : Nat) (rb : RingBuffer6 α)
    (read write : Nat), write = add64 read rb.size → write = add64 rb.readIdx rb.size →
    RingBuffer6.enqueueWait fuel rb read write = none := by
  intro fuel
  induction fuel with
  | zero =>
    intro rb read write _ _
    rfl
  | succ fuel ih =>
    intro rb read write h1 h2
    unfold RingBuffer6.enqueueWait
    rw [if_pos h1]
    exact ih _ _ _ h2 h2

theorem RingBuffer6_dequeueWait_stuck {α : Type} : ∀ (fuel : Nat) (rb : RingBuffer6 α)
    (write read : Nat), write = read → rb.writeIdx = read →
    RingBuffer6.dequeueWait fuel rb write read = none := by
  intro fuel
  induction fuel with
  | zero =>
    intro rb write read _ _
    rfl
  | succ fuel ih =>
    intro rb write read h1 h2
    unfold RingBuffer6.dequeueWait
    rw [if_pos h1]
    exact ih _ _ _ h2 h2

theorem RingBuffer6_Enqueue_zero {α : Type} (rb : RingBuffer6 α) (x : Option α) :
    rb.Enqueue 0 x = .spinning := rfl

theorem RingBuffer6_Dequeue_zero {α : Type} (rb : RingBuffer6 α) :
    rb.Dequeue 0 = .spinning := rfl

theorem RingBuffer6_Enqueue_one_spin {α : Type} (w r wc rc C : Nat) (buf : List (Option α))
    (x : Option α) (h1 : w = add64 rc C) :
    RingBuffer6.Enqueue 1 ⟨w, r, wc, rc, C, buf⟩ x = .spinning := by
  simp [RingBuffer6.Enqueue, RingBuffer6.enqueueWait, h1]

theorem RingBuffer6_Dequeue_one_spin {α : Type} (w r wc rc C : Nat) (buf : List (Option α))
    (h1 : wc = r) :
    RingBuffer6.Dequeue 1 ⟨w, r, wc, rc, C, buf⟩ = .spinning := by
  simp [RingBuffer6.Dequeue, RingBuffer6.dequeueWait, h1]

theorem RingBuffer6_Enqueue_stuck {α : Type} (w r wc rc C : Nat) (buf : List (Option α))
    (x : Option α) (h1 : w = add64 rc C) (h2 : w = add64 r C) (fuel : Nat) :
    RingBuffer6.Enqueue fuel ⟨w, r, wc, rc, C, buf⟩ x = .spinning := by
  unfold RingBuffer6.Enqueue
  dsimp only
  rw [RingBuffer6_enqueueWait_stuck fuel _ rc w h1 h2]

theorem RingBuffer6_Dequeue_stuck {α : Type} (w r wc rc C : Nat) (buf : List (Option α))
    (h1 : wc = r) (h2 : w = r) (fuel : Nat) :
    RingBuffer6.Dequeue fuel ⟨w, r, wc, rc, C, buf⟩ = .spinning := by
  unfold RingBuffer6.Dequeue
  dsimp only
  rw [RingBuffer6_dequeueWait_stuck fuel _ wc r h1 h2]

/-- What `Enqueue` does on a RingBuffer6 that is not full. -/
theorem RingBuffer6_Enqueue_not_full {α : Type} (w r wc rc C : Nat) (buf : List (Option α))
    (x : Option α) (hne : w ≠ add64 r C) (hb : w &&& sub64 C 1 < buf.length) :
    ∃ rc1,
      (∀ f, RingBuffer6.Enqueue (f + 2) ⟨w, r, wc, rc, C, buf⟩ x
        = .ret (⟨add64 w 1, r, wc, rc1, C, buf.set (w &&& sub64 C 1) x⟩, none)) ∧
      (∀ f rb2 e, RingBuffer6.Enqueue f ⟨w, r, wc, rc, C, buf⟩ x = .ret (rb2, e) →
        rb2 = ⟨add64 w 1, r, wc, rc1, C, buf.set (w &&& sub64 C 1) x⟩ ∧ e = none) ∧
      RingBuffer5.Enqueue ⟨w, r, wc, rc, C, buf⟩ x
        = .ret (⟨add64 w 1, r, wc, rc1, C, buf.set (w &&& sub64 C 1) x⟩, none) := by
  by_cases h1 : w = add64 rc C
  · refine ⟨r, fun f => RingBuffer6_Enqueue_refresh f w r wc rc C buf x h1 hne hb, ?_,
      RingBuffer5_Enqueue_refresh w r wc rc C buf x h1 hne hb⟩
    intro f rb2 e h
    match f with
    | 0 =>
      rw [RingBuffer6_Enqueue_zero] at h
      cases h
    | 1 =>
      rw [RingBuffer6_Enqueue_one_spin w r wc rc C buf x h1] at h
      cases h
    | f + 2 =>
      rw [RingBuffer6_Enqueue_refresh f w r wc rc C buf x h1 hne hb] at h
      simp only [Outcome.ret.injEq, Prod.mk.injEq] at h
      exact ⟨h.1.symm, h.2.symm⟩
  · refine ⟨rc, fun f => RingBuffer6_Enqueue_ok (f + 1) w r wc rc C buf x h1 hb, ?_,
      RingBuffer5_Enqueue_ok w r wc rc C buf x h1 hb⟩
    intro f rb2 e h
    match f with
    | 0 =>
      rw [RingBuffer6_Enqueue_zero] at h
      cases h
    | f + 1 =>
      rw [RingBuffer6_Enqueue_ok f w r wc rc C buf x h1 hb] at h
      simp only [Outcome.ret.injEq, Prod.mk.injEq] at h
      exact ⟨h.1.symm, h.2.symm⟩

/-- What `Dequeue` does on a RingBuffer6 that is not empty. -/
theorem RingBuffer6_Dequeue_not_empty {α : Type} (w r wc rc C : Nat) (buf : List (Option α))
    (item : Option α) (hne : w ≠ r) (hi : buf[r &&& sub64 C 1]? = some item) :
    ∃ wc1,
      (∀ f, RingBuffer6.Dequeue (f + 2) ⟨w, r, wc, rc, C, buf⟩
        = .ret (⟨w, add64 r 1, wc1, rc, C, buf⟩, item, none)) ∧
      (∀ f rb2 y e, RingBuffer6.Dequeue f ⟨w, r, wc, rc, C, buf⟩ = .ret (rb2, y, e) →
        rb2 = ⟨w, add64 r 1, wc1, rc, C, buf⟩ ∧ y = item ∧ e = none) ∧
      RingBuffer5.Dequeue ⟨w, r, wc, rc, C, buf⟩
        = .ret (⟨w, add64 r 1, wc1, rc, C, buf⟩, item, none) := by
  by_cases h1 : wc = r
  · refine ⟨w, fun f => RingBuffer6_Dequeue_refresh f w r wc rc C buf item h1 hne hi, ?_,
      RingBuffer5_Dequeue_refresh w r wc rc C buf item h1 hne hi⟩
    intro f rb2 y e h
    match f with
    | 0 =>
      rw [RingBuffer6_Dequeue_zero] at h
      cases h
    | 1 =>
      rw [RingBuffer6_Dequeue_one_spin w r wc rc C buf h1] at h
      cases h
    | f + 2 =>
      rw [RingBuffer6_Dequeue_refresh f w r wc rc C buf item h1 hne hi] at h
      simp only [Outcome.ret.injEq, Prod.mk.injEq] at h
      exact ⟨h.1.symm, h.2.1.symm, h.2.2.symm⟩
  · refine ⟨wc, fun f => RingBuffer6_Dequeue_ok (f + 1) w r wc rc C buf item h1 hi, ?_,
      RingBuffer5_Dequeue_ok w r wc rc C buf item h1 hi⟩
    intro f rb2 y e h
    match f with
    | 0 =>
      rw [RingBuffer6_Dequeue_zero] at h
      cases h
    | f + 1 =>
      rw [RingBuffer6_Dequeue_ok f w r wc rc C buf item h1 hi] at h
      simp only [Outcome.ret.injEq, Prod.mk.injEq] at h
      exact ⟨h.1.symm, h.2.1.symm, h.2.2.symm⟩

theorem RingBuffer6_Enqueue_blocks {α : Type} {C : Nat} (hC : C < U64) (rb : RingBuffer6 α)
    (h : rb.Cached C) (x : Option α) :
    (sub64 rb.writeIdx rb.readIdx < rb.size ↔
      ∃ f rb1 e, rb.Enqueue f x = .ret (rb1, e)) ∧
    (¬ sub64 rb.writeIdx rb.readIdx < rb.size → ∀ f, rb.Enqueue f x = .spinning) ∧
    (∀ f rb1 e, rb.Enqueue f x = .ret (rb1, e) →
      e = none ∧ (∀ g, rb.Enqueue (g + 2) x = .ret (rb1, none)) ∧
      RingBuffer5.Enqueue
          ⟨rb.writeIdx, rb.readIdx, rb.writeCache, rb.readCache, rb.size, rb.buffers⟩ x
        = .ret (⟨rb1.writeIdx, rb1.readIdx, rb1.writeCache, rb1.readCache, rb1.size,
            rb1.buffers⟩, none)) := by
  have hd := RingBuffer6_Cached_diff C hC rb h
  obtain ⟨hw, _, _, _⟩ := RingBuffer6_Cached_lt h
  obtain ⟨w, r, wc, rc, sz, buf⟩ := rb
  have hsz : sz = C := h.1
  subst hsz
  have hlen : buf.length = sz := h.2.1
  simp only at hd hw
  show (sub64 w r < sz ↔ _) ∧ (¬ sub64 w r < sz → _) ∧ _
  by_cases hf : w = add64 r sz
  · have hrc : rc = r := RingBuffer6_Cached_full hC h hf
    have hfull : sub64 w r = sz := (full_iff_sub64 hw hC).mp hf
    have hstuck := RingBuffer6_Enqueue_stuck w r wc rc sz buf x (by rw [hrc]; exact hf) hf
    refine ⟨⟨fun hlt => absurd hfull (by omega), ?_⟩, fun _ f => hstuck f, ?_⟩
    · rintro ⟨f, rb1, e, hret⟩
      rw [hstuck f] at hret
      cases hret
    · intro f rb1 e hret
      rw [hstuck f] at hret
      cases hret
  · have hne : sub64 w r ≠ sz := fun e => hf ((full_iff_sub64 hw hC).mpr e)
    have h0 : 0 < sz := RingBuffer6_Cached_pos h (Or.inl hf)
    have hb : w &&& sub64 sz 1 < buf.length := by rw [hlen]; exact land_mask_lt w h0 hC
    obtain ⟨rc1, g1, g2, g3⟩ := RingBuffer6_Enqueue_not_full w r wc rc sz buf x hf hb
    refine ⟨⟨fun _ => ⟨2, _, none, g1 0⟩, fun _ => by omega⟩, fun hn => absurd (by omega) hn, ?_⟩
    intro f rb1 e hret
    obtain ⟨k1, k2⟩ := g2 f rb1 e hret
    rw [k1]
    exact ⟨k2, g1, g3⟩

theorem RingBuffer6_Dequeue_blocks {α : Type} {C : Nat} (hC : C < U64) (rb : RingBuffer6 α)
    (h : rb.Cached C) :
    (rb.writeIdx ≠ rb.readIdx ↔ ∃ f rb1 y e, rb.Dequeue f = .ret (rb1, y, e)) ∧
    (rb.writeIdx = rb.readIdx → ∀ f, rb.Dequeue f = .spinning) ∧
    (∀ f rb1 y e, rb.Dequeue f = .ret (rb1, y, e) →
      e = none ∧ (∀ g, rb.Dequeue (g + 2) = .ret (rb1, y, none)) ∧
      RingBuffer5.Dequeue
          ⟨rb.writeIdx, rb.readIdx, rb.writeCache, rb.readCache, rb.size, rb.buffers⟩
        = .ret (⟨rb1.writeIdx, rb1.readIdx, rb1.writeCache, rb1.readCache, rb1.size,
            rb1.buffers⟩, y, none)) := by
  obtain ⟨w, r, wc, rc, sz, buf⟩ := rb
  have hsz : sz = C := h.1
  subst hsz
  have hlen : buf.length = sz := h.2.1
  show (w ≠ r ↔ _) ∧ (w = r → _) ∧ _
  by_cases he : w = r
  · have hwc : wc = r := RingBuffer6_Cached_empty hC h he
    have hstuck := RingBuffer6_Dequeue_stuck w r wc rc sz buf hwc he
    refine ⟨⟨fun hne => absurd he hne, ?_⟩, fun _ f => hstuck f, ?_⟩
    · rintro ⟨f, rb1, y, e, hret⟩
      rw [hstuck f] at hret
      cases hret
    · intro f rb1 y e hret
      rw [hstuck f] at hret
      cases hret
  · have h0 : 0 < sz := RingBuffer6_Cached_pos h (Or.inr he)
    have hlt : r &&& sub64 sz 1 < buf.length := by rw [hlen]; exact land_mask_lt r h0 hC
    have hi : buf[r &&& sub64 sz 1]? = some (buf.get ⟨r &&& sub64 sz 1, hlt⟩) :=
      List.getElem?_eq_getElem hlt
    obtain ⟨wc1, g1, g2, g3⟩ := RingBuffer6_Dequeue_not_empty w r wc rc sz buf _ he hi
    refine ⟨⟨fun _ => ⟨2, _, _, none, g1 0⟩, fun _ => he⟩, fun hn => absurd hn he, ?_⟩
    intro f rb1 y e hret
    obtain ⟨k1, k2, k3⟩ := g2 f rb1 y e hret
    rw [k1, k2]
    exact ⟨k3, g1, g3⟩

theorem runOps_results {σ α : Type} (step : σ → Op α → Outcome (σ × Ret α))
    (Inv : σ → Prop) (P : Ret α → Prop)
    (hstep : ∀ s op s1 r, Inv s → step s op = .ret (s1, r) → Inv s1 ∧ P r) :
    ∀ (ops : List (Op α)) (s s2 : σ) (rs : List (Ret α)),
      Inv s → runOps step s ops = .ret (s2, rs) → ∀ r ∈ rs, P r := by
  intro ops
  induction ops with
  | nil =>
    intro s s2 rs _ h r hr
    obtain ⟨_, h2⟩ := runOps_nil_inv _ h
    rw [h2] at hr
    cases hr
  | cons op ops ih =>
    intro s s2 rs hs h r hr
    obtain ⟨s1, r1, rs1, g1, g2, g3⟩ := runOps_cons_inv _ h
    obtain ⟨k1, k2⟩ := hstep s op s1 r1 hs g1
    rw [g3] at hr
    rcases List.mem_cons.mp hr with hr | hr
    · rw [hr]
      exact k2
    · exact ih s1 s2 rs1 k1 g2 r hr

theorem RingBuffer6_run_no_error {α : Type} (C : Nat) (hC : C < U64) (fuel : Nat)
    (ops : List (Op α)) (rb : RingBuffer6 α) (rs : List (Ret α))
    (h : runOps (RingBuffer6.step fuel) (NewRingBuffer6 C) ops = .ret (rb, rs)) :
    ∀ r ∈ rs, r.err = none :=
  runOps_results (RingBuffer6.step fuel) (RingBuffer6.Cached C) (fun r => r.err = none)
    (fun s op s1 r hs h1 => by
      cases op with
      | enq x =>
        have h2 := (enqRet_inv h1).1
        exact ⟨RingBuffer6_Enqueue_cached C hC fuel s s1 x r.err hs h2,
          ((RingBuffer6_Enqueue_blocks hC s hs x).2.2 fuel s1 r.err h2).1⟩
      | deq =>
        have h2 := deqRet_inv h1
        exact ⟨RingBuffer6_Dequeue_cached C fuel s s1 r.item r.err hs h2,
          ((RingBuffer6_Dequeue_blocks hC s hs).2.2 fuel s1 r.item r.err h2).1⟩)
    ops _ rb rs (RingBuffer6_Cached_new C) h

/-! ## C15: RingBuffer8 does what RingBuffer7 does, or spins -/

/-- In a well-formed state, a RingBuffer8 call does what the RingBuffer7 call
on the same fields does when that one succeeds, within one iteration of its
loop, and spins for ever when that one fails. -/
theorem RingBuffer8_follows_RingBuffer7 {α : Type} (C : Nat) (h0 : 0 < C) (hC : C < U64)
    (rb7 : RingBuffer7 α) (hwf : rb7.WF C) (x : Option α) :
    ((∃ rb1 e, rb7.Enqueue x = .ret (rb1, e)) ∧
      (∀ rb1, rb7.Enqueue x = .ret (rb1, none) →
        ∀ f, RingBuffer8.Enqueue (f + 1) ⟨rb7.writeIdx, rb7.readIdx, rb7.mask, rb7.nodes⟩ x
          = .ret (⟨rb1.writeIdx, rb1.readIdx, rb1.mask, rb1.nodes⟩, none)) ∧
      (∀ rb1 e, rb7.Enqueue x = .ret (rb1, some e) →
        ∀ f, RingBuffer8.Enqueue f ⟨rb7.writeIdx, rb7.readIdx, rb7.mask, rb7.nodes⟩ x
          = .spinning)) ∧
    ((∃ rb1 y e, rb7.Dequeue = .ret (rb1, y, e)) ∧
      (∀ rb1 y, rb7.Dequeue = .ret (rb1, y, none) →
        ∀ f, RingBuffer8.Dequeue (f + 1) ⟨rb7.writeIdx, rb7.readIdx, rb7.mask, rb7.nodes⟩
          = .ret (⟨rb1.writeIdx, rb1.readIdx, rb1.mask, rb1.nodes⟩, y, none)) ∧
      (∀ rb1 y e, rb7.Dequeue = .ret (rb1, y, some e) →
        ∀ f, RingBuffer8.Dequeue f ⟨rb7.writeIdx, rb7.readIdx, rb7.mask, rb7.nodes⟩
          = .spinning)) := by
  obtain ⟨w, r, m, nodes⟩ := rb7
  obtain ⟨e1, e2, e3, e4, e5⟩ := hwf
  simp only at e1 e2 e3 e4 e5
  constructor
  · obtain ⟨n, hn, hp⟩ := nodes_lookup h0 hC nodes e2 e5 w
    rw [← e1] at hn
    rcases RingBuffer8_Enqueue_matches w r m nodes x n hn e3 hp with ⟨g1, g2⟩ | ⟨g1, g2⟩
    · refine ⟨⟨_, _, g1⟩, ?_, ?_⟩
      · intro rb1 h f
        rw [g1] at h
        simp only [Outcome.ret.injEq, Prod.mk.injEq, and_true] at h
        rw [← h]
        exact g2 f
      · intro rb1 e h
        rw [g1] at h
        simp only [Outcome.ret.injEq, Prod.mk.injEq, reduceCtorEq, and_false] at h
    · refine ⟨⟨_, _, g1⟩, ?_, ?_⟩
      · intro rb1 h
        rw [g1] at h
        simp only [Outcome.ret.injEq, Prod.mk.injEq, reduceCtorEq, and_false] at h
      · intro rb1 e _ f
        exact g2 f
  · obtain ⟨n, hn, hp⟩ := nodes_lookup h0 hC nodes e2 e5 r
    rw [← e1] at hn
    rcases RingBuffer8_Dequeue_matches w r m nodes n hn hp with ⟨g1, g2⟩ | ⟨g1, g2⟩
    · refine ⟨⟨_, _, _, g1⟩, ?_, ?_⟩
      · intro rb1 y h f
        rw [g1] at h
        simp only [Outcome.ret.injEq, Prod.mk.injEq, and_true] at h
        rw [← h.1, ← h.2]
        exact g2 f
      · intro rb1 y e h
        rw [g1] at h
        simp only [Outcome.ret.injEq, Prod.mk.injEq, reduceCtorEq, and_false] at h
    · refine ⟨⟨_, _, _, g1⟩, ?_, ?_⟩
      · intro rb1 y h
        rw [g1] at h
        simp only [Outcome.ret.injEq, Prod.mk.injEq, reduceCtorEq, and_false] at h
      · intro rb1 y e _ f
        exact g2 f

/-! ## C16: `Cap` and `Len` of RingBuffer8 -/

/-- A run of RingBuffer8 of capacity `2^k`, `k ≥ 1`, that returns is a run of
the bounded list queue, and the state reached holds the queue reached. -/
theorem RingBuffer8_refines_run {α : Type} {k : Nat} (hk1 : 1 ≤ k) (hk : k < 64) (fuel : Nat)
    (ops : List (Op α)) (rb : RingBuffer8 α) (rs : List (Ret α))
    (hrun : runOps (RingBuffer8.step fuel) (NewRingBuffer8 (2 ^ k)) ops = .ret (rb, rs)) :
    rs = (SpecQueue.run (2 ^ k) [] ops).2 ∧ rb.Holds k (SpecQueue.run (2 ^ k) [] ops).1 := by
  obtain ⟨g1, _, _⟩ := RingBuffer8_run_matches (2 ^ k) (pow2_pos k) (pow2_lt_U64 hk) fuel ops
    0 0 (sub64 (2 ^ k) 1) (initNodes (2 ^ k)) (RingBuffer7_WF_new _ (pow2_lt_U64 hk)) rb rs hrun
  obtain ⟨rb7, hrun7, hh⟩ := RingBuffer7_refines (α := α) hk1 hk ops
  rw [show (NewRingBuffer7 (2 ^ k) : RingBuffer7 α)
    = ⟨0, 0, sub64 (2 ^ k) 1, initNodes (2 ^ k)⟩ from rfl, g1] at hrun7
  simp only [Outcome.ret.injEq, Prod.mk.injEq] at hrun7
  obtain ⟨e1, e2⟩ := hrun7
  refine ⟨e2, ?_⟩
  rw [← e1] at hh
  exact hh

/-- Everywhere but at capacity 1, `Cap` and `Len` of a RingBuffer8 are what
the specification says: in every state reached from a fresh buffer of
capacity `2^k`, `1 ≤ k < 64`, `Cap()` is `2^k`, `Len()` is
`writeIdx - readIdx`, which is the number of completed enqueues minus the
number of completed dequeues and at most `Cap()`; `Len() = Cap()` exactly when
`Enqueue` cannot proceed and `Len() = 0` exactly when `Dequeue` cannot. -/
theorem RingBuffer8_introspection_except_capacity_one {α : Type} {k : Nat} (hk1 : 1 ≤ k)
    (hk : k < 64) (fuel : Nat) (ops : List (Op α)) (rb : RingBuffer8 α) (rs : List (Ret α))
    (hrun : runOps (RingBuffer8.step fuel) (NewRingBuffer8 (2 ^ k)) ops = .ret (rb, rs)) :
    rb.Cap = 2 ^ k ∧ rb.Len = sub64 rb.writeIdx rb.readIdx ∧
      rb.Len + (dequeuedValues ops rs).length = (enqueuedValues ops rs).length ∧
      rb.Len ≤ rb.Cap ∧
      (rb.Len = rb.Cap ↔ ∀ f x, rb.Enqueue f x = .spinning) ∧
      (rb.Len < rb.Cap → ∀ f x, ∃ rb1, rb.Enqueue (f + 1) x = .ret (rb1, none)) ∧
      (rb.Len = 0 ↔ ∀ f, rb.Dequeue f = .spinning) ∧
      (0 < rb.Len → ∀ f, ∃ rb1 y, rb.Dequeue (f + 1) = .ret (rb1, y, none)) := by
  obtain ⟨hrs, R, hinv⟩ := RingBuffer8_refines_run hk1 hk fuel ops rb rs hrun
  have hfifo := SpecQueue.fifo (2 ^ k) ops ([] : List (Option α))
  rw [← hrs] at hfifo
  have hcount := congrArg List.length hfifo
  simp only [List.nil_append, List.length_append] at hcount
  obtain ⟨hd, hle⟩ := hinv.diff_le hk
  obtain ⟨hw, hr⟩ := hinv.lt
  have hcap : rb.Cap = 2 ^ k := by
    unfold RingBuffer8.Cap
    rw [hinv.2.1]
    exact Nat.mod_eq_of_lt (pow2_lt_U64 hk)
  have hlen : rb.Len = (SpecQueue.run (2 ^ k) ([] : List (Option α)) ops).1.length := hd
  obtain ⟨w, r, m, nodes⟩ := rb
  simp only at hinv hw hr
  have henq : (SpecQueue.run (2 ^ k) ([] : List (Option α)) ops).1.length < 2 ^ k →
      ∀ f x, ∃ rb1, RingBuffer8.Enqueue (f + 1) ⟨w, r, m, nodes⟩ x = .ret (rb1, none) :=
    fun hlt f x => ⟨_, RingBuffer8_Enqueue_ok f w r m nodes x _ (hinv.enq_node hk hlt) rfl⟩
  have hdeq : 0 < (SpecQueue.run (2 ^ k) ([] : List (Option α)) ops).1.length →
      ∀ f, ∃ rb1 y, RingBuffer8.Dequeue (f + 1) ⟨w, r, m, nodes⟩ = .ret (rb1, y, none) := by
    intro hpos f
    cases hq : (SpecQueue.run (2 ^ k) ([] : List (Option α)) ops).1 with
    | nil =>
      rw [hq] at hpos
      cases hpos
    | cons y q1 =>
      rw [hq] at hinv
      exact ⟨_, _, RingBuffer8_Dequeue_ok f w r m nodes _ (hinv.deq_node hk) rfl⟩
  refine ⟨hcap, rfl, by omega, by omega, ⟨?_, ?_⟩, ?_, ⟨?_, ?_⟩, ?_⟩
  · intro hfull f x
    obtain ⟨n, hn, hp, hplt⟩ := hinv.full_node hk1 hk (by omega)
    exact RingBuffer8_Enqueue_stuck w r m nodes n hn
      (fun e => hp ((sub64_eq_zero hplt hw).mp e)) f x
  · intro hspin
    rcases Nat.lt_or_ge (SpecQueue.run (2 ^ k) ([] : List (Option α)) ops).1.length (2 ^ k)
      with hlt | hge
    · obtain ⟨rb1, h1⟩ := henq hlt 0 none
      rw [hspin 1 none] at h1
      cases h1
    · omega
  · intro hlt
    exact henq (by omega)
  · intro hzero f
    have hq : (SpecQueue.run (2 ^ k) ([] : List (Option α)) ops).1 = [] :=
      List.eq_nil_of_length_eq_zero (by omega)
    rw [hq] at hinv
    obtain ⟨n, hn, hp, hplt⟩ := hinv.empty_node hk
    exact RingBuffer8_Dequeue_stuck w r m nodes n hn
      (fun e => hp ((sub64_eq_zero hplt (add64_lt _ _)).mp e)) f
  · intro hspin
    rcases Nat.eq_zero_or_pos (SpecQueue.run (2 ^ k) ([] : List (Option α)) ops).1.length
      with hz | hpos
    · omega
    · obtain ⟨rb1, y, h1⟩ := hdeq hpos 0
      rw [hspin 1] at h1
      cases h1
  · intro hpos
    exact hdeq (by omega)

/-- At every positive capacity `C`, capacity 1 included, `Cap()` returns `C`
and `Len()` returns `writeIdx - readIdx` in every state reached from a fresh
RingBuffer8. -/
theorem RingBuffer8_Cap_run {α : Type} (C : Nat) (h0 : 0 < C) (hC : C < U64) (fuel : Nat)
    (ops : List (Op α)) (rb : RingBuffer8 α) (rs : List (Ret α))
    (h : runOps (RingBuffer8.step fuel) (NewRingBuffer8 C) ops = .ret (rb, rs)) :
    rb.Cap = C ∧ rb.Len = sub64 rb.writeIdx rb.readIdx := by
  obtain ⟨_, e2, _⟩ := RingBuffer8_WF_run C h0 hC fuel ops rb rs h
  refine ⟨?_, rfl⟩
  unfold RingBuffer8.Cap
  rw [e2]
  exact Nat.mod_eq_of_lt hC

/-! ## C19: the sequence tags -/

theorem add64_mask_succ (r C : Nat) :
    add64 (add64 r (sub64 C 1)) 1 = add64 r C := by
  unfold add64 sub64 U64
  omega

/-- The node invariant in terms of `uint64` positions: the node addressed by
position `p = (R + i) mod 2^64` is the node `(R + i) mod 2^k`. -/
theorem NodeInv.tags {α : Type} {k R w r m : Nat} {nodes : List (node α)}
    {q : List (Option α)} (h : NodeInv k R w r m nodes q) (hk : k < 64) :
    m + 1 = 2 ^ k ∧ r = R % U64 ∧ w = (R + q.length) % U64 ∧ q.length ≤ 2 ^ k ∧
    (∀ i x, q[i]? = some x →
      nodes[((R + i) % U64) &&& m]? = some { position := (R + i + 1) % U64, data := x }) ∧
    (∀ i, q.length ≤ i → i < 2 ^ k →
      nodes[((R + i) % U64) &&& m]? = some { position := (R + i) % U64, data := none }) := by
  obtain ⟨h1, h2, h3, h4, h5, h6, h7⟩ := h
  have hslot : ∀ p, (p % U64) &&& m = p % 2 ^ k := by
    intro p
    rw [h1, land_mask_eq_mod _ hk, mod_U64_mod p (pow2_dvd_U64 (Nat.le_of_lt hk))]
  refine ⟨?_, h3, h4, h5, ?_, ?_⟩
  · rw [h1, sub64_of_le (pow2_pos k) (pow2_lt_U64 hk)]
    have := pow2_pos k
    omega
  · intro i x hi
    rw [hslot]
    exact h6 i x hi
  · intro i h8 h9
    rw [hslot]
    exact h7 i h8 h9

theorem RingBuffer7_wo_pad_Enqueue_publishes {α : Type} (rb rb1 : RingBuffer7_wo_pad α) (x : Option α)
    (h : rb.Enqueue x = .ret (rb1, none)) :
    rb1.nodes[rb.writeIdx &&& rb.mask]?
      = some { position := add64 rb.writeIdx 1, data := x } := by
  unfold RingBuffer7_wo_pad.Enqueue at h
  simp only [CompareAndSwapUint64_same] at h
  repeat' split at h
  all_goals simp only [Outcome.ret.injEq, Prod.mk.injEq, reduceCtorEq, and_false, and_true,
    false_and] at h
  rename_i n hn _ _
  subst h
  obtain ⟨hlt, _⟩ := List.getElem?_eq_some.mp hn
  exact List.getElem?_set_self hlt

theorem RingBuffer7_wo_pad_publishes {α : Type} (C : Nat) (rb : RingBuffer7_wo_pad α) (hwf : rb.WF C) :
    (∀ x rb1, rb.Enqueue x = .ret (rb1, none) →
      rb1.nodes[rb.writeIdx &&& rb.mask]?
        = some { position := add64 rb.writeIdx 1, data := x }) ∧
    (∀ rb1 y, rb.Dequeue = .ret (rb1, y, none) →
      rb1.nodes[rb.readIdx &&& rb.mask]?
        = some { position := add64 rb.readIdx C, data := none }) := by
  refine ⟨fun x rb1 h => RingBuffer7_wo_pad_Enqueue_publishes rb rb1 x h, fun rb1 y h => ?_⟩
  obtain ⟨n, _, _, g⟩ := RingBuffer7_wo_pad_Dequeue_clears_slot rb rb1 y h
  rw [g, hwf.1, add64_mask_succ]

theorem RingBuffer7_Enqueue_publishes {α : Type} (rb rb1 : RingBuffer7 α) (x : Option α)
    (h : rb.Enqueue x = .ret (rb1, none)) :
    rb1.nodes[rb.writeIdx &&& rb.mask]?
      = some { position := add64 rb.writeIdx 1, data := x } := by
  unfold RingBuffer7.Enqueue at h
  simp only [CompareAndSwapUint64_same] at h
  repeat' split at h
  all_goals simp only [Outcome.ret.injEq, Prod.mk.injEq, reduceCtorEq, and_false, and_true,
    false_and] at h
  rename_i n hn _ _
  subst h
  obtain ⟨hlt, _⟩ := List.getElem?_eq_some.mp hn
  exact List.getElem?_set_self hlt

theorem RingBuffer7_publishes {α : Type} (C : Nat) (rb : RingBuffer7 α) (hwf : rb.WF C) :
    (∀ x rb1, rb.Enqueue x = .ret (rb1, none) →
      rb1.nodes[rb.writeIdx &&& rb.mask]?
        = some { position := add64 rb.writeIdx 1, data := x }) ∧
    (∀ rb1 y, rb.Dequeue = .ret (rb1, y, none) →
      rb1.nodes[rb.readIdx &&& rb.mask]?
        = some { position := add64 rb.readIdx C, data := none }) := by
  refine ⟨fun x rb1 h => RingBuffer7_Enqueue_publishes rb rb1 x h, fun rb1 y h => ?_⟩
  obtain ⟨n, _, _, g⟩ := RingBuffer7_Dequeue_clears_slot rb rb1 y h
  rw [g, hwf.1, add64_mask_succ]

theorem RingBuffer8_Enqueue_zero {α : Type} (rb : RingBuffer8 α) (x : Option α) :
    rb.Enqueue 0 x = .spinning := rfl

theorem RingBuffer8_Dequeue_zero {α : Type} (rb : RingBuffer8 α) :
    rb.Dequeue 0 = .spinning := rfl

theorem RingBuffer8_publishes {α : Type} (C : Nat) (h0 : 0 < C) (hC : C < U64)
    (rb : RingBuffer8 α) (hwf : rb.WF C) :
    (∀ f x rb1, rb.Enqueue f x = .ret (rb1, none) →
      rb1.nodes[rb.writeIdx &&& rb.mask]?
        = some { position := add64 rb.writeIdx 1, data := x }) ∧
    (∀ f rb1 y, rb.Dequeue f = .ret (rb1, y, none) →
      rb1.nodes[rb.readIdx &&& rb.mask]?
        = some { position := add64 rb.readIdx C, data := none }) := by
  obtain ⟨w, r, m, nodes⟩ := rb
  obtain ⟨e1, e2, e3, e4, e5⟩ := hwf
  simp only at e1 e2 e3 e4 e5
  constructor
  · intro f x rb1 h
    obtain ⟨n, hn, hp⟩ := nodes_lookup h0 hC nodes e2 e5 w
    rw [← e1] at hn
    obtain ⟨hlt, _⟩ := List.getElem?_eq_some.mp hn
    rcases RingBuffer8_Enqueue_matches w r m nodes x n hn e3 hp with ⟨_, g2⟩ | ⟨_, g2⟩
    · cases f with
      | zero =>
        rw [RingBuffer8_Enqueue_zero] at h
        cases h
      | succ f =>
        rw [g2 f] at h
        simp only [Outcome.ret.injEq, Prod.mk.injEq, and_true] at h
        rw [← h]
        exact List.getElem?_set_self hlt
    · rw [g2 f] at h
      cases h
  · intro f rb1 y h
    obtain ⟨n, hn, hp⟩ := nodes_lookup h0 hC nodes e2 e5 r
    rw [← e1] at hn
    obtain ⟨hlt, _⟩ := List.getElem?_eq_some.mp hn
    rcases RingBuffer8_Dequeue_matches w r m nodes n hn hp with ⟨_, g2⟩ | ⟨_, g2⟩
    · cases f with
      | zero =>
        rw [RingBuffer8_Dequeue_zero] at h
        cases h
      | succ f =>
        rw [g2 f] at h
        simp only [Outcome.ret.injEq, Prod.mk.injEq, and_true] at h
        rw [← h.1]
        show (nodes.set (r &&& m) ⟨add64 (add64 r m) 1, none⟩)[r &&& m]? = _
        rw [List.getElem?_set_self hlt, e1, add64_mask_succ]
    · rw [g2 f] at h
      cases h

/-- Everywhere but at capacity 1 the sequence tags are what the specification
says. `init` gives node `i` the position `i`. In every state reached from a
fresh RingBuffer7_wo_pad, RingBuffer7 or RingBuffer8 of capacity `2^k`,
`1 ≤ k < 64`, with `R` the number of items dequeued so far and `q` the items
stored (those of the bounded list queue run on the same calls): `mask + 1` is
the capacity, `readIdx` and `writeIdx` are `R` and `R + |q|` modulo `2^64`,
the node addressed by a stored position `p = R + i` has the tag `p + 1` and
the item enqueued at `p`, and the node addressed by a free position
`p = R + i`, `|q| ≤ i < 2^k`, has the tag `p` and no data (positions and tags
modulo `2^64`). A successful `Enqueue` at position `w` leaves the tag `w + 1`
and the item in its node, and a successful `Dequeue` at position `r` leaves
the tag `r + 2^k` and no data in its node. -/
theorem tag_invariant_except_capacity_one {α : Type} {k : Nat} (hk1 : 1 ≤ k) (hk : k < 64)
    (fuel : Nat) (ops : List (Op α)) :
    (∀ i, i < 2 ^ k →
      (initNodes (2 ^ k) : List (node α))[i]? = some { position := i, data := none }) ∧
    (∀ (rb : RingBuffer7_wo_pad α) (rs : List (Ret α)),
      runOps RingBuffer7_wo_pad.step (NewRingBuffer7_wo_pad (2 ^ k)) ops = .ret (rb, rs) →
        (∃ R, rb.mask + 1 = 2 ^ k ∧ rb.readIdx = R % U64 ∧
          rb.writeIdx = (R + ((SpecQueue.run (2 ^ k) ([] : List (Option α)) ops).1).length) % U64 ∧ ((SpecQueue.run (2 ^ k) ([] : List (Option α)) ops).1).length ≤ 2 ^ k ∧
          (∀ i x, ((SpecQueue.run (2 ^ k) ([] : List (Option α)) ops).1)[i]? = some x →
            rb.nodes[((R + i) % U64) &&& rb.mask]?
              = some { position := (R + i + 1) % U64, data := x }) ∧
          (∀ i, ((SpecQueue.run (2 ^ k) ([] : List (Option α)) ops).1).length ≤ i → i < 2 ^ k →
            rb.nodes[((R + i) % U64) &&& rb.mask]?
              = some { position := (R + i) % U64, data := none })) ∧
        (∀ x rb1, rb.Enqueue x = .ret (rb1, none) →
          rb1.nodes[rb.writeIdx &&& rb.mask]?
            = some { position := add64 rb.writeIdx 1, data := x }) ∧
        (∀ rb1 y, rb.Dequeue = .ret (rb1, y, none) →
          rb1.nodes[rb.readIdx &&& rb.mask]?
            = some { position := add64 rb.readIdx (2 ^ k), data := none })) ∧
    (∀ (rb : RingBuffer7 α) (rs : List (Ret α)),
      runOps RingBuffer7.step (NewRingBuffer7 (2 ^ k)) ops = .ret (rb, rs) →
        (∃ R, rb.mask + 1 = 2 ^ k ∧ rb.readIdx = R % U64 ∧
          rb.writeIdx = (R + ((SpecQueue.run (2 ^ k) ([] : List (Option α)) ops).1).length) % U64 ∧ ((SpecQueue.run (2 ^ k) ([] : List (Option α)) ops).1).length ≤ 2 ^ k ∧
          (∀ i x, ((SpecQueue.run (2 ^ k) ([] : List (Option α)) ops).1)[i]? = some x →
            rb.nodes[((R + i) % U64) &&& rb.mask]?
              = some { position := (R + i + 1) % U64, data := x }) ∧
          (∀ i, ((SpecQueue.run (2 ^ k) ([] : List (Option α)) ops).1).length ≤ i → i < 2 ^ k →
            rb.nodes[((R + i) % U64) &&& rb.mask]?
              = some { position := (R + i) % U64, data := none })) ∧
        (∀ x rb1, rb.Enqueue x = .ret (rb1, none) →
          rb1.nodes[rb.writeIdx &&& rb.mask]?
            = some { position := add64 rb.writeIdx 1, data := x }) ∧
        (∀ rb1 y, rb.Dequeue = .ret (rb1, y, none) →
          rb1.nodes[rb.readIdx &&& rb.mask]?
            = some { position := add64 rb.readIdx (2 ^ k), data := none })) ∧
    (∀ (rb : RingBuffer8 α) (rs : List (Ret α)),
      runOps (RingBuffer8.step fuel) (NewRingBuffer8 (2 ^ k)) ops = .ret (rb, rs) →
        (∃ R, rb.mask + 1 = 2 ^ k ∧ rb.readIdx = R % U64 ∧
          rb.writeIdx = (R + ((SpecQueue.run (2 ^ k) ([] : List (Option α)) ops).1).length) % U64 ∧ ((SpecQueue.run (2 ^ k) ([] : List (Option α)) ops).1).length ≤ 2 ^ k ∧
          (∀ i x, ((SpecQueue.run (2 ^ k) ([] : List (Option α)) ops).1)[i]? = some x →
            rb.nodes[((R + i) % U64) &&& rb.mask]?
              = some { position := (R + i + 1) % U64, data := x }) ∧
          (∀ i, ((SpecQueue.run (2 ^ k) ([] : List (Option α)) ops).1).length ≤ i → i < 2 ^ k →
            rb.nodes[((R + i) % U64) &&& rb.mask]?
              = some { position := (R + i) % U64, data := none })) ∧
        (∀ f x rb1, rb.Enqueue f x = .ret (rb1, none) →
          rb1.nodes[rb.writeIdx &&& rb.mask]?
            = some { position := add64 rb.writeIdx 1, data := x }) ∧
        (∀ f rb1 y, rb.Dequeue f = .ret (rb1, y, none) →
          rb1.nodes[rb.readIdx &&& rb.mask]?
            = some { position := add64 rb.readIdx (2 ^ k), data := none })) := by
  have hP := pow2_pos k
  have hC := pow2_lt_U64 hk
  refine ⟨fun i hi => initNodes_getElem? hi, fun rb rs h => ?_, fun rb rs h => ?_,
    fun rb rs h => ?_⟩
  · obtain ⟨rb1, hrun, R, hh⟩ := RingBuffer7_wo_pad_refines (α := α) hk1 hk ops
    rw [h] at hrun
    simp only [Outcome.ret.injEq, Prod.mk.injEq] at hrun
    rw [← hrun.1] at hh
    exact ⟨⟨R, hh.tags hk⟩,
      RingBuffer7_wo_pad_publishes (2 ^ k) rb (RingBuffer7_wo_pad_WF_run _ hP hC ops rb rs h)⟩
  · obtain ⟨rb1, hrun, R, hh⟩ := RingBuffer7_refines (α := α) hk1 hk ops
    rw [h] at hrun
    simp only [Outcome.ret.injEq, Prod.mk.injEq] at hrun
    rw [← hrun.1] at hh
    exact ⟨⟨R, hh.tags hk⟩,
      RingBuffer7_publishes (2 ^ k) rb (RingBuffer7_WF_run _ hP hC ops rb rs h)⟩
  · obtain ⟨_, R, hh⟩ := RingBuffer8_refines_run hk1 hk fuel ops rb rs h
    exact ⟨⟨R, hh.tags hk⟩,
      RingBuffer8_publishes (2 ^ k) hP hC rb (RingBuffer8_WF_run _ hP hC fuel ops rb rs h)⟩

/-! ## C6: what else a successful `Dequeue` changes -/

theorem RingBuffer5_Dequeue_frame {α : Type} (rb rb1 : RingBuffer5 α) (x : Option α)
    (h : rb.Dequeue = .ret (rb1, x, none)) :
    rb1.readIdx = add64 rb.readIdx 1 ∧ rb1.writeIdx = rb.writeIdx ∧ rb1.size = rb.size ∧
      rb1.readCache = rb.readCache ∧
      (rb1.writeCache = rb.writeCache ∨ rb1.writeCache = rb.writeIdx) ∧
      rb1.buffers = rb.buffers := by
  unfold RingBuffer5.Dequeue RingBuffer5.dequeueLoad at h
  dsimp only at h
  repeat' split at h
  all_goals simp only [Outcome.ret.injEq, Prod.mk.injEq, reduceCtorEq, and_false, and_true,
    false_and] at h
  · obtain ⟨rfl, _⟩ := h
    exact ⟨rfl, rfl, rfl, rfl, Or.inr rfl, rfl⟩
  · obtain ⟨rfl, _⟩ := h
    exact ⟨rfl, rfl, rfl, rfl, Or.inl rfl, rfl⟩

theorem RingBuffer6_Dequeue_frame {α : Type} (fuel : Nat) (rb rb1 : RingBuffer6 α)
    (x : Option α) (h : rb.Dequeue fuel = .ret (rb1, x, none)) :
    rb1.readIdx = add64 rb.readIdx 1 ∧ rb1.writeIdx = rb.writeIdx ∧ rb1.size = rb.size ∧
      rb1.readCache = rb.readCache ∧
      (rb1.writeCache = rb.writeCache ∨ rb1.writeCache = rb.writeIdx) ∧
      rb1.buffers = rb.buffers := by
  unfold RingBuffer6.Dequeue at h
  dsimp only at h
  split at h
  · simp only [reduceCtorEq] at h
  · rename_i rb2 write2 heq
    obtain ⟨h1, h2, h3, h4, h5, h6⟩ := RingBuffer6_dequeueWait_inv _ _ _ _ _ _ heq
    split at h
    · simp only [Outcome.ret.injEq, Prod.mk.injEq, and_true] at h
      obtain ⟨rfl, _⟩ := h
      exact ⟨rfl, h1, h3, h5, h6, h4⟩
    · simp only [reduceCtorEq] at h

/-- The loop of `(*RingBuffer8).Dequeue` ends only through a successful
compare-and-swap on `readIdx`: the claimed position is the `readIdx` the call
found, whatever the local `read` was when the loop was entered. -/
theorem RingBuffer8_dequeueSpin_read {α : Type} : ∀ (fuel : Nat) (rb : RingBuffer8 α)
    (read : Nat) (rb1 : RingBuffer8 α) (read1 : Nat) (n : node α),
    RingBuffer8.dequeueSpin fuel rb read = .ret (rb1, read1, n) →
    read1 = rb.readIdx ∧ rb1.readIdx = add64 rb.readIdx 1 ∧ rb1.writeIdx = rb.writeIdx ∧
      rb1.nodes = rb.nodes ∧ rb1.mask = rb.mask ∧
      rb.nodes[rb.readIdx &&& rb.mask]? = some n ∧
      sub64 n.position (add64 rb.readIdx 1) = 0 := by
  intro fuel
  induction fuel with
  | zero =>
    intro rb read rb1 read1 n h
    simp [RingBuffer8.dequeueSpin] at h
  | succ fuel ih =>
    intro rb read rb1 read1 n h
    unfold RingBuffer8.dequeueSpin at h
    split at h
    · simp only [reduceCtorEq] at h
    · rename_i n0 hn0
      dsimp only at h
      split at h
      · rename_i hdif
        by_cases hc : rb.readIdx = read
        · simp only [CompareAndSwapUint64, hc, if_true] at h
          simp only [Outcome.ret.injEq, Prod.mk.injEq] at h
          obtain ⟨rfl, rfl, rfl⟩ := h
          rw [← hc] at hn0 hdif
          exact ⟨hc.symm, by rw [hc], rfl, rfl, rfl, hn0, hdif⟩
        · simp only [CompareAndSwapUint64, hc, if_false] at h
          have h1 := ih _ _ _ _ _ h
          exact h1
      · exact ih _ _ _ _ _ h

theorem RingBuffer8_Dequeue_clears_read_node {α : Type} (fuel : Nat) (rb rb1 : RingBuffer8 α)
    (x : Option α) (h : rb.Dequeue fuel = .ret (rb1, x, none)) :
    (∃ n, rb.nodes[rb.readIdx &&& rb.mask]? = some n ∧ n.data = x ∧
      rb1.nodes[rb.readIdx &&& rb.mask]?
        = some { position := add64 (add64 rb.readIdx rb.mask) 1, data := none }) ∧
    rb1.readIdx = add64 rb.readIdx 1 ∧ rb1.writeIdx = rb.writeIdx ∧ rb1.mask = rb.mask ∧
    rb1.nodes = rb.nodes.set (rb.readIdx &&& rb.mask)
      { position := add64 (add64 rb.readIdx rb.mask) 1, data := none } := by
  unfold RingBuffer8.Dequeue at h
  split at h
  · simp only [reduceCtorEq] at h
  · simp only [reduceCtorEq] at h
  · rename_i rb2 read n heq
    obtain ⟨h1, h2, h3, h4, h5, h6, _⟩ := RingBuffer8_dequeueSpin_read _ _ _ _ _ _ heq
    simp only [Outcome.ret.injEq, Prod.mk.injEq, and_true] at h
    obtain ⟨rfl, rfl⟩ := h
    obtain ⟨hlt, _⟩ := List.getElem?_eq_some.mp h6
    subst h1
    refine ⟨⟨n, h6, rfl, ?_⟩, h2, h3, h5, ?_⟩
    · show (rb2.nodes.set (rb.readIdx &&& rb2.mask) _)[rb.readIdx &&& rb.mask]? = _
      rw [h4, h5]
      exact List.getElem?_set_self hlt
    · show rb2.nodes.set (rb.readIdx &&& rb2.mask) _ = _
      rw [h4, h5]

theorem RingBuffer7_wo_pad_Dequeue_frame {α : Type} (rb rb1 : RingBuffer7_wo_pad α) (x : Option α)
    (h : rb.Dequeue = .ret (rb1, x, none)) :
    rb1.readIdx = add64 rb.readIdx 1 ∧ rb1.writeIdx = rb.writeIdx ∧ rb1.mask = rb.mask ∧
    rb1.nodes = rb.nodes.set (rb.readIdx &&& rb.mask)
      { position := add64 (add64 rb.readIdx rb.mask) 1, data := none } := by
  unfold RingBuffer7_wo_pad.Dequeue at h
  simp only [CompareAndSwapUint64_same] at h
  repeat' split at h
  all_goals simp only [Outcome.ret.injEq, Prod.mk.injEq, reduceCtorEq, and_false, and_true,
    false_and] at h
  obtain ⟨rfl, _⟩ := h
  exact ⟨rfl, rfl, rfl, rfl⟩

theorem RingBuffer7_Dequeue_frame {α : Type} (rb rb1 : RingBuffer7 α) (x : Option α)
    (h : rb.Dequeue = .ret (rb1, x, none)) :
    rb1.readIdx = add64 rb.readIdx 1 ∧ rb1.writeIdx = rb.writeIdx ∧ rb1.mask = rb.mask ∧
    rb1.nodes = rb.nodes.set (rb.readIdx &&& rb.mask)
      { position := add64 (add64 rb.readIdx rb.mask) 1, data := none } := by
  unfold RingBuffer7.Dequeue at h
  simp only [CompareAndSwapUint64_same] at h
  repeat' split at h
  all_goals simp only [Outcome.ret.injEq, Prod.mk.injEq, reduceCtorEq, and_false, and_true,
    false_and] at h
  obtain ⟨rfl, _⟩ := h
  exact ⟨rfl, rfl, rfl, rfl⟩

/-! ## C17: what one thread at a time shows about loss and duplication -/

/-- On a RingBuffer7 made with capacity 1 that accepted two items, every
`Dequeue` fails, however often it is called. -/
theorem RingBuffer7_capacity_one_never_drains (n : Nat) :
    runOps RingBuffer7.step (⟨2, 0, 0, [⟨2, some 2⟩]⟩ : RingBuffer7 Nat)
        (List.replicate n Op.deq)
      = .ret (⟨2, 0, 0, [⟨2, some 2⟩]⟩,
          List.replicate n ⟨none, some Err.ErrBufferEmpty⟩) := by
  induction n with
  | zero => rfl
  | succ n ih =>
    have e : RingBuffer7.step (⟨2, 0, 0, [⟨2, some 2⟩]⟩ : RingBuffer7 Nat) .deq
        = .ret (⟨2, 0, 0, [⟨2, some 2⟩]⟩, ⟨none, some Err.ErrBufferEmpty⟩) := by
      decide
    exact runOps_cons_ret _ e ih

theorem dequeuedValues_failed (n : Nat) :
    dequeuedValues (List.replicate n (Op.deq : Op Nat))
      (List.replicate n ⟨none, some Err.ErrBufferEmpty⟩) = [] := by
  induction n with
  | zero => rfl
  | succ n ih =>
    simp only [List.replicate_succ, dequeuedValues, reduceCtorEq, if_false]
    exact ih

theorem enqueuedValues_failed (n : Nat) :
    enqueuedValues (List.replicate n (Op.deq : Op Nat))
      (List.replicate n ⟨none, some Err.ErrBufferEmpty⟩) = [] := by
  induction n with
  | zero => rfl
  | succ n ih =>
    simp only [List.replicate_succ, enqueuedValues]
    exact ih

/-- Run one call at a time, a RingBuffer7 or a RingBuffer8 of capacity `2^k`,
`1 ≤ k < 64`, neither loses nor duplicates an item: the items of the
successful `Enqueue` calls are, in order, the items returned by the successful
`Dequeue` calls followed by the items still stored, and once the buffer is
drained (`writeIdx = readIdx`) the two lists are equal. -/
theorem no_loss_no_duplication_one_at_a_time {α : Type} {k : Nat} (hk1 : 1 ≤ k) (hk : k < 64)
    (fuel : Nat) (ops : List (Op α)) :
    (∃ (rb : RingBuffer7 α) (rs : List (Ret α)) (q : List (Option α)),
      runOps RingBuffer7.step (NewRingBuffer7 (2 ^ k)) ops = .ret (rb, rs) ∧
      rb.Holds k q ∧ enqueuedValues ops rs = dequeuedValues ops rs ++ q ∧
      (rb.writeIdx = rb.readIdx → dequeuedValues ops rs = enqueuedValues ops rs)) ∧
    (∀ (rb : RingBuffer8 α) (rs : List (Ret α)),
      runOps (RingBuffer8.step fuel) (NewRingBuffer8 (2 ^ k)) ops = .ret (rb, rs) →
      ∃ q : List (Option α), rb.Holds k q ∧
        enqueuedValues ops rs = dequeuedValues ops rs ++ q ∧
        (rb.writeIdx = rb.readIdx → dequeuedValues ops rs = enqueuedValues ops rs)) := by
  have hfifo := SpecQueue.fifo (2 ^ k) ops ([] : List (Option α))
  rw [List.nil_append] at hfifo
  constructor
  · obtain ⟨rb, hrun, hh⟩ := RingBuffer7_refines (α := α) hk1 hk ops
    refine ⟨rb, _, _, hrun, hh, hfifo, fun he => ?_⟩
    obtain ⟨R, hinv⟩ := hh
    rw [hfifo, hinv.empty_of_eq hk he, List.append_nil]
  · intro rb rs h
    obtain ⟨hrs, hh⟩ := RingBuffer8_refines_run hk1 hk fuel ops rb rs h
    rw [← hrs] at hfifo
    refine ⟨_, hh, hfifo, fun he => ?_⟩
    obtain ⟨R, hinv⟩ := hh
    rw [hfifo, hinv.empty_of_eq hk he, List.append_nil]

/-! ## The claims -/

/-- C1: for each of RingBuffer0, RingBuffer1, RingBuffer2, RingBuffer3,
RingBuffer4, RingBuffer5 and every capacity `C` that a `uint64` can hold (a
power of two or not): on the fresh buffer `Dequeue` returns
`(nil, ErrBufferEmpty)` and leaves the buffer as it was, the first `C`
consecutive `Enqueue` calls all return `nil`, and the `(C+1)`-th returns
`ErrBufferFull`. No call panics. -/
theorem C1_fresh_buffer_takes_exactly_capacity {α : Type} (C : Nat) (hC : C < U64)
    (xs : List (Option α)) (hxs : xs.length = C) (y : Option α) :
    ((NewRingBuffer0 C : RingBuffer0 α).Dequeue
        = .ret (NewRingBuffer0 C, none, some Err.ErrBufferEmpty) ∧
      ∃ rb, runOps RingBuffer0.step (NewRingBuffer0 C : RingBuffer0 α)
          (List.map Op.enq xs ++ [Op.enq y])
        = .ret (rb, List.replicate C { item := none, err := none }
            ++ [{ item := none, err := some Err.ErrBufferFull }])) ∧
    ((NewRingBuffer1 C : RingBuffer1 α).Dequeue
        = .ret (NewRingBuffer1 C, none, some Err.ErrBufferEmpty) ∧
      ∃ rb, runOps RingBuffer1.step (NewRingBuffer1 C : RingBuffer1 α)
          (List.map Op.enq xs ++ [Op.enq y])
        = .ret (rb, List.replicate C { item := none, err := none }
            ++ [{ item := none, err := some Err.ErrBufferFull }])) ∧
    ((NewRingBuffer2 C : RingBuffer2 α).Dequeue
        = .ret (NewRingBuffer2 C, none, some Err.ErrBufferEmpty) ∧
      ∃ rb, runOps RingBuffer2.step (NewRingBuffer2 C : RingBuffer2 α)
          (List.map Op.enq xs ++ [Op.enq y])
        = .ret (rb, List.replicate C { item := none, err := none }
            ++ [{ item := none, err := some Err.ErrBufferFull }])) ∧
    ((NewRingBuffer3 C : RingBuffer3 α).Dequeue
        = .ret (NewRingBuffer3 C, none, some Err.ErrBufferEmpty) ∧
      ∃ rb, runOps RingBuffer3.step (NewRingBuffer3 C : RingBuffer3 α)
          (List.map Op.enq xs ++ [Op.enq y])
        = .ret (rb, List.replicate C { item := none, err := none }
            ++ [{ item := none, err := some Err.ErrBufferFull }])) ∧
    ((NewRingBuffer4 C : RingBuffer4 α).Dequeue
        = .ret (NewRingBuffer4 C, none, some Err.ErrBufferEmpty) ∧
      ∃ rb, runOps RingBuffer4.step (NewRingBuffer4 C : RingBuffer4 α)
          (List.map Op.enq xs ++ [Op.enq y])
        = .ret (rb, List.replicate C { item := none, err := none }
            ++ [{ item := none, err := some Err.ErrBufferFull }])) ∧
    ((NewRingBuffer5 C : RingBuffer5 α).Dequeue
        = .ret (NewRingBuffer5 C, none, some Err.ErrBufferEmpty) ∧
      ∃ rb, runOps RingBuffer5.step (NewRingBuffer5 C : RingBuffer5 α)
          (List.map Op.enq xs ++ [Op.enq y])
        = .ret (rb, List.replicate C { item := none, err := none }
            ++ [{ item := none, err := some Err.ErrBufferFull }])) :=
  ⟨RingBuffer0_fresh_capacity C hC xs hxs y, RingBuffer1_fresh_capacity C hC xs hxs y,
    RingBuffer2_fresh_capacity C hC xs hxs y, RingBuffer3_fresh_capacity C hC xs hxs y,
    RingBuffer4_fresh_capacity C hC xs hxs y, RingBuffer5_fresh_capacity C hC xs hxs y⟩

/-- C1 at capacity 3 (not a power of two) with the items 1, 2, 3 and then 4. -/
theorem C1_witness :
    (3 < U64 ∧ [some 1, some 2, some 3].length = 3) ∧
    ((NewRingBuffer0 3 : RingBuffer0 Nat).Dequeue
        = .ret (NewRingBuffer0 3, none, some Err.ErrBufferEmpty) ∧
      ∃ rb, runOps RingBuffer0.step (NewRingBuffer0 3 : RingBuffer0 Nat)
          (List.map Op.enq [some 1, some 2, some 3] ++ [Op.enq (some 4)])
        = .ret (rb, List.replicate 3 { item := none, err := none }
            ++ [{ item := none, err := some Err.ErrBufferFull }])) ∧
    ((NewRingBuffer1 3 : RingBuffer1 Nat).Dequeue
        = .ret (NewRingBuffer1 3, none, some Err.ErrBufferEmpty) ∧
      ∃ rb, runOps RingBuffer1.step (NewRingBuffer1 3 : RingBuffer1 Nat)
          (List.map Op.enq [some 1, some 2, some 3] ++ [Op.enq (some 4)])
        = .ret (rb, List.replicate 3 { item := none, err := none }
            ++ [{ item := none, err := some Err.ErrBufferFull }])) ∧
    ((NewRingBuffer2 3 : RingBuffer2 Nat).Dequeue
        = .ret (NewRingBuffer2 3, none, some Err.ErrBufferEmpty) ∧
      ∃ rb, runOps RingBuffer2.step (NewRingBuffer2 3 : RingBuffer2 Nat)
          (List.map Op.enq [some 1, some 2, some 3] ++ [Op.enq (some 4)])
        = .ret (rb, List.replicate 3 { item := none, err := none }
            ++ [{ item := none, err := some Err.ErrBufferFull }])) ∧
    ((NewRingBuffer3 3 : RingBuffer3 Nat).Dequeue
        = .ret (NewRingBuffer3 3, none, some Err.ErrBufferEmpty) ∧
      ∃ rb, runOps RingBuffer3.step (NewRingBuffer3 3 : RingBuffer3 Nat)
          (List.map Op.enq [some 1, some 2, some 3] ++ [Op.enq (some 4)])
        = .ret (rb, List.replicate 3 { item := none, err := none }
            ++ [{ item := none, err := some Err.ErrBufferFull }])) ∧
    ((NewRingBuffer4 3 : RingBuffer4 Nat).Dequeue
        = .ret (NewRingBuffer4 3, none, some Err.ErrBufferEmpty) ∧
      ∃ rb, runOps RingBuffer4.step (NewRingBuffer4 3 : RingBuffer4 Nat)
          (List.map Op.enq [some 1, some 2, some 3] ++ [Op.enq (some 4)])
        = .ret (rb, List.replicate 3 { item := none, err := none }
            ++ [{ item := none, err := some Err.ErrBufferFull }])) ∧
    ((NewRingBuffer5 3 : RingBuffer5 Nat).Dequeue
        = .ret (NewRingBuffer5 3, none, some Err.ErrBufferEmpty) ∧
      ∃ rb, runOps RingBuffer5.step (NewRingBuffer5 3 : RingBuffer5 Nat)
          (List.map Op.enq [some 1, some 2, some 3] ++ [Op.enq (some 4)])
        = .ret (rb, List.replicate 3 { item := none, err := none }
            ++ [{ item := none, err := some Err.ErrBufferFull }])) :=
  ⟨⟨by decide, rfl⟩,
    C1_fresh_buffer_takes_exactly_capacity 3 (by decide) [some 1, some 2, some 3] rfl (some 4)⟩

/-- C2: RingBuffer0 is a bounded FIFO queue. For every positive capacity `C`
and every sequence of `Enqueue`/`Dequeue` calls on a fresh buffer with fewer
than `2^64` `Enqueue` calls, no call panics and each call returns exactly what
the list queue bounded at `C` returns (`SpecQueue`: `Enqueue` fails with
`ErrBufferFull` iff `C` items are stored, `Dequeue` fails with
`ErrBufferEmpty` iff none is stored, a successful `Dequeue` returns the oldest
stored item). -/
theorem C2_RingBuffer0_is_bounded_fifo {α : Type} (C : Nat) (hpos : 0 < C) (hC : C < U64)
    (ops : List (Op α)) (hcount : countEnq ops < U64) :
    ∃ rb, runOps RingBuffer0.step (NewRingBuffer0 C : RingBuffer0 α) ops
      = .ret (rb, (SpecQueue.run C [] ops).2) :=
  RingBuffer0_refines_from C hpos hC ops 0 0 (List.replicate C none) [] (ArrInv.new C)
    (by simpa using hcount)

/-- C2 at capacity 3 on a run that fills the buffer, overflows it and drains
it. -/
theorem C2_witness :
    (0 < 3 ∧ 3 < U64 ∧ countEnq ([Op.deq, Op.enq (some 1), Op.enq (some 2), Op.enq (some 3), Op.enq (some 4), Op.deq,
      Op.enq (some 5), Op.deq, Op.deq, Op.deq, Op.deq] : List (Op Nat)) < U64) ∧
    ∃ rb, runOps RingBuffer0.step (NewRingBuffer0 3 : RingBuffer0 Nat) 
      [Op.deq, Op.enq (some 1), Op.enq (some 2), Op.enq (some 3), Op.enq (some 4), Op.deq,
      Op.enq (some 5), Op.deq, Op.deq, Op.deq, Op.deq]
      = .ret (rb, (SpecQueue.run 3 [] 
      [Op.deq, Op.enq (some 1), Op.enq (some 2), Op.enq (some 3), Op.enq (some 4), Op.deq,
      Op.enq (some 5), Op.deq, Op.deq, Op.deq, Op.deq]).2) :=
  ⟨⟨by decide, by decide, by decide⟩,
    C2_RingBuffer0_is_bounded_fifo 3 (by decide) (by decide) _ (by decide)⟩

/-- C3: FIFO law for RingBuffer3 and RingBuffer4. For every power-of-two
capacity `2^k` (`k < 64`) and every sequence of `Enqueue`/`Dequeue` calls on a
fresh buffer, every call returns, and the values returned by the successful
`Dequeue` calls are the values passed to the successful `Enqueue` calls, in
the same order, cut to the number of successful dequeues. -/
theorem C3_fifo_law_RingBuffer3_RingBuffer4 {α : Type} (k : Nat) (hk : k < 64)
    (ops : List (Op α)) :
    (∃ rb rs, runOps RingBuffer3.step (NewRingBuffer3 (2 ^ k) : RingBuffer3 α) ops
        = .ret (rb, rs) ∧
      dequeuedValues ops rs
        = (enqueuedValues ops rs).take (dequeuedValues ops rs).length) ∧
    (∃ rb rs, runOps RingBuffer4.step (NewRingBuffer4 (2 ^ k) : RingBuffer4 α) ops
        = .ret (rb, rs) ∧
      dequeuedValues ops rs
        = (enqueuedValues ops rs).take (dequeuedValues ops rs).length) := by
  obtain ⟨rb3, h3, _⟩ := RingBuffer3_refines (α := α) hk ops
  obtain ⟨rb4, h4, _⟩ := RingBuffer4_refines (α := α) hk ops
  exact ⟨⟨rb3, _, h3, SpecQueue.fifo_take _ ops⟩, ⟨rb4, _, h4, SpecQueue.fifo_take _ ops⟩⟩

/-- C3 at capacity 2 on a run with a rejected `Enqueue` and a failed
`Dequeue`. -/
theorem C3_witness :
    (1 < 64) ∧
    (∃ rb rs, runOps RingBuffer3.step (NewRingBuffer3 (2 ^ 1) : RingBuffer3 Nat) 
      ([Op.enq (some 1), Op.enq (some 2), Op.enq (some 3), Op.deq, Op.enq (some 4), Op.deq,
      Op.deq, Op.deq] : List (Op Nat))
        = .ret (rb, rs) ∧
      dequeuedValues 
      ([Op.enq (some 1), Op.enq (some 2), Op.enq (some 3), Op.deq, Op.enq (some 4), Op.deq,
      Op.deq, Op.deq] : List (Op Nat)) rs
        = (enqueuedValues 
      ([Op.enq (some 1), Op.enq (some 2), Op.enq (some 3), Op.deq, Op.enq (some 4), Op.deq,
      Op.deq, Op.deq] : List (Op Nat)) rs).take (dequeuedValues 
      ([Op.enq (some 1), Op.enq (some 2), Op.enq (some 3), Op.deq, Op.enq (some 4), Op.deq,
      Op.deq, Op.deq] : List (Op Nat)) rs).length) ∧
    (∃ rb rs, runOps RingBuffer4.step (NewRingBuffer4 (2 ^ 1) : RingBuffer4 Nat) 
      ([Op.enq (some 1), Op.enq (some 2), Op.enq (some 3), Op.deq, Op.enq (some 4), Op.deq,
      Op.deq, Op.deq] : List (Op Nat))
        = .ret (rb, rs) ∧
      dequeuedValues 
      ([Op.enq (some 1), Op.enq (some 2), Op.enq (some 3), Op.deq, Op.enq (some 4), Op.deq,
      Op.deq, Op.deq] : List (Op Nat)) rs
        = (enqueuedValues 
      ([Op.enq (some 1), Op.enq (some 2), Op.enq (some 3), Op.deq, Op.enq (some 4), Op.deq,
      Op.deq, Op.deq] : List (Op Nat)) rs).take (dequeuedValues 
      ([Op.enq (some 1), Op.enq (some 2), Op.enq (some 3), Op.deq, Op.enq (some 4), Op.deq,
      Op.deq, Op.deq] : List (Op Nat)) rs).length) :=
  ⟨by decide, C3_fifo_law_RingBuffer3_RingBuffer4 1 (by decide) _⟩

/-- C4: round trip. For every variant, every capacity `C ≥ 1` (for the
node-sequence variants RingBuffer7_wo_pad, RingBuffer7, RingBuffer8 a power of
two `2^k`) and every item `x`: in the fresh buffer and in every state reached
from it in which the buffer is empty (`writeIdx = readIdx`), `Enqueue(x)`
returns `nil`, the `Dequeue()` that follows returns `(x, nil)`, and the buffer
is empty again. The blocking variants RingBuffer6 and RingBuffer8 return as
soon as their loops may run twice (RingBuffer6) or once (RingBuffer8). -/
theorem C4_round_trip {α : Type} (C : Nat) (hpos : 0 < C) (hC : C < U64) (k : Nat)
    (hk : k < 64) (fuel f : Nat) (ops : List (Op α)) (x : Option α) :
    (∀ (rb : RingBuffer0 α) (rs : List (Ret α)),
      runOps RingBuffer0.step (NewRingBuffer0 C : RingBuffer0 α) ops = .ret (rb, rs) →
      rb.writeIdx = rb.readIdx →
      ∃ rb1 rb2, rb.Enqueue x = .ret (rb1, none) ∧
        rb1.Dequeue = .ret (rb2, x, none) ∧ rb2.writeIdx = rb2.readIdx) ∧
    (∀ (rb : RingBuffer1 α) (rs : List (Ret α)),
      runOps RingBuffer1.step (NewRingBuffer1 C : RingBuffer1 α) ops = .ret (rb, rs) →
      rb.writeIdx = rb.readIdx →
      ∃ rb1 rb2, rb.Enqueue x = .ret (rb1, none) ∧
        rb1.Dequeue = .ret (rb2, x, none) ∧ rb2.writeIdx = rb2.readIdx) ∧
    (∀ (rb : RingBuffer2 α) (rs : List (Ret α)),
      runOps RingBuffer2.step (NewRingBuffer2 C : RingBuffer2 α) ops = .ret (rb, rs) →
      rb.writeIdx = rb.readIdx →
      ∃ rb1 rb2, rb.Enqueue x = .ret (rb1, none) ∧
        rb1.Dequeue = .ret (rb2, x, none) ∧ rb2.writeIdx = rb2.readIdx) ∧
    (∀ (rb : RingBuffer3 α) (rs : List (Ret α)),
      runOps RingBuffer3.step (NewRingBuffer3 C : RingBuffer3 α) ops = .ret (rb, rs) →
      rb.writeIdx = rb.readIdx →
      ∃ rb1 rb2, rb.Enqueue x = .ret (rb1, none) ∧
        rb1.Dequeue = .ret (rb2, x, none) ∧ rb2.writeIdx = rb2.readIdx) ∧
    (∀ (rb : RingBuffer4 α) (rs : List (Ret α)),
      runOps RingBuffer4.step (NewRingBuffer4 C : RingBuffer4 α) ops = .ret (rb, rs) →
      rb.writeIdx = rb.readIdx →
      ∃ rb1 rb2, rb.Enqueue x = .ret (rb1, none) ∧
        rb1.Dequeue = .ret (rb2, x, none) ∧ rb2.writeIdx = rb2.readIdx) ∧
    (∀ (rb : RingBuffer5 α) (rs : List (Ret α)),
      runOps RingBuffer5.step (NewRingBuffer5 C : RingBuffer5 α) ops = .ret (rb, rs) →
      rb.writeIdx = rb.readIdx →
      ∃ rb1 rb2, rb.Enqueue x = .ret (rb1, none) ∧
        rb1.Dequeue = .ret (rb2, x, none) ∧ rb2.writeIdx = rb2.readIdx) ∧
    (∀ (rb : RingBuffer6 α) (rs : List (Ret α)),
      runOps (RingBuffer6.step fuel) (NewRingBuffer6 C : RingBuffer6 α) ops = .ret (rb, rs) →
      rb.writeIdx = rb.readIdx →
      ∃ rb1 rb2, rb.Enqueue (f + 2) x = .ret (rb1, none) ∧
        rb1.Dequeue (f + 2) = .ret (rb2, x, none) ∧ rb2.writeIdx = rb2.readIdx) ∧
    (∀ (rb : RingBuffer7_wo_pad α) (rs : List (Ret α)),
      runOps RingBuffer7_wo_pad.step (NewRingBuffer7_wo_pad (2 ^ k) : RingBuffer7_wo_pad α) ops = .ret (rb, rs) →
      rb.writeIdx = rb.readIdx →
      ∃ rb1 rb2, rb.Enqueue x = .ret (rb1, none) ∧
        rb1.Dequeue = .ret (rb2, x, none) ∧ rb2.writeIdx = rb2.readIdx) ∧
    (∀ (rb : RingBuffer7 α) (rs : List (Ret α)),
      runOps RingBuffer7.step (NewRingBuffer7 (2 ^ k) : RingBuffer7 α) ops = .ret (rb, rs) →
      rb.writeIdx = rb.readIdx →
      ∃ rb1 rb2, rb.Enqueue x = .ret (rb1, none) ∧
        rb1.Dequeue = .ret (rb2, x, none) ∧ rb2.writeIdx = rb2.readIdx) ∧
    (∀ (rb : RingBuffer8 α) (rs : List (Ret α)),
      runOps (RingBuffer8.step fuel) (NewRingBuffer8 (2 ^ k) : RingBuffer8 α) ops = .ret (rb, rs) →
      rb.writeIdx = rb.readIdx →
      ∃ rb1 rb2, rb.Enqueue (f + 1) x = .ret (rb1, none) ∧
        rb1.Dequeue (f + 1) = .ret (rb2, x, none) ∧ rb2.writeIdx = rb2.readIdx) :=
  ⟨fun rb rs h he => RingBuffer0_round_trip C hpos rb (RingBuffer0_WF_run C ops rb rs h) he x,
    fun rb rs h he =>
      RingBuffer1_round_trip C hpos hC rb (RingBuffer1_WF_run C ops rb rs h) he x,
    fun rb rs h he =>
      RingBuffer2_round_trip C hpos hC rb (RingBuffer2_WF_run C ops rb rs h) he x,
    fun rb rs h he =>
      RingBuffer3_round_trip C hpos hC rb (RingBuffer3_WF_run C ops rb rs h) he x,
    fun rb rs h he =>
      RingBuffer4_round_trip C hpos hC rb (RingBuffer4_WF_run C ops rb rs h) he x,
    fun rb rs h he =>
      RingBuffer5_round_trip C hpos hC rb (RingBuffer5_WF_run C ops rb rs h) he x,
    fun rb rs h he =>
      RingBuffer6_round_trip C f hpos hC rb (RingBuffer6_WF_run C fuel ops rb rs h) he x,
    fun rb rs h he => RingBuffer7_wo_pad_round_trip hk ops rb rs h he x,
    fun rb rs h he => RingBuffer7_round_trip hk ops rb rs h he x,
    fun rb rs h he => RingBuffer8_round_trip hk fuel f ops rb rs h he x⟩

/-- C4 at capacity 3 (array variants) and 2 (node-sequence variants), after
two items went through the buffer. -/
theorem C4_witness :
    (0 < 3 ∧ 3 < U64 ∧ 1 < 64) ∧
    (∀ (rb : RingBuffer0 Nat) (rs : List (Ret Nat)),
      runOps RingBuffer0.step (NewRingBuffer0 3 : RingBuffer0 Nat) ([Op.enq (some 1), Op.enq (some 2), Op.deq, Op.deq] : List (Op Nat)) = .ret (rb, rs) →
      rb.writeIdx = rb.readIdx →
      ∃ rb1 rb2, rb.Enqueue (some 7) = .ret (rb1, none) ∧
        rb1.Dequeue = .ret (rb2, (some 7), none) ∧ rb2.writeIdx = rb2.readIdx) ∧
    (∀ (rb : RingBuffer1 Nat) (rs : List (Ret Nat)),
      runOps RingBuffer1.step (NewRingBuffer1 3 : RingBuffer1 Nat) ([Op.enq (some 1), Op.enq (some 2), Op.deq, Op.deq] : List (Op Nat)) = .ret (rb, rs) →
      rb.writeIdx = rb.readIdx →
      ∃ rb1 rb2, rb.Enqueue (some 7) = .ret (rb1, none) ∧
        rb1.Dequeue = .ret (rb2, (some 7), none) ∧ rb2.writeIdx = rb2.readIdx) ∧
    (∀ (rb : RingBuffer2 Nat) (rs : List (Ret Nat)),
      runOps RingBuffer2.step (NewRingBuffer2 3 : RingBuffer2 Nat) ([Op.enq (some 1), Op.enq (some 2), Op.deq, Op.deq] : List (Op Nat)) = .ret (rb, rs) →
      rb.writeIdx = rb.readIdx →
      ∃ rb1 rb2, rb.Enqueue (some 7) = .ret (rb1, none) ∧
        rb1.Dequeue = .ret (rb2, (some 7), none) ∧ rb2.writeIdx = rb2.readIdx) ∧
    (∀ (rb : RingBuffer3 Nat) (rs : List (Ret Nat)),
      runOps RingBuffer3.step (NewRingBuffer3 3 : RingBuffer3 Nat) ([Op.enq (some 1), Op.enq (some 2), Op.deq, Op.deq] : List (Op Nat)) = .ret (rb, rs) →
      rb.writeIdx = rb.readIdx →
      ∃ rb1 rb2, rb.Enqueue (some 7) = .ret (rb1, none) ∧
        rb1.Dequeue = .ret (rb2, (some 7), none) ∧ rb2.writeIdx = rb2.readIdx) ∧
    (∀ (rb : RingBuffer4 Nat) (rs : List (Ret Nat)),
      runOps RingBuffer4.step (NewRingBuffer4 3 : RingBuffer4 Nat) ([Op.enq (some 1), Op.enq (some 2), Op.deq, Op.deq] : List (Op Nat)) = .ret (rb, rs) →
      rb.writeIdx = rb.readIdx →
      ∃ rb1 rb2, rb.Enqueue (some 7) = .ret (rb1, none) ∧
        rb1.Dequeue = .ret (rb2, (some 7), none) ∧ rb2.writeIdx = rb2.readIdx) ∧
    (∀ (rb : RingBuffer5 Nat) (rs : List (Ret Nat)),
      runOps RingBuffer5.step (NewRingBuffer5 3 : RingBuffer5 Nat) ([Op.enq (some 1), Op.enq (some 2), Op.deq, Op.deq] : List (Op Nat)) = .ret (rb, rs) →
      rb.writeIdx = rb.readIdx →
      ∃ rb1 rb2, rb.Enqueue (some 7) = .ret (rb1, none) ∧
        rb1.Dequeue = .ret (rb2, (some 7), none) ∧ rb2.writeIdx = rb2.readIdx) ∧
    (∀ (rb : RingBuffer6 Nat) (rs : List (Ret Nat)),
      runOps (RingBuffer6.step 2) (NewRingBuffer6 3 : RingBuffer6 Nat) ([Op.enq (some 1), Op.enq (some 2), Op.deq, Op.deq] : List (Op Nat)) = .ret (rb, rs) →
      rb.writeIdx = rb.readIdx →
      ∃ rb1 rb2, rb.Enqueue (0 + 2) (some 7) = .ret (rb1, none) ∧
        rb1.Dequeue (0 + 2) = .ret (rb2, (some 7), none) ∧ rb2.writeIdx = rb2.readIdx) ∧
    (∀ (rb : RingBuffer7_wo_pad Nat) (rs : List (Ret Nat)),
      runOps RingBuffer7_wo_pad.step (NewRingBuffer7_wo_pad (2 ^ 1) : RingBuffer7_wo_pad Nat) ([Op.enq (some 1), Op.enq (some 2), Op.deq, Op.deq] : List (Op Nat)) = .ret (rb, rs) →
      rb.writeIdx = rb.readIdx →
      ∃ rb1 rb2, rb.Enqueue (some 7) = .ret (rb1, none) ∧
        rb1.Dequeue = .ret (rb2, (some 7), none) ∧ rb2.writeIdx = rb2.readIdx) ∧
    (∀ (rb : RingBuffer7 Nat) (rs : List (Ret Nat)),
      runOps RingBuffer7.step (NewRingBuffer7 (2 ^ 1) : RingBuffer7 Nat) ([Op.enq (some 1), Op.enq (some 2), Op.deq, Op.deq] : List (Op Nat)) = .ret (rb, rs) →
      rb.writeIdx = rb.readIdx →
      ∃ rb1 rb2, rb.Enqueue (some 7) = .ret (rb1, none) ∧
        rb1.Dequeue = .ret (rb2, (some 7), none) ∧ rb2.writeIdx = rb2.readIdx) ∧
    (∀ (rb : RingBuffer8 Nat) (rs : List (Ret Nat)),
      runOps (RingBuffer8.step 2) (NewRingBuffer8 (2 ^ 1) : RingBuffer8 Nat) ([Op.enq (some 1), Op.enq (some 2), Op.deq, Op.deq] : List (Op Nat)) = .ret (rb, rs) →
      rb.writeIdx = rb.readIdx →
      ∃ rb1 rb2, rb.Enqueue (0 + 1) (some 7) = .ret (rb1, none) ∧
        rb1.Dequeue (0 + 1) = .ret (rb2, (some 7), none) ∧ rb2.writeIdx = rb2.readIdx) :=
  ⟨⟨by decide, by decide, by decide⟩,
    C4_round_trip 3 (by decide) (by decide) 1 (by decide) 2 0 _ (some 7)⟩

/-- C5 fails on the code at the power-of-two capacity 1: a RingBuffer7 and a
RingBuffer7_wo_pad made with capacity 1 accept a second `Enqueue` while one
item is stored (the tag `write+1` published by the first `Enqueue` is the next
write position), overwrite the stored item, and then answer `ErrBufferEmpty`
to `Dequeue`; the queue bounded at 1 answers `ErrBufferFull` to the second
`Enqueue` and returns the first item. -/
theorem C5_capacity_one_is_not_bounded :
    runOps RingBuffer7.step (NewRingBuffer7 1 : RingBuffer7 Nat)
        [Op.enq (some 1), Op.enq (some 2), Op.deq]
      = .ret (⟨2, 0, 0, [⟨2, some 2⟩]⟩,
          [⟨none, none⟩, ⟨none, none⟩, ⟨none, some Err.ErrBufferEmpty⟩]) ∧
    runOps RingBuffer7_wo_pad.step (NewRingBuffer7_wo_pad 1 : RingBuffer7_wo_pad Nat)
        [Op.enq (some 1), Op.enq (some 2), Op.deq]
      = .ret (⟨2, 0, 0, [⟨2, some 2⟩]⟩,
          [⟨none, none⟩, ⟨none, none⟩, ⟨none, some Err.ErrBufferEmpty⟩]) ∧
    (SpecQueue.run 1 ([] : List (Option Nat)) [Op.enq (some 1), Op.enq (some 2), Op.deq]).2
      = [⟨none, none⟩, ⟨none, some Err.ErrBufferFull⟩, ⟨some 1, none⟩] := by
  decide

/-- C6 as stated fails on the code: a RingBuffer0 of capacity 1 that took the
item 7 returns `(7, nil)` from `Dequeue` and its slot 0 still holds 7, not
`nil`. -/
theorem C6_counterexample :
    runOps RingBuffer0.step (NewRingBuffer0 1 : RingBuffer0 Nat) [Op.enq (some 7), Op.deq]
      = .ret (⟨1, 1, 1, [some 7]⟩, [⟨none, none⟩, ⟨some 7, none⟩]) ∧
    (⟨1, 0, 1, [some 7]⟩ : RingBuffer0 Nat).Dequeue = .ret (⟨1, 1, 1, [some 7]⟩, some 7, none) ∧
    (⟨1, 1, 1, [some 7]⟩ : RingBuffer0 Nat).buffers[0]? ≠ some none := by
  decide

/-- C6, amended: after a `Dequeue` that returns `(item, nil)`, in the
node-sequence variants RingBuffer7_wo_pad, RingBuffer7 and RingBuffer8 the
node the item was read from, the one at `readIdx & mask`, holds `nil` data and
the tag `readIdx + mask + 1`; nothing else changes but `readIdx`, which is
advanced by one. In the array variants RingBuffer0 to RingBuffer6 `Dequeue`
writes nothing to the slot array, so the slot that was read still holds the
item; it advances `readIdx` by one and leaves `writeIdx` and `size` (and
`mask`) as they were, and in RingBuffer5 and RingBuffer6 it leaves `readCache`
as it was and either leaves `writeCache` or refreshes it to `writeIdx`. -/
theorem C6_dequeue_clears_nodes_only {α : Type} :
    (∀ (rb rb1 : RingBuffer0 α) (x : Option α),
      rb.Dequeue = .ret (rb1, x, none) →
        rb1.buffers = rb.buffers ∧ rb1.buffers[rb.readIdx % rb.size]? = some x ∧
        rb1.readIdx = add64 rb.readIdx 1 ∧ rb1.writeIdx = rb.writeIdx ∧
        rb1.size = rb.size) ∧
    (∀ (rb rb1 : RingBuffer1 α) (x : Option α),
      rb.Dequeue = .ret (rb1, x, none) →
        rb1.buffers = rb.buffers ∧ rb1.buffers[rb.readIdx &&& rb.mask]? = some x ∧
        rb1.readIdx = add64 rb.readIdx 1 ∧ rb1.writeIdx = rb.writeIdx ∧
        rb1.size = rb.size ∧ rb1.mask = rb.mask) ∧
    (∀ (rb rb1 : RingBuffer2 α) (x : Option α),
      rb.Dequeue = .ret (rb1, x, none) →
        rb1.buffers = rb.buffers ∧ rb1.buffers[rb.readIdx &&& sub64 rb.size 1]? = some x ∧
        rb1.readIdx = add64 rb.readIdx 1 ∧ rb1.writeIdx = rb.writeIdx ∧
        rb1.size = rb.size) ∧
    (∀ (rb rb1 : RingBuffer3 α) (x : Option α),
      rb.Dequeue = .ret (rb1, x, none) →
        rb1.buffers = rb.buffers ∧ rb1.buffers[rb.readIdx &&& sub64 rb.size 1]? = some x ∧
        rb1.readIdx = add64 rb.readIdx 1 ∧ rb1.writeIdx = rb.writeIdx ∧
        rb1.size = rb.size) ∧
    (∀ (rb rb1 : RingBuffer4 α) (x : Option α),
      rb.Dequeue = .ret (rb1, x, none) →
        rb1.buffers = rb.buffers ∧ rb1.buffers[rb.readIdx &&& sub64 rb.size 1]? = some x ∧
        rb1.readIdx = add64 rb.readIdx 1 ∧ rb1.writeIdx = rb.writeIdx ∧
        rb1.size = rb.size) ∧
    (∀ (rb rb1 : RingBuffer5 α) (x : Option α),
      rb.Dequeue = .ret (rb1, x, none) →
        rb1.buffers = rb.buffers ∧ rb1.buffers[rb.readIdx &&& sub64 rb.size 1]? = some x ∧
        rb1.readIdx = add64 rb.readIdx 1 ∧ rb1.writeIdx = rb.writeIdx ∧
        rb1.size = rb.size ∧ rb1.readCache = rb.readCache ∧
        (rb1.writeCache = rb.writeCache ∨ rb1.writeCache = rb.writeIdx)) ∧
    (∀ (fuel : Nat) (rb rb1 : RingBuffer6 α) (x : Option α),
      rb.Dequeue fuel = .ret (rb1, x, none) →
        rb1.buffers = rb.buffers ∧ rb1.buffers[rb.readIdx &&& sub64 rb.size 1]? = some x ∧
        rb1.readIdx = add64 rb.readIdx 1 ∧ rb1.writeIdx = rb.writeIdx ∧
        rb1.size = rb.size ∧ rb1.readCache = rb.readCache ∧
        (rb1.writeCache = rb.writeCache ∨ rb1.writeCache = rb.writeIdx)) ∧
    (∀ (rb rb1 : RingBuffer7_wo_pad α) (x : Option α),
      rb.Dequeue = .ret (rb1, x, none) →
        (∃ n, rb.nodes[rb.readIdx &&& rb.mask]? = some n ∧ n.data = x ∧
          rb1.nodes[rb.readIdx &&& rb.mask]?
            = some { position := add64 (add64 rb.readIdx rb.mask) 1, data := none }) ∧
        rb1.readIdx = add64 rb.readIdx 1 ∧ rb1.writeIdx = rb.writeIdx ∧
        rb1.mask = rb.mask ∧
        rb1.nodes = rb.nodes.set (rb.readIdx &&& rb.mask)
          { position := add64 (add64 rb.readIdx rb.mask) 1, data := none }) ∧
    (∀ (rb rb1 : RingBuffer7 α) (x : Option α),
      rb.Dequeue = .ret (rb1, x, none) →
        (∃ n, rb.nodes[rb.readIdx &&& rb.mask]? = some n ∧ n.data = x ∧
          rb1.nodes[rb.readIdx &&& rb.mask]?
            = some { position := add64 (add64 rb.readIdx rb.mask) 1, data := none }) ∧
        rb1.readIdx = add64 rb.readIdx 1 ∧ rb1.writeIdx = rb.writeIdx ∧
        rb1.mask = rb.mask ∧
        rb1.nodes = rb.nodes.set (rb.readIdx &&& rb.mask)
          { position := add64 (add64 rb.readIdx rb.mask) 1, data := none }) ∧
    (∀ (fuel : Nat) (rb rb1 : RingBuffer8 α) (x : Option α),
      rb.Dequeue fuel = .ret (rb1, x, none) →
        (∃ n, rb.nodes[rb.readIdx &&& rb.mask]? = some n ∧ n.data = x ∧
          rb1.nodes[rb.readIdx &&& rb.mask]?
            = some { position := add64 (add64 rb.readIdx rb.mask) 1, data := none }) ∧
        rb1.readIdx = add64 rb.readIdx 1 ∧ rb1.writeIdx = rb.writeIdx ∧
        rb1.mask = rb.mask ∧
        rb1.nodes = rb.nodes.set (rb.readIdx &&& rb.mask)
          { position := add64 (add64 rb.readIdx rb.mask) 1, data := none }) := by
  refine ⟨?_, ?_, ?_, ?_, ?_, ?_, ?_, ?_, ?_, ?_⟩
  · intro rb rb1 x h
    obtain ⟨g1, g2⟩ := RingBuffer0_Dequeue_keeps_slot rb rb1 x h
    obtain ⟨k1, k2, k3, _⟩ := RingBuffer0_Dequeue_frame rb rb1 x h
    exact ⟨g1, g2, k1, k2, k3⟩
  · intro rb rb1 x h
    obtain ⟨g1, g2⟩ := RingBuffer1_Dequeue_keeps_slot rb rb1 x h
    obtain ⟨k1, k2, k3, k4, _⟩ := RingBuffer1_Dequeue_frame rb rb1 x h
    exact ⟨g1, g2, k1, k2, k3, k4⟩
  · intro rb rb1 x h
    obtain ⟨g1, g2⟩ := RingBuffer2_Dequeue_keeps_slot rb rb1 x h
    obtain ⟨k1, k2, k3, _⟩ := RingBuffer2_Dequeue_frame rb rb1 x h
    exact ⟨g1, g2, k1, k2, k3⟩
  · intro rb rb1 x h
    obtain ⟨g1, g2⟩ := RingBuffer3_Dequeue_keeps_slot rb rb1 x h
    obtain ⟨k1, k2, k3, _⟩ := RingBuffer3_Dequeue_frame rb rb1 x h
    exact ⟨g1, g2, k1, k2, k3⟩
  · intro rb rb1 x h
    obtain ⟨g1, g2⟩ := RingBuffer4_Dequeue_keeps_slot rb rb1 x h
    obtain ⟨k1, k2, k3, _⟩ := RingBuffer4_Dequeue_frame rb rb1 x h
    exact ⟨g1, g2, k1, k2, k3⟩
  · intro rb rb1 x h
    obtain ⟨g1, g2⟩ := RingBuffer5_Dequeue_keeps_slot rb rb1 x h
    obtain ⟨k1, k2, k3, k4, k5, _⟩ := RingBuffer5_Dequeue_frame rb rb1 x h
    exact ⟨g1, g2, k1, k2, k3, k4, k5⟩
  · intro fuel rb rb1 x h
    obtain ⟨g1, g2⟩ := RingBuffer6_Dequeue_keeps_slot fuel rb rb1 x h
    obtain ⟨k1, k2, k3, k4, k5, _⟩ := RingBuffer6_Dequeue_frame fuel rb rb1 x h
    exact ⟨g1, g2, k1, k2, k3, k4, k5⟩
  · intro rb rb1 x h
    exact ⟨RingBuffer7_wo_pad_Dequeue_clears_slot rb rb1 x h, RingBuffer7_wo_pad_Dequeue_frame rb rb1 x h⟩
  · intro rb rb1 x h
    exact ⟨RingBuffer7_Dequeue_clears_slot rb rb1 x h, RingBuffer7_Dequeue_frame rb rb1 x h⟩
  · intro fuel rb rb1 x h
    exact RingBuffer8_Dequeue_clears_read_node fuel rb rb1 x h

/-- C6, amended, on a RingBuffer0, a RingBuffer5 (whose `Dequeue` refreshes
`writeCache`), a RingBuffer7 and a RingBuffer8 that hold the item 7. -/
theorem C6_witness :
    ((⟨1, 0, 1, [some 7]⟩ : RingBuffer0 Nat).Dequeue
        = .ret (⟨1, 1, 1, [some 7]⟩, some 7, none) ∧
      (⟨1, 0, 0, 0, 1, [some 7]⟩ : RingBuffer5 Nat).Dequeue
        = .ret (⟨1, 1, 1, 0, 1, [some 7]⟩, some 7, none) ∧
      (⟨1, 0, 1, [⟨1, some 7⟩, ⟨1, none⟩]⟩ : RingBuffer7 Nat).Dequeue
        = .ret (⟨1, 1, 1, [⟨2, none⟩, ⟨1, none⟩]⟩, some 7, none) ∧
      (⟨1, 0, 1, [⟨1, some 7⟩, ⟨1, none⟩]⟩ : RingBuffer8 Nat).Dequeue 1
        = .ret (⟨1, 1, 1, [⟨2, none⟩, ⟨1, none⟩]⟩, some 7, none)) ∧
    (([some 7] : List (Option Nat)) = [some 7] ∧
      ([some 7] : List (Option Nat))[0 % 1]? = some (some 7) ∧
      1 = add64 0 1 ∧ 1 = 1 ∧ 1 = 1) ∧
    (([some 7] : List (Option Nat)) = [some 7] ∧
      ([some 7] : List (Option Nat))[0 &&& sub64 1 1]? = some (some 7) ∧
      1 = add64 0 1 ∧ 1 = 1 ∧ 1 = 1 ∧ 0 = 0 ∧ (1 = 0 ∨ 1 = 1)) ∧
    ((∃ n, ([⟨1, some 7⟩, ⟨1, none⟩] : List (node Nat))[0 &&& 1]? = some n ∧
        n.data = some 7 ∧
        ([⟨2, none⟩, ⟨1, none⟩] : List (node Nat))[0 &&& 1]?
          = some ⟨add64 (add64 0 1) 1, none⟩) ∧
      1 = add64 0 1 ∧ 1 = 1 ∧ 1 = 1 ∧
      ([⟨2, none⟩, ⟨1, none⟩] : List (node Nat))
        = ([⟨1, some 7⟩, ⟨1, none⟩] : List (node Nat)).set (0 &&& 1)
            ⟨add64 (add64 0 1) 1, none⟩) ∧
    ((∃ n, ([⟨1, some 7⟩, ⟨1, none⟩] : List (node Nat))[0 &&& 1]? = some n ∧
        n.data = some 7 ∧
        ([⟨2, none⟩, ⟨1, none⟩] : List (node Nat))[0 &&& 1]?
          = some ⟨add64 (add64 0 1) 1, none⟩) ∧
      1 = add64 0 1 ∧ 1 = 1 ∧ 1 = 1 ∧
      ([⟨2, none⟩, ⟨1, none⟩] : List (node Nat))
        = ([⟨1, some 7⟩, ⟨1, none⟩] : List (node Nat)).set (0 &&& 1)
            ⟨add64 (add64 0 1) 1, none⟩) :=
  ⟨⟨by decide, by decide, by decide, by decide⟩,
    (C6_dequeue_clears_nodes_only (α := Nat)).1 ⟨1, 0, 1, [some 7]⟩ ⟨1, 1, 1, [some 7]⟩
      (some 7) (by decide),
    (C6_dequeue_clears_nodes_only (α := Nat)).2.2.2.2.2.1 ⟨1, 0, 0, 0, 1, [some 7]⟩
      ⟨1, 1, 1, 0, 1, [some 7]⟩ (some 7) (by decide),
    (C6_dequeue_clears_nodes_only (α := Nat)).2.2.2.2.2.2.2.2.1
      ⟨1, 0, 1, [⟨1, some 7⟩, ⟨1, none⟩]⟩ ⟨1, 1, 1, [⟨2, none⟩, ⟨1, none⟩]⟩ (some 7)
      (by decide),
    (C6_dequeue_clears_nodes_only (α := Nat)).2.2.2.2.2.2.2.2.2 1
      ⟨1, 0, 1, [⟨1, some 7⟩, ⟨1, none⟩]⟩ ⟨1, 1, 1, [⟨2, none⟩, ⟨1, none⟩]⟩ (some 7)
      (by decide)⟩

/-- C7: failure is atomic. In every state reached from a fresh RingBuffer0,
RingBuffer1, RingBuffer2, RingBuffer3, RingBuffer4, RingBuffer5,
RingBuffer7_wo_pad or RingBuffer7 (of any capacity) by `Enqueue`/`Dequeue`
calls, an `Enqueue` that returns `ErrBufferFull` and a `Dequeue` that returns
`ErrBufferEmpty` leave the whole buffer as it was: `writeIdx`, `readIdx`,
every slot and tag, and for RingBuffer5 also `readCache` and `writeCache`
(the refresh on the failing path stores the value the cache already held). -/
theorem C7_failure_changes_nothing {α : Type} (C : Nat) (ops : List (Op α)) :
    (∀ (rb : RingBuffer0 α) (rs : List (Ret α)),
      runOps RingBuffer0.step (NewRingBuffer0 C : RingBuffer0 α) ops = .ret (rb, rs) →
      (∀ (x : Option α) (rb1 : RingBuffer0 α),
        rb.Enqueue x = .ret (rb1, some Err.ErrBufferFull) → rb1 = rb) ∧
      (∀ (rb1 : RingBuffer0 α) (x : Option α),
        rb.Dequeue = .ret (rb1, x, some Err.ErrBufferEmpty) → rb1 = rb)) ∧
    (∀ (rb : RingBuffer1 α) (rs : List (Ret α)),
      runOps RingBuffer1.step (NewRingBuffer1 C : RingBuffer1 α) ops = .ret (rb, rs) →
      (∀ (x : Option α) (rb1 : RingBuffer1 α),
        rb.Enqueue x = .ret (rb1, some Err.ErrBufferFull) → rb1 = rb) ∧
      (∀ (rb1 : RingBuffer1 α) (x : Option α),
        rb.Dequeue = .ret (rb1, x, some Err.ErrBufferEmpty) → rb1 = rb)) ∧
    (∀ (rb : RingBuffer2 α) (rs : List (Ret α)),
      runOps RingBuffer2.step (NewRingBuffer2 C : RingBuffer2 α) ops = .ret (rb, rs) →
      (∀ (x : Option α) (rb1 : RingBuffer2 α),
        rb.Enqueue x = .ret (rb1, some Err.ErrBufferFull) → rb1 = rb) ∧
      (∀ (rb1 : RingBuffer2 α) (x : Option α),
        rb.Dequeue = .ret (rb1, x, some Err.ErrBufferEmpty) → rb1 = rb)) ∧
    (∀ (rb : RingBuffer3 α) (rs : List (Ret α)),
      runOps RingBuffer3.step (NewRingBuffer3 C : RingBuffer3 α) ops = .ret (rb, rs) →
      (∀ (x : Option α) (rb1 : RingBuffer3 α),
        rb.Enqueue x = .ret (rb1, some Err.ErrBufferFull) → rb1 = rb) ∧
      (∀ (rb1 : RingBuffer3 α) (x : Option α),
        rb.Dequeue = .ret (rb1, x, some Err.ErrBufferEmpty) → rb1 = rb)) ∧
    (∀ (rb : RingBuffer4 α) (rs : List (Ret α)),
      runOps RingBuffer4.step (NewRingBuffer4 C : RingBuffer4 α) ops = .ret (rb, rs) →
      (∀ (x : Option α) (rb1 : RingBuffer4 α),
        rb.Enqueue x = .ret (rb1, some Err.ErrBufferFull) → rb1 = rb) ∧
      (∀ (rb1 : RingBuffer4 α) (x : Option α),
        rb.Dequeue = .ret (rb1, x, some Err.ErrBufferEmpty) → rb1 = rb)) ∧
    (∀ (rb : RingBuffer5 α) (rs : List (Ret α)),
      runOps RingBuffer5.step (NewRingBuffer5 C : RingBuffer5 α) ops = .ret (rb, rs) →
      (∀ (x : Option α) (rb1 : RingBuffer5 α),
        rb.Enqueue x = .ret (rb1, some Err.ErrBufferFull) → rb1 = rb) ∧
      (∀ (rb1 : RingBuffer5 α) (x : Option α),
        rb.Dequeue = .ret (rb1, x, some Err.ErrBufferEmpty) → rb1 = rb)) ∧
    (∀ (rb : RingBuffer7_wo_pad α) (rs : List (Ret α)),
      runOps RingBuffer7_wo_pad.step (NewRingBuffer7_wo_pad C : RingBuffer7_wo_pad α) ops = .ret (rb, rs) →
      (∀ (x : Option α) (rb1 : RingBuffer7_wo_pad α),
        rb.Enqueue x = .ret (rb1, some Err.ErrBufferFull) → rb1 = rb) ∧
      (∀ (rb1 : RingBuffer7_wo_pad α) (x : Option α),
        rb.Dequeue = .ret (rb1, x, some Err.ErrBufferEmpty) → rb1 = rb)) ∧
    (∀ (rb : RingBuffer7 α) (rs : List (Ret α)),
      runOps RingBuffer7.step (NewRingBuffer7 C : RingBuffer7 α) ops = .ret (rb, rs) →
      (∀ (x : Option α) (rb1 : RingBuffer7 α),
        rb.Enqueue x = .ret (rb1, some Err.ErrBufferFull) → rb1 = rb) ∧
      (∀ (rb1 : RingBuffer7 α) (x : Option α),
        rb.Dequeue = .ret (rb1, x, some Err.ErrBufferEmpty) → rb1 = rb)) :=
  ⟨fun rb _ _ =>
      ⟨fun x rb1 h1 => RingBuffer0_Enqueue_err_unchanged rb rb1 x _ h1,
        fun rb1 x h1 => RingBuffer0_Dequeue_err_unchanged rb rb1 x _ h1⟩,
    fun rb _ _ =>
      ⟨fun x rb1 h1 => RingBuffer1_Enqueue_err_unchanged rb rb1 x _ h1,
        fun rb1 x h1 => RingBuffer1_Dequeue_err_unchanged rb rb1 x _ h1⟩,
    fun rb _ _ =>
      ⟨fun x rb1 h1 => RingBuffer2_Enqueue_err_unchanged rb rb1 x _ h1,
        fun rb1 x h1 => RingBuffer2_Dequeue_err_unchanged rb rb1 x _ h1⟩,
    fun rb _ _ =>
      ⟨fun x rb1 h1 => RingBuffer3_Enqueue_err_unchanged rb rb1 x _ h1,
        fun rb1 x h1 => RingBuffer3_Dequeue_err_unchanged rb rb1 x _ h1⟩,
    fun rb _ _ =>
      ⟨fun x rb1 h1 => RingBuffer4_Enqueue_err_unchanged rb rb1 x _ h1,
        fun rb1 x h1 => RingBuffer4_Dequeue_err_unchanged rb rb1 x _ h1⟩,
    fun rb rs h =>
      ⟨fun x rb1 h1 =>
          RingBuffer5_Enqueue_err_unchanged C rb rb1 x _ (RingBuffer5_WF_run C ops rb rs h) h1,
        fun rb1 x h1 => RingBuffer5_Dequeue_err_unchanged rb rb1 x _ h1⟩,
    fun rb _ _ =>
      ⟨fun x rb1 h1 => RingBuffer7_wo_pad_Enqueue_err_unchanged rb rb1 x _ h1,
        fun rb1 x h1 => RingBuffer7_wo_pad_Dequeue_err_unchanged rb rb1 x _ h1⟩,
    fun rb _ _ =>
      ⟨fun x rb1 h1 => RingBuffer7_Enqueue_err_unchanged rb rb1 x _ h1,
        fun rb1 x h1 => RingBuffer7_Dequeue_err_unchanged rb rb1 x _ h1⟩⟩

/-- C7 on a full RingBuffer5 of capacity 2 and an empty RingBuffer7 of
capacity 2. -/
theorem C7_witness :
    (runOps RingBuffer5.step (NewRingBuffer5 2 : RingBuffer5 Nat)
        [Op.enq (some 1), Op.enq (some 2)]
        = .ret (⟨2, 0, 0, 0, 2, [some 1, some 2]⟩, [⟨none, none⟩, ⟨none, none⟩]) ∧
      (⟨2, 0, 0, 0, 2, [some 1, some 2]⟩ : RingBuffer5 Nat).Enqueue (some 3)
        = .ret (⟨2, 0, 0, 0, 2, [some 1, some 2]⟩, some Err.ErrBufferFull) ∧
      runOps RingBuffer7.step (NewRingBuffer7 2 : RingBuffer7 Nat) [Op.enq (some 1), Op.deq]
        = .ret (⟨1, 1, 1, [⟨2, none⟩, ⟨1, none⟩]⟩, [⟨none, none⟩, ⟨some 1, none⟩]) ∧
      (⟨1, 1, 1, [⟨2, none⟩, ⟨1, none⟩]⟩ : RingBuffer7 Nat).Dequeue
        = .ret (⟨1, 1, 1, [⟨2, none⟩, ⟨1, none⟩]⟩, none, some Err.ErrBufferEmpty)) ∧
    (⟨2, 0, 0, 0, 2, [some 1, some 2]⟩ : RingBuffer5 Nat)
      = ⟨2, 0, 0, 0, 2, [some 1, some 2]⟩ ∧
    (⟨1, 1, 1, [⟨2, none⟩, ⟨1, none⟩]⟩ : RingBuffer7 Nat) = ⟨1, 1, 1, [⟨2, none⟩, ⟨1, none⟩]⟩ :=
  ⟨⟨by decide, by decide, by decide, by decide⟩,
    ((C7_failure_changes_nothing 2 [Op.enq (some 1), Op.enq (some 2)]).2.2.2.2.2.1
      ⟨2, 0, 0, 0, 2, [some 1, some 2]⟩ [⟨none, none⟩, ⟨none, none⟩] (by decide)).1 (some 3)
      ⟨2, 0, 0, 0, 2, [some 1, some 2]⟩ (by decide),
    ((C7_failure_changes_nothing 2 [Op.enq (some 1), Op.deq]).2.2.2.2.2.2.2
      ⟨1, 1, 1, [⟨2, none⟩, ⟨1, none⟩]⟩ [⟨none, none⟩, ⟨some 1, none⟩] (by decide)).2
      ⟨1, 1, 1, [⟨2, none⟩, ⟨1, none⟩]⟩ none (by decide)⟩

/-- C8 fails on the code at the power-of-two capacity 1: after two `Enqueue`
calls on a fresh RingBuffer7, RingBuffer7_wo_pad or RingBuffer8 made with
capacity 1, both of which return `nil`, `writeIdx - readIdx` is 2, above the
capacity. -/
theorem C8_capacity_one_exceeds_capacity :
    runOps RingBuffer7.step (NewRingBuffer7 1 : RingBuffer7 Nat)
        [Op.enq (some 1), Op.enq (some 2)]
      = .ret (⟨2, 0, 0, [⟨2, some 2⟩]⟩, [⟨none, none⟩, ⟨none, none⟩]) ∧
    runOps RingBuffer7_wo_pad.step (NewRingBuffer7_wo_pad 1 : RingBuffer7_wo_pad Nat)
        [Op.enq (some 1), Op.enq (some 2)]
      = .ret (⟨2, 0, 0, [⟨2, some 2⟩]⟩, [⟨none, none⟩, ⟨none, none⟩]) ∧
    runOps (RingBuffer8.step 1) (NewRingBuffer8 1 : RingBuffer8 Nat)
        [Op.enq (some 1), Op.enq (some 2)]
      = .ret (⟨2, 0, 0, [⟨2, some 2⟩]⟩, [⟨none, none⟩, ⟨none, none⟩]) ∧
    sub64 2 0 = 2 ∧ ¬ sub64 2 0 ≤ 1 := by
  decide

/-- C9 as stated fails on the code: on a RingBuffer0 of capacity 1, after
`2^64 - 1` rounds of `Enqueue(nil); Dequeue()` both indices are `2^64 - 1`,
and the next `Enqueue` returns `nil` and wraps `writeIdx` to 0: the call made
`writeIdx` smaller, and `writeIdx >= readIdx` no longer holds as a plain
comparison. -/
theorem C9_counterexample :
    ∃ rs, runOps RingBuffer0.step (NewRingBuffer0 1 : RingBuffer0 Nat) (enqDeqTimes (U64 - 1))
        = .ret (⟨U64 - 1, U64 - 1, 1, [none]⟩, rs) ∧
      (⟨U64 - 1, U64 - 1, 1, [none]⟩ : RingBuffer0 Nat).Enqueue none
        = .ret (⟨0, U64 - 1, 1, [none]⟩, none) ∧
      (⟨0, U64 - 1, 1, [none]⟩ : RingBuffer0 Nat).writeIdx
        < (⟨U64 - 1, U64 - 1, 1, [none]⟩ : RingBuffer0 Nat).writeIdx ∧
      ¬ (⟨0, U64 - 1, 1, [none]⟩ : RingBuffer0 Nat).readIdx
        ≤ (⟨0, U64 - 1, 1, [none]⟩ : RingBuffer0 Nat).writeIdx := by
  obtain ⟨rs, h⟩ := RingBuffer0_enqDeqTimes_run (α := Nat) (U64 - 1) 0 (by decide)
  rw [Nat.zero_add] at h
  exact ⟨rs, h, by decide, by decide, by decide⟩

/-- C9, amended: the indices of a RingBuffer0 are `uint64` counters that are
never reset; `writeIdx` wraps to 0 only when the `2^64`-th `Enqueue` succeeds.
In every state reached from a fresh RingBuffer0 by a sequence of calls, and
for every next call, such that fewer than `2^64` `Enqueue` calls have returned
`nil` in the sequence and the call together: `writeIdx >= readIdx` holds as a
plain comparison before and after the call, and the call makes neither
`writeIdx` nor `readIdx` smaller. -/
theorem C9_counters_grow_before_wraparound {α : Type} (C : Nat) (pre : List (Op α))
    (op : Op α) (rb rb1 : RingBuffer0 α) (rs : List (Ret α)) (r : Ret α)
    (hrun : runOps RingBuffer0.step (NewRingBuffer0 C) pre = .ret (rb, rs))
    (hstep : rb.step op = .ret (rb1, r))
    (hcount : (enqueuedValues (pre ++ [op]) (rs ++ [r])).length < U64) :
    rb.readIdx ≤ rb.writeIdx ∧ rb.writeIdx ≤ rb1.writeIdx ∧ rb.readIdx ≤ rb1.readIdx ∧
      rb1.readIdx ≤ rb1.writeIdx := by
  rw [enqueuedValues_append pre rs [op] [r] (runOps_length _ pre _ _ _ hrun),
    List.length_append] at hcount
  have h0 : (NewRingBuffer0 C : RingBuffer0 α).writeIdx = 0 := rfl
  obtain ⟨g1, g2⟩ := RingBuffer0_run_counters pre (NewRingBuffer0 C) rb rs (Nat.le_refl 0)
    (by rw [h0]; omega) hrun
  rw [h0] at g2
  obtain ⟨g3, g4, g5, _⟩ := RingBuffer0_step_counters rb rb1 op r g1 (by omega) hstep
  exact ⟨g1, g3, g4, g5⟩

/-- C9, amended, on a RingBuffer0 of capacity 1 after one item went through
it. -/
theorem C9_witness :
    (runOps RingBuffer0.step (NewRingBuffer0 1 : RingBuffer0 Nat) [Op.enq (some 1), Op.deq]
        = .ret (⟨1, 1, 1, [some 1]⟩, [⟨none, none⟩, ⟨some 1, none⟩]) ∧
      (⟨1, 1, 1, [some 1]⟩ : RingBuffer0 Nat).step (Op.enq (some 2))
        = .ret (⟨2, 1, 1, [some 2]⟩, ⟨none, none⟩) ∧
      (enqueuedValues ([Op.enq (some 1), Op.deq] ++ [Op.enq (some 2)] : List (Op Nat))
        ([⟨none, none⟩, ⟨some 1, none⟩] ++ [⟨none, none⟩])).length < U64) ∧
    ((⟨1, 1, 1, [some 1]⟩ : RingBuffer0 Nat).readIdx
        ≤ (⟨1, 1, 1, [some 1]⟩ : RingBuffer0 Nat).writeIdx ∧
      (⟨1, 1, 1, [some 1]⟩ : RingBuffer0 Nat).writeIdx
        ≤ (⟨2, 1, 1, [some 2]⟩ : RingBuffer0 Nat).writeIdx ∧
      (⟨1, 1, 1, [some 1]⟩ : RingBuffer0 Nat).readIdx
        ≤ (⟨2, 1, 1, [some 2]⟩ : RingBuffer0 Nat).readIdx ∧
      (⟨2, 1, 1, [some 2]⟩ : RingBuffer0 Nat).readIdx
        ≤ (⟨2, 1, 1, [some 2]⟩ : RingBuffer0 Nat).writeIdx) :=
  ⟨⟨by decide, by decide, by decide⟩,
    C9_counters_grow_before_wraparound 1 [Op.enq (some 1), Op.deq] (Op.enq (some 2))
      ⟨1, 1, 1, [some 1]⟩ ⟨2, 1, 1, [some 2]⟩ [⟨none, none⟩, ⟨some 1, none⟩] ⟨none, none⟩
      (by decide) (by decide) (by decide)⟩

/-- C10: mask addressing is the same logic as modulo addressing. For every
power-of-two capacity `2^k` (`k < 64`) and every sequence of
`Enqueue`/`Dequeue` calls on fresh buffers, RingBuffer1 and RingBuffer0 return
the same error and item at every call, end with the same indices and with the
same content in every physical slot, and `idx & mask = idx % size` for every
index. -/
theorem C10_mask_equals_modulo {α : Type} (k : Nat) (hk : k < 64) (ops : List (Op α)) :
    ∃ (rb1 : RingBuffer1 α) (rb0 : RingBuffer0 α) (rs : List (Ret α)),
      runOps RingBuffer1.step (NewRingBuffer1 (2 ^ k)) ops = .ret (rb1, rs) ∧
      runOps RingBuffer0.step (NewRingBuffer0 (2 ^ k)) ops = .ret (rb0, rs) ∧
      rb1.buffers = rb0.buffers ∧ rb1.writeIdx = rb0.writeIdx ∧
      rb1.readIdx = rb0.readIdx ∧ rb1.size = rb0.size ∧
      ∀ idx, idx &&& rb1.mask = idx % rb0.size :=
  RingBuffer1_sim_RingBuffer0 hk ops

/-- C10 at capacity 4 on a run that wraps around the slot array. -/
theorem C10_witness :
    (2 < 64) ∧
    (∃ (rb1 : RingBuffer1 Nat) (rb0 : RingBuffer0 Nat) (rs : List (Ret Nat)),
      runOps RingBuffer1.step (NewRingBuffer1 (2 ^ 2)) 
       [Op.enq (some 1), Op.enq (some 2), Op.deq, Op.enq (some 3), Op.enq (some 4),
        Op.enq (some 5), Op.enq (some 6), Op.deq] = .ret (rb1, rs) ∧
      runOps RingBuffer0.step (NewRingBuffer0 (2 ^ 2)) 
       [Op.enq (some 1), Op.enq (some 2), Op.deq, Op.enq (some 3), Op.enq (some 4),
        Op.enq (some 5), Op.enq (some 6), Op.deq] = .ret (rb0, rs) ∧
      rb1.buffers = rb0.buffers ∧ rb1.writeIdx = rb0.writeIdx ∧
      rb1.readIdx = rb0.readIdx ∧ rb1.size = rb0.size ∧
      ∀ idx, idx &&& rb1.mask = idx % rb0.size) :=
  ⟨by decide, C10_mask_equals_modulo 2 (by decide) _⟩

/-- C11 as stated fails on the code at capacity 3: RingBuffer2 addresses its
slots with `idx & (size-1)`, which sends the write positions 0 and 1 both to
slot 0, so after `Enqueue(1); Enqueue(2)` its `Dequeue` returns 2; RingBuffer0
addresses with `idx % size` and returns 1. -/
theorem C11_counterexample :
    runOps RingBuffer2.step (NewRingBuffer2 3 : RingBuffer2 Nat)
        [Op.enq (some 1), Op.enq (some 2), Op.deq]
      = .ret (⟨2, 1, 3, [some 2, none, none]⟩,
          [⟨none, none⟩, ⟨none, none⟩, ⟨some 2, none⟩]) ∧
    runOps RingBuffer0.step (NewRingBuffer0 3 : RingBuffer0 Nat)
        [Op.enq (some 1), Op.enq (some 2), Op.deq]
      = .ret (⟨2, 1, 3, [some 1, some 2, none]⟩,
          [⟨none, none⟩, ⟨none, none⟩, ⟨some 1, none⟩]) ∧
    (0 &&& sub64 3 1 = 0 ∧ 1 &&& sub64 3 1 = 0 ∧ 0 % 3 = 0 ∧ 1 % 3 = 1) := by
  decide

/-- C11, amended: on fresh instances and for every sequence of
`Enqueue`/`Dequeue` calls run one at a time, RingBuffer2 and RingBuffer0 of a
power-of-two capacity `2^k` (`k < 64`) return the same error and the same item
at every call and end with the same indices and the same slots; at every
positive capacity `C` (a power of two or not) they return the same error at
every call and end with the same indices. No call panics. -/
theorem C11_mutex_variant_equals_baseline_on_powers_of_two {α : Type} (C : Nat)
    (hpos : 0 < C) (hC : C < U64) (k : Nat) (hk : k < 64) (ops : List (Op α)) :
    (∃ (rb2 : RingBuffer2 α) (rb0 : RingBuffer0 α) (rs : List (Ret α)),
      runOps RingBuffer2.step (NewRingBuffer2 (2 ^ k)) ops = .ret (rb2, rs) ∧
      runOps RingBuffer0.step (NewRingBuffer0 (2 ^ k)) ops = .ret (rb0, rs) ∧
      rb2.buffers = rb0.buffers ∧ rb2.writeIdx = rb0.writeIdx ∧
      rb2.readIdx = rb0.readIdx ∧ rb2.size = rb0.size) ∧
    (∃ (rb2 : RingBuffer2 α) (rb0 : RingBuffer0 α) (rs2 rs0 : List (Ret α)),
      runOps RingBuffer2.step (NewRingBuffer2 C) ops = .ret (rb2, rs2) ∧
      runOps RingBuffer0.step (NewRingBuffer0 C) ops = .ret (rb0, rs0) ∧
      rs2.map Ret.err = rs0.map Ret.err ∧
      rb2.writeIdx = rb0.writeIdx ∧ rb2.readIdx = rb0.readIdx) :=
  ⟨RingBuffer2_sim_RingBuffer0 hk ops,
    RingBuffer2_err_sim_run hpos hC ops 0 0 (List.replicate C none) (List.replicate C none)
      (by simp) (by simp)⟩

/-- C11, amended, at the capacities 3 and 4 on a run that fills the buffer,
is refused an item and drains the buffer. -/
theorem C11_witness :
    (0 < 3 ∧ 3 < U64 ∧ 2 < 64) ∧
    (∃ (rb2 : RingBuffer2 Nat) (rb0 : RingBuffer0 Nat) (rs : List (Ret Nat)),
      runOps RingBuffer2.step (NewRingBuffer2 (2 ^ 2))
        [Op.enq (some 1), Op.enq (some 2), Op.enq (some 3), Op.enq (some 4), Op.enq (some 5),
          Op.deq, Op.deq, Op.deq, Op.deq, Op.deq] = .ret (rb2, rs) ∧
      runOps RingBuffer0.step (NewRingBuffer0 (2 ^ 2))
        [Op.enq (some 1), Op.enq (some 2), Op.enq (some 3), Op.enq (some 4), Op.enq (some 5),
          Op.deq, Op.deq, Op.deq, Op.deq, Op.deq] = .ret (rb0, rs) ∧
      rb2.buffers = rb0.buffers ∧ rb2.writeIdx = rb0.writeIdx ∧
      rb2.readIdx = rb0.readIdx ∧ rb2.size = rb0.size) ∧
    (∃ (rb2 : RingBuffer2 Nat) (rb0 : RingBuffer0 Nat) (rs2 rs0 : List (Ret Nat)),
      runOps RingBuffer2.step (NewRingBuffer2 3)
        [Op.enq (some 1), Op.enq (some 2), Op.enq (some 3), Op.enq (some 4), Op.enq (some 5),
          Op.deq, Op.deq, Op.deq, Op.deq, Op.deq] = .ret (rb2, rs2) ∧
      runOps RingBuffer0.step (NewRingBuffer0 3)
        [Op.enq (some 1), Op.enq (some 2), Op.enq (some 3), Op.enq (some 4), Op.enq (some 5),
          Op.deq, Op.deq, Op.deq, Op.deq, Op.deq] = .ret (rb0, rs0) ∧
      rs2.map Ret.err = rs0.map Ret.err ∧
      rb2.writeIdx = rb0.writeIdx ∧ rb2.readIdx = rb0.readIdx) :=
  ⟨⟨by decide, by decide, by decide⟩,
    C11_mutex_variant_equals_baseline_on_powers_of_two 3 (by decide) (by decide) 2
      (by decide) _⟩

/-- C12: a capacity that is not a power of two is accepted and corrupts the
addressing. 3 is not a power of two; `NewRingBuffer1(3)` and
`NewRingBuffer7(3)` return a buffer. On the RingBuffer1 the calls
`Enqueue(1); Enqueue(2); Dequeue()` all return a `nil` error and the `Dequeue`
returns 2: item 1 was overwritten (positions 0 and 1 both map to slot 0 under
`& 2`); the queue bounded at 3 returns 1. On the RingBuffer7 four `Enqueue`
calls all return `nil`, one more than the capacity; the queue bounded at 3
answers `ErrBufferFull` to the fourth. No call panics. -/
theorem C12_non_power_of_two_capacity_corrupts_addressing :
    (∀ k : Nat, 2 ^ k ≠ 3) ∧
    (NewRingBuffer1 3 : RingBuffer1 Nat) = ⟨0, 0, 3, 2, [none, none, none]⟩ ∧
    (NewRingBuffer7 3 : RingBuffer7 Nat) = ⟨0, 0, 2, [⟨0, none⟩, ⟨1, none⟩, ⟨2, none⟩]⟩ ∧
    runOps RingBuffer1.step (NewRingBuffer1 3 : RingBuffer1 Nat)
        [Op.enq (some 1), Op.enq (some 2), Op.deq]
      = .ret (⟨2, 1, 3, 2, [some 2, none, none]⟩,
          [⟨none, none⟩, ⟨none, none⟩, ⟨some 2, none⟩]) ∧
    (SpecQueue.run 3 ([] : List (Option Nat)) [Op.enq (some 1), Op.enq (some 2), Op.deq]).2
      = [⟨none, none⟩, ⟨none, none⟩, ⟨some 1, none⟩] ∧
    runOps RingBuffer7.step (NewRingBuffer7 3 : RingBuffer7 Nat)
        [Op.enq (some 1), Op.enq (some 2), Op.enq (some 3), Op.enq (some 4)]
      = .ret (⟨4, 0, 2, [⟨2, some 2⟩, ⟨1, none⟩, ⟨4, some 4⟩]⟩,
          [⟨none, none⟩, ⟨none, none⟩, ⟨none, none⟩, ⟨none, none⟩]) ∧
    (SpecQueue.run 3 ([] : List (Option Nat))
        [Op.enq (some 1), Op.enq (some 2), Op.enq (some 3), Op.enq (some 4)]).2
      = [⟨none, none⟩, ⟨none, none⟩, ⟨none, none⟩, ⟨none, some Err.ErrBufferFull⟩] := by
  refine ⟨?_, by decide, by decide, by decide, by decide, by decide, by decide⟩
  intro k
  match k with
  | 0 => decide
  | 1 => decide
  | k + 2 =>
    have h : 4 ≤ 2 ^ (k + 2) := by
      have := Nat.pow_le_pow_right (n := 2) (by decide) (Nat.le_add_left 2 k)
      simpa using this
    omega

/-- C13 as stated fails on the code in its second sentence: the chain
`readCache <= readIdx <= writeCache <= writeIdx <= readCache + size` is not
kept across `uint64` wraparound. A fresh RingBuffer5 of capacity 1 has all
three of `writeIdx`, `readIdx`, `writeCache` at `2^64 - 1` after `2^64 - 1`
rounds of `Enqueue(nil); Dequeue()`; the next `Enqueue` returns `nil` and
wraps `writeIdx` to 0, below `writeCache` and `readIdx`. -/
theorem C13_counterexample :
    ∃ rs, runOps RingBuffer5.step (NewRingBuffer5 1 : RingBuffer5 Nat) (enqDeqTimes (U64 - 1))
        = .ret (⟨U64 - 1, U64 - 1, U64 - 1, U64 - 2, 1, [none]⟩, rs) ∧
      (⟨U64 - 1, U64 - 1, U64 - 1, U64 - 2, 1, [none]⟩ : RingBuffer5 Nat).Enqueue none
        = .ret (⟨0, U64 - 1, U64 - 1, U64 - 1, 1, [none]⟩, none) ∧
      ¬ ((⟨0, U64 - 1, U64 - 1, U64 - 1, 1, [none]⟩ : RingBuffer5 Nat).writeCache
        ≤ (⟨0, U64 - 1, U64 - 1, U64 - 1, 1, [none]⟩ : RingBuffer5 Nat).writeIdx) ∧
      ¬ ((⟨0, U64 - 1, U64 - 1, U64 - 1, 1, [none]⟩ : RingBuffer5 Nat).readIdx
        ≤ (⟨0, U64 - 1, U64 - 1, U64 - 1, 1, [none]⟩ : RingBuffer5 Nat).writeIdx) := by
  obtain ⟨rs, h⟩ := RingBuffer5_before_wraparound
  exact ⟨rs, h, by decide, by decide, by decide⟩

/-- C13, amended: index caching never changes a result. For every capacity
`C` and every sequence of `Enqueue`/`Dequeue` calls on fresh buffers,
RingBuffer5 and RingBuffer3 return the same error and item at every call and
end with the same indices and slots. In every state reached by the
RingBuffer5 the four indices are the residues modulo `2^64` of counts
`rc <= R <= wc <= W <= rc + C`, so on the `uint64` circle
`readIdx - readCache <= writeCache - readCache <= writeIdx - readCache <= size`;
as long as fewer than `2^64` `Enqueue` calls have returned `nil` this is the
plain chain `readCache <= readIdx <= writeCache <= writeIdx <= readCache + size`.
In every such state `Enqueue` returns `ErrBufferFull` iff
`writeIdx - readIdx = size` and `nil` otherwise, and `Dequeue` returns
`ErrBufferEmpty` iff `writeIdx = readIdx` and `nil` otherwise. -/
theorem C13_index_cache_changes_no_result {α : Type} (C : Nat) (hC : C < U64)
    (ops : List (Op α)) :
    (∃ (rb5 : RingBuffer5 α) (rb3 : RingBuffer3 α) (rs : List (Ret α)),
      runOps RingBuffer5.step (NewRingBuffer5 C) ops = .ret (rb5, rs) ∧
      runOps RingBuffer3.step (NewRingBuffer3 C) ops = .ret (rb3, rs) ∧
      rb5.writeIdx = rb3.writeIdx ∧ rb5.readIdx = rb3.readIdx ∧ rb5.size = rb3.size ∧
      rb5.buffers = rb3.buffers) ∧
    (∀ (rb : RingBuffer5 α) (rs : List (Ret α)),
      runOps RingBuffer5.step (NewRingBuffer5 C) ops = .ret (rb, rs) →
      rb.Cached C ∧
      (sub64 rb.readIdx rb.readCache ≤ sub64 rb.writeCache rb.readCache ∧
        sub64 rb.writeCache rb.readCache ≤ sub64 rb.writeIdx rb.readCache ∧
        sub64 rb.writeIdx rb.readCache ≤ rb.size) ∧
      ((enqueuedValues ops rs).length < U64 →
        rb.readCache ≤ rb.readIdx ∧ rb.readIdx ≤ rb.writeCache ∧
          rb.writeCache ≤ rb.writeIdx ∧ rb.writeIdx ≤ rb.readCache + rb.size) ∧
      ∀ x : Option α,
        (∃ rb1 e, rb.Enqueue x = .ret (rb1, e) ∧
          (e = some Err.ErrBufferFull ↔ sub64 rb.writeIdx rb.readIdx = rb.size) ∧
          (e = none ↔ sub64 rb.writeIdx rb.readIdx ≠ rb.size)) ∧
        (∃ rb1 y e, rb.Dequeue = .ret (rb1, y, e) ∧
          (e = some Err.ErrBufferEmpty ↔ rb.writeIdx = rb.readIdx) ∧
          (e = none ↔ rb.writeIdx ≠ rb.readIdx))) := by
  refine ⟨RingBuffer5_sim_RingBuffer3 hC ops, fun rb rs h => ?_⟩
  have hc := RingBuffer5_run_cached C hC ops rb rs h
  refine ⟨hc, RingBuffer5_Cached_chain hC hc, fun hlt => ?_,
    fun x => RingBuffer5_full_empty_iff hC rb hc x⟩
  obtain ⟨g1, g2, _⟩ := RingBuffer5_run_plain C ops (NewRingBuffer5 C) rb rs rfl
    ⟨Nat.le_refl _, Nat.le_refl _, Nat.le_refl _, Nat.zero_le _⟩
    (by rw [show (NewRingBuffer5 C : RingBuffer5 α).writeIdx = 0 from rfl]; omega) h
  rw [g1]
  exact g2

/-- C13, amended, at capacity 3 on a run that fills the buffer, is refused an
item and drains the buffer. -/
theorem C13_witness :
    (3 < U64) ∧
    (∃ (rb5 : RingBuffer5 Nat) (rb3 : RingBuffer3 Nat) (rs : List (Ret Nat)),
      runOps RingBuffer5.step (NewRingBuffer5 3) ([Op.enq (some 1), Op.enq (some 2), Op.enq (some 3), Op.enq (some 4), Op.deq,
        Op.enq (some 5), Op.deq, Op.deq, Op.deq, Op.deq] : List (Op Nat)) = .ret (rb5, rs) ∧
      runOps RingBuffer3.step (NewRingBuffer3 3) ([Op.enq (some 1), Op.enq (some 2), Op.enq (some 3), Op.enq (some 4), Op.deq,
        Op.enq (some 5), Op.deq, Op.deq, Op.deq, Op.deq] : List (Op Nat)) = .ret (rb3, rs) ∧
      rb5.writeIdx = rb3.writeIdx ∧ rb5.readIdx = rb3.readIdx ∧ rb5.size = rb3.size ∧
      rb5.buffers = rb3.buffers) ∧
    (∀ (rb : RingBuffer5 Nat) (rs : List (Ret Nat)),
      runOps RingBuffer5.step (NewRingBuffer5 3) ([Op.enq (some 1), Op.enq (some 2), Op.enq (some 3), Op.enq (some 4), Op.deq,
        Op.enq (some 5), Op.deq, Op.deq, Op.deq, Op.deq] : List (Op Nat)) = .ret (rb, rs) →
      rb.Cached 3 ∧
      (sub64 rb.readIdx rb.readCache ≤ sub64 rb.writeCache rb.readCache ∧
        sub64 rb.writeCache rb.readCache ≤ sub64 rb.writeIdx rb.readCache ∧
        sub64 rb.writeIdx rb.readCache ≤ rb.size) ∧
      ((enqueuedValues ([Op.enq (some 1), Op.enq (some 2), Op.enq (some 3), Op.enq (some 4), Op.deq,
        Op.enq (some 5), Op.deq, Op.deq, Op.deq, Op.deq] : List (Op Nat)) rs).length < U64 →
        rb.readCache ≤ rb.readIdx ∧ rb.readIdx ≤ rb.writeCache ∧
          rb.writeCache ≤ rb.writeIdx ∧ rb.writeIdx ≤ rb.readCache + rb.size) ∧
      ∀ x : Option Nat,
        (∃ rb1 e, rb.Enqueue x = .ret (rb1, e) ∧
          (e = some Err.ErrBufferFull ↔ sub64 rb.writeIdx rb.readIdx = rb.size) ∧
          (e = none ↔ sub64 rb.writeIdx rb.readIdx ≠ rb.size)) ∧
        (∃ rb1 y e, rb.Dequeue = .ret (rb1, y, e) ∧
          (e = some Err.ErrBufferEmpty ↔ rb.writeIdx = rb.readIdx) ∧
          (e = none ↔ rb.writeIdx ≠ rb.readIdx))) :=
  ⟨by decide, C13_index_cache_changes_no_result 3 (by decide) _⟩

/-- C14: RingBuffer6 blocks instead of failing. In every state reached from a
fresh RingBuffer6 (of any capacity) by `Enqueue`/`Dequeue` calls that
returned, with no other thread running: no call of the run returned an error;
`Enqueue` returns (for some fuel) iff the buffer is not full
(`writeIdx - readIdx < size`), and spins for every fuel when it is full;
`Dequeue` returns iff the buffer is not empty (`writeIdx != readIdx`), and
spins for every fuel when it is empty. Whenever a call returns, its error is
`nil`, it returns the same as soon as its loop condition may be evaluated
twice (at most one refresh of the cached index), and the RingBuffer5 call on
the same fields returns `nil` with the same resulting indices, caches and
slots (and the same item). -/
theorem C14_RingBuffer6_blocks_instead_of_failing {α : Type} (C : Nat) (hC : C < U64)
    (fuel : Nat) (ops : List (Op α)) (rb : RingBuffer6 α) (rs : List (Ret α))
    (hrun : runOps (RingBuffer6.step fuel) (NewRingBuffer6 C) ops = .ret (rb, rs))
    (x : Option α) :
    (∀ r ∈ rs, r.err = none) ∧
    ((sub64 rb.writeIdx rb.readIdx < rb.size ↔
        ∃ f rb1 e, rb.Enqueue f x = .ret (rb1, e)) ∧
      (¬ sub64 rb.writeIdx rb.readIdx < rb.size →
        ∀ f, rb.Enqueue f x = .spinning) ∧
      (∀ f rb1 e, rb.Enqueue f x = .ret (rb1, e) →
        e = none ∧ (∀ g, rb.Enqueue (g + 2) x = .ret (rb1, none)) ∧
        RingBuffer5.Enqueue
            ⟨rb.writeIdx, rb.readIdx, rb.writeCache, rb.readCache, rb.size,
              rb.buffers⟩ x
          = .ret (⟨rb1.writeIdx, rb1.readIdx, rb1.writeCache, rb1.readCache, rb1.size,
              rb1.buffers⟩, none))) ∧
    ((rb.writeIdx ≠ rb.readIdx ↔ ∃ f rb1 y e, rb.Dequeue f = .ret (rb1, y, e)) ∧
      (rb.writeIdx = rb.readIdx → ∀ f, rb.Dequeue f = .spinning) ∧
      (∀ f rb1 y e, rb.Dequeue f = .ret (rb1, y, e) →
        e = none ∧ (∀ g, rb.Dequeue (g + 2) = .ret (rb1, y, none)) ∧
        RingBuffer5.Dequeue
            ⟨rb.writeIdx, rb.readIdx, rb.writeCache, rb.readCache, rb.size,
              rb.buffers⟩
          = .ret (⟨rb1.writeIdx, rb1.readIdx, rb1.writeCache, rb1.readCache, rb1.size,
              rb1.buffers⟩, y, none))) :=
  ⟨RingBuffer6_run_no_error C hC fuel ops rb rs hrun,
    RingBuffer6_Enqueue_blocks hC rb (RingBuffer6_run_cached C hC fuel ops rb rs hrun) x,
    RingBuffer6_Dequeue_blocks hC rb (RingBuffer6_run_cached C hC fuel ops rb rs hrun)⟩

/-- C14 on a RingBuffer6 of capacity 2 that took two items and gave one
back. -/
theorem C14_witness :
    (2 < U64 ∧
      runOps (RingBuffer6.step 2) (NewRingBuffer6 2 : RingBuffer6 Nat)
          [Op.enq (some 1), Op.enq (some 2), Op.deq]
        = .ret ((⟨2, 1, 2, 0, 2, [some 1, some 2]⟩ : RingBuffer6 Nat), ([⟨none, none⟩, ⟨none, none⟩, ⟨some 1, none⟩] : List (Ret Nat)))) ∧
    (∀ r ∈ ([⟨none, none⟩, ⟨none, none⟩, ⟨some 1, none⟩] : List (Ret Nat)), r.err = none) ∧
    ((sub64 (⟨2, 1, 2, 0, 2, [some 1, some 2]⟩ : RingBuffer6 Nat).writeIdx (⟨2, 1, 2, 0, 2, [some 1, some 2]⟩ : RingBuffer6 Nat).readIdx < (⟨2, 1, 2, 0, 2, [some 1, some 2]⟩ : RingBuffer6 Nat).size ↔
        ∃ f rb1 e, (⟨2, 1, 2, 0, 2, [some 1, some 2]⟩ : RingBuffer6 Nat).Enqueue f (some 3) = .ret (rb1, e)) ∧
      (¬ sub64 (⟨2, 1, 2, 0, 2, [some 1, some 2]⟩ : RingBuffer6 Nat).writeIdx (⟨2, 1, 2, 0, 2, [some 1, some 2]⟩ : RingBuffer6 Nat).readIdx < (⟨2, 1, 2, 0, 2, [some 1, some 2]⟩ : RingBuffer6 Nat).size →
        ∀ f, (⟨2, 1, 2, 0, 2, [some 1, some 2]⟩ : RingBuffer6 Nat).Enqueue f (some 3) = .spinning) ∧
      (∀ f rb1 e, (⟨2, 1, 2, 0, 2, [some 1, some 2]⟩ : RingBuffer6 Nat).Enqueue f (some 3) = .ret (rb1, e) →
        e = none ∧ (∀ g, (⟨2, 1, 2, 0, 2, [some 1, some 2]⟩ : RingBuffer6 Nat).Enqueue (g + 2) (some 3) = .ret (rb1, none)) ∧
        RingBuffer5.Enqueue
            ⟨(⟨2, 1, 2, 0, 2, [some 1, some 2]⟩ : RingBuffer6 Nat).writeIdx, (⟨2, 1, 2, 0, 2, [some 1, some 2]⟩ : RingBuffer6 Nat).readIdx, (⟨2, 1, 2, 0, 2, [some 1, some 2]⟩ : RingBuffer6 Nat).writeCache, (⟨2, 1, 2, 0, 2, [some 1, some 2]⟩ : RingBuffer6 Nat).readCache, (⟨2, 1, 2, 0, 2, [some 1, some 2]⟩ : RingBuffer6 Nat).size,
              (⟨2, 1, 2, 0, 2, [some 1, some 2]⟩ : RingBuffer6 Nat).buffers⟩ (some 3)
          = .ret (⟨rb1.writeIdx, rb1.readIdx, rb1.writeCache, rb1.readCache, rb1.size,
              rb1.buffers⟩, none))) ∧
    (((⟨2, 1, 2, 0, 2, [some 1, some 2]⟩ : RingBuffer6 Nat).writeIdx ≠ (⟨2, 1, 2, 0, 2, [some 1, some 2]⟩ : RingBuffer6 Nat).readIdx ↔ ∃ f rb1 y e, (⟨2, 1, 2, 0, 2, [some 1, some 2]⟩ : RingBuffer6 Nat).Dequeue f = .ret (rb1, y, e)) ∧
      ((⟨2, 1, 2, 0, 2, [some 1, some 2]⟩ : RingBuffer6 Nat).writeIdx = (⟨2, 1, 2, 0, 2, [some 1, some 2]⟩ : RingBuffer6 Nat).readIdx → ∀ f, (⟨2, 1, 2, 0, 2, [some 1, some 2]⟩ : RingBuffer6 Nat).Dequeue f = .spinning) ∧
      (∀ f rb1 y e, (⟨2, 1, 2, 0, 2, [some 1, some 2]⟩ : RingBuffer6 Nat).Dequeue f = .ret (rb1, y, e) →
        e = none ∧ (∀ g, (⟨2, 1, 2, 0, 2, [some 1, some 2]⟩ : RingBuffer6 Nat).Dequeue (g + 2) = .ret (rb1, y, none)) ∧
        RingBuffer5.Dequeue
            ⟨(⟨2, 1, 2, 0, 2, [some 1, some 2]⟩ : RingBuffer6 Nat).writeIdx, (⟨2, 1, 2, 0, 2, [some 1, some 2]⟩ : RingBuffer6 Nat).readIdx, (⟨2, 1, 2, 0, 2, [some 1, some 2]⟩ : RingBuffer6 Nat).writeCache, (⟨2, 1, 2, 0, 2, [some 1, some 2]⟩ : RingBuffer6 Nat).readCache, (⟨2, 1, 2, 0, 2, [some 1, some 2]⟩ : RingBuffer6 Nat).size,
              (⟨2, 1, 2, 0, 2, [some 1, some 2]⟩ : RingBuffer6 Nat).buffers⟩
          = .ret (⟨rb1.writeIdx, rb1.readIdx, rb1.writeCache, rb1.readCache, rb1.size,
              rb1.buffers⟩, y, none))) :=
  ⟨⟨by decide, by decide⟩,
    C14_RingBuffer6_blocks_instead_of_failing 2 (by decide) 2
      [Op.enq (some 1), Op.enq (some 2), Op.deq] ⟨2, 1, 2, 0, 2, [some 1, some 2]⟩
      [⟨none, none⟩, ⟨none, none⟩, ⟨some 1, none⟩] (by decide) (some 3)⟩

/-- C15: RingBuffer8 follows the protocol of RingBuffer7. For every capacity
`C` with `0 < C < 2^64` (every power of two `2^k`, `k < 64`, is one) and
every sequence of calls run one at a time on fresh buffers: if the
RingBuffer8 run returns, the RingBuffer7 run on the same calls returns the
same results, all with a `nil` error, and ends with the same `writeIdx`,
`readIdx`, mask and nodes (data and positions). In every state reached by
RingBuffer7, on the RingBuffer8 with the same fields: the RingBuffer7 call
returns; when it returns a `nil` error, the RingBuffer8 call returns as soon
as its loop may run once, with a `nil` error, the same item and the same
resulting fields; when it returns `ErrBufferFull` or `ErrBufferEmpty`, the
RingBuffer8 call is still spinning whatever fuel it is given. -/
theorem C15_RingBuffer8_follows_RingBuffer7 {α : Type} (C : Nat) (hpos : 0 < C)
    (hC : C < U64) (fuel : Nat) (ops : List (Op α)) (x : Option α) :
    (∀ (rb8 : RingBuffer8 α) (rs : List (Ret α)),
      runOps (RingBuffer8.step fuel) (NewRingBuffer8 C) ops = .ret (rb8, rs) →
      runOps RingBuffer7.step (NewRingBuffer7 C) ops
        = .ret (⟨rb8.writeIdx, rb8.readIdx, rb8.mask, rb8.nodes⟩, rs) ∧
      ∀ r ∈ rs, r.err = none) ∧
    (∀ (rb7 : RingBuffer7 α) (rs : List (Ret α)),
      runOps RingBuffer7.step (NewRingBuffer7 C) ops = .ret (rb7, rs) →
      ((∃ rb1 e, rb7.Enqueue x = .ret (rb1, e)) ∧
        (∀ rb1, rb7.Enqueue x = .ret (rb1, none) →
          ∀ f, RingBuffer8.Enqueue (f + 1)
              ⟨rb7.writeIdx, rb7.readIdx, rb7.mask, rb7.nodes⟩ x
            = .ret (⟨rb1.writeIdx, rb1.readIdx, rb1.mask, rb1.nodes⟩, none)) ∧
        (∀ rb1 e, rb7.Enqueue x = .ret (rb1, some e) →
          ∀ f, RingBuffer8.Enqueue f ⟨rb7.writeIdx, rb7.readIdx, rb7.mask, rb7.nodes⟩ x
            = .spinning)) ∧
      ((∃ rb1 y e, rb7.Dequeue = .ret (rb1, y, e)) ∧
        (∀ rb1 y, rb7.Dequeue = .ret (rb1, y, none) →
          ∀ f, RingBuffer8.Dequeue (f + 1) ⟨rb7.writeIdx, rb7.readIdx, rb7.mask, rb7.nodes⟩
            = .ret (⟨rb1.writeIdx, rb1.readIdx, rb1.mask, rb1.nodes⟩, y, none)) ∧
        (∀ rb1 y e, rb7.Dequeue = .ret (rb1, y, some e) →
          ∀ f, RingBuffer8.Dequeue f ⟨rb7.writeIdx, rb7.readIdx, rb7.mask, rb7.nodes⟩
            = .spinning))) := by
  refine ⟨fun rb8 rs h => ?_, fun rb7 rs h => ?_⟩
  · obtain ⟨g1, g2, _⟩ := RingBuffer8_run_matches C hpos hC fuel ops 0 0 (sub64 C 1)
      (initNodes C) (RingBuffer7_WF_new C hC) rb8 rs h
    exact ⟨g1, g2⟩
  · exact RingBuffer8_follows_RingBuffer7 C hpos hC rb7
      (RingBuffer7_WF_run C hpos hC ops rb7 rs h) x

/-- C15 at capacity 2 after the buffer took two items, gave one back and took
a third: it is full. -/
theorem C15_witness :
    (0 < 2 ∧ 2 < U64) ∧
    (∀ (rb8 : RingBuffer8 Nat) (rs : List (Ret Nat)),
      runOps (RingBuffer8.step 1) (NewRingBuffer8 2) ([Op.enq (some 1), Op.enq (some 2), Op.deq, Op.enq (some 3)] : List (Op Nat)) = .ret (rb8, rs) →
      runOps RingBuffer7.step (NewRingBuffer7 2) ([Op.enq (some 1), Op.enq (some 2), Op.deq, Op.enq (some 3)] : List (Op Nat))
        = .ret (⟨rb8.writeIdx, rb8.readIdx, rb8.mask, rb8.nodes⟩, rs) ∧
      ∀ r ∈ rs, r.err = none) ∧
    (∀ (rb7 : RingBuffer7 Nat) (rs : List (Ret Nat)),
      runOps RingBuffer7.step (NewRingBuffer7 2) ([Op.enq (some 1), Op.enq (some 2), Op.deq, Op.enq (some 3)] : List (Op Nat)) = .ret (rb7, rs) →
      ((∃ rb1 e, rb7.Enqueue (some 4) = .ret (rb1, e)) ∧
        (∀ rb1, rb7.Enqueue (some 4) = .ret (rb1, none) →
          ∀ f, RingBuffer8.Enqueue (f + 1)
              ⟨rb7.writeIdx, rb7.readIdx, rb7.mask, rb7.nodes⟩ (some 4)
            = .ret (⟨rb1.writeIdx, rb1.readIdx, rb1.mask, rb1.nodes⟩, none)) ∧
        (∀ rb1 e, rb7.Enqueue (some 4) = .ret (rb1, some e) →
          ∀ f, RingBuffer8.Enqueue f ⟨rb7.writeIdx, rb7.readIdx, rb7.mask, rb7.nodes⟩ (some 4)
            = .spinning)) ∧
      ((∃ rb1 y e, rb7.Dequeue = .ret (rb1, y, e)) ∧
        (∀ rb1 y, rb7.Dequeue = .ret (rb1, y, none) →
          ∀ f, RingBuffer8.Dequeue (f + 1) ⟨rb7.writeIdx, rb7.readIdx, rb7.mask, rb7.nodes⟩
            = .ret (⟨rb1.writeIdx, rb1.readIdx, rb1.mask, rb1.nodes⟩, y, none)) ∧
        (∀ rb1 y e, rb7.Dequeue = .ret (rb1, y, some e) →
          ∀ f, RingBuffer8.Dequeue f ⟨rb7.writeIdx, rb7.readIdx, rb7.mask, rb7.nodes⟩
            = .spinning))) :=
  ⟨⟨by decide, by decide⟩,
    C15_RingBuffer8_follows_RingBuffer7 2 (by decide) (by decide) 1 _ (some 4)⟩

/-- C16 fails on the code at the power-of-two capacity 1. On a fresh
RingBuffer8 made with capacity 1 two `Enqueue` calls both return `nil` (the
second overwrites the first item); then `Cap()` is 1 and `Len()` is 2, above
`Cap()`, and `Dequeue` spins for ever although `Len()` is not 0. After the
first `Enqueue` alone `Len() = Cap() = 1`, yet the buffer does not act as
full: the next `Enqueue` returns `nil`. -/
theorem C16_capacity_one_len_exceeds_cap :
    runOps (RingBuffer8.step 1) (NewRingBuffer8 1 : RingBuffer8 Nat)
        [Op.enq (some 1), Op.enq (some 2)]
      = .ret (⟨2, 0, 0, [⟨2, some 2⟩]⟩, [⟨none, none⟩, ⟨none, none⟩]) ∧
    (⟨2, 0, 0, [⟨2, some 2⟩]⟩ : RingBuffer8 Nat).Cap = 1 ∧
    (⟨2, 0, 0, [⟨2, some 2⟩]⟩ : RingBuffer8 Nat).Len = 2 ∧
    ¬ (⟨2, 0, 0, [⟨2, some 2⟩]⟩ : RingBuffer8 Nat).Len
      ≤ (⟨2, 0, 0, [⟨2, some 2⟩]⟩ : RingBuffer8 Nat).Cap ∧
    (∀ f, (⟨2, 0, 0, [⟨2, some 2⟩]⟩ : RingBuffer8 Nat).Dequeue f = .spinning) ∧
    runOps (RingBuffer8.step 1) (NewRingBuffer8 1 : RingBuffer8 Nat) [Op.enq (some 1)]
      = .ret (⟨1, 0, 0, [⟨1, some 1⟩]⟩, [⟨none, none⟩]) ∧
    (⟨1, 0, 0, [⟨1, some 1⟩]⟩ : RingBuffer8 Nat).Len
      = (⟨1, 0, 0, [⟨1, some 1⟩]⟩ : RingBuffer8 Nat).Cap ∧
    (⟨1, 0, 0, [⟨1, some 1⟩]⟩ : RingBuffer8 Nat).Enqueue 1 (some 2)
      = .ret (⟨2, 0, 0, [⟨2, some 2⟩]⟩, none) := by
  refine ⟨by decide, by decide, by decide, by decide, ?_, by decide, by decide, by decide⟩
  exact RingBuffer8_Dequeue_stuck 2 0 0 [⟨2, some 2⟩] ⟨2, some 2⟩ (by decide) (by decide)

/-- C17 fails on the code at the power-of-two capacity 1, already on the
interleaving in which the threads run one after the other. One producer
enqueues the items 1 and 2 into a fresh RingBuffer7 made with capacity 1 and
both calls return `nil`: the second call writes the slot that still holds the
unread item 1. The consumer then dequeues nothing: every one of its `Dequeue`
calls returns `ErrBufferEmpty`, however many it makes, so 0 items are dequeued
where `W*K = 2` were enqueued, and the dequeued values `[]` are not the
enqueued values `[1, 2]`. On a RingBuffer8 the two `Enqueue` calls return
`nil` as well and the consumer's `Dequeue` spins for ever. -/
theorem C17_capacity_one_loses_items :
    (∀ n : Nat,
      runOps RingBuffer7.step (NewRingBuffer7 1 : RingBuffer7 Nat)
          (Op.enq (some 1) :: Op.enq (some 2) :: List.replicate n Op.deq)
        = .ret (⟨2, 0, 0, [⟨2, some 2⟩]⟩,
            ⟨none, none⟩ :: ⟨none, none⟩
              :: List.replicate n ⟨none, some Err.ErrBufferEmpty⟩) ∧
      enqueuedValues (Op.enq (some 1) :: Op.enq (some 2) :: List.replicate n Op.deq)
          (⟨none, none⟩ :: ⟨none, none⟩
            :: List.replicate n (⟨none, some Err.ErrBufferEmpty⟩ : Ret Nat))
        = [some 1, some 2] ∧
      dequeuedValues (Op.enq (some 1) :: Op.enq (some 2) :: List.replicate n Op.deq)
          (⟨none, none⟩ :: ⟨none, none⟩
            :: List.replicate n (⟨none, some Err.ErrBufferEmpty⟩ : Ret Nat))
        = []) ∧
    runOps (RingBuffer8.step 1) (NewRingBuffer8 1 : RingBuffer8 Nat)
        [Op.enq (some 1), Op.enq (some 2)]
      = .ret (⟨2, 0, 0, [⟨2, some 2⟩]⟩, [⟨none, none⟩, ⟨none, none⟩]) ∧
    (∀ f, (⟨2, 0, 0, [⟨2, some 2⟩]⟩ : RingBuffer8 Nat).Dequeue f = .spinning) := by
  refine ⟨fun n => ⟨?_, ?_, ?_⟩, by decide, ?_⟩
  · have e1 : RingBuffer7.step (NewRingBuffer7 1 : RingBuffer7 Nat) (.enq (some 1))
        = .ret (⟨1, 0, 0, [⟨1, some 1⟩]⟩, ⟨none, none⟩) := by decide
    have e2 : RingBuffer7.step (⟨1, 0, 0, [⟨1, some 1⟩]⟩ : RingBuffer7 Nat) (.enq (some 2))
        = .ret (⟨2, 0, 0, [⟨2, some 2⟩]⟩, ⟨none, none⟩) := by decide
    exact runOps_cons_ret _ e1 (runOps_cons_ret _ e2 (RingBuffer7_capacity_one_never_drains n))
  · simp only [enqueuedValues, if_true, enqueuedValues_failed]
  · simp only [dequeuedValues, dequeuedValues_failed]
  · exact RingBuffer8_Dequeue_stuck 2 0 0 [⟨2, some 2⟩] ⟨2, some 2⟩ (by decide) (by decide)

/-- C18: successful calls touch only their own side (RingBuffer0, RingBuffer1,
RingBuffer2, RingBuffer3, RingBuffer4; every state, hence every capacity). An
`Enqueue(x)` that returns `nil` sets `writeIdx` to `writeIdx + 1` in `uint64`
(which is `writeIdx + 1` unless `writeIdx = 2^64 - 1`), leaves `readIdx`,
`size` (and `mask`) and the length of the slot array as they were, leaves
every slot other than the one addressed by the old `writeIdx` as it was, and
that slot now holds `x`. A `Dequeue` that returns a `nil` error sets `readIdx`
to `readIdx + 1` in `uint64` and leaves `writeIdx`, `size` and the whole slot
array as they were. A fresh buffer has `writeIdx = readIdx = 0`. -/
theorem C18_successful_calls_touch_only_their_side {α : Type} (C : Nat) :
    ((∀ (rb rb1 : RingBuffer0 α) (x : Option α), rb.Enqueue x = .ret (rb1, none) →
        rb1.writeIdx = add64 rb.writeIdx 1 ∧
        (rb.writeIdx + 1 < U64 → rb1.writeIdx = rb.writeIdx + 1) ∧
        rb1.readIdx = rb.readIdx ∧ rb1.size = rb.size ∧
        rb1.buffers.length = rb.buffers.length ∧
        rb1.buffers[rb.writeIdx % rb.size]? = some x ∧
        ∀ j, j ≠ rb.writeIdx % rb.size → rb1.buffers[j]? = rb.buffers[j]?) ∧
      (∀ (rb rb1 : RingBuffer0 α) (x : Option α), rb.Dequeue = .ret (rb1, x, none) →
        rb1.readIdx = add64 rb.readIdx 1 ∧
        (rb.readIdx + 1 < U64 → rb1.readIdx = rb.readIdx + 1) ∧
        rb1.writeIdx = rb.writeIdx ∧ rb1.size = rb.size ∧
        rb1.buffers = rb.buffers) ∧
      (NewRingBuffer0 C : RingBuffer0 α).writeIdx = 0 ∧ (NewRingBuffer0 C : RingBuffer0 α).readIdx = 0) ∧
    ((∀ (rb rb1 : RingBuffer1 α) (x : Option α), rb.Enqueue x = .ret (rb1, none) →
        rb1.writeIdx = add64 rb.writeIdx 1 ∧
        (rb.writeIdx + 1 < U64 → rb1.writeIdx = rb.writeIdx + 1) ∧
        rb1.readIdx = rb.readIdx ∧ rb1.size = rb.size ∧ rb1.mask = rb.mask ∧
        rb1.buffers.length = rb.buffers.length ∧
        rb1.buffers[rb.writeIdx &&& rb.mask]? = some x ∧
        ∀ j, j ≠ rb.writeIdx &&& rb.mask → rb1.buffers[j]? = rb.buffers[j]?) ∧
      (∀ (rb rb1 : RingBuffer1 α) (x : Option α), rb.Dequeue = .ret (rb1, x, none) →
        rb1.readIdx = add64 rb.readIdx 1 ∧
        (rb.readIdx + 1 < U64 → rb1.readIdx = rb.readIdx + 1) ∧
        rb1.writeIdx = rb.writeIdx ∧ rb1.size = rb.size ∧ rb1.mask = rb.mask ∧
        rb1.buffers = rb.buffers) ∧
      (NewRingBuffer1 C : RingBuffer1 α).writeIdx = 0 ∧ (NewRingBuffer1 C : RingBuffer1 α).readIdx = 0) ∧
    ((∀ (rb rb1 : RingBuffer2 α) (x : Option α), rb.Enqueue x = .ret (rb1, none) →
        rb1.writeIdx = add64 rb.writeIdx 1 ∧
        (rb.writeIdx + 1 < U64 → rb1.writeIdx = rb.writeIdx + 1) ∧
        rb1.readIdx = rb.readIdx ∧ rb1.size = rb.size ∧
        rb1.buffers.length = rb.buffers.length ∧
        rb1.buffers[rb.writeIdx &&& sub64 rb.size 1]? = some x ∧
        ∀ j, j ≠ rb.writeIdx &&& sub64 rb.size 1 → rb1.buffers[j]? = rb.buffers[j]?) ∧
      (∀ (rb rb1 : RingBuffer2 α) (x : Option α), rb.Dequeue = .ret (rb1, x, none) →
        rb1.readIdx = add64 rb.readIdx 1 ∧
        (rb.readIdx + 1 < U64 → rb1.readIdx = rb.readIdx + 1) ∧
        rb1.writeIdx = rb.writeIdx ∧ rb1.size = rb.size ∧
        rb1.buffers = rb.buffers) ∧
      (NewRingBuffer2 C : RingBuffer2 α).writeIdx = 0 ∧ (NewRingBuffer2 C : RingBuffer2 α).readIdx = 0) ∧
    ((∀ (rb rb1 : RingBuffer3 α) (x : Option α), rb.Enqueue x = .ret (rb1, none) →
        rb1.writeIdx = add64 rb.writeIdx 1 ∧
        (rb.writeIdx + 1 < U64 → rb1.writeIdx = rb.writeIdx + 1) ∧
        rb1.readIdx = rb.readIdx ∧ rb1.size = rb.size ∧
        rb1.buffers.length = rb.buffers.length ∧
        rb1.buffers[rb.writeIdx &&& sub64 rb.size 1]? = some x ∧
        ∀ j, j ≠ rb.writeIdx &&& sub64 rb.size 1 → rb1.buffers[j]? = rb.buffers[j]?) ∧
      (∀ (rb rb1 : RingBuffer3 α) (x : Option α), rb.Dequeue = .ret (rb1, x, none) →
        rb1.readIdx = add64 rb.readIdx 1 ∧
        (rb.readIdx + 1 < U64 → rb1.readIdx = rb.readIdx + 1) ∧
        rb1.writeIdx = rb.writeIdx ∧ rb1.size = rb.size ∧
        rb1.buffers = rb.buffers) ∧
      (NewRingBuffer3 C : RingBuffer3 α).writeIdx = 0 ∧ (NewRingBuffer3 C : RingBuffer3 α).readIdx = 0) ∧
    ((∀ (rb rb1 : RingBuffer4 α) (x : Option α), rb.Enqueue x = .ret (rb1, none) →
        rb1.writeIdx = add64 rb.writeIdx 1 ∧
        (rb.writeIdx + 1 < U64 → rb1.writeIdx = rb.writeIdx + 1) ∧
        rb1.readIdx = rb.readIdx ∧ rb1.size = rb.size ∧
        rb1.buffers.length = rb.buffers.length ∧
        rb1.buffers[rb.writeIdx &&& sub64 rb.size 1]? = some x ∧
        ∀ j, j ≠ rb.writeIdx &&& sub64 rb.size 1 → rb1.buffers[j]? = rb.buffers[j]?) ∧
      (∀ (rb rb1 : RingBuffer4 α) (x : Option α), rb.Dequeue = .ret (rb1, x, none) →
        rb1.readIdx = add64 rb.readIdx 1 ∧
        (rb.readIdx + 1 < U64 → rb1.readIdx = rb.readIdx + 1) ∧
        rb1.writeIdx = rb.writeIdx ∧ rb1.size = rb.size ∧
        rb1.buffers = rb.buffers) ∧
      (NewRingBuffer4 C : RingBuffer4 α).writeIdx = 0 ∧ (NewRingBuffer4 C : RingBuffer4 α).readIdx = 0) := by
  refine ⟨?_, ?_, ?_, ?_, ?_⟩
  · refine ⟨fun rb rb1 x h => ?_, fun rb rb1 x h => ?_, rfl, rfl⟩
    · obtain ⟨g1, g2, g3, g5, g6⟩ := RingBuffer0_Enqueue_frame rb rb1 x h
      obtain ⟨k1, k2, k3⟩ := slot_set_frame rb.buffers _ x g5
      rw [g6]
      exact ⟨g1, fun hlt => g1.trans (add64_of_lt hlt), g2, g3, k1, k2, k3⟩
    · obtain ⟨g1, g2, g3, g5⟩ := RingBuffer0_Dequeue_frame rb rb1 x h
      exact ⟨g1, fun hlt => g1.trans (add64_of_lt hlt), g2, g3, g5⟩
  · refine ⟨fun rb rb1 x h => ?_, fun rb rb1 x h => ?_, rfl, rfl⟩
    · obtain ⟨g1, g2, g3, g4, g5, g6⟩ := RingBuffer1_Enqueue_frame rb rb1 x h
      obtain ⟨k1, k2, k3⟩ := slot_set_frame rb.buffers _ x g5
      rw [g6]
      exact ⟨g1, fun hlt => g1.trans (add64_of_lt hlt), g2, g3, g4, k1, k2, k3⟩
    · obtain ⟨g1, g2, g3, g4, g5⟩ := RingBuffer1_Dequeue_frame rb rb1 x h
      exact ⟨g1, fun hlt => g1.trans (add64_of_lt hlt), g2, g3, g4, g5⟩
  · refine ⟨fun rb rb1 x h => ?_, fun rb rb1 x h => ?_, rfl, rfl⟩
    · obtain ⟨g1, g2, g3, g5, g6⟩ := RingBuffer2_Enqueue_frame rb rb1 x h
      obtain ⟨k1, k2, k3⟩ := slot_set_frame rb.buffers _ x g5
      rw [g6]
      exact ⟨g1, fun hlt => g1.trans (add64_of_lt hlt), g2, g3, k1, k2, k3⟩
    · obtain ⟨g1, g2, g3, g5⟩ := RingBuffer2_Dequeue_frame rb rb1 x h
      exact ⟨g1, fun hlt => g1.trans (add64_of_lt hlt), g2, g3, g5⟩
  · refine ⟨fun rb rb1 x h => ?_, fun rb rb1 x h => ?_, rfl, rfl⟩
    · obtain ⟨g1, g2, g3, g5, g6⟩ := RingBuffer3_Enqueue_frame rb rb1 x h
      obtain ⟨k1, k2, k3⟩ := slot_set_frame rb.buffers _ x g5
      rw [g6]
      exact ⟨g1, fun hlt => g1.trans (add64_of_lt hlt), g2, g3, k1, k2, k3⟩
    · obtain ⟨g1, g2, g3, g5⟩ := RingBuffer3_Dequeue_frame rb rb1 x h
      exact ⟨g1, fun hlt => g1.trans (add64_of_lt hlt), g2, g3, g5⟩
  · refine ⟨fun rb rb1 x h => ?_, fun rb rb1 x h => ?_, rfl, rfl⟩
    · obtain ⟨g1, g2, g3, g5, g6⟩ := RingBuffer4_Enqueue_frame rb rb1 x h
      obtain ⟨k1, k2, k3⟩ := slot_set_frame rb.buffers _ x g5
      rw [g6]
      exact ⟨g1, fun hlt => g1.trans (add64_of_lt hlt), g2, g3, k1, k2, k3⟩
    · obtain ⟨g1, g2, g3, g5⟩ := RingBuffer4_Dequeue_frame rb rb1 x h
      exact ⟨g1, fun hlt => g1.trans (add64_of_lt hlt), g2, g3, g5⟩

/-- C18 on a RingBuffer0 of capacity 3 that takes a second item, and on a
RingBuffer3 of capacity 3 that gives one back. -/
theorem C18_witness :
    ((⟨1, 0, 3, [some 1, none, none]⟩ : RingBuffer0 Nat).Enqueue (some 2)
        = .ret (⟨2, 0, 3, [some 1, some 2, none]⟩, none) ∧
      (⟨2, 0, 3, [some 2, none, none]⟩ : RingBuffer3 Nat).Dequeue
        = .ret (⟨2, 1, 3, [some 2, none, none]⟩, some 2, none)) ∧
    ((⟨2, 0, 3, [some 1, some 2, none]⟩ : RingBuffer0 Nat).writeIdx = add64 (⟨1, 0, 3, [some 1, none, none]⟩ : RingBuffer0 Nat).writeIdx 1 ∧
        ((⟨1, 0, 3, [some 1, none, none]⟩ : RingBuffer0 Nat).writeIdx + 1 < U64 → (⟨2, 0, 3, [some 1, some 2, none]⟩ : RingBuffer0 Nat).writeIdx = (⟨1, 0, 3, [some 1, none, none]⟩ : RingBuffer0 Nat).writeIdx + 1) ∧
        (⟨2, 0, 3, [some 1, some 2, none]⟩ : RingBuffer0 Nat).readIdx = (⟨1, 0, 3, [some 1, none, none]⟩ : RingBuffer0 Nat).readIdx ∧ (⟨2, 0, 3, [some 1, some 2, none]⟩ : RingBuffer0 Nat).size = (⟨1, 0, 3, [some 1, none, none]⟩ : RingBuffer0 Nat).size ∧
        (⟨2, 0, 3, [some 1, some 2, none]⟩ : RingBuffer0 Nat).buffers.length = (⟨1, 0, 3, [some 1, none, none]⟩ : RingBuffer0 Nat).buffers.length ∧
        (⟨2, 0, 3, [some 1, some 2, none]⟩ : RingBuffer0 Nat).buffers[(⟨1, 0, 3, [some 1, none, none]⟩ : RingBuffer0 Nat).writeIdx % (⟨1, 0, 3, [some 1, none, none]⟩ : RingBuffer0 Nat).size]? = some (some 2) ∧
        ∀ j, j ≠ (⟨1, 0, 3, [some 1, none, none]⟩ : RingBuffer0 Nat).writeIdx % (⟨1, 0, 3, [some 1, none, none]⟩ : RingBuffer0 Nat).size → (⟨2, 0, 3, [some 1, some 2, none]⟩ : RingBuffer0 Nat).buffers[j]? = (⟨1, 0, 3, [some 1, none, none]⟩ : RingBuffer0 Nat).buffers[j]?) ∧
    ((⟨2, 1, 3, [some 2, none, none]⟩ : RingBuffer3 Nat).readIdx = add64 (⟨2, 0, 3, [some 2, none, none]⟩ : RingBuffer3 Nat).readIdx 1 ∧
        ((⟨2, 0, 3, [some 2, none, none]⟩ : RingBuffer3 Nat).readIdx + 1 < U64 → (⟨2, 1, 3, [some 2, none, none]⟩ : RingBuffer3 Nat).readIdx = (⟨2, 0, 3, [some 2, none, none]⟩ : RingBuffer3 Nat).readIdx + 1) ∧
        (⟨2, 1, 3, [some 2, none, none]⟩ : RingBuffer3 Nat).writeIdx = (⟨2, 0, 3, [some 2, none, none]⟩ : RingBuffer3 Nat).writeIdx ∧ (⟨2, 1, 3, [some 2, none, none]⟩ : RingBuffer3 Nat).size = (⟨2, 0, 3, [some 2, none, none]⟩ : RingBuffer3 Nat).size ∧
        (⟨2, 1, 3, [some 2, none, none]⟩ : RingBuffer3 Nat).buffers = (⟨2, 0, 3, [some 2, none, none]⟩ : RingBuffer3 Nat).buffers) :=
  ⟨⟨by decide, by decide⟩,
    (C18_successful_calls_touch_only_their_side (α := Nat) 3).1.1
      ⟨1, 0, 3, [some 1, none, none]⟩ ⟨2, 0, 3, [some 1, some 2, none]⟩ (some 2) (by decide),
    (C18_successful_calls_touch_only_their_side (α := Nat) 3).2.2.2.1.2.1
      ⟨2, 0, 3, [some 2, none, none]⟩ ⟨2, 1, 3, [some 2, none, none]⟩ (some 2) (by decide)⟩

/-- C19 fails on the code at the power-of-two capacity 1 (mask 0). `init`
gives the only node the position 0. On a fresh RingBuffer7,
RingBuffer7_wo_pad or RingBuffer8 made with capacity 1, `Enqueue(1)` publishes
the tag 1, which is also the next write position, so `Enqueue(2)` succeeds on
the same node. In the state reached (`readIdx = 0`, `writeIdx = 2`) the
logical position 0 lies in `[readIdx, writeIdx)`, but the node at `0 & mask`
has the position 2, not `0 + 1`, and holds the item 2, not the item 1 that
was enqueued at position 0. -/
theorem C19_capacity_one_breaks_tag_invariant :
    (initNodes 1 : List (node Nat)) = [⟨0, none⟩] ∧
    runOps RingBuffer7.step (NewRingBuffer7 1 : RingBuffer7 Nat)
        [Op.enq (some 1), Op.enq (some 2)]
      = .ret (⟨2, 0, 0, [⟨2, some 2⟩]⟩, [⟨none, none⟩, ⟨none, none⟩]) ∧
    runOps RingBuffer7_wo_pad.step (NewRingBuffer7_wo_pad 1 : RingBuffer7_wo_pad Nat)
        [Op.enq (some 1), Op.enq (some 2)]
      = .ret (⟨2, 0, 0, [⟨2, some 2⟩]⟩, [⟨none, none⟩, ⟨none, none⟩]) ∧
    runOps (RingBuffer8.step 1) (NewRingBuffer8 1 : RingBuffer8 Nat)
        [Op.enq (some 1), Op.enq (some 2)]
      = .ret (⟨2, 0, 0, [⟨2, some 2⟩]⟩, [⟨none, none⟩, ⟨none, none⟩]) ∧
    ((⟨2, 0, 0, [⟨2, some 2⟩]⟩ : RingBuffer7 Nat).readIdx ≤ 0 ∧
      0 < (⟨2, 0, 0, [⟨2, some 2⟩]⟩ : RingBuffer7 Nat).writeIdx ∧
      (⟨2, 0, 0, [⟨2, some 2⟩]⟩ : RingBuffer7 Nat).nodes[
          0 &&& (⟨2, 0, 0, [⟨2, some 2⟩]⟩ : RingBuffer7 Nat).mask]?
        = some ⟨2, some 2⟩ ∧
      (⟨2, some 2⟩ : node Nat).position ≠ 0 + 1 ∧
      (⟨2, some 2⟩ : node Nat).data ≠ some 1) := by
  decide

/-- C20: slot addressing is always in bounds. For every variant, every
positive capacity `C` (a power of two or not) and every sequence of
`Enqueue`/`Dequeue` calls on a fresh buffer: no call of the sequence panics,
and in the state reached every index is mapped into the slice
(`idx % size < len` for RingBuffer0, `idx & mask < len` and
`idx & (size-1) < len` for the masked variants), so `Enqueue` of any item and
`Dequeue` do not panic there either, whatever fuel the loops of RingBuffer6
and RingBuffer8 are given. A RingBuffer0 made with capacity 0 never panics
either: its full check and its empty check fire before the modulo is
evaluated. -/
theorem C20_slot_addressing_in_bounds {α : Type} (C : Nat) (hpos : 0 < C) (hC : C < U64)
    (fuel f : Nat) (ops : List (Op α)) (x : Option α) :
    (runOps RingBuffer0.step (NewRingBuffer0 C : RingBuffer0 α) ops ≠ .panic ∧
      ∀ (rb : RingBuffer0 α) (rs : List (Ret α)),
        runOps RingBuffer0.step (NewRingBuffer0 C : RingBuffer0 α) ops = .ret (rb, rs) →
        (∀ idx : Nat, idx % rb.size < rb.buffers.length) ∧ rb.Enqueue x ≠ .panic ∧ rb.Dequeue ≠ .panic) ∧
    (runOps RingBuffer1.step (NewRingBuffer1 C : RingBuffer1 α) ops ≠ .panic ∧
      ∀ (rb : RingBuffer1 α) (rs : List (Ret α)),
        runOps RingBuffer1.step (NewRingBuffer1 C : RingBuffer1 α) ops = .ret (rb, rs) →
        (∀ idx : Nat, idx &&& rb.mask < rb.buffers.length) ∧ rb.Enqueue x ≠ .panic ∧ rb.Dequeue ≠ .panic) ∧
    (runOps RingBuffer2.step (NewRingBuffer2 C : RingBuffer2 α) ops ≠ .panic ∧
      ∀ (rb : RingBuffer2 α) (rs : List (Ret α)),
        runOps RingBuffer2.step (NewRingBuffer2 C : RingBuffer2 α) ops = .ret (rb, rs) →
        (∀ idx : Nat, idx &&& sub64 rb.size 1 < rb.buffers.length) ∧ rb.Enqueue x ≠ .panic ∧ rb.Dequeue ≠ .panic) ∧
    (runOps RingBuffer3.step (NewRingBuffer3 C : RingBuffer3 α) ops ≠ .panic ∧
      ∀ (rb : RingBuffer3 α) (rs : List (Ret α)),
        runOps RingBuffer3.step (NewRingBuffer3 C : RingBuffer3 α) ops = .ret (rb, rs) →
        (∀ idx : Nat, idx &&& sub64 rb.size 1 < rb.buffers.length) ∧ rb.Enqueue x ≠ .panic ∧ rb.Dequeue ≠ .panic) ∧
    (runOps RingBuffer4.step (NewRingBuffer4 C : RingBuffer4 α) ops ≠ .panic ∧
      ∀ (rb : RingBuffer4 α) (rs : List (Ret α)),
        runOps RingBuffer4.step (NewRingBuffer4 C : RingBuffer4 α) ops = .ret (rb, rs) →
        (∀ idx : Nat, idx &&& sub64 rb.size 1 < rb.buffers.length) ∧ rb.Enqueue x ≠ .panic ∧ rb.Dequeue ≠ .panic) ∧
    (runOps RingBuffer5.step (NewRingBuffer5 C : RingBuffer5 α) ops ≠ .panic ∧
      ∀ (rb : RingBuffer5 α) (rs : List (Ret α)),
        runOps RingBuffer5.step (NewRingBuffer5 C : RingBuffer5 α) ops = .ret (rb, rs) →
        (∀ idx : Nat, idx &&& sub64 rb.size 1 < rb.buffers.length) ∧ rb.Enqueue x ≠ .panic ∧ rb.Dequeue ≠ .panic) ∧
    (runOps (RingBuffer6.step fuel) (NewRingBuffer6 C : RingBuffer6 α) ops ≠ .panic ∧
      ∀ (rb : RingBuffer6 α) (rs : List (Ret α)),
        runOps (RingBuffer6.step fuel) (NewRingBuffer6 C : RingBuffer6 α) ops = .ret (rb, rs) →
        (∀ idx : Nat, idx &&& sub64 rb.size 1 < rb.buffers.length) ∧ rb.Enqueue f x ≠ .panic ∧ rb.Dequeue f ≠ .panic) ∧
    (runOps RingBuffer7_wo_pad.step (NewRingBuffer7_wo_pad C : RingBuffer7_wo_pad α) ops ≠ .panic ∧
      ∀ (rb : RingBuffer7_wo_pad α) (rs : List (Ret α)),
        runOps RingBuffer7_wo_pad.step (NewRingBuffer7_wo_pad C : RingBuffer7_wo_pad α) ops = .ret (rb, rs) →
        (∀ idx : Nat, idx &&& rb.mask < rb.nodes.length) ∧ rb.Enqueue x ≠ .panic ∧ rb.Dequeue ≠ .panic) ∧
    (runOps RingBuffer7.step (NewRingBuffer7 C : RingBuffer7 α) ops ≠ .panic ∧
      ∀ (rb : RingBuffer7 α) (rs : List (Ret α)),
        runOps RingBuffer7.step (NewRingBuffer7 C : RingBuffer7 α) ops = .ret (rb, rs) →
        (∀ idx : Nat, idx &&& rb.mask < rb.nodes.length) ∧ rb.Enqueue x ≠ .panic ∧ rb.Dequeue ≠ .panic) ∧
    (runOps (RingBuffer8.step fuel) (NewRingBuffer8 C : RingBuffer8 α) ops ≠ .panic ∧
      ∀ (rb : RingBuffer8 α) (rs : List (Ret α)),
        runOps (RingBuffer8.step fuel) (NewRingBuffer8 C : RingBuffer8 α) ops = .ret (rb, rs) →
        (∀ idx : Nat, idx &&& rb.mask < rb.nodes.length) ∧ rb.Enqueue f x ≠ .panic ∧ rb.Dequeue f ≠ .panic) ∧
    (runOps RingBuffer0.step (NewRingBuffer0 0 : RingBuffer0 α) ops ≠ .panic ∧
      ∀ (rb : RingBuffer0 α) (rs : List (Ret α)),
        runOps RingBuffer0.step (NewRingBuffer0 0 : RingBuffer0 α) ops = .ret (rb, rs) →
        rb.Enqueue x ≠ .panic ∧ rb.Dequeue ≠ .panic) := by
  refine ⟨?_, ?_, ?_, ?_, ?_, ?_, ?_, ?_, ?_, ?_, ?_⟩
  · refine ⟨RingBuffer0_run_no_panic C hC ops, fun rb rs h => ?_⟩
    have hinv := RingBuffer0_run_inv C hC ops rb rs h
    refine ⟨fun idx => ?_, RingBuffer0_no_panic C rb hinv x⟩
    obtain ⟨⟨e1, e2, _⟩, _⟩ := hinv
    rw [e1, e2]
    exact Nat.mod_lt _ hpos
  · refine ⟨RingBuffer1_run_no_panic C hpos hC ops, fun rb rs h => ?_⟩
    have hwf := RingBuffer1_WF_run C ops rb rs h
    refine ⟨fun idx => ?_, RingBuffer1_no_panic C hpos hC rb hwf x⟩
    obtain ⟨_, e2, _, _, e5⟩ := hwf
    rw [e5, e2]
    exact land_mask_lt idx hpos hC
  · refine ⟨RingBuffer2_run_no_panic C hpos hC ops, fun rb rs h => ?_⟩
    have hwf := RingBuffer2_WF_run C ops rb rs h
    refine ⟨fun idx => ?_, RingBuffer2_no_panic C hpos hC rb hwf x⟩
    obtain ⟨e1, e2, _⟩ := hwf
    rw [e1, e2]
    exact land_mask_lt idx hpos hC
  · refine ⟨RingBuffer3_run_no_panic C hpos hC ops, fun rb rs h => ?_⟩
    have hwf := RingBuffer3_WF_run C ops rb rs h
    refine ⟨fun idx => ?_, RingBuffer3_no_panic C hpos hC rb hwf x⟩
    obtain ⟨e1, e2, _⟩ := hwf
    rw [e1, e2]
    exact land_mask_lt idx hpos hC
  · refine ⟨RingBuffer4_run_no_panic C hpos hC ops, fun rb rs h => ?_⟩
    have hwf := RingBuffer4_WF_run C ops rb rs h
    refine ⟨fun idx => ?_, RingBuffer4_no_panic C hpos hC rb hwf x⟩
    obtain ⟨e1, e2, _⟩ := hwf
    rw [e1, e2]
    exact land_mask_lt idx hpos hC
  · refine ⟨RingBuffer5_run_no_panic C hpos hC ops, fun rb rs h => ?_⟩
    have hwf := RingBuffer5_WF_run C ops rb rs h
    refine ⟨fun idx => ?_, RingBuffer5_no_panic C hpos hC rb hwf x⟩
    obtain ⟨e1, e2, _⟩ := hwf
    rw [e1, e2]
    exact land_mask_lt idx hpos hC
  · refine ⟨RingBuffer6_run_no_panic C hpos hC fuel ops, fun rb rs h => ?_⟩
    have hwf := RingBuffer6_WF_run C fuel ops rb rs h
    refine ⟨fun idx => ?_, RingBuffer6_no_panic C hpos hC rb hwf f x⟩
    obtain ⟨e1, e2, _⟩ := hwf
    rw [e1, e2]
    exact land_mask_lt idx hpos hC
  · refine ⟨RingBuffer7_wo_pad_run_no_panic C hpos hC ops, fun rb rs h => ?_⟩
    have hwf := RingBuffer7_wo_pad_WF_run C hpos hC ops rb rs h
    refine ⟨fun idx => ?_, RingBuffer7_wo_pad_no_panic C hpos hC rb hwf x⟩
    obtain ⟨e1, e2, _⟩ := hwf
    rw [e1, e2]
    exact land_mask_lt idx hpos hC
  · refine ⟨RingBuffer7_run_no_panic C hpos hC ops, fun rb rs h => ?_⟩
    have hwf := RingBuffer7_WF_run C hpos hC ops rb rs h
    refine ⟨fun idx => ?_, RingBuffer7_no_panic C hpos hC rb hwf x⟩
    obtain ⟨e1, e2, _⟩ := hwf
    rw [e1, e2]
    exact land_mask_lt idx hpos hC
  · refine ⟨RingBuffer8_run_no_panic C hpos hC fuel ops, fun rb rs h => ?_⟩
    have hwf := RingBuffer8_WF_run C hpos hC fuel ops rb rs h
    refine ⟨fun idx => ?_, RingBuffer8_no_panic C hpos hC rb hwf f x⟩
    obtain ⟨e1, e2, _⟩ := hwf
    rw [e1, e2]
    exact land_mask_lt idx hpos hC
  · refine ⟨RingBuffer0_run_no_panic 0 (by decide) ops, fun rb rs h => ?_⟩
    exact RingBuffer0_no_panic 0 rb (RingBuffer0_run_inv 0 (by decide) ops rb rs h) x

/-- C20 at capacity 3, not a power of two, on a run that overfills the
buffer. -/
theorem C20_witness :
    (0 < 3 ∧ 3 < U64) ∧
    (runOps RingBuffer0.step (NewRingBuffer0 3 : RingBuffer0 Nat) [Op.enq (some 1), Op.enq (some 2), Op.enq (some 3), Op.enq (some 4), Op.deq, Op.deq] ≠ .panic ∧
      ∀ (rb : RingBuffer0 Nat) (rs : List (Ret Nat)),
        runOps RingBuffer0.step (NewRingBuffer0 3 : RingBuffer0 Nat) [Op.enq (some 1), Op.enq (some 2), Op.enq (some 3), Op.enq (some 4), Op.deq, Op.deq] = .ret (rb, rs) →
        (∀ idx : Nat, idx % rb.size < rb.buffers.length) ∧ rb.Enqueue (some 9) ≠ .panic ∧ rb.Dequeue ≠ .panic) ∧
    (runOps RingBuffer1.step (NewRingBuffer1 3 : RingBuffer1 Nat) [Op.enq (some 1), Op.enq (some 2), Op.enq (some 3), Op.enq (some 4), Op.deq, Op.deq] ≠ .panic ∧
      ∀ (rb : RingBuffer1 Nat) (rs : List (Ret Nat)),
        runOps RingBuffer1.step (NewRingBuffer1 3 : RingBuffer1 Nat) [Op.enq (some 1), Op.enq (some 2), Op.enq (some 3), Op.enq (some 4), Op.deq, Op.deq] = .ret (rb, rs) →
        (∀ idx : Nat, idx &&& rb.mask < rb.buffers.length) ∧ rb.Enqueue (some 9) ≠ .panic ∧ rb.Dequeue ≠ .panic) ∧
    (runOps RingBuffer2.step (NewRingBuffer2 3 : RingBuffer2 Nat) [Op.enq (some 1), Op.enq (some 2), Op.enq (some 3), Op.enq (some 4), Op.deq, Op.deq] ≠ .panic ∧
      ∀ (rb : RingBuffer2 Nat) (rs : List (Ret Nat)),
        runOps RingBuffer2.step (NewRingBuffer2 3 : RingBuffer2 Nat) [Op.enq (some 1), Op.enq (some 2), Op.enq (some 3), Op.enq (some 4), Op.deq, Op.deq] = .ret (rb, rs) →
        (∀ idx : Nat, idx &&& sub64 rb.size 1 < rb.buffers.length) ∧ rb.Enqueue (some 9) ≠ .panic ∧ rb.Dequeue ≠ .panic) ∧
    (runOps RingBuffer3.step (NewRingBuffer3 3 : RingBuffer3 Nat) [Op.enq (some 1), Op.enq (some 2), Op.enq (some 3), Op.enq (some 4), Op.deq, Op.deq] ≠ .panic ∧
      ∀ (rb : RingBuffer3 Nat) (rs : List (Ret Nat)),
        runOps RingBuffer3.step (NewRingBuffer3 3 : RingBuffer3 Nat) [Op.enq (some 1), Op.enq (some 2), Op.enq (some 3), Op.enq (some 4), Op.deq, Op.deq] = .ret (rb, rs) →
        (∀ idx : Nat, idx &&& sub64 rb.size 1 < rb.buffers.length) ∧ rb.Enqueue (some 9) ≠ .panic ∧ rb.Dequeue ≠ .panic) ∧
    (runOps RingBuffer4.step (NewRingBuffer4 3 : RingBuffer4 Nat) [Op.enq (some 1), Op.enq (some 2), Op.enq (some 3), Op.enq (some 4), Op.deq, Op.deq] ≠ .panic ∧
      ∀ (rb : RingBuffer4 Nat) (rs : List (Ret Nat)),
        runOps RingBuffer4.step (NewRingBuffer4 3 : RingBuffer4 Nat) [Op.enq (some 1), Op.enq (some 2), Op.enq (some 3), Op.enq (some 4), Op.deq, Op.deq] = .ret (rb, rs) →
        (∀ idx : Nat, idx &&& sub64 rb.size 1 < rb.buffers.length) ∧ rb.Enqueue (some 9) ≠ .panic ∧ rb.Dequeue ≠ .panic) ∧
    (runOps RingBuffer5.step (NewRingBuffer5 3 : RingBuffer5 Nat) [Op.enq (some 1), Op.enq (some 2), Op.enq (some 3), Op.enq (some 4), Op.deq, Op.deq] ≠ .panic ∧
      ∀ (rb : RingBuffer5 Nat) (rs : List (Ret Nat)),
        runOps RingBuffer5.step (NewRingBuffer5 3 : RingBuffer5 Nat) [Op.enq (some 1), Op.enq (some 2), Op.enq (some 3), Op.enq (some 4), Op.deq, Op.deq] = .ret (rb, rs) →
        (∀ idx : Nat, idx &&& sub64 rb.size 1 < rb.buffers.length) ∧ rb.Enqueue (some 9) ≠ .panic ∧ rb.Dequeue ≠ .panic) ∧
    (runOps (RingBuffer6.step 2) (NewRingBuffer6 3 : RingBuffer6 Nat) [Op.enq (some 1), Op.enq (some 2), Op.enq (some 3), Op.enq (some 4), Op.deq, Op.deq] ≠ .panic ∧
      ∀ (rb : RingBuffer6 Nat) (rs : List (Ret Nat)),
        runOps (RingBuffer6.step 2) (NewRingBuffer6 3 : RingBuffer6 Nat) [Op.enq (some 1), Op.enq (some 2), Op.enq (some 3), Op.enq (some 4), Op.deq, Op.deq] = .ret (rb, rs) →
        (∀ idx : Nat, idx &&& sub64 rb.size 1 < rb.buffers.length) ∧ rb.Enqueue 2 (some 9) ≠ .panic ∧ rb.Dequeue 2 ≠ .panic) ∧
    (runOps RingBuffer7_wo_pad.step (NewRingBuffer7_wo_pad 3 : RingBuffer7_wo_pad Nat) [Op.enq (some 1), Op.enq (some 2), Op.enq (some 3), Op.enq (some 4), Op.deq, Op.deq] ≠ .panic ∧
      ∀ (rb : RingBuffer7_wo_pad Nat) (rs : List (Ret Nat)),
        runOps RingBuffer7_wo_pad.step (NewRingBuffer7_wo_pad 3 : RingBuffer7_wo_pad Nat) [Op.enq (some 1), Op.enq (some 2), Op.enq (some 3), Op.enq (some 4), Op.deq, Op.deq] = .ret (rb, rs) →
        (∀ idx : Nat, idx &&& rb.mask < rb.nodes.length) ∧ rb.Enqueue (some 9) ≠ .panic ∧ rb.Dequeue ≠ .panic) ∧
    (runOps RingBuffer7.step (NewRingBuffer7 3 : RingBuffer7 Nat) [Op.enq (some 1), Op.enq (some 2), Op.enq (some 3), Op.enq (some 4), Op.deq, Op.deq] ≠ .panic ∧
      ∀ (rb : RingBuffer7 Nat) (rs : List (Ret Nat)),
        runOps RingBuffer7.step (NewRingBuffer7 3 : RingBuffer7 Nat) [Op.enq (some 1), Op.enq (some 2), Op.enq (some 3), Op.enq (some 4), Op.deq, Op.deq] = .ret (rb, rs) →
        (∀ idx : Nat, idx &&& rb.mask < rb.nodes.length) ∧ rb.Enqueue (some 9) ≠ .panic ∧ rb.Dequeue ≠ .panic) ∧
    (runOps (RingBuffer8.step 2) (NewRingBuffer8 3 : RingBuffer8 Nat) [Op.enq (some 1), Op.enq (some 2), Op.enq (some 3), Op.enq (some 4), Op.deq, Op.deq] ≠ .panic ∧
      ∀ (rb : RingBuffer8 Nat) (rs : List (Ret Nat)),
        runOps (RingBuffer8.step 2) (NewRingBuffer8 3 : RingBuffer8 Nat) [Op.enq (some 1), Op.enq (some 2), Op.enq (some 3), Op.enq (some 4), Op.deq, Op.deq] = .ret (rb, rs) →
        (∀ idx : Nat, idx &&& rb.mask < rb.nodes.length) ∧ rb.Enqueue 2 (some 9) ≠ .panic ∧ rb.Dequeue 2 ≠ .panic) ∧
    (runOps RingBuffer0.step (NewRingBuffer0 0 : RingBuffer0 Nat) [Op.enq (some 1), Op.enq (some 2), Op.enq (some 3), Op.enq (some 4), Op.deq, Op.deq] ≠ .panic ∧
      ∀ (rb : RingBuffer0 Nat) (rs : List (Ret Nat)),
        runOps RingBuffer0.step (NewRingBuffer0 0 : RingBuffer0 Nat) [Op.enq (some 1), Op.enq (some 2), Op.enq (some 3), Op.enq (some 4), Op.deq, Op.deq] = .ret (rb, rs) →
        rb.Enqueue (some 9) ≠ .panic ∧ rb.Dequeue ≠ .panic) :=
  ⟨⟨by decide, by decide⟩,
    C20_slot_addressing_in_bounds 3 (by decide) (by decide) 2 2 _ (some 9)⟩

end Goring
